import Mathlib

/-!
# RPC over TCP: payload codec, hardware profiles, registry and protocol handlers

A shallow embedding of `src/helper.c`, `src/hashtable.c` and the protocol
handlers of `src/rpc.c`, followed by the properties established about them.

Modelling conventions.

* A byte is a natural number (below 256 wherever it comes from a C object);
  a byte stream is a `List Nat`.
* Fixed-width C integers are `Nat`/`Int` with explicit reduction modulo `2^64`
  at the places where the C code converts or wraps.
* A socket is seen from one endpoint: the bytes the peer will still deliver
  before closing, the bytes written so far, and the number of bytes the peer
  will still accept before a write fails.
* A C string is the list of its bytes (without the terminating NUL).
* Function pointers are addresses (`Nat`, `0` is `NULL`); the code behind an
  address is given by a separate table.
-/

namespace RPC

/-! ## Platform parameters -/

/-- Implementation-defined and undefined aspects of the C platform. -/
structure Platform where
  /-- Whether plain `char` is a signed type. -/
  char_signed : Bool
  /-- The value of `sizeof(int)`. -/
  sizeof_int : Nat
  /-- The value of `sizeof(size_t)`. -/
  sizeof_size_t : Nat
  /-- Whether `malloc(0)` returns `NULL`. -/
  malloc0_null : Bool
  /-- Result of `1ULL << k` for a shift amount `k` outside `0..63`
  (undefined in C; any value may be observed). -/
  shl_ub : Int → Nat
  /-- Whether `memcpy` copies from the highest address downwards. The order
  shows only when source and destination overlap, where C leaves the result
  of `memcpy` undefined; both orders occur in C libraries. -/
  memcpy_backward : Bool

/-- The usual LP64 little-endian Linux platform the sources target. -/
def linux64 : Platform :=
  { char_signed := true, sizeof_int := 4, sizeof_size_t := 8,
    malloc0_null := false, shl_ub := fun k => 2 ^ (k % 64).toNat,
    memcpy_backward := false }

/-! ## rpc_types.h -/

def RPC_MSG_CONNECT : Nat := 0xCC
def RPC_MSG_FUNC_FIND : Nat := 0xFF
def RPC_MSG_FUNC_CALL : Nat := 0xFC
def RPC_MSG_DISCONNECT : Nat := 0xDC
def RPC_MSG_END : Nat := 0xED
def RPC_RTN_SUCCESS : Nat := 0x55
def RPC_RTN_ERROR : Nat := 0xEE

def RPC_DATA_NONE : Nat := 0x0
def RPC_DATA_INT : Nat := 0x1
def RPC_DATA_BUFF : Nat := 0x80

def RPC_ERROR_NONE : Nat := 0x0
def RPC_ERROR_CXN_INVALID : Nat := 0x1
def RPC_ERROR_FUNC_NOT_FOUND : Nat := 0x2
def RPC_ERROR_DATA_INT_OVF : Nat := 0x4
def RPC_ERROR_DATA_BUFF_OVF : Nat := 0x8
def RPC_ERROR_DATA_INVALID : Nat := 0x10
def RPC_ERROR_HNDL_INVALID : Nat := 0x20
def RPC_ERROR_MSG_INVALID : Nat := 0x40
def RPC_ERROR_PQT_INVALID : Nat := 0x80

def UINT64_MAX : Nat := 2 ^ 64 - 1
def UINT16_MAX : Nat := 65535
def INT64_MAX : Int := 2 ^ 63 - 1
def INT64_MIN : Int := -(2 ^ 63)

/-- The struct `hw_profile` of rpc_types.h. -/
structure hw_profile where
  int_max : Int
  int_min : Int
  size_max : Nat
  initialised : Bool
deriving DecidableEq, Repr

/-- Modelled from the spec: the payload struct `rpc_data` is declared in
`rpc.h`, which is not among the sources. Section 3 of the specification gives
it as a signed 64-bit integer `i` (`data1`), an unsigned 64-bit length `n`
(`data2_len`) and an optional byte buffer `b` (`data2`, `none` is `NULL`).
A present buffer is represented by the bytes it points to. -/
structure rpc_data where
  data1 : Int
  data2_len : Nat
  data2 : Option (List Nat)
deriving DecidableEq, Repr

/-- Representation invariant of a payload object: the integer fields are in
the range of their C types and a present buffer designates exactly
`data2_len` bytes. -/
def rpc_data.wf (d : rpc_data) : Prop :=
  INT64_MIN ≤ d.data1 ∧ d.data1 ≤ INT64_MAX ∧ d.data2_len ≤ UINT64_MAX ∧
    match d.data2 with
    | none => True
    | some b => b.length = d.data2_len

instance (d : rpc_data) : Decidable d.wf := by
  unfold rpc_data.wf
  cases d.data2 <;> exact inferInstance

/-- State of an `rpc_data*` handed back by the receive path: `NULL`, a pointer
to a live payload, or a pointer to memory that has already been released. -/
inductive DataPtr where
  | null : DataPtr
  | live (d : rpc_data) : DataPtr
  | freed : DataPtr
deriving DecidableEq, Repr

/-! ## helper.h / helper.c : integer conversions -/

/-- Conversion of a signed value to `uint64_t`. -/
def to_u64 (z : Int) : Nat := (z % 2 ^ 64).toNat

/-- Conversion of a `uint64_t` value to `int64_t` (two-complement wrap). -/
def to_int64 (x : Nat) : Int :=
  if x % 2 ^ 64 < 2 ^ 63 then (x % 2 ^ 64 : Nat) else ((x % 2 ^ 64 : Nat) : Int) - 2 ^ 64

/-- The eight bytes in memory of `hton64(host64)`, most significant first. -/
def hton64 (host64 : Nat) : List Nat :=
  let v := host64 % 2 ^ 64
  [v / 2 ^ 56 % 256, v / 2 ^ 48 % 256, v / 2 ^ 40 % 256, v / 2 ^ 32 % 256,
   v / 2 ^ 24 % 256, v / 2 ^ 16 % 256, v / 2 ^ 8 % 256, v % 256]

/-- The value `ntoh64(net64)` of an eight-byte object holding the bytes `net64`. -/
def ntoh64 (net64 : List Nat) : Nat :=
  (net64.foldl (fun acc b => acc * 256 + b) 0) % 2 ^ 64

/-- The two bytes in memory of `htons(x)`. -/
def htons (host16 : Nat) : List Nat :=
  let v := host16 % 2 ^ 16
  [v / 2 ^ 8 % 256, v % 256]

/-- The value `ntohs(net16)` of a two-byte object holding the bytes `net16`. -/
def ntohs (net16 : List Nat) : Nat :=
  (net16.foldl (fun acc b => acc * 256 + b) 0) % 2 ^ 16

/-- Shift `1ULL << k`: defined for `0 ≤ k < 64`, platform behaviour otherwise. -/
def shl_1ull (P : Platform) (k : Int) : Nat :=
  if 0 ≤ k ∧ k < 64 then 2 ^ k.toNat else P.shl_ub k % 2 ^ 64

/-- The shift amount `8*nbytes - 1` used by `MAX_SINT` (computed in `int`). -/
def MAX_SINT_shift (nbytes : Nat) : Int := 8 * (nbytes : Int) - 1

/-- The expansion `(1ULL << (8*nbytes - 1)) - 1` of MAX_SINT, as `uint64_t`. -/
def MAX_SINT (P : Platform) (nbytes : Nat) : Nat :=
  (shl_1ull P (MAX_SINT_shift nbytes) + (2 ^ 64 - 1)) % 2 ^ 64

/-- The shift amount `8*nbytes` used by `MAX_UINT` (computed in `int`). -/
def MAX_UINT_shift (nbytes : Nat) : Int := 8 * (nbytes : Int)

/-- The expansion `nbytes < 8 ? (1ULL << 8*nbytes) - 1 : UINT64_MAX` of MAX_UINT. -/
def MAX_UINT (P : Platform) (nbytes : Nat) : Nat :=
  if nbytes < 8 then (shl_1ull P (MAX_UINT_shift nbytes) + (2 ^ 64 - 1)) % 2 ^ 64
  else UINT64_MAX

/-! ## helper.c : socket wrappers -/

/-- One endpoint of a connection. -/
structure Sock where
  /-- Bytes the peer delivers before it closes, in order. -/
  inp : List Nat
  /-- Bytes written to the peer so far, in order. -/
  out : List Nat
  /-- Number of further bytes the peer accepts before a write fails. -/
  wcap : Nat
deriving DecidableEq, Repr

/-- The function `socket_recv(fd, buff, nbytes)`: loops until `nbytes` bytes
have arrived; fails when the peer closes first. Returns the success flag, the
bytes stored in `buff`, and the socket. -/
def socket_recv (fd : Sock) (nbytes : Nat) : Bool × List Nat × Sock :=
  if nbytes ≤ fd.inp.length then
    (true, fd.inp.take nbytes, { fd with inp := fd.inp.drop nbytes })
  else
    (false, fd.inp, { fd with inp := [] })

/-- The function `socket_send(fd, buff, nbytes)`, with `buff` the `nbytes`
bytes to be sent: loops until all are written; fails when a write fails. -/
def socket_send (fd : Sock) (buff : List Nat) : Bool × Sock :=
  if buff.length ≤ fd.wcap then
    (true, { fd with out := fd.out ++ buff, wcap := fd.wcap - buff.length })
  else
    (false, { fd with out := fd.out ++ buff.take fd.wcap, wcap := 0 })

/-- What the transport decides about one call of `recv` on a stream socket:
the call fails, or up to `size` bytes are ready for it. -/
inductive recv_event where
  | error : recv_event
  | chunk (size : Nat) : recv_event
deriving DecidableEq, Repr

/-- One call `recv(socketfd, p_buff, bytes_to_read, 0)`: the return value,
the bytes stored at `p_buff` and the rest of the stream. A failing call
returns -1; otherwise the call returns the bytes that are ready, at most
`bytes_to_read` of them, and 0 when the stream has ended. -/
def recv (inp : List Nat) (e : recv_event) (bytes_to_read : Nat) : Int × List Nat × List Nat :=
  match e with
  | recv_event.error => (-1, [], inp)
  | recv_event.chunk size =>
    let k := min (min size bytes_to_read) inp.length
    ((k : Int), inp.take k, inp.drop k)

/-- The loop of `socket_recv(socketfd, buff, nbytes)` over a transport whose
`i`-th call of `recv` is decided by `schedule i`, bounded by `fuel`
iterations (`none` when they do not suffice): the result, the bytes stored in
`buff` and the rest of the stream. -/
def socket_recv_loop (schedule : Nat → recv_event) :
    Nat → Nat → List Nat → List Nat → Nat → Option (Bool × List Nat × List Nat)
  | 0, _, inp, buff, bytes_to_read =>
    if bytes_to_read > 0 then none else some (true, buff, inp)
  | fuel + 1, i, inp, buff, bytes_to_read =>
    if bytes_to_read > 0 then
      match recv inp (schedule i) bytes_to_read with
      | (bytes_read, data, inp) =>
        if bytes_read ≤ 0 then some (false, buff, inp)
        else
          socket_recv_loop schedule fuel (i + 1) inp (buff ++ data)
            (bytes_to_read - bytes_read.toNat)
    else some (true, buff, inp)

/-- The function `socket_recv(fd, buff, nbytes)` over a transport that
delivers the stream in the pieces given by `schedule`. Every iteration of the
loop that does not return reads at least one byte, so `nbytes` iterations
suffice. -/
def socket_recv_chunked (schedule : Nat → recv_event) (fd : Sock) (nbytes : Nat) :
    Option (Bool × List Nat × Sock) :=
  (socket_recv_loop schedule nbytes 0 fd.inp [] nbytes).map
    (fun r => (r.1, r.2.1, { fd with inp := r.2.2 }))

/-! ## helper.c : payload validation and codec -/

/-- The function `check_data(profile, data)`; `data = none` is `NULL`. -/
def check_data (profile : hw_profile) (data : Option rpc_data) : Nat :=
  if !profile.initialised then RPC_ERROR_CXN_INVALID
  else
    match data with
    | none => RPC_ERROR_DATA_INVALID
    | some data =>
      let error_flags := RPC_ERROR_NONE
      let error_flags :=
        if data.data1 > profile.int_max ∨ data.data1 < profile.int_min then
          error_flags ||| RPC_ERROR_DATA_INT_OVF
        else error_flags
      let error_flags :=
        if (data.data2_len = 0 ∧ data.data2 ≠ none) ∨
           (data.data2_len > 0 ∧ data.data2 = none) then
          error_flags ||| RPC_ERROR_DATA_INVALID
        else error_flags
      let error_flags :=
        if data.data2_len > profile.size_max then
          error_flags ||| RPC_ERROR_DATA_BUFF_OVF
        else error_flags
      error_flags

/-- The function `gen_data_flags(data)`; `data = none` is `NULL`. -/
def gen_data_flags (data : Option rpc_data) : Nat :=
  match data with
  | none => RPC_DATA_NONE
  | some data =>
    let flags := RPC_DATA_NONE
    let flags := flags ||| RPC_DATA_INT
    if data.data2_len ≠ 0 ∧ data.data2 ≠ none then flags ||| RPC_DATA_BUFF
    else flags

/-- The function `socket_send_data(fd, input)`; `input = none` is `NULL`. -/
def socket_send_data (fd : Sock) (input : Option rpc_data) : Bool × Sock :=
  match input with
  | none => (true, fd)
  | some input =>
    let flags_out := gen_data_flags (some input)
    match socket_send fd [flags_out] with
    | (false, fd) => (false, fd)
    | (true, fd) =>
      match (if flags_out &&& RPC_DATA_INT ≠ 0 then
               socket_send fd (hton64 (to_u64 input.data1))
             else (true, fd)) with
      | (false, fd) => (false, fd)
      | (true, fd) =>
        if flags_out &&& RPC_DATA_BUFF ≠ 0 then
          match socket_send fd (hton64 input.data2_len) with
          | (false, fd) => (false, fd)
          | (true, fd) =>
            match socket_send fd ((input.data2.getD []).take input.data2_len) with
            | (false, fd) => (false, fd)
            | (true, fd) => (true, fd)
        else (true, fd)

/-- The function `socket_recv_data(fd, output)` for a non-NULL `output`:
returns the success flag, the final value of `*output`, and the socket.
When the read of the buffer bytes fails the code releases the payload but
falls through, storing the released pointer in `*output` and returning
true. Every `malloc` is taken to be served here, so that this read fails only
when the stream ends; `socket_recv_data_malloc` makes the result of `malloc`
explicit. -/
def socket_recv_data (P : Platform) (fd : Sock) : Bool × DataPtr × Sock :=
  match socket_recv fd 1 with
  | (false, _, fd) => (false, DataPtr.null, fd)
  | (true, flags_bytes, fd) =>
    let flags_in := flags_bytes.headD 0
    let recv_data : rpc_data := { data1 := 0, data2_len := 0, data2 := none }
    match (if flags_in &&& RPC_DATA_INT ≠ 0 then
             match socket_recv fd 8 with
             | (false, _, fd) => (false, recv_data, fd)
             | (true, be_data1, fd) =>
               (true, { recv_data with data1 := to_int64 (ntoh64 be_data1) }, fd)
           else (true, recv_data, fd)) with
    | (false, _, fd) => (false, DataPtr.null, fd)
    | (true, recv_data, fd) =>
      if flags_in &&& RPC_DATA_BUFF ≠ 0 then
        match socket_recv fd 8 with
        | (false, _, fd) => (false, DataPtr.null, fd)
        | (true, be_data2_len, fd) =>
          let recv_data := { recv_data with data2_len := ntoh64 be_data2_len }
          match socket_recv fd recv_data.data2_len with
          | (false, _, fd) => (true, DataPtr.freed, fd)
          | (true, net_data2, fd) =>
            let p := if recv_data.data2_len = 0 ∧ P.malloc0_null then none else some net_data2
            (true, DataPtr.live { recv_data with data2 := p }, fd)
      else (true, DataPtr.live recv_data, fd)

/-- The call `socket_recv(fd, NULL, nbytes)`, which `socket_recv_data` makes
when `malloc` has returned `NULL` for the buffer: with `nbytes = 0` the loop
is not entered; otherwise `recv` cannot store a byte, so that it returns no
positive count and takes nothing from the stream. -/
def socket_recv_null (fd : Sock) (nbytes : Nat) : Bool × List Nat × Sock :=
  if nbytes = 0 then (true, [], fd) else (false, [], fd)

/-- The function `socket_recv_data(fd, output)` for a non-NULL `output`, with
the result of `malloc(recv_data->data2_len)` made explicit, which the code
does not test: for a length `n > 0`, `malloc_null n` tells whether the call
returns `NULL`. The read into a `NULL` buffer fails with the bytes behind the
length left in the stream; as after every failed read of the buffer, the code
releases the payload, falls through and returns true with the released
pointer in `*output`. The `calloc` of the payload object itself is taken to
be served. -/
def socket_recv_data_malloc (P : Platform) (malloc_null : Nat → Bool) (fd : Sock) :
    Bool × DataPtr × Sock :=
  match socket_recv fd 1 with
  | (false, _, fd) => (false, DataPtr.null, fd)
  | (true, flags_bytes, fd) =>
    let flags_in := flags_bytes.headD 0
    let recv_data : rpc_data := { data1 := 0, data2_len := 0, data2 := none }
    match (if flags_in &&& RPC_DATA_INT ≠ 0 then
             match socket_recv fd 8 with
             | (false, _, fd) => (false, recv_data, fd)
             | (true, be_data1, fd) =>
               (true, { recv_data with data1 := to_int64 (ntoh64 be_data1) }, fd)
           else (true, recv_data, fd)) with
    | (false, _, fd) => (false, DataPtr.null, fd)
    | (true, recv_data, fd) =>
      if flags_in &&& RPC_DATA_BUFF ≠ 0 then
        match socket_recv fd 8 with
        | (false, _, fd) => (false, DataPtr.null, fd)
        | (true, be_data2_len, fd) =>
          let recv_data := { recv_data with data2_len := ntoh64 be_data2_len }
          let net_data2_null : Bool :=
            if recv_data.data2_len = 0 then P.malloc0_null
            else malloc_null recv_data.data2_len
          match (if net_data2_null then socket_recv_null fd recv_data.data2_len
                 else socket_recv fd recv_data.data2_len) with
          | (false, _, fd) => (true, DataPtr.freed, fd)
          | (true, net_data2, fd) =>
            let p := if net_data2_null then none else some net_data2
            (true, DataPtr.live { recv_data with data2 := p }, fd)
      else (true, DataPtr.live recv_data, fd)

/-! ## helper.c : names -/

/-- The value of a `char` object holding the byte `b`, promoted to `int`. -/
def char_val (P : Platform) (b : Nat) : Int :=
  if P.char_signed ∧ 128 ≤ b then (b : Int) - 256 else (b : Int)

/-- The function `is_valid_name(name)`. -/
def is_valid_name (P : Platform) (name : List Nat) : Bool :=
  if name.any (fun character => char_val P character < 32 ∨ char_val P character > 132) then
    false
  else
    decide (name.length ≤ UINT16_MAX)

/-! ## hashtable.h / hashtable.c -/

def DEFAULT_CAPACITY : Nat := 10
def RESIZE_FACTOR : Nat := 2
def CHOSEN_PRIME : Nat := 97

/-- The struct `hash_item`; a handler is a function address, `0` is `NULL`. -/
structure hash_item where
  hash_value : Nat
  handler : Nat
deriving DecidableEq, Repr

/-- The struct `hash_table`; `table` is the allocated array of `capacity` slots. -/
structure hash_table where
  capacity : Nat
  count : Nat
  table : List hash_item
deriving DecidableEq, Repr

/-- A zero-filled slot. -/
def hash_item.zero : hash_item := { hash_value := 0, handler := 0 }

/-- The modulus `UINT64_MAX - 58` of the hash function. -/
def hash_modulo : Nat := UINT64_MAX - 58

/-- The function `hash(string, prime)`: every step is evaluated in `uint64_t`,
so product and sum wrap modulo `2^64` before `% modulo` is applied. -/
def hash (P : Platform) (string : List Nat) (prime : Nat) : Nat :=
  let modulo := hash_modulo
  let base := prime
  string.foldl
    (fun hash_value c =>
      to_u64 ((hash_value : Int) * (base : Int) + (char_val P c - 32 + 1)) % modulo)
    0

/-- The function `generate_hash(string)`. -/
def generate_hash (P : Platform) (string : List Nat) : Nat :=
  hash P string CHOSEN_PRIME

/-- The function `_ht_create(initial_capacity)`. -/
def _ht_create (initial_capacity : Nat) : hash_table :=
  { capacity := initial_capacity, count := 0,
    table := List.replicate initial_capacity hash_item.zero }

/-- The expansion of `ht_create()`. -/
def ht_create : hash_table := _ht_create DEFAULT_CAPACITY

/-- The function `_ht_resize(pHt)`. -/
def _ht_resize (pHt : hash_table) : hash_table :=
  { pHt with
    table := pHt.table.take pHt.capacity ++
      List.replicate (pHt.capacity * RESIZE_FACTOR - pHt.capacity) hash_item.zero,
    capacity := pHt.capacity * RESIZE_FACTOR }

/-- The scan `for (i = start; ...; i++) if (p(table[i])) ...` over the given
slots: the index of the first slot satisfying `p`, if any. -/
def ht_loop (p : hash_item → Bool) : List hash_item → Nat → Option Nat
  | [], _ => none
  | item :: rest, i => if p item then some i else ht_loop p rest (i + 1)

/-- The scan of the slots `0 .. count-1` for a slot with digest `hash_value`. -/
def ht_find_hash (pHt : hash_table) (hash_value : Nat) : Option Nat :=
  ht_loop (fun item => item.hash_value == hash_value) (pHt.table.take pHt.count) 0

/-- The function `ht_insert(pHt, string, handler)` for non-NULL `pHt` and `string`. -/
def ht_insert (P : Platform) (pHt : hash_table) (string : List Nat) (handler : Nat) :
    hash_table :=
  if handler = 0 then pHt
  else
    let hash_value := generate_hash P string
    match ht_find_hash pHt hash_value with
    | some i =>
      { pHt with
        table := pHt.table.set i { pHt.table.getD i hash_item.zero with handler := handler } }
    | none =>
      let pHt := if pHt.count ≥ pHt.capacity then _ht_resize pHt else pHt
      { pHt with
        table := pHt.table.set pHt.count { hash_value := hash_value, handler := handler },
        count := pHt.count + 1 }

/-- The function `ht_index_with_hash(pHt, hash_value)`; the result `0` is `NULL`. -/
def ht_index_with_hash (pHt : hash_table) (hash_value : Nat) : Nat :=
  match ht_find_hash pHt hash_value with
  | some i => (pHt.table.getD i hash_item.zero).handler
  | none => 0

/-- The function `ht_index(pHt, string)`. -/
def ht_index (P : Platform) (pHt : hash_table) (string : List Nat) : Nat :=
  let hash_value := generate_hash P string
  ht_index_with_hash pHt hash_value

/-- The function `ht_retrieve_hash(pHt, handler)`. -/
def ht_retrieve_hash (pHt : hash_table) (handler : Nat) : Nat :=
  match ht_loop (fun item => item.handler == handler) (pHt.table.take pHt.count) 0 with
  | some i => (pHt.table.getD i hash_item.zero).hash_value
  | none => UINT64_MAX

/-- The call `memcpy(&table[dst], &table[src], n * sizeof(hash_item))` carried
out slot by slot from the lowest address upwards. -/
def memcpy_ascending : List hash_item → Nat → Nat → Nat → List hash_item
  | table, _, _, 0 => table
  | table, dst, src, n + 1 =>
    memcpy_ascending (table.set dst (table.getD src hash_item.zero)) (dst + 1) (src + 1) n

/-- The same call carried out slot by slot from the highest address downwards. -/
def memcpy_descending : List hash_item → Nat → Nat → Nat → List hash_item
  | table, _, _, 0 => table
  | table, dst, src, n + 1 =>
    memcpy_descending (table.set (dst + n) (table.getD (src + n) hash_item.zero)) dst src n

/-- The call `memcpy(&table[dst], &table[src], n * sizeof(hash_item))`. Both
orders give the same result unless the two regions overlap. -/
def memcpy_items (backward : Bool) (table : List hash_item) (dst src n : Nat) :
    List hash_item :=
  if backward then memcpy_descending table dst src n else memcpy_ascending table dst src n

/-- The function `ht_delete(pHt, string)` for non-NULL `pHt` and `string`. -/
def ht_delete (P : Platform) (pHt : hash_table) (string : List Nat) : hash_table :=
  let hash_value := generate_hash P string
  match ht_find_hash pHt hash_value with
  | none => pHt
  | some offset =>
    if offset = pHt.capacity - 1 then
      { pHt with
        table := pHt.table.set (pHt.capacity - 1) hash_item.zero,
        count := pHt.count - 1 }
    else
      let offset_to_end := pHt.capacity - offset
      let table := memcpy_items P.memcpy_backward pHt.table offset (offset + 1) (offset_to_end - 1)
      { pHt with
        table := table.set (pHt.capacity - 1) hash_item.zero,
        count := pHt.count - 1 }

/-! ## linked_list.h / linked_list.c -/

/-- The struct `node`. A pointer to a node is its address, `none` is `NULL`;
the data pointer is represented by the value it points to. -/
structure node where
  data : Nat
  prev : Option Nat
  next : Option Nat
deriving DecidableEq, Repr

/-- The struct `list`. -/
structure list where
  head : Option Nat
  tail : Option Nat
  should_free_data : Bool
deriving DecidableEq, Repr

/-- The nodes on the heap: the node stored at every live address. -/
def node_heap : Type := Nat → Option node

/-- The heap after a store to, or the release of, the node at `addr`. -/
def heap_set (heap : node_heap) (addr : Nat) (n : Option node) : node_heap :=
  fun x => if x = addr then n else heap x

/-- The function `list_create(should_free_data)`. -/
def list_create (should_free_data : Bool) : list :=
  { head := none, tail := none, should_free_data := should_free_data }

/-- The function `list_insert_tail(pList, pData)` for a non-NULL `pList`;
`pNode` is the address `malloc` returns in `node_create`. The result is
`none` when a pointer that designates no live node is dereferenced. -/
def list_insert_tail (heap : node_heap) (pList : list) (pNode : Nat) (pData : Nat) :
    Option (node_heap × list) :=
  let heap := heap_set heap pNode (some { data := pData, prev := none, next := none })
  match pList.head, pList.tail with
  | some _, some tail =>
    let heap := heap_set heap pNode (some { data := pData, prev := some tail, next := none })
    match heap tail with
    | none => none
    | some t =>
      let heap := heap_set heap tail (some { t with next := some pNode })
      some (heap, { pList with tail := some pNode })
  | _, _ =>
    some (heap, { pList with head := some pNode, tail := some pNode })

/-- The function `list_pop_head(pList)` for a non-NULL `pList`. The result is
`none` when a pointer that designates no live node is dereferenced. -/
def list_pop_head (heap : node_heap) (pList : list) : Option (node_heap × list) :=
  match pList.head, pList.tail with
  | some head, some tail =>
    let pHead := head
    match (if head = tail then
             some (heap, { pList with tail := none, head := none })
           else
             match heap head with
             | none => none
             | some h =>
               match h.next with
               | none => none
               | some new_head =>
                 match heap new_head with
                 | none => none
                 | some n =>
                   some (heap_set heap new_head (some { n with prev := none }),
                         { pList with head := some new_head })) with
    | none => none
    | some (heap, pList) =>
      match heap pHead with
      | none => none
      | some _ => some (heap_set heap pHead none, pList)
  | _, _ => some (heap, pList)

/-- The read `*(int*)list->head->data` made by `thread_work` before it pops
the head; `none` when there is no head node. -/
def list_head_data (heap : node_heap) (pList : list) : Option Nat :=
  match pList.head with
  | none => none
  | some head => (heap head).map (·.data)

/-! ## rpc.c : server registry -/

/-- The part of `struct rpc_server` used by registration and the handlers. -/
structure rpc_server where
  hash_table : hash_table
  masterfd : Int
deriving DecidableEq, Repr

/-- The function `rpc_register(srv, name, handler)`; `none` is a `NULL`
argument, handler `0` is `NULL`. Returns the result code and the server. -/
def rpc_register (P : Platform) (srv : Option rpc_server) (name : Option (List Nat))
    (handler : Nat) : Int × Option rpc_server :=
  match srv, name with
  | some s, some n =>
    if handler = 0 then (-1, srv)
    else if !is_valid_name P n then (-1, srv)
    else (1, some { s with hash_table := ht_insert P s.hash_table n handler })
  | _, _ => (-1, srv)

/-! ## rpc.c : server-side protocol handlers -/

/-- The code behind each handler address: a handler maps the payload it is
given to a freshly allocated result, `none` being a `NULL` result. -/
abbrev HandlerCode := Nat → rpc_data → Option rpc_data

/-- The function `svr_handle_rtn_error(clientfd, error)`. -/
def svr_handle_rtn_error (clientfd : Sock) (error : Nat) : Bool × Sock :=
  match socket_send clientfd [RPC_RTN_ERROR] with
  | (false, fd) => (false, fd)
  | (true, fd) =>
    match socket_send fd [error] with
    | (false, fd) => (false, fd)
    | (true, fd) =>
      match socket_send fd [RPC_MSG_END] with
      | (false, fd) => (false, fd)
      | (true, fd) => (true, fd)

/-- The function `svr_handle_msg_connect(clientfd, cl_profile)` for a non-NULL
profile: returns the connected flag, the profile and the socket. -/
def svr_handle_msg_connect (P : Platform) (clientfd : Sock) (cl_profile : hw_profile) :
    Bool × hw_profile × Sock :=
  match socket_recv clientfd 1 with
  | (false, _, fd) => (false, cl_profile, fd)
  | (true, sizeof_int_cl, fd) =>
    let cl_profile :=
      { cl_profile with int_max := to_int64 (MAX_SINT P (sizeof_int_cl.headD 0)) }
    let cl_profile :=
      { cl_profile with int_min := to_int64 (to_u64 (-cl_profile.int_max - 1)) }
    match socket_recv fd 1 with
    | (false, _, fd) => (false, cl_profile, fd)
    | (true, sizeof_size_t_cl, fd) =>
      let cl_profile := { cl_profile with size_max := MAX_UINT P (sizeof_size_t_cl.headD 0) }
      match socket_recv fd 1 with
      | (false, _, fd) => (false, cl_profile, fd)
      | (true, cl_msg_end, fd) =>
        if cl_msg_end.headD 0 ≠ RPC_MSG_END then
          match svr_handle_rtn_error fd RPC_ERROR_PQT_INVALID with
          | (r, fd) => (r, cl_profile, fd)
        else
          let cl_profile := { cl_profile with initialised := true }
          match socket_send fd [RPC_RTN_SUCCESS] with
          | (false, fd) => (false, cl_profile, fd)
          | (true, fd) =>
            match socket_send fd [P.sizeof_int % 256] with
            | (false, fd) => (false, cl_profile, fd)
            | (true, fd) =>
              match socket_send fd [P.sizeof_size_t % 256] with
              | (false, fd) => (false, cl_profile, fd)
              | (true, fd) =>
                match socket_send fd [RPC_MSG_END] with
                | (false, fd) => (false, cl_profile, fd)
                | (true, fd) => (true, cl_profile, fd)

/-- The function `svr_handle_msg_find(clientfd, cl_profile, ht_fnc)` for
non-NULL arguments. The received name is used as a C string, so it ends at
its first zero byte. -/
def svr_handle_msg_find (P : Platform) (clientfd : Sock) (cl_profile : hw_profile)
    (ht_fnc : hash_table) : Bool × Sock :=
  if !cl_profile.initialised then svr_handle_rtn_error clientfd RPC_ERROR_CXN_INVALID
  else
    match socket_recv clientfd 2 with
    | (false, _, fd) => (false, fd)
    | (true, be_len_name, fd) =>
      let len_name := ntohs be_len_name
      match socket_recv fd len_name with
      | (false, _, fd) => (false, fd)
      | (true, name, fd) =>
        match socket_recv fd 1 with
        | (false, _, fd) => (false, fd)
        | (true, cl_msg_end, fd) =>
          if cl_msg_end.headD 0 ≠ RPC_MSG_END then
            svr_handle_rtn_error fd RPC_ERROR_PQT_INVALID
          else
            let handler := ht_index P ht_fnc (name.takeWhile (fun c => c ≠ 0))
            if handler = 0 then svr_handle_rtn_error fd RPC_ERROR_FUNC_NOT_FOUND
            else
              match socket_send fd [RPC_RTN_SUCCESS] with
              | (false, fd) => (false, fd)
              | (true, fd) =>
                let hash_value := ht_retrieve_hash ht_fnc handler
                match socket_send fd (hton64 hash_value) with
                | (false, fd) => (false, fd)
                | (true, fd) =>
                  match socket_send fd [RPC_MSG_END] with
                  | (false, fd) => (false, fd)
                  | (true, fd) => (true, fd)

/-- The function `svr_handle_msg_call(clientfd, cl_profile, ht_fnc)` for
non-NULL arguments: returns the connected flag, the handler invocation made
(address and argument), if any, and the socket. Every `malloc` is taken to
be served here, so that a released input arrives only with the stream at its
end, where the read of the digest fails, and the calls of
`rpc_data_free(input)` are left out; `svr_handle_msg_call_malloc` has both
the result of `malloc` and these calls. -/
def svr_handle_msg_call (P : Platform) (code : HandlerCode) (clientfd : Sock)
    (cl_profile : hw_profile) (ht_fnc : hash_table) :
    Bool × Option (Nat × rpc_data) × Sock :=
  if !cl_profile.initialised then
    match svr_handle_rtn_error clientfd RPC_ERROR_CXN_INVALID with
    | (r, fd) => (r, none, fd)
  else
    match socket_recv_data P clientfd with
    | (false, _, fd) => (false, none, fd)
    | (true, input, fd) =>
      match socket_recv fd 8 with
      | (false, _, fd) => (false, none, fd)
      | (true, be_hash_value, fd) =>
        let hash_value := ntoh64 be_hash_value
        match socket_recv fd 1 with
        | (false, _, fd) => (false, none, fd)
        | (true, cl_msg_end, fd) =>
          if cl_msg_end.headD 0 ≠ RPC_MSG_END then
            match svr_handle_rtn_error fd RPC_ERROR_PQT_INVALID with
            | (r, fd) => (r, none, fd)
          else
            let handler := ht_index_with_hash ht_fnc hash_value
            if handler = 0 then
              match svr_handle_rtn_error fd RPC_ERROR_HNDL_INVALID with
              | (r, fd) => (r, none, fd)
            else
              match input with
              | DataPtr.live input =>
                let output := code handler input
                let error := check_data cl_profile output
                if error ≠ 0 then
                  match svr_handle_rtn_error fd error with
                  | (r, fd) => (r, some (handler, input), fd)
                else
                  match socket_send fd [RPC_RTN_SUCCESS] with
                  | (false, fd) => (false, some (handler, input), fd)
                  | (true, fd) =>
                    match socket_send_data fd output with
                    | (false, fd) => (false, some (handler, input), fd)
                    | (true, fd) =>
                      match socket_send fd [RPC_MSG_END] with
                      | (false, fd) => (false, some (handler, input), fd)
                      | (true, fd) => (true, some (handler, input), fd)
              | _ => (false, none, fd)

/-- The function `rpc_data_free(data)`: nothing to do for `NULL`, the buffer
and the object are released for a live object, and the behaviour is undefined
(`none`) for a pointer to released memory, which the function dereferences
(`data->data2`) and then passes to `free` a second time. -/
def rpc_data_free (data : DataPtr) : Option Unit :=
  match data with
  | DataPtr.null => some ()
  | DataPtr.live _ => some ()
  | DataPtr.freed => none

/-- The two calls at which `svr_handle_msg_call` leaves defined behaviour,
with the socket at that point: `rpc_data_free(input)` on a released `input`,
and `handler(input)` on an `input` that designates no live payload. -/
inductive call_fault where
  | free_released (fd : Sock) : call_fault
  | handler_input (handler : Nat) (input : DataPtr) (fd : Sock) : call_fault
deriving DecidableEq, Repr

/-- How an execution of `svr_handle_msg_call` ends: it returns the connected
flag with the handler invocation made, if any, and the socket, or it reaches
one of the calls of `call_fault`. -/
inductive call_result where
  | returned (is_connected : Bool) (invoked : Option (Nat × rpc_data)) (fd : Sock) :
      call_result
  | undefined (fault : call_fault) : call_result
deriving DecidableEq, Repr

/-- The function `svr_handle_msg_call(clientfd, cl_profile, ht_fnc)` for
non-NULL arguments, with the result of `malloc` in `socket_recv_data` made
explicit and with its calls of `rpc_data_free(input)`: the code makes this
call before each return behind `socket_recv_data`, and calls `handler(input)`
without a test of `input` once the digest and END have been read and the
digest resolves. -/
def svr_handle_msg_call_malloc (P : Platform) (malloc_null : Nat → Bool) (code : HandlerCode)
    (clientfd : Sock) (cl_profile : hw_profile) (ht_fnc : hash_table) : call_result :=
  if !cl_profile.initialised then
    match svr_handle_rtn_error clientfd RPC_ERROR_CXN_INVALID with
    | (r, fd) => call_result.returned r none fd
  else
    match socket_recv_data_malloc P malloc_null clientfd with
    | (false, _, fd) => call_result.returned false none fd
    | (true, input, fd) =>
      match socket_recv fd 8 with
      | (false, _, fd) =>
        match rpc_data_free input with
        | none => call_result.undefined (call_fault.free_released fd)
        | some _ => call_result.returned false none fd
      | (true, be_hash_value, fd) =>
        let hash_value := ntoh64 be_hash_value
        match socket_recv fd 1 with
        | (false, _, fd) =>
          match rpc_data_free input with
          | none => call_result.undefined (call_fault.free_released fd)
          | some _ => call_result.returned false none fd
        | (true, cl_msg_end, fd) =>
          if cl_msg_end.headD 0 ≠ RPC_MSG_END then
            match rpc_data_free input with
            | none => call_result.undefined (call_fault.free_released fd)
            | some _ =>
              match svr_handle_rtn_error fd RPC_ERROR_PQT_INVALID with
              | (r, fd) => call_result.returned r none fd
          else
            let handler := ht_index_with_hash ht_fnc hash_value
            if handler = 0 then
              match rpc_data_free input with
              | none => call_result.undefined (call_fault.free_released fd)
              | some _ =>
                match svr_handle_rtn_error fd RPC_ERROR_HNDL_INVALID with
                | (r, fd) => call_result.returned r none fd
            else
              match input with
              | DataPtr.live input =>
                let output := code handler input
                let error := check_data cl_profile output
                if error ≠ 0 then
                  match svr_handle_rtn_error fd error with
                  | (r, fd) => call_result.returned r (some (handler, input)) fd
                else
                  match socket_send fd [RPC_RTN_SUCCESS] with
                  | (false, fd) => call_result.returned false (some (handler, input)) fd
                  | (true, fd) =>
                    match socket_send_data fd output with
                    | (false, fd) => call_result.returned false (some (handler, input)) fd
                    | (true, fd) =>
                      match socket_send fd [RPC_MSG_END] with
                      | (false, fd) => call_result.returned false (some (handler, input)) fd
                      | (true, fd) => call_result.returned true (some (handler, input)) fd
              | input => call_result.undefined (call_fault.handler_input handler input fd)

/-- The loop of `handle_client(clientfd, srv)`, bounded by `fuel` iterations:
returns the final profile, the socket and the handler invocations made. -/
def handle_client_loop (P : Platform) (code : HandlerCode) (srv : rpc_server) :
    Nat → hw_profile → Sock → List (Nat × rpc_data) →
      hw_profile × Sock × List (Nat × rpc_data)
  | 0, cl_profile, fd, calls => (cl_profile, fd, calls)
  | fuel + 1, cl_profile, fd, calls =>
    match socket_recv fd 1 with
    | (false, _, fd) => (cl_profile, fd, calls)
    | (true, message, fd) =>
      let message := message.headD 0
      if message = RPC_MSG_CONNECT then
        match svr_handle_msg_connect P fd cl_profile with
        | (is_connected, cl_profile, fd) =>
          if is_connected then handle_client_loop P code srv fuel cl_profile fd calls
          else (cl_profile, fd, calls)
      else if message = RPC_MSG_FUNC_FIND then
        match svr_handle_msg_find P fd cl_profile srv.hash_table with
        | (is_connected, fd) =>
          if is_connected then handle_client_loop P code srv fuel cl_profile fd calls
          else (cl_profile, fd, calls)
      else if message = RPC_MSG_FUNC_CALL then
        match svr_handle_msg_call P code fd cl_profile srv.hash_table with
        | (is_connected, invoked, fd) =>
          if is_connected then
            handle_client_loop P code srv fuel cl_profile fd (calls ++ invoked.toList)
          else (cl_profile, fd, calls ++ invoked.toList)
      else if message = RPC_MSG_DISCONNECT then (cl_profile, fd, calls)
      else
        match svr_handle_rtn_error fd RPC_ERROR_MSG_INVALID with
        | (is_connected, fd) =>
          if is_connected then handle_client_loop P code srv fuel cl_profile fd calls
          else (cl_profile, fd, calls)

/-- The function `handle_client(clientfd, srv)`: every iteration consumes at
least the message byte, so one more iteration than there are input bytes is
enough for the loop to end by itself. -/
def handle_client (P : Platform) (code : HandlerCode) (clientfd : Sock) (srv : rpc_server) :
    hw_profile × Sock × List (Nat × rpc_data) :=
  handle_client_loop P code srv (clientfd.inp.length + 1)
    { int_max := 0, int_min := 0, size_max := 0, initialised := false } clientfd []

/-- One iteration of the loop of `handle_client`: reads the message byte and
dispatches on it. Returns the new value of `is_connected` (false also when
the message byte cannot be read and the loop is left by `break`), the
profile, the socket and the handler invocation made, if any. -/
def handle_client_iter (P : Platform) (code : HandlerCode) (srv : rpc_server)
    (cl_profile : hw_profile) (fd : Sock) :
    Bool × hw_profile × Sock × Option (Nat × rpc_data) :=
  match socket_recv fd 1 with
  | (false, _, fd) => (false, cl_profile, fd, none)
  | (true, message, fd) =>
    let message := message.headD 0
    if message = RPC_MSG_CONNECT then
      match svr_handle_msg_connect P fd cl_profile with
      | (is_connected, cl_profile, fd) => (is_connected, cl_profile, fd, none)
    else if message = RPC_MSG_FUNC_FIND then
      match svr_handle_msg_find P fd cl_profile srv.hash_table with
      | (is_connected, fd) => (is_connected, cl_profile, fd, none)
    else if message = RPC_MSG_FUNC_CALL then
      match svr_handle_msg_call P code fd cl_profile srv.hash_table with
      | (is_connected, invoked, fd) => (is_connected, cl_profile, fd, invoked)
    else if message = RPC_MSG_DISCONNECT then (false, cl_profile, fd, none)
    else
      match svr_handle_rtn_error fd RPC_ERROR_MSG_INVALID with
      | (is_connected, fd) => (is_connected, cl_profile, fd, none)

/-- The states the loop of `handle_client` passes through, bounded by `fuel`
iterations: the profile and socket at the start of every iteration, followed
by those with which the loop is left. -/
def handle_client_trace (P : Platform) (code : HandlerCode) (srv : rpc_server) :
    Nat → hw_profile → Sock → List (hw_profile × Sock)
  | 0, cl_profile, fd => [(cl_profile, fd)]
  | fuel + 1, cl_profile, fd =>
    (cl_profile, fd) ::
      match handle_client_iter P code srv cl_profile fd with
      | (is_connected, cl_profile, fd, _) =>
        if is_connected then handle_client_trace P code srv fuel cl_profile fd
        else [(cl_profile, fd)]

/-! ## rpc.c : the dispatcher (`rpc_serve_all` and `thread_work`) -/

def THREAD_POOL_SIZE : Nat := 10

/-- The statement of `thread_work` a worker executes next. -/
inductive worker_pc where
  /-- At `pthread_mutex_lock(&srv->mutex_list_fd)`. -/
  | lock : worker_pc
  /-- Holding the mutex, at `if (srv->list_fd->head == NULL)`. -/
  | test : worker_pc
  /-- Blocked inside `pthread_cond_wait`; the mutex is released. -/
  | wait : worker_pc
  /-- Woken inside `pthread_cond_wait`, acquiring the mutex again. -/
  | relock : worker_pc
  /-- Holding the mutex, at `clientfd = *(int*)srv->list_fd->head->data;
  list_pop_head(srv->list_fd)`. -/
  | dequeue : worker_pc
  /-- Holding the mutex, at `pthread_mutex_unlock`. -/
  | unlock (clientfd : Int) : worker_pc
  /-- Inside `handle_client(clientfd, srv)`. -/
  | handle (clientfd : Int) : worker_pc
  /-- At `close(clientfd)`. -/
  | close (clientfd : Int) : worker_pc
  /-- The worker has dereferenced `srv->list_fd->head` while it was `NULL`. -/
  | null_deref : worker_pc
deriving DecidableEq, Repr

/-- The statement of the accept loop of `rpc_serve_all` the main thread
executes next (after the workers have been created). -/
inductive main_pc where
  /-- At `accept(srv->masterfd, ...)`. -/
  | accept : main_pc
  /-- At `pthread_mutex_lock`, with the accepted descriptor. -/
  | lock (new_clientfd : Int) : main_pc
  /-- Holding the mutex, at `list_insert_tail(srv->list_fd, temp)`. -/
  | insert (new_clientfd : Int) : main_pc
  /-- Holding the mutex, at `pthread_cond_signal(&srv->client_cond)`. -/
  | signal : main_pc
  /-- Holding the mutex, at `pthread_mutex_unlock`. -/
  | unlock : main_pc
  /-- After `accept` failed and the loop was left. -/
  | stopped : main_pc
deriving DecidableEq, Repr

/-- The shared state of the dispatcher. The list `list_fd` is represented by
the descriptors it holds, head first; the owner of `mutex_list_fd` is `0` for
the main thread and `i + 1` for worker `i`. -/
structure dispatcher where
  list_fd : List Int
  mutex : Option Nat
  main : main_pc
  workers : List worker_pc
deriving DecidableEq, Repr

/-- The state when `rpc_serve_all` enters its accept loop: ten workers at
the top of `thread_work`, the list empty, the mutex free. -/
def dispatcher.init : dispatcher :=
  { list_fd := [], mutex := none, main := main_pc.accept,
    workers := List.replicate THREAD_POOL_SIZE worker_pc.lock }

/-- What the scheduler and the environment choose next. -/
inductive dispatcher_event where
  /-- Worker `i` executes its next statement. -/
  | worker (i : Nat) : dispatcher_event
  /-- The main thread executes its next statement; `new_clientfd` is the
  result of `accept` and `woken` the waiting worker that
  `pthread_cond_signal` unblocks, where these are consulted. -/
  | main (new_clientfd : Int) (woken : Nat) : dispatcher_event
  /-- Worker `i` returns from `pthread_cond_wait` without a signal, as POSIX
  allows. -/
  | spurious (i : Nat) : dispatcher_event
deriving DecidableEq, Repr

/-- One statement of `thread_work` executed by worker `i`; `none` when the
worker is blocked or has crashed. -/
def thread_work_step (s : dispatcher) (i : Nat) : Option dispatcher :=
  match s.workers.get? i with
  | none => none
  | some worker_pc.lock =>
    if s.mutex = none then
      some { s with mutex := some (i + 1), workers := s.workers.set i worker_pc.test }
    else none
  | some worker_pc.test =>
    if s.list_fd = [] then
      some { s with mutex := none, workers := s.workers.set i worker_pc.wait }
    else some { s with workers := s.workers.set i worker_pc.dequeue }
  | some worker_pc.wait => none
  | some worker_pc.relock =>
    if s.mutex = none then
      some { s with mutex := some (i + 1), workers := s.workers.set i worker_pc.dequeue }
    else none
  | some worker_pc.dequeue =>
    match s.list_fd with
    | [] => some { s with workers := s.workers.set i worker_pc.null_deref }
    | clientfd :: rest =>
      some { s with list_fd := rest, workers := s.workers.set i (worker_pc.unlock clientfd) }
  | some (worker_pc.unlock clientfd) =>
    some { s with mutex := none, workers := s.workers.set i (worker_pc.handle clientfd) }
  | some (worker_pc.handle clientfd) =>
    some { s with workers := s.workers.set i (worker_pc.close clientfd) }
  | some (worker_pc.close _) =>
    some { s with workers := s.workers.set i worker_pc.lock }
  | some worker_pc.null_deref => none

/-- One statement of the accept loop of `rpc_serve_all`; `none` when the main
thread is blocked, has left the loop, or the event names a worker that
`pthread_cond_signal` cannot unblock. -/
def rpc_serve_all_step (s : dispatcher) (new_clientfd : Int) (woken : Nat) :
    Option dispatcher :=
  match s.main with
  | main_pc.accept =>
    if new_clientfd < 0 then some { s with main := main_pc.stopped }
    else some { s with main := main_pc.lock new_clientfd }
  | main_pc.lock fd =>
    if s.mutex = none then some { s with mutex := some 0, main := main_pc.insert fd }
    else none
  | main_pc.insert fd =>
    some { s with list_fd := s.list_fd ++ [fd], main := main_pc.signal }
  | main_pc.signal =>
    if s.workers.get? woken = some worker_pc.wait then
      some { s with workers := s.workers.set woken worker_pc.relock, main := main_pc.unlock }
    else if worker_pc.wait ∈ s.workers then none
    else some { s with main := main_pc.unlock }
  | main_pc.unlock => some { s with mutex := none, main := main_pc.accept }
  | main_pc.stopped => none

/-- One step of the dispatcher. -/
def dispatcher_step (s : dispatcher) : dispatcher_event → Option dispatcher
  | dispatcher_event.worker i => thread_work_step s i
  | dispatcher_event.main new_clientfd woken => rpc_serve_all_step s new_clientfd woken
  | dispatcher_event.spurious i =>
    if s.workers.get? i = some worker_pc.wait then
      some { s with workers := s.workers.set i worker_pc.relock }
    else none

/-- The state after a sequence of events, `none` when one of them is not
possible in the state it meets. -/
def dispatcher_run (s : dispatcher) : List dispatcher_event → Option dispatcher
  | [] => some s
  | e :: es =>
    match dispatcher_step s e with
    | none => none
    | some s2 => dispatcher_run s2 es

/-! ## rpc.c : client-side protocol procedures -/

/-- The struct `rpc_handle`. -/
structure rpc_handle where
  hash_value : Nat
deriving DecidableEq, Repr

/-- The function `cl_handle_rtn_error(serverfd)`; printing is not modelled. -/
def cl_handle_rtn_error (serverfd : Sock) : Bool × Sock :=
  match socket_recv serverfd 1 with
  | (false, _, fd) => (false, fd)
  | (true, _, fd) =>
    match socket_recv fd 1 with
    | (false, _, fd) => (false, fd)
    | (true, svr_msg_end, fd) =>
      if svr_msg_end.headD 0 ≠ RPC_MSG_END then (false, fd) else (true, fd)

/-- The function `cl_handle_proc_connect(serverfd, svr_profile)` for a
non-NULL profile. -/
def cl_handle_proc_connect (P : Platform) (serverfd : Sock) (svr_profile : hw_profile) :
    Bool × hw_profile × Sock :=
  match socket_send serverfd [RPC_MSG_CONNECT] with
  | (false, fd) => (false, svr_profile, fd)
  | (true, fd) =>
    match socket_send fd [P.sizeof_int % 256] with
    | (false, fd) => (false, svr_profile, fd)
    | (true, fd) =>
      match socket_send fd [P.sizeof_size_t % 256] with
      | (false, fd) => (false, svr_profile, fd)
      | (true, fd) =>
        match socket_send fd [RPC_MSG_END] with
        | (false, fd) => (false, svr_profile, fd)
        | (true, fd) =>
          match socket_recv fd 1 with
          | (false, _, fd) => (false, svr_profile, fd)
          | (true, return_val, fd) =>
            if return_val.headD 0 = RPC_RTN_ERROR then
              match cl_handle_rtn_error fd with
              | (r, fd) => (r, svr_profile, fd)
            else
              match socket_recv fd 1 with
              | (false, _, fd) => (false, svr_profile, fd)
              | (true, sizeof_int_svr, fd) =>
                let svr_profile :=
                  { svr_profile with int_max := to_int64 (MAX_SINT P (sizeof_int_svr.headD 0)) }
                let svr_profile :=
                  { svr_profile with int_min := to_int64 (to_u64 (-svr_profile.int_max - 1)) }
                match socket_recv fd 1 with
                | (false, _, fd) => (false, svr_profile, fd)
                | (true, sizeof_size_t_svr, fd) =>
                  let svr_profile :=
                    { svr_profile with
                      size_max := MAX_UINT P (sizeof_size_t_svr.headD 0),
                      initialised := true }
                  match socket_recv fd 1 with
                  | (false, _, fd) => (false, svr_profile, fd)
                  | (true, svr_msg_end, fd) =>
                    if svr_msg_end.headD 0 ≠ RPC_MSG_END then (false, svr_profile, fd)
                    else (true, svr_profile, fd)

/-- The function `cl_handle_proc_find(serverfd, char_buff, length, output)` for
a non-NULL `output`: returns the success flag, the final `*output` and the
socket. -/
def cl_handle_proc_find (serverfd : Sock) (char_buff : Option (List Nat)) (length : Nat) :
    Bool × Option rpc_handle × Sock :=
  match char_buff with
  | none => (true, none, serverfd)
  | some char_buff =>
    match socket_send serverfd [RPC_MSG_FUNC_FIND] with
    | (false, fd) => (false, none, fd)
    | (true, fd) =>
      match socket_send fd (htons length) with
      | (false, fd) => (false, none, fd)
      | (true, fd) =>
        match socket_send fd (char_buff.take length) with
        | (false, fd) => (false, none, fd)
        | (true, fd) =>
          match socket_send fd [RPC_MSG_END] with
          | (false, fd) => (false, none, fd)
          | (true, fd) =>
            match socket_recv fd 1 with
            | (false, _, fd) => (false, none, fd)
            | (true, return_val, fd) =>
              if return_val.headD 0 = RPC_RTN_ERROR then
                match cl_handle_rtn_error fd with
                | (r, fd) => (r, none, fd)
              else
                match socket_recv fd 8 with
                | (false, _, fd) => (false, none, fd)
                | (true, be_hash_value, fd) =>
                  match socket_recv fd 1 with
                  | (false, _, fd) => (false, none, fd)
                  | (true, svr_msg_end, fd) =>
                    if svr_msg_end.headD 0 ≠ RPC_MSG_END then (false, none, fd)
                    else (true, some { hash_value := ntoh64 be_hash_value }, fd)

/-- The function `cl_handle_proc_call(serverfd, handle, input, output)` for a
non-NULL `output`: returns the success flag, the final `*output` and the
socket. -/
def cl_handle_proc_call (P : Platform) (serverfd : Sock) (handle : Option rpc_handle)
    (input : Option rpc_data) : Bool × DataPtr × Sock :=
  match handle, input with
  | some handle, some input =>
    match socket_send serverfd [RPC_MSG_FUNC_CALL] with
    | (false, fd) => (false, DataPtr.null, fd)
    | (true, fd) =>
      match socket_send_data fd (some input) with
      | (false, fd) => (false, DataPtr.null, fd)
      | (true, fd) =>
        match socket_send fd (hton64 handle.hash_value) with
        | (false, fd) => (false, DataPtr.null, fd)
        | (true, fd) =>
          match socket_send fd [RPC_MSG_END] with
          | (false, fd) => (false, DataPtr.null, fd)
          | (true, fd) =>
            match socket_recv fd 1 with
            | (false, _, fd) => (false, DataPtr.null, fd)
            | (true, return_val, fd) =>
              if return_val.headD 0 = RPC_RTN_ERROR then
                match cl_handle_rtn_error fd with
                | (r, fd) => (r, DataPtr.null, fd)
              else
                match socket_recv_data P fd with
                | (false, _, fd) => (false, DataPtr.null, fd)
                | (true, data_in, fd) =>
                  match socket_recv fd 1 with
                  | (false, _, fd) => (false, DataPtr.null, fd)
                  | (true, svr_msg_end, fd) =>
                    if svr_msg_end.headD 0 ≠ RPC_MSG_END then (false, DataPtr.null, fd)
                    else (true, data_in, fd)
  | _, _ => (true, DataPtr.null, serverfd)

/-! ## rpc.c : client API -/

/-- The macro `valid_port(port)` of helper.h. -/
def valid_port (port : Int) : Bool := decide (0 < port) && decide (port ≤ UINT16_MAX)

/-- The struct `rpc_client`; `serverfd` is the connected socket. -/
structure rpc_client where
  serverfd : Sock
  srv_profile : hw_profile
  is_active : Bool
deriving DecidableEq, Repr

/-- The function `rpc_init_client(addr, port)`. Name resolution and `connect`
lie outside the program: `conn` is the connected socket they yield, `none`
when resolution fails or no address can be connected (`serverfd` stays
`SOCKET_NULL_HANDLE`). The client is allocated by `calloc`, so the profile
handed to `cl_handle_proc_connect` is all zero. -/
def rpc_init_client (P : Platform) (addr : Option (List Nat)) (port : Int)
    (conn : Option Sock) : Option rpc_client :=
  if addr = none ∨ valid_port port = false then none
  else
    match conn with
    | none => none
    | some serverfd =>
      match cl_handle_proc_connect P serverfd
          { int_max := 0, int_min := 0, size_max := 0, initialised := false } with
      | (false, _, _) => none
      | (true, srv_profile, serverfd) =>
        some { serverfd := serverfd, srv_profile := srv_profile, is_active := true }

/-- The function `rpc_call(cl, h, payload)`: returns the result pointer and
the client with its socket after the call; printing is not modelled. -/
def rpc_call (P : Platform) (cl : Option rpc_client) (h : Option rpc_handle)
    (payload : Option rpc_data) : DataPtr × Option rpc_client :=
  match cl, h, payload with
  | some cl, some h, some payload =>
    if !cl.is_active then (DataPtr.null, some cl)
    else
      let error := check_data cl.srv_profile (some payload)
      if error ≠ 0 then (DataPtr.null, some cl)
      else
        match cl_handle_proc_call P cl.serverfd (some h) (some payload) with
        | (false, _, fd) => (DataPtr.null, some { cl with serverfd := fd })
        | (true, output, fd) => (output, some { cl with serverfd := fd })
  | cl, _, _ => (DataPtr.null, cl)

/-! ## Auxiliary definitions used to state the properties -/

/-- Whether the payload is sent with its buffer: `n > 0` and buffer present. -/
def has_buff (p : rpc_data) : Bool := decide (p.data2_len ≠ 0) && p.data2.isSome

/-- The bytes `socket_send_data` puts on the wire for a payload. -/
def data_wire (p : rpc_data) : List Nat :=
  [if has_buff p then 0x81 else 0x01] ++ hton64 (to_u64 p.data1) ++
    (if has_buff p then hton64 p.data2_len ++ (p.data2.getD []).take p.data2_len else [])

/-- The payload a receiver reconstructs from the wire form of `p`. -/
def decoded (p : rpc_data) : rpc_data :=
  if has_buff p then
    { data1 := p.data1, data2_len := p.data2_len,
      data2 := some ((p.data2.getD []).take p.data2_len) }
  else { data1 := p.data1, data2_len := 0, data2 := none }

/-- The number denoted by a byte sequence read most significant byte first. -/
def be_value (bytes : List Nat) : Nat := bytes.foldl (fun acc b => acc * 256 + b) 0

/-- The validation of section 4.4 in the words of the specification. -/
def spec_check_data (profile : hw_profile) (data : Option rpc_data) : Nat :=
  if profile.initialised = false then 0x01
  else
    match data with
    | none => 0x10
    | some d =>
      (if d.data1 < profile.int_min ∨ d.data1 > profile.int_max then 0x04 else 0) |||
      (if d.data2_len > profile.size_max then 0x08 else 0) |||
      (if (d.data2_len = 0 ∧ d.data2 ≠ none) ∨ (d.data2_len > 0 ∧ d.data2 = none)
        then 0x10 else 0)

/-- The occupied slots of a table: its first `count` slots. -/
def entries (t : hash_table) : List hash_item := t.table.take t.count

/-- The handler bound to digest `d` in a list of slots: the handler of the
first slot with that digest, `0` when there is none. -/
def lookup : List hash_item → Nat → Nat
  | [], _ => 0
  | e :: es, d => if e.hash_value = d then e.handler else lookup es d

/-- Insertion into a list of slots as the specification words it: replace the
handler in place when the digest is present, otherwise append. -/
def entries_insert : List hash_item → Nat → Nat → List hash_item
  | [], d, h => [{ hash_value := d, handler := h }]
  | e :: es, d, h =>
    if e.hash_value = d then { hash_value := e.hash_value, handler := h } :: es
    else e :: entries_insert es d h

/-- Structural invariant of a table: the array has `capacity` slots, of which
the first `count` are in use, and the capacity is positive. -/
def ht_wf (t : hash_table) : Prop :=
  t.table.length = t.capacity ∧ t.count ≤ t.capacity ∧ 0 < t.capacity

/-- The table obtained from a freshly created one by a sequence of `ht_insert`
calls, given as (name, handler) pairs in call order. -/
def ht_inserts (P : Platform) (ops : List (List Nat × Nat)) : hash_table :=
  ops.foldl (fun t op => ht_insert P t op.1 op.2) ht_create

/-- The handler of the last call in `ops` whose name has digest `d`; `0`
(`NULL`) when there is no such call. -/
def last_binding (P : Platform) (ops : List (List Nat × Nat)) (d : Nat) : Nat :=
  match (ops.filter (fun op => generate_hash P op.1 == d)).getLast? with
  | some op => op.2
  | none => 0

/-- Invariant of every registry: well-formed array, pairwise distinct digests
in the occupied slots, and every occupied slot holds a non-NULL handler and a
digest below the modulus. -/
def reg_inv (t : hash_table) : Prop :=
  ht_wf t ∧ ((entries t).map (·.hash_value)).Nodup ∧
    ∀ e ∈ entries t, e.handler ≠ 0 ∧ e.hash_value < hash_modulo

/-- The server after a sequence of `rpc_register` calls, given as
(name, handler) arguments in call order. -/
def rpc_registers (P : Platform) (srv : Option rpc_server)
    (regs : List (Option (List Nat) × Nat)) : Option rpc_server :=
  regs.foldl (fun s r => (rpc_register P s r.1 r.2).2) srv

/-- Two sample handlers: address 7 returns `{i_in, 0, absent}` (echo), address 8
returns a copy of its input (copy); no other address holds a handler. -/
def example_code : HandlerCode := fun a d =>
  if a = 7 then some { data1 := d.data1, data2_len := 0, data2 := none }
  else if a = 8 then some d
  else none

/-- The bytes of the name "echo". -/
def echo_name : List Nat := [101, 99, 104, 111]

/-- The bytes of the name "copy". -/
def copy_name : List Nat := [99, 111, 112, 121]

/-- The registry after registering "echo" at address 7 and "copy" at address 8. -/
def example_table : hash_table := ht_inserts linux64 [(echo_name, 7), (copy_name, 8)]

/-- The profile negotiated with a peer reporting 4-byte `int` and 8-byte `size_t`. -/
def example_profile : hw_profile :=
  { int_max := 2 ^ 31 - 1, int_min := -(2 ^ 31), size_max := 2 ^ 64 - 1, initialised := true }

/-- The digest of the specification: the polynomial
`sum_{j<k} (b_j - 0x20 + 1) * 97^(k-1-j)` over the integers, reduced modulo
`2^64 - 59`. -/
def spec_digest (name : List Nat) : Int :=
  ((name.enum.map
      (fun jb => ((jb.2 : Int) - 0x20 + 1) * 97 ^ (name.length - 1 - jb.1))).sum) %
    (2 ^ 64 - 59)

/-- Thirteen insertions: twelve distinct one-letter names "A".."L" (the
eleventh forces the table to grow from 10 to 20 slots), then "A" again. -/
def example_ops : List (List Nat × Nat) :=
  (List.range 12).map (fun i => ([65 + i], 100 + i)) ++ [([65], 999)]

/-- A valid ten-character name: ten times the letter `z`. -/
def ten_z : List Nat := List.replicate 10 0x7A

/-- The bytes `socket_send_data` writes for a possibly NULL payload. -/
def opt_wire (o : Option rpc_data) : List Nat :=
  match o with
  | some q => data_wire q
  | none => []

/-- The bytes of the name "nope". -/
def nope_name : List Nat := [110, 111, 112, 101]

/-- Handler code with two misbehaving handlers: address 9 returns `NULL`,
address 10 returns the integer 40000; other addresses as in `example_code`. -/
def example_code_bad : HandlerCode := fun a d =>
  if a = 9 then none
  else if a = 10 then some { data1 := 40000, data2_len := 0, data2 := none }
  else example_code a d

/-- A registry with "echo" bound to address 9 and "copy" bound to address 10. -/
def example_table_bad : hash_table := ht_inserts linux64 [(echo_name, 9), (copy_name, 10)]

/-- The profile negotiated with a peer reporting 2-byte `int` and 2-byte `size_t`. -/
def example_profile16 : hw_profile :=
  { int_max := 32767, int_min := -32768, size_max := 65535, initialised := true }

/-- The registry after registering "echo" and then "copy" with the same
handler address 7. -/
def two_names_table : hash_table := ht_inserts linux64 [(echo_name, 7), (copy_name, 7)]

/-- The input stream starts with a CONNECT packet that ends with END. -/
def starts_with_connect (inp : List Nat) : Bool :=
  match inp with
  | m :: _ :: _ :: e :: _ => m == RPC_MSG_CONNECT && e == RPC_MSG_END
  | _ => false

/-- The states `handle_client(clientfd, srv)` passes through. -/
def handle_client_states (P : Platform) (code : HandlerCode) (clientfd : Sock)
    (srv : rpc_server) : List (hw_profile × Sock) :=
  handle_client_trace P code srv (clientfd.inp.length + 1)
    { int_max := 0, int_min := 0, size_max := 0, initialised := false } clientfd

/-- Whether the bytes the server sends after a CONNECT request let
`cl_handle_proc_connect` run to its end: a first byte RTN_ERROR followed by
an error byte and END, or any other first byte followed by two width bytes
and END. -/
def connect_reply_ok (inp : List Nat) : Bool :=
  match inp with
  | r :: rest =>
    if r = RPC_RTN_ERROR then
      match rest with
      | _ :: e :: _ => e == RPC_MSG_END
      | _ => false
    else
      match rest with
      | _ :: _ :: e :: _ => e == RPC_MSG_END
      | _ => false
  | [] => false

/-- A platform like `linux64` whose `memcpy` copies from the highest address
downwards. -/
def linux64_backward : Platform := { linux64 with memcpy_backward := true }

/-- Three registrations under the one-byte names "a", "b" and "c". -/
def abc_ops : List (List Nat × Nat) := [([97], 7), ([98], 8), ([99], 9)]

/-- An operation on the queue of pending connections: `insert pNode pData` is
`list_insert_tail` with `pNode` the address its `malloc` returns, `pop` is
the read of the head data followed by `list_pop_head`. -/
inductive queue_op where
  | insert (pNode pData : Nat) : queue_op
  | pop : queue_op
deriving DecidableEq, Repr

/-- Runs a sequence of queue operations: the final heap and list and the
values read by the `pop` operations, `none` when an operation dereferences a
pointer that designates no live node. -/
def queue_run : node_heap × list → List queue_op → Option ((node_heap × list) × List Nat)
  | st, [] => some (st, [])
  | st, queue_op.insert pNode pData :: ops =>
    match list_insert_tail st.1 st.2 pNode pData with
    | none => none
    | some st2 => queue_run st2 ops
  | st, queue_op.pop :: ops =>
    match list_pop_head st.1 st.2 with
    | none => none
    | some st2 =>
      (queue_run st2 ops).map (fun r => (r.1, (list_head_data st.1 st.2).toList ++ r.2))

/-- Whether every `malloc` in the sequence returns an address that holds no
live node at that moment, as `malloc` guarantees. -/
def mallocs_fresh : node_heap × list → List queue_op → Bool
  | _, [] => true
  | st, queue_op.insert pNode pData :: ops =>
    (st.1 pNode).isNone &&
      match list_insert_tail st.1 st.2 pNode pData with
      | none => true
      | some st2 => mallocs_fresh st2 ops
  | st, queue_op.pop :: ops =>
    match list_pop_head st.1 st.2 with
    | none => true
    | some st2 => mallocs_fresh st2 ops

/-- The queue as the specification sees it: the contents after the
operations and the values delivered by the `pop` operations. -/
def fifo_run : List Nat → List queue_op → List Nat × List Nat
  | q, [] => (q, [])
  | q, queue_op.insert _ pData :: ops => fifo_run (q ++ [pData]) ops
  | [], queue_op.pop :: ops => fifo_run [] ops
  | x :: q, queue_op.pop :: ops => ((fifo_run q ops).1, x :: (fifo_run q ops).2)

/-- The values passed to `list_insert_tail`, in call order. -/
def inserted : List queue_op → List Nat
  | [] => []
  | queue_op.insert _ pData :: ops => pData :: inserted ops
  | queue_op.pop :: ops => inserted ops

/-- The nodes `vals` (address and data, head first) are linked from `start`
to `last` on the heap, the first of them having `prev` as its back pointer. -/
def chain (heap : node_heap) : Option Nat → List (Nat × Nat) → Option Nat → Option Nat → Prop
  | prev, [], start, last => start = none ∧ last = prev
  | prev, (a, v) :: rest, start, last =>
    start = some a ∧
      ∃ nx, heap a = some { data := v, prev := prev, next := nx } ∧
        chain heap (some a) rest nx last

/-- The list on the heap holds exactly the nodes `vals`, head first, at
pairwise distinct addresses. -/
def list_repr (heap : node_heap) (l : list) (vals : List (Nat × Nat)) : Prop :=
  chain heap none vals l.head l.tail ∧ (vals.map (·.1)).Nodup

/-- The heap without any live node. -/
def empty_heap : node_heap := fun _ => none

/-- A sample run of the queue: two inserts, a pop, an insert at the address
released by that pop, and three more pops, the last on the empty list. -/
def example_queue_ops : List queue_op :=
  [queue_op.insert 1 5, queue_op.insert 2 6, queue_op.pop, queue_op.insert 1 7,
   queue_op.pop, queue_op.pop, queue_op.pop]

/-- An execution without spurious wake-ups in which a signalled worker finds
the list empty: worker 0 waits on the empty list; the main thread accepts
descriptor 5, inserts it, signals worker 0 and unlocks; worker 1 locks the
mutex first and takes the descriptor; worker 0 then returns from
`pthread_cond_wait` and reads the head of the empty list. -/
def stolen_wakeup : List dispatcher_event :=
  [dispatcher_event.worker 0, dispatcher_event.worker 0,
   dispatcher_event.main 5 0, dispatcher_event.main 5 0, dispatcher_event.main 5 0,
   dispatcher_event.main 5 0, dispatcher_event.main 5 0,
   dispatcher_event.worker 1, dispatcher_event.worker 1, dispatcher_event.worker 1,
   dispatcher_event.worker 1,
   dispatcher_event.worker 0, dispatcher_event.worker 0]

/-- Whether a worker at this statement holds the mutex. -/
def worker_pc.holds : worker_pc → Bool
  | worker_pc.test => true
  | worker_pc.dequeue => true
  | worker_pc.unlock _ => true
  | worker_pc.null_deref => true
  | _ => false

/-- Whether the main thread at this statement holds the mutex. -/
def main_pc.holds : main_pc → Bool
  | main_pc.insert _ => true
  | main_pc.signal => true
  | main_pc.unlock => true
  | _ => false

/-- The mutex is owned by exactly the thread that stands between its lock
and its unlock. -/
def mutex_inv (s : dispatcher) : Prop :=
  (∀ j pc, s.workers.get? j = some pc → (pc.holds = true ↔ s.mutex = some (j + 1))) ∧
  (s.main.holds = true ↔ s.mutex = some 0)

/-- Whether the event is a spurious wake-up. -/
def dispatcher_event.is_spurious : dispatcher_event → Bool
  | dispatcher_event.spurious _ => true
  | _ => false

/-- The name read as a number in base 97, most significant byte first, with
the digit `b - 0x20 + 1` for the byte `b`, computed without any reduction. -/
def digest_base97 (name : List Nat) : Nat :=
  name.foldl (fun acc b => acc * 97 + (b - 0x20 + 1)) 0

/-- Nine times the letter `z`. -/
def nine_z : List Nat := List.replicate 9 0x7A

/-- Eight times the letter `z`, then `y`. -/
def eight_z_y : List Nat := List.replicate 8 0x7A ++ [0x79]

/-- A transport that hands over 1, 2, 3, 1, 2, 3, ... bytes per call. -/
def example_schedule : Nat → recv_event := fun i => recv_event.chunk (i % 3 + 1)

/-- A `malloc` that refuses every request above `PTRDIFF_MAX` and serves the
others. -/
def malloc_null_ptrdiff : Nat → Bool := fun n => decide (2 ^ 63 ≤ n)

/-- A `malloc` that has no memory left and refuses every request. -/
def malloc_null_exhausted : Nat → Bool := fun _ => true

/-- A payload of 20 buffer bytes that begin with the digest of "copy" and the
END byte. -/
def example_payload_digest : rpc_data :=
  { data1 := 1, data2_len := 20,
    data2 := some (hton64 (generate_hash linux64 copy_name) ++
      [0xED, 0, 0, 0, 0, 0, 0, 0, 0, 0, 0, 0]) }

/-! ## Properties -/

/-! ### Integer conversions and socket wrappers -/

theorem ntoh64_hton64 (x : Nat) (h : x < 2 ^ 64) : ntoh64 (hton64 x) = x := by
  simp only [ntoh64, hton64, List.foldl]
  omega

theorem hton64_length (x : Nat) : (hton64 x).length = 8 := by
  simp [hton64]

theorem to_int64_to_u64 (z : Int) (h1 : INT64_MIN ≤ z) (h2 : z ≤ INT64_MAX) :
    to_int64 (to_u64 z) = z := by
  simp only [to_int64, to_u64, INT64_MIN, INT64_MAX] at *
  split <;> omega

theorem to_u64_lt (z : Int) : to_u64 z < 2 ^ 64 := by
  simp only [to_u64]
  omega

theorem socket_send_ok (fd : Sock) (buff : List Nat) (h : buff.length ≤ fd.wcap) :
    socket_send fd buff =
      (true, { inp := fd.inp, out := fd.out ++ buff, wcap := fd.wcap - buff.length }) := by
  simp [socket_send, h]

theorem socket_recv_append (a rest o : List Nat) (c n : Nat) (h : n = a.length) :
    socket_recv { inp := a ++ rest, out := o, wcap := c } n =
      (true, a, { inp := rest, out := o, wcap := c }) := by
  subst h
  simp [socket_recv]

theorem gen_data_flags_some (p : rpc_data) :
    gen_data_flags (some p) = if has_buff p then 0x81 else 0x01 := by
  unfold gen_data_flags has_buff
  cases hb : p.data2 <;> by_cases hn : p.data2_len = 0 <;>
    simp [hn, hb, RPC_DATA_NONE, RPC_DATA_INT, RPC_DATA_BUFF]

theorem socket_send_data_ok (fd : Sock) (p : rpc_data)
    (hcap : (data_wire p).length ≤ fd.wcap) :
    socket_send_data fd (some p) =
      (true, { inp := fd.inp, out := fd.out ++ data_wire p,
               wcap := fd.wcap - (data_wire p).length }) := by
  unfold socket_send_data
  simp only [gen_data_flags_some]
  unfold data_wire at hcap ⊢
  by_cases hb : has_buff p = true
  · simp only [hb, if_true, List.length_append, List.length_cons, List.length_nil,
      hton64_length] at hcap ⊢
    rw [socket_send_ok _ _ (by simp; omega)]
    simp only [RPC_DATA_INT, RPC_DATA_BUFF]
    rw [if_pos (by decide)]
    rw [socket_send_ok _ _ (by simp [hton64_length]; omega)]
    simp only []
    rw [if_pos (by decide)]
    rw [socket_send_ok _ _ (by simp [hton64_length]; omega)]
    simp only []
    rw [socket_send_ok _ _ (by simp only [hton64_length, List.length_cons, List.length_nil]; omega)]
    simp [hton64_length, Nat.sub_sub, List.append_assoc]
    omega
  · simp only [hb, Bool.false_eq_true, if_false, List.length_append, List.length_cons,
      List.length_nil, hton64_length, List.append_nil] at hcap ⊢
    rw [socket_send_ok _ _ (by simp; omega)]
    simp only [RPC_DATA_INT, RPC_DATA_BUFF]
    rw [if_pos (by decide)]
    rw [socket_send_ok _ _ (by simp [hton64_length]; omega)]
    simp only []
    rw [if_neg (by decide)]
    simp [hton64_length, Nat.sub_sub, List.append_assoc]

theorem socket_recv_data_wire (P : Platform) (p : rpc_data) (rest o : List Nat) (c : Nat)
    (h1 : INT64_MIN ≤ p.data1) (h2 : p.data1 ≤ INT64_MAX) (h3 : p.data2_len ≤ UINT64_MAX)
    (h4 : p.data2_len ≤ (p.data2.getD []).length) :
    socket_recv_data P { inp := data_wire p ++ rest, out := o, wcap := c } =
      (true, DataPtr.live (decoded p), { inp := rest, out := o, wcap := c }) := by
  have hn : p.data2_len < 2 ^ 64 := by simp only [UINT64_MAX] at h3; omega
  unfold socket_recv_data data_wire decoded
  by_cases hb : has_buff p = true
  · have hn0 : p.data2_len ≠ 0 := by
      simp only [has_buff, Bool.and_eq_true, decide_eq_true_eq] at hb
      exact hb.1
    simp only [hb, if_true, List.append_assoc]
    rw [socket_recv_append _ _ _ _ _ (by simp)]
    simp only [List.headD_cons, RPC_DATA_INT, RPC_DATA_BUFF]
    rw [if_pos (by decide)]
    rw [socket_recv_append _ _ _ _ _ (by simp [hton64_length])]
    simp only []
    rw [if_pos (by decide)]
    rw [socket_recv_append _ _ _ _ _ (by simp [hton64_length])]
    simp only [ntoh64_hton64 _ hn]
    rw [socket_recv_append _ _ _ _ _ (by simp [List.length_take]; omega)]
    simp [hn0, ntoh64_hton64 _ (to_u64_lt _), to_int64_to_u64 _ h1 h2]
  · simp only [hb, Bool.false_eq_true, if_false, List.append_assoc, List.append_nil]
    rw [socket_recv_append _ _ _ _ _ (by simp)]
    simp only [List.headD_cons, RPC_DATA_INT, RPC_DATA_BUFF]
    rw [if_pos (by decide)]
    rw [socket_recv_append _ _ _ _ _ (by simp [hton64_length])]
    simp only []
    rw [if_neg (by decide)]
    simp [ntoh64_hton64 _ (to_u64_lt _), to_int64_to_u64 _ h1 h2]

theorem hton64_lt (x b : Nat) (hb : b ∈ hton64 x) : b < 256 := by
  simp only [hton64, List.mem_cons, List.mem_singleton, List.not_mem_nil, or_false] at hb
  omega

theorem be_value_hton64 (x : Nat) : be_value (hton64 x) = x % 2 ^ 64 := by
  simp only [be_value, hton64, List.foldl]
  omega

theorem decoded_eq (p : rpc_data) (hwf : p.wf)
    (hshape : ¬ ((p.data2_len = 0 ∧ p.data2 ≠ none) ∨ (p.data2_len > 0 ∧ p.data2 = none))) :
    decoded p = p := by
  obtain ⟨i, n, b⟩ := p
  simp only [rpc_data.wf] at hwf
  simp only [decoded, has_buff]
  cases b with
  | none =>
    have : n = 0 := by simp at hshape; omega
    simp [this]
  | some b =>
    have hl : b.length = n := hwf.2.2.2
    subst hl
    have hb : b ≠ [] := by simpa using hshape
    simp [hb]

theorem check_data_eq_spec (profile : hw_profile) (data : Option rpc_data) :
    check_data profile data = spec_check_data profile data := by
  unfold check_data spec_check_data
  cases hi : profile.initialised
  · simp [RPC_ERROR_CXN_INVALID]
  · cases data with
    | none => simp [RPC_ERROR_DATA_INVALID]
    | some d =>
      simp only [RPC_ERROR_NONE, RPC_ERROR_DATA_INT_OVF, RPC_ERROR_DATA_INVALID,
        RPC_ERROR_DATA_BUFF_OVF]
      by_cases h1 : d.data1 > profile.int_max ∨ d.data1 < profile.int_min <;>
      by_cases h2 : (d.data2_len = 0 ∧ d.data2 ≠ none) ∨ (d.data2_len > 0 ∧ d.data2 = none) <;>
      by_cases h3 : d.data2_len > profile.size_max <;>
      simp [h1, h2, h3, or_comm]

theorem check_data_zero_iff (profile : hw_profile) (data : Option rpc_data) :
    check_data profile data = 0 ↔
      profile.initialised = true ∧
        ∃ d, data = some d ∧ profile.int_min ≤ d.data1 ∧ d.data1 ≤ profile.int_max ∧
          d.data2_len ≤ profile.size_max ∧
          ¬ ((d.data2_len = 0 ∧ d.data2 ≠ none) ∨ (d.data2_len > 0 ∧ d.data2 = none)) := by
  rw [check_data_eq_spec]
  unfold spec_check_data
  cases hi : profile.initialised
  · simp
  · cases data with
    | none => simp
    | some d =>
      by_cases h1 : d.data1 < profile.int_min ∨ d.data1 > profile.int_max <;>
      by_cases h2 : (d.data2_len = 0 ∧ d.data2 ≠ none) ∨ (d.data2_len > 0 ∧ d.data2 = none) <;>
      by_cases h3 : d.data2_len > profile.size_max <;>
      simp [h1, h2, h3] <;>
        first
        | omega
        | (simp only [gt_iff_lt, not_or, not_lt, not_and, ne_eq] at h1 h2 h3; tauto)

/-- Claim C4. The function `check_data` computes exactly the validation of the
specification: `CXN_INVALID` (0x01) alone for a profile that is not
initialised, otherwise `DATA_INVALID` (0x10) alone for a missing payload,
otherwise the bitwise OR of `DATA_INT_OVF` (0x04, set iff `i` lies outside
`[int_min, int_max]`), `DATA_BUFF_OVF` (0x08, set iff `n > size_max`) and
`DATA_INVALID` (0x10, set iff length and buffer presence disagree). The result
is 0 iff the profile is initialised and the payload is present, in range and
shape-consistent. -/
theorem c4_check_data_spec (profile : hw_profile) (data : Option rpc_data) :
    check_data profile data = spec_check_data profile data ∧
    (check_data profile data = 0 ↔
      profile.initialised = true ∧
        ∃ d, data = some d ∧ profile.int_min ≤ d.data1 ∧ d.data1 ≤ profile.int_max ∧
          d.data2_len ≤ profile.size_max ∧
          ¬ ((d.data2_len = 0 ∧ d.data2 ≠ none) ∨ (d.data2_len > 0 ∧ d.data2 = none))) :=
  ⟨check_data_eq_spec profile data, check_data_zero_iff profile data⟩

theorem data_wire_length (p : rpc_data) (h : p.data2_len ≤ (p.data2.getD []).length) :
    (data_wire p).length = if has_buff p then 17 + p.data2_len else 9 := by
  unfold data_wire
  by_cases hb : has_buff p = true
  · simp [hb, hton64_length, List.length_take]
    omega
  · simp [hb, hton64_length]

theorem wf_buffer_le (p : rpc_data) (hwf : p.wf) (hb : has_buff p = true) :
    p.data2_len ≤ (p.data2.getD []).length := by
  obtain ⟨i, n, b⟩ := p
  cases b with
  | none => simp [has_buff] at hb
  | some b =>
    have hl : b.length = n := hwf.2.2.2
    simp [hl]

theorem has_buff_iff (p : rpc_data) :
    has_buff p = true ↔ 0 < p.data2_len ∧ p.data2 ≠ none := by
  cases h : p.data2 <;> simp [has_buff, h, Nat.pos_iff_ne_zero]

/-- Claim C2. Decode after encode: for a valid payload `p` (`n = 0` without
buffer, or `n > 0` with a buffer of exactly `n` bytes) and a sender whose
peer accepts the bytes, `socket_send_data` succeeds and appends some bytes
`w` to the stream; `socket_recv_data` applied to a stream that starts with
`w` succeeds, consumes exactly `w` (whatever follows is left unread) and
yields a live payload equal to `p`. -/
theorem c2_payload_decode_encode (P : Platform) (p : rpc_data) (hwf : p.wf)
    (hvalid : (p.data2_len = 0 ∧ p.data2 = none) ∨
      (p.data2_len > 0 ∧ ∃ b, p.data2 = some b ∧ b.length = p.data2_len))
    (snd rcv : Sock) (rest : List Nat) (hcap : 17 + p.data2_len ≤ snd.wcap) :
    ∃ w : List Nat,
      (socket_send_data snd (some p)).1 = true ∧
      (socket_send_data snd (some p)).2.out = snd.out ++ w ∧
      socket_recv_data P { rcv with inp := w ++ rest } =
        (true, DataPtr.live p, { rcv with inp := rest }) := by
  have hshape :
      ¬ ((p.data2_len = 0 ∧ p.data2 ≠ none) ∨ (p.data2_len > 0 ∧ p.data2 = none)) := by
    rcases hvalid with ⟨h0, hnone⟩ | ⟨hpos, b, hb, _⟩
    · simp [h0, hnone]
    · simp [hb]; omega
  have hle : p.data2_len ≤ (p.data2.getD []).length := by
    rcases hvalid with ⟨h0, _⟩ | ⟨_, b, hb, hl⟩
    · omega
    · simp [hb, hl]
  have hlen := data_wire_length p hle
  have hcap2 : (data_wire p).length ≤ snd.wcap := by
    rw [hlen]; split <;> omega
  refine ⟨data_wire p, ?_, ?_, ?_⟩
  · rw [socket_send_data_ok snd p hcap2]
  · rw [socket_send_data_ok snd p hcap2]
  · have := socket_recv_data_wire P p rest rcv.out rcv.wcap hwf.1 hwf.2.1 hwf.2.2.1 hle
    rw [decoded_eq p hwf hshape] at this
    exact this

/-- Claim C3. Wire layout: for a payload object `p` and a peer that accepts the
bytes, `socket_send_data` succeeds and appends exactly: the flags byte 0x01,
with bit 0x80 also set iff `n > 0` and the buffer is present; then eight
bytes that read big-endian give `i` modulo `2^64` (two-complement); then, iff
bit 0x80 is set, eight bytes that read big-endian give `n`, followed by the
buffer, which has `n` bytes. That is 9 bytes without a buffer and `17 + n`
bytes with one. -/
theorem c3_payload_wire_layout (fd : Sock) (p : rpc_data) (hwf : p.wf)
    (hcap : (if 0 < p.data2_len ∧ p.data2 ≠ none then 17 + p.data2_len else 9) ≤ fd.wcap) :
    ∃ ibytes nbytes : List Nat,
      ibytes.length = 8 ∧ (∀ b ∈ ibytes, b < 256) ∧
      (be_value ibytes : Int) = p.data1 % 2 ^ 64 ∧
      nbytes.length = 8 ∧ (∀ b ∈ nbytes, b < 256) ∧ be_value nbytes = p.data2_len ∧
      (socket_send_data fd (some p)).1 = true ∧
      (socket_send_data fd (some p)).2.out = fd.out ++
        (if 0 < p.data2_len ∧ p.data2 ≠ none then
          [0x01 ||| 0x80] ++ ibytes ++ nbytes ++ p.data2.getD []
        else [0x01] ++ ibytes) ∧
      ((socket_send_data fd (some p)).2.out.length = fd.out.length +
        (if 0 < p.data2_len ∧ p.data2 ≠ none then 17 + p.data2_len else 9)) ∧
      ((p.data2.getD []).length = if p.data2 ≠ none then p.data2_len else 0) := by
  have hn : p.data2_len < 2 ^ 64 := by
    have := hwf.2.2.1
    simp only [UINT64_MAX] at this
    omega
  have hi : (be_value (hton64 (to_u64 p.data1)) : Int) = p.data1 % 2 ^ 64 := by
    rw [be_value_hton64, Nat.mod_eq_of_lt (to_u64_lt _)]
    simp only [to_u64]
    omega
  have hbl : (p.data2.getD []).length = if p.data2 ≠ none then p.data2_len else 0 := by
    obtain ⟨i, n, b⟩ := p
    cases b with
    | none => simp
    | some b =>
      have hl : b.length = n := hwf.2.2.2
      simp [hl]
  have hwire : data_wire p =
      (if 0 < p.data2_len ∧ p.data2 ≠ none then
          [0x01 ||| 0x80] ++ hton64 (to_u64 p.data1) ++ hton64 p.data2_len ++ p.data2.getD []
        else [0x01] ++ hton64 (to_u64 p.data1)) := by
    unfold data_wire
    by_cases hb : has_buff p = true
    · have hc := (has_buff_iff p).1 hb
      have htake : List.take p.data2_len (p.data2.getD []) = p.data2.getD [] := by
        apply List.take_of_length_le
        rw [hbl, if_pos hc.2]
      simp [hb, hc, htake]
    · have hc : ¬ (0 < p.data2_len ∧ p.data2 ≠ none) := fun h => hb ((has_buff_iff p).2 h)
      simp [hb, hc]
  have hlen : (data_wire p).length =
      if 0 < p.data2_len ∧ p.data2 ≠ none then 17 + p.data2_len else 9 := by
    rw [hwire]
    by_cases hc : 0 < p.data2_len ∧ p.data2 ≠ none
    · simp only [if_pos hc, List.length_append, List.length_cons, List.length_nil,
        hton64_length, hbl, if_pos hc.2]
    · simp only [if_neg hc, List.length_append, List.length_cons, List.length_nil,
        hton64_length]
  have hsend := socket_send_data_ok fd p (by rw [hlen]; exact hcap)
  refine ⟨hton64 (to_u64 p.data1), hton64 p.data2_len, hton64_length _, hton64_lt _, hi,
    hton64_length _, hton64_lt _, ?_, ?_, ?_, ?_, hbl⟩
  · rw [be_value_hton64, Nat.mod_eq_of_lt hn]
  · rw [hsend]
  · rw [hsend, ← hwire]
  · rw [hsend]
    simp only [List.length_append, hlen]

theorem c2_payload_decode_encode_witness :
    (∃ w : List Nat,
      (socket_send_data ⟨[], [], 17⟩ (some ⟨0, 0, none⟩)).1 = true ∧
      (socket_send_data ⟨[], [], 17⟩ (some ⟨0, 0, none⟩)).2.out = [] ++ w ∧
      socket_recv_data linux64 { (⟨[], [], 0⟩ : Sock) with inp := w ++ [] } =
        (true, DataPtr.live ⟨0, 0, none⟩, { (⟨[], [], 0⟩ : Sock) with inp := [] })) ∧
    (∃ w : List Nat,
      (socket_send_data ⟨[], [], 17⟩ (some ⟨-2 ^ 63, 0, none⟩)).1 = true ∧
      (socket_send_data ⟨[], [], 17⟩ (some ⟨-2 ^ 63, 0, none⟩)).2.out = [] ++ w ∧
      socket_recv_data linux64 { (⟨[], [], 0⟩ : Sock) with inp := w ++ [0xED] } =
        (true, DataPtr.live ⟨-2 ^ 63, 0, none⟩, { (⟨[], [], 0⟩ : Sock) with inp := [0xED] })) ∧
    (∃ w : List Nat,
      (socket_send_data ⟨[], [], 20⟩ (some ⟨0, 3, some [0, 255, 7]⟩)).1 = true ∧
      (socket_send_data ⟨[], [], 20⟩ (some ⟨0, 3, some [0, 255, 7]⟩)).2.out = [] ++ w ∧
      socket_recv_data linux64 { (⟨[], [], 0⟩ : Sock) with inp := w ++ [] } =
        (true, DataPtr.live ⟨0, 3, some [0, 255, 7]⟩, { (⟨[], [], 0⟩ : Sock) with inp := [] })) :=
  ⟨c2_payload_decode_encode linux64 ⟨0, 0, none⟩ (by decide) (Or.inl ⟨rfl, rfl⟩)
      ⟨[], [], 17⟩ ⟨[], [], 0⟩ [] (by decide),
   c2_payload_decode_encode linux64 ⟨-2 ^ 63, 0, none⟩ (by decide) (Or.inl ⟨rfl, rfl⟩)
      ⟨[], [], 17⟩ ⟨[], [], 0⟩ [0xED] (by decide),
   c2_payload_decode_encode linux64 ⟨0, 3, some [0, 255, 7]⟩ (by decide)
      (Or.inr ⟨by decide, [0, 255, 7], rfl, rfl⟩) ⟨[], [], 20⟩ ⟨[], [], 0⟩ [] (by decide)⟩

theorem c3_payload_wire_layout_witness :
    ∃ ibytes nbytes : List Nat,
      ibytes.length = 8 ∧ (∀ b ∈ ibytes, b < 256) ∧
      (be_value ibytes : Int) = (-2 : Int) % 2 ^ 64 ∧
      nbytes.length = 8 ∧ (∀ b ∈ nbytes, b < 256) ∧ be_value nbytes = 5 ∧
      (socket_send_data ⟨[], [9], 22⟩ (some ⟨-2, 5, some [104, 101, 108, 108, 111]⟩)).1 = true ∧
      (socket_send_data ⟨[], [9], 22⟩ (some ⟨-2, 5, some [104, 101, 108, 108, 111]⟩)).2.out =
        [9] ++ (if 0 < 5 ∧ some [104, 101, 108, 108, 111] ≠ none then
          [0x01 ||| 0x80] ++ ibytes ++ nbytes ++ (some [104, 101, 108, 108, 111]).getD []
        else [0x01] ++ ibytes) ∧
      ((socket_send_data ⟨[], [9], 22⟩
          (some ⟨-2, 5, some [104, 101, 108, 108, 111]⟩)).2.out.length =
        [9].length + (if 0 < 5 ∧ some [104, 101, 108, 108, 111] ≠ none then 17 + 5 else 9)) ∧
      (((some [104, 101, 108, 108, 111]).getD []).length =
        if some [104, 101, 108, 108, 111] ≠ none then 5 else 0) :=
  c3_payload_wire_layout ⟨[], [9], 22⟩ ⟨-2, 5, some [104, 101, 108, 108, 111]⟩
    (by decide) (by decide)

/-! ### Hardware profile -/

theorem MAX_SINT_val (P : Platform) (w : Nat) (h1 : 1 ≤ w) (h8 : w ≤ 8) :
    to_int64 (MAX_SINT P w) = 2 ^ (8 * w - 1) - 1 := by
  interval_cases w <;> simp [MAX_SINT, MAX_SINT_shift, shl_1ull, to_int64]

theorem MAX_UINT_val (P : Platform) (s : Nat) (h1 : 1 ≤ s) (h8 : s ≤ 8) :
    MAX_UINT P s = 2 ^ (8 * s) - 1 := by
  interval_cases s <;> simp [MAX_UINT, MAX_UINT_shift, shl_1ull, UINT64_MAX]

theorem int_min_val (w : Nat) (h1 : 1 ≤ w) (h8 : w ≤ 8) :
    to_int64 (to_u64 (-(2 ^ (8 * w - 1) - 1) - 1)) = -(2 ^ (8 * w - 1) : Int) := by
  interval_cases w <;> simp [to_int64, to_u64]

theorem socket_recv_one (a : Nat) (rest o : List Nat) (c : Nat) :
    socket_recv { inp := a :: rest, out := o, wcap := c } 1 =
      (true, [a], { inp := rest, out := o, wcap := c }) := by
  simp [socket_recv]

theorem socket_recv_nil (o : List Nat) (c n : Nat) (h : 0 < n) :
    socket_recv { inp := [], out := o, wcap := c } n =
      (false, [], { inp := [], out := o, wcap := c }) := by
  simp [socket_recv]
  omega

theorem svr_connect_profile (P : Platform) (fd : Sock) (prof : hw_profile) (w s : Nat)
    (rest : List Nat) (h : fd.inp = w :: s :: rest) :
    ∃ init, (svr_handle_msg_connect P fd prof).2.1 =
      { int_max := to_int64 (MAX_SINT P w),
        int_min := to_int64 (to_u64 (-(to_int64 (MAX_SINT P w)) - 1)),
        size_max := MAX_UINT P s, initialised := init } := by
  obtain ⟨inp, out, wcap⟩ := fd
  simp only at h
  subst h
  unfold svr_handle_msg_connect
  rw [socket_recv_one]
  dsimp only
  rw [socket_recv_one]
  dsimp only
  simp only [List.headD_cons]
  cases rest with
  | nil =>
    rw [socket_recv_nil _ _ _ Nat.one_pos]
    exact ⟨_, rfl⟩
  | cons t rest =>
    rw [socket_recv_one]
    dsimp only
    repeat' split
    all_goals exact ⟨_, rfl⟩

theorem cl_connect_profile (P : Platform) (fd : Sock) (prof : hw_profile) (r w s : Nat)
    (rest : List Nat) (h : fd.inp = r :: w :: s :: rest) (hr : r ≠ RPC_RTN_ERROR)
    (hcap : 4 ≤ fd.wcap) :
    ∃ b fd1, cl_handle_proc_connect P fd prof = (b,
      { int_max := to_int64 (MAX_SINT P w),
        int_min := to_int64 (to_u64 (-(to_int64 (MAX_SINT P w)) - 1)),
        size_max := MAX_UINT P s, initialised := true }, fd1) := by
  obtain ⟨inp, out, wcap⟩ := fd
  simp only at h hcap
  subst h
  unfold cl_handle_proc_connect
  rw [socket_send_ok _ _ (by simp; omega)]
  dsimp only
  rw [socket_send_ok _ _ (by simp; omega)]
  dsimp only
  rw [socket_send_ok _ _ (by simp; omega)]
  dsimp only
  rw [socket_send_ok _ _ (by simp; omega)]
  dsimp only
  rw [socket_recv_one]
  dsimp only
  simp only [List.headD_cons, hr, if_false]
  rw [socket_recv_one]
  dsimp only
  rw [socket_recv_one]
  dsimp only
  simp only [List.headD_cons]
  cases rest with
  | nil =>
    rw [socket_recv_nil _ _ _ Nat.one_pos]
    exact ⟨_, _, rfl⟩
  | cons t rest =>
    rw [socket_recv_one]
    dsimp only
    split
    all_goals exact ⟨_, _, rfl⟩

/-- Claim C5. Hardware profile arithmetic: for a reported integer width `w`
with `1 ≤ w ≤ 8` and a reported size width `s` with `1 ≤ s ≤ 8`, the profile
left by the server CONNECT handler (after it has read the two width bytes,
whatever follows) and the profile left by the client CONNECT procedure (on a
reply `RTN_SUCCESS | w | s | ...`) have `int_max = 2^(8w-1) - 1`,
`int_min = -2^(8w-1)` and `size_max = 2^(8s) - 1`, which for `s = 8` is the
maximum unsigned 64-bit value; the shift amounts `8w - 1` and, when a shift is
evaluated (`s < 8`), `8s` stay within `0..63`. -/
theorem c5_profile_arithmetic (P : Platform) (w s : Nat)
    (hw1 : 1 ≤ w) (hw8 : w ≤ 8) (hs1 : 1 ≤ s) (hs8 : s ≤ 8) :
    (∀ (fd : Sock) (prof : hw_profile) (rest : List Nat), fd.inp = w :: s :: rest →
      (svr_handle_msg_connect P fd prof).2.1.int_max = 2 ^ (8 * w - 1) - 1 ∧
      (svr_handle_msg_connect P fd prof).2.1.int_min = -(2 ^ (8 * w - 1)) ∧
      (svr_handle_msg_connect P fd prof).2.1.size_max = 2 ^ (8 * s) - 1) ∧
    (∀ (fd : Sock) (prof : hw_profile) (rest : List Nat), 4 ≤ fd.wcap →
      fd.inp = RPC_RTN_SUCCESS :: w :: s :: rest →
      (cl_handle_proc_connect P fd prof).2.1.int_max = 2 ^ (8 * w - 1) - 1 ∧
      (cl_handle_proc_connect P fd prof).2.1.int_min = -(2 ^ (8 * w - 1)) ∧
      (cl_handle_proc_connect P fd prof).2.1.size_max = 2 ^ (8 * s) - 1 ∧
      (cl_handle_proc_connect P fd prof).2.1.initialised = true) ∧
    (s = 8 → 2 ^ (8 * s) - 1 = UINT64_MAX) ∧
    (0 ≤ MAX_SINT_shift w ∧ MAX_SINT_shift w ≤ 63) ∧
    (s < 8 → 0 ≤ MAX_UINT_shift s ∧ MAX_UINT_shift s ≤ 63) := by
  have hmax := MAX_SINT_val P w hw1 hw8
  have hmin := int_min_val w hw1 hw8
  have hsz := MAX_UINT_val P s hs1 hs8
  refine ⟨?_, ?_, ?_, ?_, ?_⟩
  · intro fd prof rest h
    obtain ⟨init, hp⟩ := svr_connect_profile P fd prof w s rest h
    rw [hp]
    simp only [hmax, hmin, hsz, and_self]
  · intro fd prof rest hcap h
    obtain ⟨b, fd1, hp⟩ := cl_connect_profile P fd prof RPC_RTN_SUCCESS w s rest h
      (by decide) hcap
    rw [hp]
    simp only [hmax, hmin, hsz, and_self]
  · intro h8
    subst h8
    rfl
  · simp only [MAX_SINT_shift]
    omega
  · intro _
    simp only [MAX_UINT_shift]
    omega

theorem c5_profile_arithmetic_witness :
    (∀ (fd : Sock) (prof : hw_profile) (rest : List Nat), fd.inp = 2 :: 8 :: rest →
      (svr_handle_msg_connect linux64 fd prof).2.1.int_max = 2 ^ (8 * 2 - 1) - 1 ∧
      (svr_handle_msg_connect linux64 fd prof).2.1.int_min = -(2 ^ (8 * 2 - 1)) ∧
      (svr_handle_msg_connect linux64 fd prof).2.1.size_max = 2 ^ (8 * 8) - 1) ∧
    (∀ (fd : Sock) (prof : hw_profile) (rest : List Nat), 4 ≤ fd.wcap →
      fd.inp = RPC_RTN_SUCCESS :: 2 :: 8 :: rest →
      (cl_handle_proc_connect linux64 fd prof).2.1.int_max = 2 ^ (8 * 2 - 1) - 1 ∧
      (cl_handle_proc_connect linux64 fd prof).2.1.int_min = -(2 ^ (8 * 2 - 1)) ∧
      (cl_handle_proc_connect linux64 fd prof).2.1.size_max = 2 ^ (8 * 8) - 1 ∧
      (cl_handle_proc_connect linux64 fd prof).2.1.initialised = true) ∧
    (8 = 8 → 2 ^ (8 * 8) - 1 = UINT64_MAX) ∧
    (0 ≤ MAX_SINT_shift 2 ∧ MAX_SINT_shift 2 ≤ 63) ∧
    (8 < 8 → 0 ≤ MAX_UINT_shift 8 ∧ MAX_UINT_shift 8 ≤ 63) :=
  c5_profile_arithmetic linux64 2 8 (by decide) (by decide) (by decide) (by decide)

/-! ### Registry -/

theorem ht_loop_ge (p : hash_item → Bool) (l : List hash_item) (k i : Nat)
    (h : ht_loop p l k = some i) : k ≤ i := by
  induction l generalizing k with
  | nil => simp [ht_loop] at h
  | cons e es ih =>
    simp only [ht_loop] at h
    split at h
    · simp at h; omega
    · have := ih (k + 1) h; omega

theorem ht_loop_lt (p : hash_item → Bool) (l : List hash_item) (k i : Nat)
    (h : ht_loop p l k = some i) : i < k + l.length := by
  induction l generalizing k with
  | nil => simp [ht_loop] at h
  | cons e es ih =>
    simp only [ht_loop] at h
    split at h
    · simp at h; simp; omega
    · have := ih (k + 1) h; simp; omega

theorem ht_loop_none_iff (p : hash_item → Bool) (l : List hash_item) (k : Nat) :
    ht_loop p l k = none ↔ ∀ x ∈ l, p x = false := by
  induction l generalizing k with
  | nil => simp [ht_loop]
  | cons e es ih =>
    simp only [ht_loop]
    split
    · rename_i hp
      simp [hp]
    · rename_i hp
      simp [hp, ih]

theorem ht_loop_shift (p : hash_item → Bool) (l : List hash_item) (k : Nat) :
    ht_loop p l (k + 1) = (ht_loop p l k).map (· + 1) := by
  induction l generalizing k with
  | nil => simp [ht_loop]
  | cons e es ih =>
    simp only [ht_loop]
    split
    · simp
    · exact ih (k + 1)

/-- The scan from index 0 finds index `i` exactly when slot `i` is the first one satisfying `p`. -/
theorem ht_loop_some_iff (p : hash_item → Bool) (l : List hash_item) (i : Nat) :
    ht_loop p l 0 = some i ↔
      i < l.length ∧ p (l.getD i hash_item.zero) = true ∧
        ∀ j, j < i → p (l.getD j hash_item.zero) = false := by
  induction l generalizing i with
  | nil => simp [ht_loop]
  | cons e es ih =>
    simp only [ht_loop]
    by_cases hp : p e = true
    · simp only [hp, if_true, Option.some.injEq]
      constructor
      · intro h
        subst h
        simp [hp]
      · rintro ⟨_, _, h3⟩
        cases i with
        | zero => rfl
        | succ i =>
          have := h3 0 (by omega)
          simp [hp] at this
    · simp only [hp, Bool.false_eq_true, if_false]
      rw [ht_loop_shift]
      cases i with
      | zero =>
        simp [hp]
      | succ i =>
        simp only [Option.map_eq_some', Nat.add_right_cancel_iff, exists_eq_right,
          List.length_cons, Nat.add_lt_add_iff_right, List.getD_cons_succ]
        rw [ih]
        constructor
        · rintro ⟨h1, h2, h3⟩
          refine ⟨h1, h2, ?_⟩
          intro j hj
          cases j with
          | zero => simpa using hp
          | succ j => simpa using h3 j (by omega)
        · rintro ⟨h1, h2, h3⟩
          refine ⟨h1, h2, ?_⟩
          intro j hj
          simpa using h3 (j + 1) (by omega)

theorem getD_take (l : List hash_item) (n i : Nat) (h : i < n) :
    (l.take n).getD i hash_item.zero = l.getD i hash_item.zero := by
  induction l generalizing n i with
  | nil => simp
  | cons e es ih =>
    cases n with
    | zero => omega
    | succ n =>
      cases i with
      | zero => simp
      | succ i => simpa using ih n i (by omega)

theorem lookup_eq_loop (l : List hash_item) (d : Nat) :
    (match ht_loop (fun item => item.hash_value == d) l 0 with
      | some i => (l.getD i hash_item.zero).handler
      | none => 0) = lookup l d := by
  induction l with
  | nil => simp [ht_loop, lookup]
  | cons e es ih =>
    simp only [ht_loop, lookup]
    by_cases hp : e.hash_value = d
    · simp [hp]
    · simp only [beq_iff_eq, hp, if_false]
      rw [ht_loop_shift, ← ih]
      cases ht_loop (fun item => item.hash_value == d) es 0 <;> simp

theorem ht_index_with_hash_eq (t : hash_table) (d : Nat) :
    ht_index_with_hash t d = lookup (entries t) d := by
  unfold ht_index_with_hash ht_find_hash
  rw [← lookup_eq_loop, entries]
  cases h : ht_loop (fun item => item.hash_value == d) (List.take t.count t.table) 0 with
  | none => rfl
  | some i =>
    have hlt := ht_loop_lt _ _ _ _ h
    simp only
    rw [getD_take]
    simp only [List.length_take] at hlt
    omega

theorem lookup_entries_insert (es : List hash_item) (d h d2 : Nat) :
    lookup (entries_insert es d h) d2 = if d2 = d then h else lookup es d2 := by
  induction es with
  | nil =>
    simp only [entries_insert, lookup]
    by_cases hd : d = d2
    · simp [hd]
    · have : ¬ d2 = d := fun h => hd h.symm
      simp [hd, this]
  | cons e es ih =>
    simp only [entries_insert]
    by_cases he : e.hash_value = d
    · simp only [he, if_true, lookup]
      by_cases hd : d = d2
      · simp [hd]
      · have : ¬ d2 = d := fun h => hd h.symm
        simp [hd, this]
    · simp only [he, if_false, lookup, ih]
      by_cases hd : e.hash_value = d2
      · have : ¬ d2 = d := fun h => he (hd.trans h)
        simp [hd, this]
      · simp [hd]

theorem entries_insert_of_loop_some (es : List hash_item) (d h i : Nat)
    (hi : ht_loop (fun item => item.hash_value == d) es 0 = some i) :
    entries_insert es d h =
      es.set i { es.getD i hash_item.zero with handler := h } := by
  induction es generalizing i with
  | nil => simp [ht_loop] at hi
  | cons e es ih =>
    simp only [ht_loop] at hi
    simp only [entries_insert]
    by_cases hp : e.hash_value = d
    · simp only [beq_iff_eq, hp, if_true, Option.some.injEq] at hi
      subst hi
      simp [hp]
    · simp only [beq_iff_eq, hp, if_false] at hi
      rw [ht_loop_shift] at hi
      simp only [Option.map_eq_some'] at hi
      obtain ⟨j, hj, rfl⟩ := hi
      simp [hp, ih j hj]

theorem entries_insert_of_loop_none (es : List hash_item) (d h : Nat)
    (hi : ht_loop (fun item => item.hash_value == d) es 0 = none) :
    entries_insert es d h = es ++ [{ hash_value := d, handler := h }] := by
  induction es with
  | nil => simp [entries_insert]
  | cons e es ih =>
    simp only [ht_loop] at hi
    simp only [entries_insert]
    by_cases hp : e.hash_value = d
    · simp [hp] at hi
    · simp only [beq_iff_eq, hp, if_false] at hi
      rw [ht_loop_shift] at hi
      simp only [Option.map_eq_none'] at hi
      simp [hp, ih hi]

theorem take_succ_set (l : List hash_item) (n : Nat) (x : hash_item) (h : n < l.length) :
    (l.set n x).take (n + 1) = l.take n ++ [x] := by
  induction l generalizing n with
  | nil => simp at h
  | cons e es ih =>
    cases n with
    | zero => simp
    | succ n =>
      simp only [List.length_cons, Nat.add_lt_add_iff_right] at h
      simp [ih n h]

theorem ht_insert_spec (P : Platform) (t : hash_table) (s : List Nat) (h : Nat)
    (hwf : ht_wf t) (hh : h ≠ 0) :
    entries (ht_insert P t s h) = entries_insert (entries t) (generate_hash P s) h ∧
      ht_wf (ht_insert P t s h) := by
  obtain ⟨hlen, hcnt, hcap⟩ := hwf
  unfold ht_insert
  rw [if_neg hh]
  simp only
  cases hl : ht_find_hash t (generate_hash P s) with
  | some i =>
    unfold ht_find_hash at hl
    have hlt := ht_loop_lt _ _ _ _ hl
    simp only [List.length_take, Nat.zero_add] at hlt
    have hi : i < t.count := by omega
    have he : entries t = List.take t.count t.table := rfl
    rw [he, entries_insert_of_loop_some _ _ _ _ hl]
    simp only [entries, ht_wf, List.length_set]
    refine ⟨?_, hlen, hcnt, hcap⟩
    rw [List.set_take, getD_take _ _ _ hi]
  | none =>
    unfold ht_find_hash at hl
    have he : entries t = List.take t.count t.table := rfl
    rw [he, entries_insert_of_loop_none _ _ _ hl]
    by_cases hfull : t.count ≥ t.capacity
    · have hc : t.count = t.capacity := by omega
      simp only [hfull, if_true, _ht_resize, RESIZE_FACTOR, entries, ht_wf, List.length_set,
        List.length_append, List.length_take, List.length_replicate]
      refine ⟨?_, by omega, by omega, by omega⟩
      rw [take_succ_set _ _ _ (by simp; omega)]
      congr 1
      rw [List.take_append_of_le_length (by simp; omega)]
      rw [List.take_take]
      simp [hc]
    · simp only [hfull, if_false, entries, ht_wf, List.length_set]
      refine ⟨?_, hlen, by omega, hcap⟩
      rw [take_succ_set _ _ _ (by omega)]

theorem ht_create_wf : ht_wf ht_create := by
  simp [ht_wf, ht_create, _ht_create, DEFAULT_CAPACITY]

theorem ht_create_entries : entries ht_create = [] := by
  simp [entries, ht_create, _ht_create]

theorem ht_insert_null (P : Platform) (t : hash_table) (s : List Nat) :
    ht_insert P t s 0 = t := by
  simp [ht_insert]

theorem ht_insert_wf (P : Platform) (t : hash_table) (s : List Nat) (h : Nat)
    (hwf : ht_wf t) : ht_wf (ht_insert P t s h) := by
  by_cases hh : h = 0
  · subst hh; rw [ht_insert_null]; exact hwf
  · exact (ht_insert_spec P t s h hwf hh).2

theorem ht_inserts_concat (P : Platform) (ops : List (List Nat × Nat)) (op : List Nat × Nat) :
    ht_inserts P (ops ++ [op]) = ht_insert P (ht_inserts P ops) op.1 op.2 := by
  simp [ht_inserts, List.foldl_append]

theorem ht_inserts_wf (P : Platform) (ops : List (List Nat × Nat)) :
    ht_wf (ht_inserts P ops) := by
  induction ops using List.reverseRecOn with
  | nil => exact ht_create_wf
  | append_singleton ops op ih =>
    rw [ht_inserts_concat]
    exact ht_insert_wf P _ _ _ ih

theorem last_binding_concat (P : Platform) (ops : List (List Nat × Nat)) (op : List Nat × Nat)
    (d : Nat) :
    last_binding P (ops ++ [op]) d =
      if d = generate_hash P op.1 then op.2 else last_binding P ops d := by
  unfold last_binding
  rw [List.filter_append]
  by_cases hd : generate_hash P op.1 = d
  · subst hd
    simp [List.filter_cons]
  · have : ¬ d = generate_hash P op.1 := fun h => hd h.symm
    simp [List.filter_cons, hd, this]

theorem lookup_ht_inserts (P : Platform) (ops : List (List Nat × Nat))
    (hops : ∀ op ∈ ops, op.2 ≠ 0) (d : Nat) :
    lookup (entries (ht_inserts P ops)) d = last_binding P ops d := by
  induction ops using List.reverseRecOn with
  | nil => simp [ht_inserts, ht_create_entries, lookup, last_binding]
  | append_singleton ops op ih =>
    have hop : op.2 ≠ 0 := hops op (by simp)
    have ih2 := ih (fun o ho => hops o (by simp [ho]))
    rw [ht_inserts_concat, (ht_insert_spec P _ _ _ (ht_inserts_wf P ops) hop).1,
      lookup_entries_insert, last_binding_concat, ih2]

/-- Claim C6. The registry is a finite map keyed by digest: after any sequence
of `ht_insert` calls with non-NULL handlers on a freshly created table
(resizes included), `ht_index(t, s)` and `ht_index_with_hash(t, digest(s))`
both return the handler of the last call whose name has the digest of `s`,
and `NULL` (0) when there is no such call. -/
theorem c6_registry_finite_map (P : Platform) (ops : List (List Nat × Nat))
    (hops : ∀ op ∈ ops, op.2 ≠ 0) (s : List Nat) :
    ht_index P (ht_inserts P ops) s = last_binding P ops (generate_hash P s) ∧
    ht_index_with_hash (ht_inserts P ops) (generate_hash P s) =
      last_binding P ops (generate_hash P s) := by
  unfold ht_index
  simp only [ht_index_with_hash_eq, lookup_ht_inserts P ops hops, and_self]

theorem generate_hash_lt (P : Platform) (s : List Nat) : generate_hash P s < hash_modulo := by
  unfold generate_hash hash
  induction s using List.reverseRecOn with
  | nil => simp [hash_modulo, UINT64_MAX]
  | append_singleton s c _ =>
    rw [List.foldl_append]
    simp only [List.foldl]
    apply Nat.mod_lt
    simp [hash_modulo, UINT64_MAX]

theorem mem_entries_insert (es : List hash_item) (d h : Nat) (e : hash_item)
    (he : e ∈ entries_insert es d h) : (e.hash_value = d ∧ e.handler = h) ∨ e ∈ es := by
  induction es with
  | nil =>
    simp only [entries_insert, List.mem_singleton] at he
    subst he
    simp
  | cons x xs ih =>
    simp only [entries_insert] at he
    by_cases hx : x.hash_value = d
    · simp only [hx, if_true, List.mem_cons] at he
      rcases he with rfl | he
      · simp
      · simp [he]
    · simp only [hx, if_false, List.mem_cons] at he
      rcases he with rfl | he
      · simp
      · rcases ih he with h1 | h1
        · exact Or.inl h1
        · simp [h1]

theorem digests_entries_insert (es : List hash_item) (d h : Nat) :
    (entries_insert es d h).map (·.hash_value) =
      if d ∈ es.map (·.hash_value) then es.map (·.hash_value)
      else es.map (·.hash_value) ++ [d] := by
  induction es with
  | nil => simp [entries_insert]
  | cons x xs ih =>
    simp only [entries_insert]
    by_cases hx : x.hash_value = d
    · simp [hx]
    · have hx2 : ¬ d = x.hash_value := fun h => hx h.symm
      simp only [hx, if_false, List.map_cons, ih, List.mem_cons, hx2, false_or]
      split <;> simp

theorem nodup_entries_insert (es : List hash_item) (d h : Nat)
    (hnd : (es.map (·.hash_value)).Nodup) :
    ((entries_insert es d h).map (·.hash_value)).Nodup := by
  rw [digests_entries_insert]
  split
  · exact hnd
  · rename_i hd
    rw [List.nodup_append]
    refine ⟨hnd, by simp, ?_⟩
    intro a ha hb
    simp only [List.mem_singleton] at hb
    subst hb
    exact hd ha

theorem nodup_getD_inj (l : List hash_item) (hnd : (l.map (·.hash_value)).Nodup)
    (i j : Nat) (hi : i < l.length) (hj : j < l.length)
    (h : (l.getD i hash_item.zero).hash_value = (l.getD j hash_item.zero).hash_value) :
    i = j := by
  induction l generalizing i j with
  | nil => simp at hi
  | cons e es ih =>
    simp only [List.map_cons, List.nodup_cons, List.mem_map, not_exists, not_and] at hnd
    simp only [List.length_cons] at hi hj
    cases i with
    | zero =>
      cases j with
      | zero => rfl
      | succ j =>
        exfalso
        simp only [List.getD_cons_zero, List.getD_cons_succ] at h
        have hj2 : j < es.length := by omega
        have hm : es.getD j hash_item.zero ∈ es := by
          rw [List.getD_eq_getElem _ _ hj2]
          exact List.getElem_mem hj2
        exact hnd.1 _ hm h.symm
    | succ i =>
      cases j with
      | zero =>
        exfalso
        simp only [List.getD_cons_zero, List.getD_cons_succ] at h
        have hi2 : i < es.length := by omega
        have hm : es.getD i hash_item.zero ∈ es := by
          rw [List.getD_eq_getElem _ _ hi2]
          exact List.getElem_mem hi2
        exact hnd.1 _ hm h
      | succ j =>
        simp only [List.getD_cons_succ] at h
        have := ih hnd.2 i j (by omega) (by omega) h
        omega

theorem reg_inv_create : reg_inv ht_create := by
  refine ⟨ht_create_wf, ?_, ?_⟩
  · simp [ht_create_entries]
  · simp [ht_create_entries]

theorem reg_inv_insert (P : Platform) (t : hash_table) (s : List Nat) (h : Nat)
    (hinv : reg_inv t) : reg_inv (ht_insert P t s h) := by
  by_cases hh : h = 0
  · subst hh; rw [ht_insert_null]; exact hinv
  · obtain ⟨hwf, hnd, hall⟩ := hinv
    obtain ⟨he, hwf2⟩ := ht_insert_spec P t s h hwf hh
    refine ⟨hwf2, ?_, ?_⟩
    · rw [he]; exact nodup_entries_insert _ _ _ hnd
    · intro e hmem
      rw [he] at hmem
      rcases mem_entries_insert _ _ _ _ hmem with ⟨h1, h2⟩ | h1
      · rw [h1, h2]
        exact ⟨hh, generate_hash_lt P s⟩
      · exact hall e h1

theorem ht_inserts_inv (P : Platform) (ops : List (List Nat × Nat)) :
    reg_inv (ht_inserts P ops) := by
  induction ops using List.reverseRecOn with
  | nil => exact reg_inv_create
  | append_singleton ops op ih =>
    rw [ht_inserts_concat]
    exact reg_inv_insert P _ _ _ ih

theorem entries_length (t : hash_table) (hwf : ht_wf t) : (entries t).length = t.count := by
  simp only [entries, List.length_take]
  have := hwf.1
  have := hwf.2.1
  omega

theorem entries_getD (t : hash_table) (i : Nat) (hi : i < t.count) :
    (entries t).getD i hash_item.zero = t.table.getD i hash_item.zero :=
  getD_take _ _ _ hi

theorem ht_retrieve_hash_max_iff (t : hash_table) (hinv : reg_inv t) (h : Nat) :
    ht_retrieve_hash t h = UINT64_MAX ↔
      ∀ i, i < t.count → (t.table.getD i hash_item.zero).handler ≠ h := by
  obtain ⟨hwf, _, hall⟩ := hinv
  have hlen := entries_length t hwf
  unfold ht_retrieve_hash
  have he : List.take t.count t.table = entries t := rfl
  rw [he]
  cases hl : ht_loop (fun item => item.handler == h) (entries t) 0 with
  | none =>
    simp only [true_iff]
    rw [ht_loop_none_iff] at hl
    intro i hi
    have hm : (entries t).getD i hash_item.zero ∈ entries t := by
      rw [List.getD_eq_getElem _ _ (by omega)]
      exact List.getElem_mem _
    have := hl _ hm
    rw [entries_getD t i hi] at this
    simpa using this
  | some i =>
    rw [ht_loop_some_iff] at hl
    obtain ⟨hi, hp, _⟩ := hl
    have hi2 : i < t.count := by omega
    have hm : (entries t).getD i hash_item.zero ∈ entries t := by
      rw [List.getD_eq_getElem _ _ hi]
      exact List.getElem_mem _
    have hb := (hall _ hm).2
    rw [entries_getD t i hi2] at hb hp
    simp only
    constructor
    · intro heq
      rw [heq] at hb
      simp [hash_modulo, UINT64_MAX] at hb
    · intro hno
      exfalso
      exact hno i hi2 (by simpa using hp)

/-- Claim C10. The not-found sentinel never collides with a digest: for every
string `generate_hash` is strictly below `2^64 - 59`, hence different from
`UINT64_MAX`; and for every table built by `ht_insert` calls,
`ht_retrieve_hash(t, h)` is `UINT64_MAX` if and only if no occupied slot of
`t` holds handler `h`. -/
theorem c10_sentinel_no_collision (P : Platform) :
    (∀ s : List Nat, generate_hash P s < 2 ^ 64 - 59 ∧ generate_hash P s ≠ UINT64_MAX) ∧
    (∀ (ops : List (List Nat × Nat)) (h : Nat),
      ht_retrieve_hash (ht_inserts P ops) h = UINT64_MAX ↔
        ∀ i, i < (ht_inserts P ops).count →
          ((ht_inserts P ops).table.getD i hash_item.zero).handler ≠ h) := by
  constructor
  · intro s
    have := generate_hash_lt P s
    simp only [hash_modulo, UINT64_MAX] at this ⊢
    omega
  · intro ops h
    exact ht_retrieve_hash_max_iff _ (ht_inserts_inv P ops) h

theorem rpc_register_some (P : Platform) (t : hash_table) (fd : Int)
    (name : Option (List Nat)) (handler : Nat) :
    rpc_register P (some ⟨t, fd⟩) name handler =
      if handler ≠ 0 ∧ ∃ n, name = some n ∧ is_valid_name P n = true then
        (1, some ⟨ht_insert P t (name.getD []) handler, fd⟩)
      else (-1, some ⟨t, fd⟩) := by
  unfold rpc_register
  cases name with
  | none => simp
  | some n =>
    by_cases hh : handler = 0
    · simp [hh]
    · by_cases hv : is_valid_name P n = true
      · simp [hh, hv]
      · simp [hh, hv]

theorem rpc_registers_inv (P : Platform) (fd : Int) (regs : List (Option (List Nat) × Nat)) :
    ∃ t, rpc_registers P (some ⟨ht_create, fd⟩) regs = some ⟨t, fd⟩ ∧ reg_inv t := by
  induction regs using List.reverseRecOn with
  | nil => exact ⟨ht_create, rfl, reg_inv_create⟩
  | append_singleton regs r ih =>
    obtain ⟨t, ht, hinv⟩ := ih
    simp only [rpc_registers, List.foldl_append, List.foldl] at ht ⊢
    rw [ht, rpc_register_some]
    split
    · exact ⟨_, rfl, reg_inv_insert P _ _ _ hinv⟩
    · exact ⟨_, rfl, hinv⟩

theorem ht_insert_count_ge (P : Platform) (t : hash_table) (s : List Nat) (h : Nat) :
    t.count ≤ (ht_insert P t s h).count := by
  unfold ht_insert
  split
  · exact Nat.le_refl _
  · simp only
    split
    · exact Nat.le_refl _
    · simp only
      split <;> simp [_ht_resize]

theorem ht_index_with_hash_insert (P : Platform) (t : hash_table) (s : List Nat) (h : Nat)
    (hwf : ht_wf t) (hh : h ≠ 0) (d : Nat) :
    ht_index_with_hash (ht_insert P t s h) d =
      if d = generate_hash P s then h else ht_index_with_hash t d := by
  rw [ht_index_with_hash_eq, ht_index_with_hash_eq, (ht_insert_spec P t s h hwf hh).1,
    lookup_entries_insert]

/-- Claim C8. A registry never loses an entry: for the registry `t` of a server
after any sequence of `rpc_register` calls and any further call
`rpc_register(srv, name, handler)`, successful or failing, the entry count
does not decrease, and every digest that resolved to a handler before still
resolves to a non-NULL handler afterwards: to `handler` when the call
succeeded and the digest is that of `name`, and to its previous handler
otherwise. -/
theorem c8_registry_never_loses (P : Platform) (masterfd : Int)
    (regs : List (Option (List Nat) × Nat)) (name : Option (List Nat)) (handler : Nat) :
    ∃ t t2 : hash_table,
      rpc_registers P (some ⟨ht_create, masterfd⟩) regs = some ⟨t, masterfd⟩ ∧
      (rpc_register P (some ⟨t, masterfd⟩) name handler).2 = some ⟨t2, masterfd⟩ ∧
      t.count ≤ t2.count ∧
      ∀ d, ht_index_with_hash t d ≠ 0 →
        ht_index_with_hash t2 d ≠ 0 ∧
        ht_index_with_hash t2 d =
          if (rpc_register P (some ⟨t, masterfd⟩) name handler).1 = 1 ∧
              name.map (generate_hash P) = some d then handler
          else ht_index_with_hash t d := by
  obtain ⟨t, ht, hinv⟩ := rpc_registers_inv P masterfd regs
  refine ⟨t, ?_⟩
  rw [rpc_register_some]
  by_cases hc : handler ≠ 0 ∧ ∃ n, name = some n ∧ is_valid_name P n = true
  · obtain ⟨hh, n, hn, hv⟩ := hc
    subst hn
    have hc2 : handler ≠ 0 ∧ ∃ m, some n = some m ∧ is_valid_name P m = true :=
      ⟨hh, n, rfl, hv⟩
    rw [if_pos hc2]
    refine ⟨_, ht, rfl, ht_insert_count_ge P t _ handler, ?_⟩
    intro d hd
    simp only [Option.getD_some, Option.map_some', Option.some.injEq, true_and]
    rw [ht_index_with_hash_insert P t n handler hinv.1 hh]
    by_cases hdn : d = generate_hash P n
    · have : generate_hash P n = d := hdn.symm
      simp [this, hh]
    · have : ¬ generate_hash P n = d := fun h => hdn h.symm
      simp [hdn, this, hd]
  · rw [if_neg hc]
    refine ⟨_, ht, rfl, Nat.le_refl _, ?_⟩
    intro d hd
    simp [hd]

theorem ht_insert_present (P : Platform) (t : hash_table) (s : List Nat) (h i : Nat)
    (hh : h ≠ 0) (hf : ht_find_hash t (generate_hash P s) = some i) :
    ht_insert P t s h =
      { t with table := t.table.set i { t.table.getD i hash_item.zero with handler := h } } := by
  unfold ht_insert
  rw [if_neg hh]
  simp only [hf]

theorem ht_find_hash_some (t : hash_table) (hwf : ht_wf t) (d i : Nat)
    (hf : ht_find_hash t d = some i) :
    i < t.count ∧ (t.table.getD i hash_item.zero).hash_value = d := by
  unfold ht_find_hash at hf
  have he : List.take t.count t.table = entries t := rfl
  rw [he, ht_loop_some_iff] at hf
  obtain ⟨hi, hp, _⟩ := hf
  rw [entries_length t hwf] at hi
  rw [entries_getD t i hi] at hp
  exact ⟨hi, by simpa using hp⟩

theorem reg_inv_unique (t : hash_table) (hinv : reg_inv t) (i j : Nat)
    (hi : i < t.count) (hj : j < t.count)
    (h : (t.table.getD i hash_item.zero).hash_value =
      (t.table.getD j hash_item.zero).hash_value) : i = j := by
  have hlen := entries_length t hinv.1
  apply nodup_getD_inj (entries t) hinv.2.1 i j (by omega) (by omega)
  rw [entries_getD t i hi, entries_getD t j hj]
  exact h

/-- Claim C7. Idempotent registration: on the registry of a server after any
sequence of `rpc_register` calls, for a valid name `N` and non-NULL handlers
`H1`, `H2`, both `rpc_register(s, N, H1)` and the following
`rpc_register(s, N, H2)` return 1; afterwards slot `i`, which held
`(digest(N), H1)` after the first call, holds `(digest(N), H2)`, no other
occupied slot has digest `digest(N)`, and the entry count is the one after
the first call. -/
theorem c7_idempotent_registration (P : Platform) (masterfd : Int)
    (regs : List (Option (List Nat) × Nat)) (N : List Nat) (H1 H2 : Nat)
    (hN : is_valid_name P N = true) (h1 : H1 ≠ 0) (h2 : H2 ≠ 0) :
    ∃ (t1 t2 : hash_table) (i : Nat),
      rpc_register P (rpc_registers P (some ⟨ht_create, masterfd⟩) regs) (some N) H1 =
        (1, some ⟨t1, masterfd⟩) ∧
      rpc_register P (some ⟨t1, masterfd⟩) (some N) H2 = (1, some ⟨t2, masterfd⟩) ∧
      i < t1.count ∧
      t1.table.getD i hash_item.zero = ⟨generate_hash P N, H1⟩ ∧
      t2.table.getD i hash_item.zero = ⟨generate_hash P N, H2⟩ ∧
      (∀ j, j < t2.count →
        (t2.table.getD j hash_item.zero).hash_value = generate_hash P N → j = i) ∧
      t2.count = t1.count := by
  obtain ⟨t, ht, hinv⟩ := rpc_registers_inv P masterfd regs
  have hinv1 := reg_inv_insert P t N H1 hinv
  have hinv2 := reg_inv_insert P (ht_insert P t N H1) N H2 hinv1
  have hidx := ht_index_with_hash_insert P t N H1 hinv.1 h1 (generate_hash P N)
  rw [if_pos rfl] at hidx
  cases hf : ht_find_hash (ht_insert P t N H1) (generate_hash P N) with
  | none =>
    exfalso
    unfold ht_index_with_hash at hidx
    rw [hf] at hidx
    exact h1 hidx.symm
  | some i =>
    obtain ⟨hi, hd⟩ := ht_find_hash_some _ hinv1.1 _ _ hf
    have hH : ((ht_insert P t N H1).table.getD i hash_item.zero).handler = H1 := by
      unfold ht_index_with_hash at hidx
      rw [hf] at hidx
      exact hidx
    have h2eq := ht_insert_present P (ht_insert P t N H1) N H2 i h2 hf
    have hilen : i < (ht_insert P t N H1).table.length := by
      have := hinv1.1.1
      have := hinv1.1.2.1
      omega
    have hget2 : (ht_insert P (ht_insert P t N H1) N H2).table.getD i hash_item.zero =
        ⟨generate_hash P N, H2⟩ := by
      rw [h2eq]
      simp only
      rw [List.getD_eq_getElem _ _ (by simpa using hilen)]
      simp only [List.getElem_set_self, hd]
    refine ⟨ht_insert P t N H1, ht_insert P (ht_insert P t N H1) N H2, i, ?_, ?_, hi, ?_,
      hget2, ?_, ?_⟩
    · rw [ht, rpc_register_some, if_pos ⟨h1, N, rfl, hN⟩]
      simp
    · rw [rpc_register_some, if_pos ⟨h2, N, rfl, hN⟩]
      simp
    · cases hx : (ht_insert P t N H1).table.getD i hash_item.zero with
      | mk hv hdl =>
        rw [hx] at hd hH
        simp only at hd hH
        rw [hd, hH]
    · intro j hj hjd
      have hcnt : (ht_insert P (ht_insert P t N H1) N H2).count = (ht_insert P t N H1).count := by
        rw [h2eq]
      apply reg_inv_unique _ hinv2 j i hj (by rw [hcnt]; exact hi)
      rw [hjd, hget2]
    · rw [h2eq]

/-! ### End-to-end call, digest, witnesses -/

theorem data_wire_length_le (p : rpc_data) : (data_wire p).length ≤ 17 + p.data2_len := by
  unfold data_wire
  by_cases hb : has_buff p = true
  · simp [hb, hton64_length, List.length_take]
    omega
  · simp [hb, hton64_length]
    omega

theorem check_data_zero (profile : hw_profile) (p : rpc_data)
    (h : check_data profile (some p) = 0) :
    profile.initialised = true ∧
      ¬ ((p.data2_len = 0 ∧ p.data2 ≠ none) ∨ (p.data2_len > 0 ∧ p.data2 = none)) := by
  have := (check_data_zero_iff profile (some p)).1 h
  obtain ⟨hi, d, hd, _, _, _, hs⟩ := this
  simp only [Option.some.injEq] at hd
  subst hd
  exact ⟨hi, hs⟩

theorem wf_shape_le (p : rpc_data) (hwf : p.wf)
    (hshape : ¬ ((p.data2_len = 0 ∧ p.data2 ≠ none) ∨ (p.data2_len > 0 ∧ p.data2 = none))) :
    p.data2_len ≤ (p.data2.getD []).length := by
  obtain ⟨i, n, b⟩ := p
  cases b with
  | none =>
    simp at hshape
    simp only [Option.getD_none, List.length_nil]
    omega
  | some b =>
    have hl : b.length = n := hwf.2.2.2
    simp [hl]

theorem svr_handle_rtn_error_ok (fd : Sock) (e : Nat) (h : 3 ≤ fd.wcap) :
    svr_handle_rtn_error fd e =
      (true, { inp := fd.inp, out := fd.out ++ [RPC_RTN_ERROR, e, RPC_MSG_END],
               wcap := fd.wcap - 3 }) := by
  unfold svr_handle_rtn_error
  rw [socket_send_ok _ _ (by simp; omega)]
  dsimp only
  rw [socket_send_ok _ _ (by simp; omega)]
  dsimp only
  rw [socket_send_ok _ _ (by simp; omega)]
  simp [Nat.sub_sub]

/-- Claim C1. End-to-end call: let digest `d` be bound in the registry to a
handler with code `H`, let `p` be a payload object that passes `check_data`
against the server profile held by the client, and let `H(p) = q` pass
`check_data` against the client profile held by the server; assume both
peers accept the bytes written. Then `cl_handle_proc_call` for handle `d` and
`p` writes `FUNC_CALL` followed by some bytes `body`; `svr_handle_msg_call`
fed `body` (and one iteration of the loop of `handle_client` fed
`FUNC_CALL :: body`) consumes all of it, invokes the handler exactly once on
`p`, stays connected and writes some bytes `reply`; and the same
`cl_handle_proc_call`, reading `reply`, succeeds with an output payload equal
to `q`: same integer, same length, same buffer bytes. -/
theorem c1_end_to_end_call (P : Platform) (code : HandlerCode) (ht : hash_table)
    (d h : Nat) (hd : d < 2 ^ 64) (hbound : ht_index_with_hash ht d = h) (hh : h ≠ 0)
    (cl_profile svr_profile : hw_profile) (p q : rpc_data) (hpwf : p.wf) (hqwf : q.wf)
    (hp : check_data svr_profile (some p) = 0)
    (hH : code h p = some q)
    (hq : check_data cl_profile (code h p) = 0)
    (cfd sfd : Sock) (hccap : 27 + p.data2_len ≤ cfd.wcap)
    (hscap : 19 + q.data2_len ≤ sfd.wcap) :
    ∃ body reply : List Nat,
      svr_handle_msg_call P code { sfd with inp := body } cl_profile ht =
        (true, some (h, p),
          { inp := [], out := sfd.out ++ reply, wcap := sfd.wcap - reply.length }) ∧
      (∀ masterfd : Int,
        handle_client_loop P code ⟨ht, masterfd⟩ 1 cl_profile
            { sfd with inp := RPC_MSG_FUNC_CALL :: body } [] =
          (cl_profile,
            { inp := [], out := sfd.out ++ reply, wcap := sfd.wcap - reply.length },
            [(h, p)])) ∧
      cl_handle_proc_call P { cfd with inp := reply } (some ⟨d⟩) (some p) =
        (true, DataPtr.live q,
          { inp := [], out := cfd.out ++ RPC_MSG_FUNC_CALL :: body,
            wcap := cfd.wcap - (body.length + 1) }) := by
  obtain ⟨cinp, cout, ccap⟩ := cfd
  obtain ⟨sinp, sout, scap⟩ := sfd
  simp only at hccap hscap
  rw [hH] at hq
  obtain ⟨hsi, hps⟩ := check_data_zero _ _ hp
  obtain ⟨hci, hqs⟩ := check_data_zero _ _ hq
  have hpl := data_wire_length_le p
  have hql := data_wire_length_le q
  have hple := wf_shape_le p hpwf hps
  have hqle := wf_shape_le q hqwf hqs
  have hprecv := fun rest o c =>
    socket_recv_data_wire P p rest o c hpwf.1 hpwf.2.1 hpwf.2.2.1 hple
  have hqrecv := fun rest o c =>
    socket_recv_data_wire P q rest o c hqwf.1 hqwf.2.1 hqwf.2.2.1 hqle
  rw [decoded_eq p hpwf hps] at hprecv
  rw [decoded_eq q hqwf hqs] at hqrecv
  have hsvr : svr_handle_msg_call P code
      { inp := data_wire p ++ (hton64 d ++ [RPC_MSG_END]), out := sout, wcap := scap }
      cl_profile ht =
        (true, some (h, p),
          { inp := [], out := sout ++ ([RPC_RTN_SUCCESS] ++ (data_wire q ++ [RPC_MSG_END])),
            wcap := scap - ([RPC_RTN_SUCCESS] ++ (data_wire q ++ [RPC_MSG_END])).length }) := by
    unfold svr_handle_msg_call
    simp only [hci, Bool.not_true, Bool.false_eq_true, if_false]
    rw [hprecv]
    dsimp only
    rw [socket_recv_append _ _ _ _ _ (by simp [hton64_length])]
    dsimp only
    rw [socket_recv_one]
    dsimp only
    simp only [List.headD_cons, ne_eq, not_true_eq_false, if_false, ntoh64_hton64 _ hd,
      hbound, hh, hH, hq]
    rw [socket_send_ok _ _ (by simp; omega)]
    dsimp only
    rw [socket_send_data_ok _ _ (by simp; omega)]
    dsimp only
    rw [socket_send_ok _ _ (by simp; omega)]
    simp [Nat.sub_sub, List.append_assoc]
    omega
  refine ⟨data_wire p ++ (hton64 d ++ [RPC_MSG_END]),
    [RPC_RTN_SUCCESS] ++ (data_wire q ++ [RPC_MSG_END]), hsvr, ?_, ?_⟩
  · intro masterfd
    simp only [handle_client_loop]
    rw [socket_recv_one]
    dsimp only
    simp only [List.headD_cons]
    rw [if_neg (by decide), if_neg (by decide)]
    simp only [if_true, hsvr, Option.toList, List.nil_append]
  · unfold cl_handle_proc_call
    dsimp only
    rw [socket_send_ok _ _ (by simp; omega)]
    dsimp only
    rw [socket_send_data_ok _ _ (by simp; omega)]
    dsimp only
    rw [socket_send_ok _ _ (by simp [hton64_length]; omega)]
    dsimp only
    rw [socket_send_ok _ _ (by simp [hton64_length]; omega)]
    dsimp only
    rw [socket_recv_append [RPC_RTN_SUCCESS] _ _ _ _ (by simp)]
    dsimp only
    simp only [List.headD_cons]
    rw [if_neg (by decide)]
    rw [hqrecv]
    dsimp only
    rw [socket_recv_one]
    dsimp only
    simp [Nat.sub_sub, List.append_assoc, hton64_length]
    omega

theorem c1_end_to_end_call_witness :
    (∃ body reply : List Nat,
      svr_handle_msg_call linux64 example_code ⟨body, [], 64⟩ example_profile example_table =
        (true, some (7, ⟨42, 0, none⟩), ⟨[], [] ++ reply, 64 - reply.length⟩) ∧
      (∀ masterfd : Int,
        handle_client_loop linux64 example_code ⟨example_table, masterfd⟩ 1 example_profile
            ⟨RPC_MSG_FUNC_CALL :: body, [], 64⟩ [] =
          (example_profile, ⟨[], [] ++ reply, 64 - reply.length⟩, [(7, ⟨42, 0, none⟩)])) ∧
      cl_handle_proc_call linux64 ⟨reply, [], 64⟩
          (some ⟨generate_hash linux64 echo_name⟩) (some ⟨42, 0, none⟩) =
        (true, DataPtr.live ⟨42, 0, none⟩,
          ⟨[], [] ++ RPC_MSG_FUNC_CALL :: body, 64 - (body.length + 1)⟩)) ∧
    (∃ body reply : List Nat,
      svr_handle_msg_call linux64 example_code ⟨body, [], 64⟩ example_profile example_table =
        (true, some (8, ⟨0, 5, some [104, 101, 108, 108, 111]⟩),
          ⟨[], [] ++ reply, 64 - reply.length⟩) ∧
      (∀ masterfd : Int,
        handle_client_loop linux64 example_code ⟨example_table, masterfd⟩ 1 example_profile
            ⟨RPC_MSG_FUNC_CALL :: body, [], 64⟩ [] =
          (example_profile, ⟨[], [] ++ reply, 64 - reply.length⟩,
            [(8, ⟨0, 5, some [104, 101, 108, 108, 111]⟩)])) ∧
      cl_handle_proc_call linux64 ⟨reply, [], 64⟩
          (some ⟨generate_hash linux64 copy_name⟩)
          (some ⟨0, 5, some [104, 101, 108, 108, 111]⟩) =
        (true, DataPtr.live ⟨0, 5, some [104, 101, 108, 108, 111]⟩,
          ⟨[], [] ++ RPC_MSG_FUNC_CALL :: body, 64 - (body.length + 1)⟩)) :=
  ⟨c1_end_to_end_call linux64 example_code example_table (generate_hash linux64 echo_name) 7
      (by decide) (by decide) (by decide) example_profile example_profile
      ⟨42, 0, none⟩ ⟨42, 0, none⟩ (by decide) (by decide) (by decide) rfl (by decide)
      ⟨[], [], 64⟩ ⟨[], [], 64⟩ (by decide) (by decide),
   c1_end_to_end_call linux64 example_code example_table (generate_hash linux64 copy_name) 8
      (by decide) (by decide) (by decide) example_profile example_profile
      ⟨0, 5, some [104, 101, 108, 108, 111]⟩ ⟨0, 5, some [104, 101, 108, 108, 111]⟩
      (by decide) (by decide) (by decide) rfl (by decide)
      ⟨[], [], 64⟩ ⟨[], [], 64⟩ (by decide) (by decide)⟩

theorem char_val_ascii (P : Platform) (b : Nat) (h : b < 128) : char_val P b = b := by
  unfold char_val
  rw [if_neg]
  omega

set_option maxRecDepth 100000 in
theorem c6_registry_finite_map_witness :
    (∀ op ∈ example_ops, op.2 ≠ 0) ∧
    (ht_inserts linux64 example_ops).capacity = 20 ∧
    (ht_inserts linux64 example_ops).count = 12 ∧
    last_binding linux64 example_ops (generate_hash linux64 [65]) = 999 ∧
    (ht_index linux64 (ht_inserts linux64 example_ops) [65] =
        last_binding linux64 example_ops (generate_hash linux64 [65]) ∧
      ht_index_with_hash (ht_inserts linux64 example_ops) (generate_hash linux64 [65]) =
        last_binding linux64 example_ops (generate_hash linux64 [65])) :=
  ⟨by decide, by decide, by decide, by decide,
    c6_registry_finite_map linux64 example_ops (by decide) [65]⟩

theorem c7_idempotent_registration_witness :
    is_valid_name linux64 echo_name = true ∧
    ∃ (t1 t2 : hash_table) (i : Nat),
      rpc_register linux64
          (rpc_registers linux64 (some ⟨ht_create, 3⟩) [(some copy_name, 8)])
          (some echo_name) 7 = (1, some ⟨t1, 3⟩) ∧
      rpc_register linux64 (some ⟨t1, 3⟩) (some echo_name) 9 = (1, some ⟨t2, 3⟩) ∧
      i < t1.count ∧
      t1.table.getD i hash_item.zero = ⟨generate_hash linux64 echo_name, 7⟩ ∧
      t2.table.getD i hash_item.zero = ⟨generate_hash linux64 echo_name, 9⟩ ∧
      (∀ j, j < t2.count →
        (t2.table.getD j hash_item.zero).hash_value = generate_hash linux64 echo_name →
          j = i) ∧
      t2.count = t1.count :=
  ⟨by decide,
    c7_idempotent_registration linux64 3 [(some copy_name, 8)] echo_name 7 9
      (by decide) (by decide) (by decide)⟩

/-- Claim C9, evaluated at a failing input. For the valid ten-character name
`zzzzzzzzzz` the function `generate_hash` returns 14561429807453086510,
whereas the polynomial hash of the specification, computed over the integers
and reduced modulo `2^64 - 59`, is 14561429807453086687: the product
`hash_value * base` wraps modulo `2^64` before `% modulo` is applied. -/
theorem c9_digest_wraps_at_ten_chars (P : Platform) :
    is_valid_name P ten_z = true ∧
    generate_hash P ten_z = 14561429807453086510 ∧
    spec_digest ten_z = 14561429807453086687 ∧
    (generate_hash P ten_z : Int) ≠ spec_digest ten_z := by
  have h1 : generate_hash P ten_z = 14561429807453086510 := by
    simp [ten_z, generate_hash, hash, List.replicate, List.foldl, char_val_ascii, CHOSEN_PRIME,
      to_u64, hash_modulo, UINT64_MAX]
  have h2 : spec_digest ten_z = 14561429807453086687 := by decide
  refine ⟨?_, h1, h2, ?_⟩
  · simp [ten_z, is_valid_name, List.replicate, char_val_ascii, UINT16_MAX]
  · rw [h1, h2]
    decide

/-! ### Released payload pointers -/

theorem socket_recv_false_inp (fd fd2 : Sock) (n : Nat) (x : List Nat)
    (h : socket_recv fd n = (false, x, fd2)) : fd2.inp = [] := by
  unfold socket_recv at h
  split at h
  · simp at h
  · simp only [Prod.mk.injEq, true_and] at h
    rw [← h.2]

/-- A released payload pointer is only ever returned together with an
exhausted input stream, so every later read on that socket fails. -/
theorem socket_recv_data_freed_inp (P : Platform) (fd fd2 : Sock)
    (h : socket_recv_data P fd = (true, DataPtr.freed, fd2)) : fd2.inp = [] := by
  have tail : ∀ (flags_in : Nat) (rd : rpc_data) (f : Sock),
      (if flags_in &&& RPC_DATA_BUFF ≠ 0 then
        match socket_recv f 8 with
        | (false, _, fd) => (false, DataPtr.null, fd)
        | (true, be_data2_len, fd) =>
          match socket_recv fd (ntoh64 be_data2_len) with
          | (false, _, fd) => (true, DataPtr.freed, fd)
          | (true, net_data2, fd) =>
            (true, DataPtr.live { rd with
              data2_len := ntoh64 be_data2_len,
              data2 := if ntoh64 be_data2_len = 0 ∧ P.malloc0_null then none
                else some net_data2 }, fd)
      else (true, DataPtr.live rd, f)) = (true, DataPtr.freed, fd2) → fd2.inp = [] := by
    intro flags_in rd f ht
    by_cases hb : flags_in &&& RPC_DATA_BUFF ≠ 0
    · rw [if_pos hb] at ht
      rcases h3 : socket_recv f 8 with ⟨b3, x3, f3⟩
      rw [h3] at ht
      cases b3
      · simp at ht
      · dsimp only at ht
        rcases h4 : socket_recv f3 (ntoh64 x3) with ⟨b4, x4, f4⟩
        rw [h4] at ht
        cases b4
        · simp only [Prod.mk.injEq, true_and] at ht
          rw [← ht]
          exact socket_recv_false_inp _ _ _ _ h4
        · simp at ht
    · rw [if_neg hb] at ht
      simp at ht
  unfold socket_recv_data at h
  rcases h1 : socket_recv fd 1 with ⟨b1, x1, f1⟩
  rw [h1] at h
  cases b1
  · simp at h
  · dsimp only at h
    by_cases hint : x1.headD 0 &&& RPC_DATA_INT ≠ 0
    · rw [if_pos hint] at h
      rcases h2 : socket_recv f1 8 with ⟨b2, x2, f2⟩
      rw [h2] at h
      cases b2
      · simp at h
      · dsimp only at h
        exact tail _ _ _ h
    · rw [if_neg hint] at h
      dsimp only at h
      exact tail _ _ _ h

/-! ### Name validation -/

theorem char_val_out_of_range (P : Platform) (b : Nat) (hb : b < 256)
    (hbad : b < 0x20 ∨ 0x84 < b) : char_val P b < 32 ∨ char_val P b > 132 := by
  unfold char_val
  split <;> omega

theorem is_valid_name_false_of_bad_byte (P : Platform) (name : List Nat)
    (hbad : ∃ b ∈ name, b < 256 ∧ (b < 0x20 ∨ 0x84 < b)) : is_valid_name P name = false := by
  obtain ⟨b, hmem, hb, hout⟩ := hbad
  unfold is_valid_name
  rw [if_pos]
  rw [List.any_eq_true]
  exact ⟨b, hmem, by simpa using char_val_out_of_range P b hb hout⟩

theorem is_valid_name_iff (P : Platform) (name : List Nat) (hbytes : ∀ b ∈ name, b < 256) :
    is_valid_name P name = true ↔
      (∀ b ∈ name, 0x20 ≤ b ∧ b ≤ (if P.char_signed then 0x7F else 0x84)) ∧
        name.length ≤ 65535 := by
  unfold is_valid_name
  by_cases hany : (name.any fun character =>
      decide (char_val P character < 32 ∨ char_val P character > 132)) = true
  · rw [if_pos hany]
    simp only [Bool.false_eq_true, false_iff, not_and]
    intro hall
    exfalso
    rw [List.any_eq_true] at hany
    obtain ⟨b, hmem, hb⟩ := hany
    have h1 := hall b hmem
    have h2 := hbytes b hmem
    simp only [decide_eq_true_eq] at hb
    unfold char_val at hb
    cases hs : P.char_signed
    · simp [hs] at hb h1
      omega
    · simp only [hs, true_and, if_true] at hb h1
      split at hb <;> omega
  · rw [if_neg hany]
    simp only [UINT16_MAX, decide_eq_true_eq, iff_and_self]
    intro _ b hmem
    have h2 := hbytes b hmem
    have hb : ¬ (char_val P b < 32 ∨ char_val P b > 132) := by
      intro hc
      apply hany
      rw [List.any_eq_true]
      exact ⟨b, hmem, by simpa using hc⟩
    unfold char_val at hb
    cases hs : P.char_signed
    · simp [hs] at hb ⊢
      omega
    · simp only [hs, true_and, if_true] at hb ⊢
      split at hb <;> omega

/-- Claim C11. Name validation rejects: for every server, every handler and
every name (a list of bytes) containing at least one byte outside
`[0x20, 0x84]`, `rpc_register` returns -1 and returns the server unchanged,
so the registry keeps its entries, their order and its count. -/
theorem c11_invalid_name_rejected (P : Platform) (s : rpc_server) (name : List Nat)
    (handler : Nat) (hbytes : ∀ b ∈ name, b < 256)
    (hbad : ∃ b ∈ name, b < 0x20 ∨ 0x84 < b) :
    rpc_register P (some s) (some name) handler = (-1, some s) := by
  have hinv : is_valid_name P name = false := by
    obtain ⟨b, hmem, hout⟩ := hbad
    exact is_valid_name_false_of_bad_byte P name ⟨b, hmem, hbytes b hmem, hout⟩
  unfold rpc_register
  by_cases hh : handler = 0
  · simp [hh]
  · simp [hh, hinv]

theorem c11_invalid_name_rejected_witness :
    (∀ b ∈ [101, 99, 0x1F, 111], b < 256) ∧
    (∃ b ∈ [101, 99, 0x1F, 111], b < 0x20 ∨ 0x84 < b) ∧
    rpc_register linux64 (some ⟨example_table, 3⟩) (some [101, 99, 0x1F, 111]) 7 =
      (-1, some ⟨example_table, 3⟩) :=
  ⟨by decide, by decide,
    c11_invalid_name_rejected linux64 ⟨example_table, 3⟩ [101, 99, 0x1F, 111] 7
      (by decide) (by decide)⟩

/-- Claim C12, evaluated at a failing input. Where plain `char` is signed, the
one-byte name 0x80 is rejected: `is_valid_name` returns false and
`rpc_register` returns -1 and leaves the server unchanged, although the byte
lies in `[0x20, 0x84]`. In general `is_valid_name` accepts exactly the names
of at most 65535 bytes whose bytes lie in `[0x20, 0x7F]` where `char` is
signed, and in `[0x20, 0x84]` where it is unsigned. -/
theorem c12_high_bytes_rejected_when_char_signed :
    is_valid_name linux64 [0x80] = false ∧
    (∀ (s : rpc_server) (handler : Nat),
      rpc_register linux64 (some s) (some [0x80]) handler = (-1, some s)) ∧
    (∀ (P : Platform) (name : List Nat), (∀ b ∈ name, b < 256) →
      (is_valid_name P name = true ↔
        (∀ b ∈ name, 0x20 ≤ b ∧ b ≤ (if P.char_signed then 0x7F else 0x84)) ∧
          name.length ≤ 65535)) := by
  have h1 : is_valid_name linux64 [0x80] = false := by decide
  refine ⟨h1, ?_, is_valid_name_iff⟩
  intro s handler
  unfold rpc_register
  by_cases hh : handler = 0
  · simp [hh]
  · simp [hh, h1]

/-! ### Protocol handlers -/

theorem ntohs_htons (x : Nat) (h : x < 2 ^ 16) : ntohs (htons x) = x := by
  simp only [ntohs, htons, List.foldl]
  omega

theorem htons_length (x : Nat) : (htons x).length = 2 := by
  simp [htons]

theorem takeWhile_no_nul (name : List Nat) (h : 0 ∉ name) :
    name.takeWhile (fun c => decide (c ≠ 0)) = name := by
  induction name with
  | nil => rfl
  | cons c cs ih =>
    simp only [List.mem_cons, not_or] at h
    have hc : c ≠ 0 := fun hc => h.1 hc.symm
    rw [List.takeWhile_cons]
    simp only [ne_eq, hc, not_false_eq_true, decide_True, if_true, List.cons.injEq, true_and]
    exact ih h.2

theorem is_valid_name_no_nul (P : Platform) (name : List Nat)
    (h : is_valid_name P name = true) : 0 ∉ name ∧ name.length ≤ 65535 := by
  unfold is_valid_name at h
  split at h
  · simp at h
  · rename_i hany
    refine ⟨?_, by simpa [UINT16_MAX] using h⟩
    intro hmem
    apply hany
    rw [List.any_eq_true]
    refine ⟨0, hmem, ?_⟩
    simp [char_val]

theorem svr_find_gate (P : Platform) (fd : Sock) (prof : hw_profile) (t : hash_table)
    (hi : prof.initialised = false) (hcap : 3 ≤ fd.wcap) :
    svr_handle_msg_find P fd prof t =
      (true, { inp := fd.inp, out := fd.out ++ [RPC_RTN_ERROR, RPC_ERROR_CXN_INVALID, RPC_MSG_END],
               wcap := fd.wcap - 3 }) := by
  unfold svr_handle_msg_find
  simp only [hi, Bool.not_false, if_true]
  exact svr_handle_rtn_error_ok fd _ hcap

theorem svr_call_gate (P : Platform) (code : HandlerCode) (fd : Sock) (prof : hw_profile)
    (t : hash_table) (hi : prof.initialised = false) (hcap : 3 ≤ fd.wcap) :
    svr_handle_msg_call P code fd prof t =
      (true, none,
        { inp := fd.inp, out := fd.out ++ [RPC_RTN_ERROR, RPC_ERROR_CXN_INVALID, RPC_MSG_END],
          wcap := fd.wcap - 3 }) := by
  unfold svr_handle_msg_call
  simp only [hi, Bool.not_false, if_true]
  rw [svr_handle_rtn_error_ok fd _ hcap]

theorem svr_find_run (P : Platform) (prof : hw_profile) (t : hash_table)
    (name rest out : List Nat) (wcap : Nat)
    (hi : prof.initialised = true) (hnul : 0 ∉ name) (hlen : name.length ≤ 65535)
    (hcap : (if ht_index P t name = 0 then 3 else 10) ≤ wcap) :
    svr_handle_msg_find P
        { inp := htons name.length ++ (name ++ (RPC_MSG_END :: rest)), out := out, wcap := wcap }
        prof t =
      if ht_index P t name = 0 then
        (true, { inp := rest, out := out ++ [RPC_RTN_ERROR, RPC_ERROR_FUNC_NOT_FOUND, RPC_MSG_END],
                 wcap := wcap - 3 })
      else
        (true, { inp := rest,
                 out := out ++ ([RPC_RTN_SUCCESS] ++
                   (hton64 (ht_retrieve_hash t (ht_index P t name)) ++ [RPC_MSG_END])),
                 wcap := wcap - 10 }) := by
  unfold svr_handle_msg_find
  simp only [hi, Bool.not_true, Bool.false_eq_true, if_false]
  rw [socket_recv_append _ _ _ _ _ (by simp [htons_length])]
  dsimp only
  rw [ntohs_htons _ (by omega)]
  rw [socket_recv_append _ _ _ _ _ rfl]
  dsimp only
  rw [socket_recv_one]
  dsimp only
  simp only [List.headD_cons, ne_eq, not_true_eq_false, if_false]
  rw [takeWhile_no_nul name hnul]
  by_cases hh : ht_index P t name = 0
  · rw [if_pos hh, if_pos hh]
    rw [if_pos hh] at hcap
    exact svr_handle_rtn_error_ok _ _ (by simpa using hcap)
  · rw [if_neg hh, if_neg hh]
    rw [if_neg hh] at hcap
    rw [socket_send_ok _ _ (by simp; omega)]
    dsimp only
    rw [socket_send_ok _ _ (by simp [hton64_length]; omega)]
    dsimp only
    rw [socket_send_ok _ _ (by simp [hton64_length]; omega)]
    simp [Nat.sub_sub, List.append_assoc, hton64_length]

theorem socket_send_data_opt (fd : Sock) (o : Option rpc_data)
    (hcap : (opt_wire o).length ≤ fd.wcap) :
    socket_send_data fd o =
      (true, { inp := fd.inp, out := fd.out ++ opt_wire o,
               wcap := fd.wcap - (opt_wire o).length }) := by
  cases o with
  | none => simp [socket_send_data, opt_wire]
  | some q => exact socket_send_data_ok fd q hcap

theorem svr_call_run (P : Platform) (code : HandlerCode) (prof : hw_profile) (t : hash_table)
    (p : rpc_data) (d : Nat) (rest out : List Nat) (wcap : Nat)
    (hi : prof.initialised = true) (hpwf : p.wf)
    (hps : ¬ ((p.data2_len = 0 ∧ p.data2 ≠ none) ∨ (p.data2_len > 0 ∧ p.data2 = none)))
    (hd : d < 2 ^ 64) (hcap3 : 3 ≤ wcap)
    (hcap : ht_index_with_hash t d ≠ 0 →
      check_data prof (code (ht_index_with_hash t d) p) = 0 →
      2 + (opt_wire (code (ht_index_with_hash t d) p)).length ≤ wcap) :
    svr_handle_msg_call P code
        { inp := data_wire p ++ (hton64 d ++ (RPC_MSG_END :: rest)), out := out, wcap := wcap }
        prof t =
      if ht_index_with_hash t d = 0 then
        (true, none,
          { inp := rest, out := out ++ [RPC_RTN_ERROR, RPC_ERROR_HNDL_INVALID, RPC_MSG_END],
            wcap := wcap - 3 })
      else if check_data prof (code (ht_index_with_hash t d) p) ≠ 0 then
        (true, some (ht_index_with_hash t d, p),
          { inp := rest,
            out := out ++ [RPC_RTN_ERROR, check_data prof (code (ht_index_with_hash t d) p),
              RPC_MSG_END],
            wcap := wcap - 3 })
      else
        (true, some (ht_index_with_hash t d, p),
          { inp := rest,
            out := out ++ ([RPC_RTN_SUCCESS] ++
              (opt_wire (code (ht_index_with_hash t d) p) ++ [RPC_MSG_END])),
            wcap := wcap - (2 + (opt_wire (code (ht_index_with_hash t d) p)).length) }) := by
  have hple := wf_shape_le p hpwf hps
  have hprecv := fun rest o c =>
    socket_recv_data_wire P p rest o c hpwf.1 hpwf.2.1 hpwf.2.2.1 hple
  rw [decoded_eq p hpwf hps] at hprecv
  unfold svr_handle_msg_call
  simp only [hi, Bool.not_true, Bool.false_eq_true, if_false]
  rw [hprecv]
  dsimp only
  rw [socket_recv_append _ _ _ _ _ (by simp [hton64_length])]
  dsimp only
  rw [socket_recv_one]
  dsimp only
  simp only [List.headD_cons, ne_eq, not_true_eq_false, if_false, ntoh64_hton64 _ hd]
  by_cases hh : ht_index_with_hash t d = 0
  · rw [if_pos hh, if_pos hh, svr_handle_rtn_error_ok _ _ (by simpa using hcap3)]
  · rw [if_neg hh, if_neg hh]
    by_cases he : check_data prof (code (ht_index_with_hash t d) p) = 0
    · rw [if_neg (by simpa using he), if_neg (by simpa using he)]
      have hcap := hcap hh he
      rw [socket_send_ok _ _ (by simp; omega)]
      dsimp only
      rw [socket_send_data_opt _ _ (by simp; omega)]
      dsimp only
      rw [socket_send_ok _ _ (by simp; omega)]
      simp [Nat.sub_sub, List.append_assoc]
      omega
    · rw [if_pos (by simpa using he), if_pos (by simpa using he),
        svr_handle_rtn_error_ok _ _ (by simpa using hcap3)]

theorem svr_connect_run (P : Platform) (prof : hw_profile) (w s : Nat) (rest out : List Nat)
    (wcap : Nat) (hcap : 4 ≤ wcap) :
    svr_handle_msg_connect P { inp := w :: s :: RPC_MSG_END :: rest, out := out, wcap := wcap }
        prof =
      (true,
        { int_max := to_int64 (MAX_SINT P w),
          int_min := to_int64 (to_u64 (-(to_int64 (MAX_SINT P w)) - 1)),
          size_max := MAX_UINT P s, initialised := true },
        { inp := rest,
          out := out ++ [RPC_RTN_SUCCESS, P.sizeof_int % 256, P.sizeof_size_t % 256, RPC_MSG_END],
          wcap := wcap - 4 }) := by
  unfold svr_handle_msg_connect
  rw [socket_recv_one]
  dsimp only
  rw [socket_recv_one]
  dsimp only
  rw [socket_recv_one]
  dsimp only
  simp only [List.headD_cons, ne_eq, not_true_eq_false, if_false]
  rw [socket_send_ok _ _ (by simp; omega)]
  dsimp only
  rw [socket_send_ok _ _ (by simp; omega)]
  dsimp only
  rw [socket_send_ok _ _ (by simp; omega)]
  dsimp only
  rw [socket_send_ok _ _ (by simp; omega)]
  simp [Nat.sub_sub, List.append_assoc]

theorem cl_connect_run (P : Platform) (prof : hw_profile) (w s : Nat) (rest out : List Nat)
    (wcap : Nat) (hcap : 4 ≤ wcap) :
    cl_handle_proc_connect P
        { inp := RPC_RTN_SUCCESS :: w :: s :: RPC_MSG_END :: rest, out := out, wcap := wcap }
        prof =
      (true,
        { int_max := to_int64 (MAX_SINT P w),
          int_min := to_int64 (to_u64 (-(to_int64 (MAX_SINT P w)) - 1)),
          size_max := MAX_UINT P s, initialised := true },
        { inp := rest,
          out := out ++ [RPC_MSG_CONNECT, P.sizeof_int % 256, P.sizeof_size_t % 256, RPC_MSG_END],
          wcap := wcap - 4 }) := by
  unfold cl_handle_proc_connect
  rw [socket_send_ok _ _ (by simp; omega)]
  dsimp only
  rw [socket_send_ok _ _ (by simp; omega)]
  dsimp only
  rw [socket_send_ok _ _ (by simp; omega)]
  dsimp only
  rw [socket_send_ok _ _ (by simp; omega)]
  dsimp only
  rw [socket_recv_one]
  dsimp only
  simp only [List.headD_cons]
  rw [if_neg (by decide)]
  rw [socket_recv_one]
  dsimp only
  rw [socket_recv_one]
  dsimp only
  rw [socket_recv_one]
  dsimp only
  simp [Nat.sub_sub, List.append_assoc]

theorem lookup_of_not_mem (es : List hash_item) (d : Nat)
    (h : ∀ e ∈ es, e.hash_value ≠ d) : lookup es d = 0 := by
  induction es with
  | nil => rfl
  | cons e es ih =>
    simp only [lookup]
    rw [if_neg (h e (by simp))]
    exact ih (fun x hx => h x (by simp [hx]))

theorem loop_connect (P : Platform) (code : HandlerCode) (srv : rpc_server) (n : Nat)
    (prof : hw_profile) (inp out : List Nat) (wcap : Nat) (calls : List (Nat × rpc_data)) :
    handle_client_loop P code srv (n + 1) prof
        { inp := RPC_MSG_CONNECT :: inp, out := out, wcap := wcap } calls =
      if (svr_handle_msg_connect P { inp := inp, out := out, wcap := wcap } prof).1 = true then
        handle_client_loop P code srv n
          (svr_handle_msg_connect P { inp := inp, out := out, wcap := wcap } prof).2.1
          (svr_handle_msg_connect P { inp := inp, out := out, wcap := wcap } prof).2.2 calls
      else
        ((svr_handle_msg_connect P { inp := inp, out := out, wcap := wcap } prof).2.1,
         (svr_handle_msg_connect P { inp := inp, out := out, wcap := wcap } prof).2.2, calls) := by
  simp only [handle_client_loop]
  rw [socket_recv_one]
  dsimp only
  simp only [List.headD_cons, if_true]

theorem loop_find (P : Platform) (code : HandlerCode) (srv : rpc_server) (n : Nat)
    (prof : hw_profile) (inp out : List Nat) (wcap : Nat) (calls : List (Nat × rpc_data)) :
    handle_client_loop P code srv (n + 1) prof
        { inp := RPC_MSG_FUNC_FIND :: inp, out := out, wcap := wcap } calls =
      if (svr_handle_msg_find P { inp := inp, out := out, wcap := wcap } prof
            srv.hash_table).1 = true then
        handle_client_loop P code srv n prof
          (svr_handle_msg_find P { inp := inp, out := out, wcap := wcap } prof
            srv.hash_table).2 calls
      else
        (prof, (svr_handle_msg_find P { inp := inp, out := out, wcap := wcap } prof
            srv.hash_table).2, calls) := by
  simp only [handle_client_loop]
  rw [socket_recv_one]
  dsimp only
  simp only [List.headD_cons]
  rw [if_neg (by decide)]
  simp only [if_true]

theorem loop_call (P : Platform) (code : HandlerCode) (srv : rpc_server) (n : Nat)
    (prof : hw_profile) (inp out : List Nat) (wcap : Nat) (calls : List (Nat × rpc_data)) :
    handle_client_loop P code srv (n + 1) prof
        { inp := RPC_MSG_FUNC_CALL :: inp, out := out, wcap := wcap } calls =
      if (svr_handle_msg_call P code { inp := inp, out := out, wcap := wcap } prof
            srv.hash_table).1 = true then
        handle_client_loop P code srv n prof
          (svr_handle_msg_call P code { inp := inp, out := out, wcap := wcap } prof
            srv.hash_table).2.2
          (calls ++ (svr_handle_msg_call P code { inp := inp, out := out, wcap := wcap } prof
            srv.hash_table).2.1.toList)
      else
        (prof, (svr_handle_msg_call P code { inp := inp, out := out, wcap := wcap } prof
            srv.hash_table).2.2,
          calls ++ (svr_handle_msg_call P code { inp := inp, out := out, wcap := wcap } prof
            srv.hash_table).2.1.toList) := by
  simp only [handle_client_loop]
  rw [socket_recv_one]
  dsimp only
  simp only [List.headD_cons]
  rw [if_neg (by decide), if_neg (by decide)]
  simp only [if_true]

theorem loop_unknown (P : Platform) (code : HandlerCode) (srv : rpc_server) (n : Nat)
    (prof : hw_profile) (b : Nat) (inp out : List Nat) (wcap : Nat)
    (calls : List (Nat × rpc_data))
    (h1 : b ≠ RPC_MSG_CONNECT) (h2 : b ≠ RPC_MSG_FUNC_FIND) (h3 : b ≠ RPC_MSG_FUNC_CALL)
    (h4 : b ≠ RPC_MSG_DISCONNECT) (hcap : 3 ≤ wcap) :
    handle_client_loop P code srv (n + 1) prof { inp := b :: inp, out := out, wcap := wcap }
        calls =
      handle_client_loop P code srv n prof
        { inp := inp, out := out ++ [RPC_RTN_ERROR, RPC_ERROR_MSG_INVALID, RPC_MSG_END],
          wcap := wcap - 3 } calls := by
  simp only [handle_client_loop]
  rw [socket_recv_one]
  dsimp only
  simp only [List.headD_cons]
  rw [if_neg h1, if_neg h2, if_neg h3, if_neg h4]
  rw [svr_handle_rtn_error_ok _ _ (by simpa using hcap)]
  simp only [if_true]

/-- Claim C20. Unknown tags: in every connection state (any peer profile), a
message byte other than CONNECT (0xCC), FUNC_FIND (0xFF), FUNC_CALL (0xFC)
and DISCONNECT (0xDC) makes the loop of `handle_client` consume that byte,
write exactly RTN_ERROR (0xEE), MSG_INVALID (0x40), END (0xED) to a peer that
accepts them, and go on with its next iteration on the remaining input with
the same profile and no handler invoked; for `handle_client` itself (fresh
profile) this means that the tag is answered and processing continues as on
the remaining input. -/
theorem c20_unknown_tag (P : Platform) (code : HandlerCode) (srv : rpc_server) (n : Nat)
    (prof : hw_profile) (b : Nat) (rest out : List Nat) (wcap : Nat)
    (calls : List (Nat × rpc_data))
    (h1 : b ≠ RPC_MSG_CONNECT) (h2 : b ≠ RPC_MSG_FUNC_FIND) (h3 : b ≠ RPC_MSG_FUNC_CALL)
    (h4 : b ≠ RPC_MSG_DISCONNECT) (hcap : 3 ≤ wcap) :
    handle_client_loop P code srv (n + 1) prof { inp := b :: rest, out := out, wcap := wcap }
        calls =
      handle_client_loop P code srv n prof
        { inp := rest, out := out ++ [0xEE, 0x40, 0xED], wcap := wcap - 3 } calls ∧
    handle_client_loop P code srv 1 prof { inp := b :: rest, out := out, wcap := wcap } calls =
      (prof, { inp := rest, out := out ++ [0xEE, 0x40, 0xED], wcap := wcap - 3 }, calls) ∧
    handle_client P code { inp := b :: rest, out := out, wcap := wcap } srv =
      handle_client P code
        { inp := rest, out := out ++ [0xEE, 0x40, 0xED], wcap := wcap - 3 } srv := by
  refine ⟨loop_unknown P code srv n prof b rest out wcap calls h1 h2 h3 h4 hcap, ?_, ?_⟩
  · rw [loop_unknown P code srv 0 prof b rest out wcap calls h1 h2 h3 h4 hcap]
    rfl
  · unfold handle_client
    exact loop_unknown P code srv _ _ b rest out wcap [] h1 h2 h3 h4 hcap

theorem c20_unknown_tag_witness :
    handle_client_loop linux64 example_code ⟨example_table, 3⟩ (2 + 1) example_profile
        { inp := 0x41 :: [0x00], out := [], wcap := 16 } [] =
      handle_client_loop linux64 example_code ⟨example_table, 3⟩ 2 example_profile
        { inp := [0x00], out := [] ++ [0xEE, 0x40, 0xED], wcap := 16 - 3 } [] ∧
    handle_client_loop linux64 example_code ⟨example_table, 3⟩ 1 example_profile
        { inp := 0x41 :: [0x00], out := [], wcap := 16 } [] =
      (example_profile, { inp := [0x00], out := [] ++ [0xEE, 0x40, 0xED], wcap := 16 - 3 }, []) ∧
    handle_client linux64 example_code { inp := 0x41 :: [0x00], out := [], wcap := 16 }
        ⟨example_table, 3⟩ =
      handle_client linux64 example_code
        { inp := [0x00], out := [] ++ [0xEE, 0x40, 0xED], wcap := 16 - 3 } ⟨example_table, 3⟩ :=
  c20_unknown_tag linux64 example_code ⟨example_table, 3⟩ 2 example_profile 0x41 [0x00] [] 16 []
    (by decide) (by decide) (by decide) (by decide) (by decide)

/-- Claim C18. Initialisation gate: while the peer profile is not initialised,
`svr_handle_msg_find` and `svr_handle_msg_call` write exactly RTN_ERROR (0xEE),
CXN_INVALID (0x01), END (0xED) to a peer that accepts them and return true
(the connection stays open) for every registry and every handler table, so
without any lookup; no handler is invoked; and the loop of `handle_client`
goes on with the profile unchanged, `initialised` still false. The gate
returns before reading anything: the input after the message byte is left
unread. -/
theorem c18_initialisation_gate (P : Platform) (code : HandlerCode) (srv : rpc_server)
    (n : Nat) (prof : hw_profile) (rest out : List Nat) (wcap : Nat)
    (calls : List (Nat × rpc_data)) (hi : prof.initialised = false) (hcap : 3 ≤ wcap) :
    (∀ t : hash_table,
      svr_handle_msg_find P { inp := rest, out := out, wcap := wcap } prof t =
        (true, { inp := rest, out := out ++ [0xEE, 0x01, 0xED], wcap := wcap - 3 })) ∧
    (∀ (t : hash_table) (code2 : HandlerCode),
      svr_handle_msg_call P code2 { inp := rest, out := out, wcap := wcap } prof t =
        (true, none, { inp := rest, out := out ++ [0xEE, 0x01, 0xED], wcap := wcap - 3 })) ∧
    handle_client_loop P code srv (n + 1) prof
        { inp := RPC_MSG_FUNC_FIND :: rest, out := out, wcap := wcap } calls =
      handle_client_loop P code srv n prof
        { inp := rest, out := out ++ [0xEE, 0x01, 0xED], wcap := wcap - 3 } calls ∧
    handle_client_loop P code srv (n + 1) prof
        { inp := RPC_MSG_FUNC_CALL :: rest, out := out, wcap := wcap } calls =
      handle_client_loop P code srv n prof
        { inp := rest, out := out ++ [0xEE, 0x01, 0xED], wcap := wcap - 3 } calls := by
  have hf := fun t => svr_find_gate P { inp := rest, out := out, wcap := wcap } prof t hi hcap
  have hc := fun t code2 =>
    svr_call_gate P code2 { inp := rest, out := out, wcap := wcap } prof t hi hcap
  refine ⟨hf, hc, ?_, ?_⟩
  · rw [loop_find, hf]
    simp only [if_true]
    rfl
  · rw [loop_call, hc]
    simp only [if_true, Option.toList, List.append_nil]
    rfl

theorem c18_initialisation_gate_witness :
    (∀ t : hash_table,
      svr_handle_msg_find linux64 { inp := [0, 4, 101, 99, 104, 111, 0xED], out := [], wcap := 8 }
          ⟨0, 0, 0, false⟩ t =
        (true, { inp := [0, 4, 101, 99, 104, 111, 0xED], out := [] ++ [0xEE, 0x01, 0xED],
                 wcap := 8 - 3 })) ∧
    (∀ (t : hash_table) (code2 : HandlerCode),
      svr_handle_msg_call linux64 code2
          { inp := [0, 4, 101, 99, 104, 111, 0xED], out := [], wcap := 8 } ⟨0, 0, 0, false⟩ t =
        (true, none, { inp := [0, 4, 101, 99, 104, 111, 0xED], out := [] ++ [0xEE, 0x01, 0xED],
                       wcap := 8 - 3 })) ∧
    handle_client_loop linux64 example_code ⟨example_table, 3⟩ (0 + 1) ⟨0, 0, 0, false⟩
        { inp := RPC_MSG_FUNC_FIND :: [0, 4, 101, 99, 104, 111, 0xED], out := [], wcap := 8 } [] =
      handle_client_loop linux64 example_code ⟨example_table, 3⟩ 0 ⟨0, 0, 0, false⟩
        { inp := [0, 4, 101, 99, 104, 111, 0xED], out := [] ++ [0xEE, 0x01, 0xED],
          wcap := 8 - 3 } [] ∧
    handle_client_loop linux64 example_code ⟨example_table, 3⟩ (0 + 1) ⟨0, 0, 0, false⟩
        { inp := RPC_MSG_FUNC_CALL :: [0, 4, 101, 99, 104, 111, 0xED], out := [], wcap := 8 } [] =
      handle_client_loop linux64 example_code ⟨example_table, 3⟩ 0 ⟨0, 0, 0, false⟩
        { inp := [0, 4, 101, 99, 104, 111, 0xED], out := [] ++ [0xEE, 0x01, 0xED],
          wcap := 8 - 3 } [] :=
  c18_initialisation_gate linux64 example_code ⟨example_table, 3⟩ 0 ⟨0, 0, 0, false⟩
    [0, 4, 101, 99, 104, 111, 0xED] [] 8 [] rfl (by decide)

/-- Claim C17. CONNECT success: for every previous peer profile and all width
bytes `w`, `s`, the request body `w | s | END` makes `svr_handle_msg_connect`
write exactly RTN_SUCCESS (0x55), the server's own `sizeof(int)` and
`sizeof(size_t)` (as `uint8_t`) and END (0xED) to a peer that accepts them,
return true, and leave the profile initialised with the limits that
`MAX_SINT` and `MAX_UINT` derive from `(w, s)`; the loop of `handle_client`
continues with that profile. Symmetrically, on the reply
`RTN_SUCCESS | w | s | END` the client procedure `cl_handle_proc_connect`
returns true with its server profile initialised with the limits derived from
`(w, s)`. For widths between 1 and 8 these limits are `2^(8w-1) - 1`,
`-2^(8w-1)` and `2^(8s) - 1`. -/
theorem c17_connect_success (P : Platform) (code : HandlerCode) (srv : rpc_server) (n : Nat)
    (prof : hw_profile) (w s : Nat) (rest out : List Nat) (wcap : Nat)
    (calls : List (Nat × rpc_data)) (hcap : 4 ≤ wcap) :
    svr_handle_msg_connect P { inp := w :: s :: 0xED :: rest, out := out, wcap := wcap } prof =
      (true,
        { int_max := to_int64 (MAX_SINT P w),
          int_min := to_int64 (to_u64 (-(to_int64 (MAX_SINT P w)) - 1)),
          size_max := MAX_UINT P s, initialised := true },
        { inp := rest, out := out ++ [0x55, P.sizeof_int % 256, P.sizeof_size_t % 256, 0xED],
          wcap := wcap - 4 }) ∧
    handle_client_loop P code srv (n + 1) prof
        { inp := 0xCC :: w :: s :: 0xED :: rest, out := out, wcap := wcap } calls =
      handle_client_loop P code srv n
        { int_max := to_int64 (MAX_SINT P w),
          int_min := to_int64 (to_u64 (-(to_int64 (MAX_SINT P w)) - 1)),
          size_max := MAX_UINT P s, initialised := true }
        { inp := rest, out := out ++ [0x55, P.sizeof_int % 256, P.sizeof_size_t % 256, 0xED],
          wcap := wcap - 4 } calls ∧
    cl_handle_proc_connect P
        { inp := 0x55 :: w :: s :: 0xED :: rest, out := out, wcap := wcap } prof =
      (true,
        { int_max := to_int64 (MAX_SINT P w),
          int_min := to_int64 (to_u64 (-(to_int64 (MAX_SINT P w)) - 1)),
          size_max := MAX_UINT P s, initialised := true },
        { inp := rest, out := out ++ [0xCC, P.sizeof_int % 256, P.sizeof_size_t % 256, 0xED],
          wcap := wcap - 4 }) ∧
    (1 ≤ w → w ≤ 8 → 1 ≤ s → s ≤ 8 →
      to_int64 (MAX_SINT P w) = 2 ^ (8 * w - 1) - 1 ∧
      to_int64 (to_u64 (-(to_int64 (MAX_SINT P w)) - 1)) = -(2 ^ (8 * w - 1)) ∧
      MAX_UINT P s = 2 ^ (8 * s) - 1) := by
  have hs := svr_connect_run P prof w s rest out wcap hcap
  refine ⟨hs, ?_, cl_connect_run P prof w s rest out wcap hcap, ?_⟩
  · have hl := loop_connect P code srv n prof (w :: s :: 0xED :: rest) out wcap calls
    have hs2 : svr_handle_msg_connect P
        { inp := w :: s :: 0xED :: rest, out := out, wcap := wcap } prof = _ := hs
    rw [hs2] at hl
    exact hl
  · intro hw1 hw8 hs1 hs8
    have hmax := MAX_SINT_val P w hw1 hw8
    refine ⟨hmax, ?_, MAX_UINT_val P s hs1 hs8⟩
    rw [hmax]
    exact int_min_val w hw1 hw8

theorem c17_connect_success_witness :
    svr_handle_msg_connect linux64 { inp := 2 :: 8 :: 0xED :: [0xDC], out := [], wcap := 4 }
        ⟨0, 0, 0, false⟩ =
      (true,
        { int_max := to_int64 (MAX_SINT linux64 2),
          int_min := to_int64 (to_u64 (-(to_int64 (MAX_SINT linux64 2)) - 1)),
          size_max := MAX_UINT linux64 8, initialised := true },
        { inp := [0xDC],
          out := [] ++ [0x55, linux64.sizeof_int % 256, linux64.sizeof_size_t % 256, 0xED],
          wcap := 4 - 4 }) ∧
    handle_client_loop linux64 example_code ⟨example_table, 3⟩ (1 + 1) ⟨0, 0, 0, false⟩
        { inp := 0xCC :: 2 :: 8 :: 0xED :: [0xDC], out := [], wcap := 4 } [] =
      handle_client_loop linux64 example_code ⟨example_table, 3⟩ 1
        { int_max := to_int64 (MAX_SINT linux64 2),
          int_min := to_int64 (to_u64 (-(to_int64 (MAX_SINT linux64 2)) - 1)),
          size_max := MAX_UINT linux64 8, initialised := true }
        { inp := [0xDC],
          out := [] ++ [0x55, linux64.sizeof_int % 256, linux64.sizeof_size_t % 256, 0xED],
          wcap := 4 - 4 } [] ∧
    cl_handle_proc_connect linux64
        { inp := 0x55 :: 2 :: 8 :: 0xED :: [0xDC], out := [], wcap := 4 } ⟨0, 0, 0, false⟩ =
      (true,
        { int_max := to_int64 (MAX_SINT linux64 2),
          int_min := to_int64 (to_u64 (-(to_int64 (MAX_SINT linux64 2)) - 1)),
          size_max := MAX_UINT linux64 8, initialised := true },
        { inp := [0xDC],
          out := [] ++ [0xCC, linux64.sizeof_int % 256, linux64.sizeof_size_t % 256, 0xED],
          wcap := 4 - 4 }) ∧
    (1 ≤ 2 → 2 ≤ 8 → 1 ≤ 8 → 8 ≤ 8 →
      to_int64 (MAX_SINT linux64 2) = 2 ^ (8 * 2 - 1) - 1 ∧
      to_int64 (to_u64 (-(to_int64 (MAX_SINT linux64 2)) - 1)) = -(2 ^ (8 * 2 - 1)) ∧
      MAX_UINT linux64 8 = 2 ^ (8 * 8) - 1) :=
  c17_connect_success linux64 example_code ⟨example_table, 3⟩ 1 ⟨0, 0, 0, false⟩ 2 8 [0xDC] []
    4 [] (by decide)

/-- Claim C14. Unknown function: on an initialised connection, a FUNC_FIND
request `len | name | END` for a name (a C string of at most 65535 bytes)
whose digest is in no occupied slot of the registry is answered with exactly
RTN_ERROR (0xEE), FUNC_NOT_FOUND (0x02), END (0xED), written to a peer that
accepts them; the handler returns true and the loop of `handle_client` goes
on behind the request with the same profile, the same registry and no
handler invoked; a FUNC_FIND request for a name that resolves in the registry
sent right after it is answered with RTN_SUCCESS, the handle and END. -/
theorem c14_unknown_function (P : Platform) (code : HandlerCode) (srv : rpc_server) (n : Nat)
    (prof : hw_profile) (name rest out : List Nat) (wcap : Nat)
    (calls : List (Nat × rpc_data))
    (hi : prof.initialised = true) (hnul : 0 ∉ name) (hlen : name.length ≤ 65535)
    (hmiss : ∀ e ∈ entries srv.hash_table, e.hash_value ≠ generate_hash P name)
    (hcap : 3 ≤ wcap) :
    svr_handle_msg_find P
        { inp := htons name.length ++ (name ++ (0xED :: rest)), out := out, wcap := wcap }
        prof srv.hash_table =
      (true, { inp := rest, out := out ++ [0xEE, 0x02, 0xED], wcap := wcap - 3 }) ∧
    handle_client_loop P code srv (n + 1) prof
        { inp := 0xFF :: (htons name.length ++ (name ++ (0xED :: rest))), out := out,
          wcap := wcap } calls =
      handle_client_loop P code srv n prof
        { inp := rest, out := out ++ [0xEE, 0x02, 0xED], wcap := wcap - 3 } calls ∧
    (∀ (N rest2 : List Nat), 0 ∉ N → N.length ≤ 65535 → ht_index P srv.hash_table N ≠ 0 →
      13 ≤ wcap → rest = 0xFF :: (htons N.length ++ (N ++ (0xED :: rest2))) →
      handle_client_loop P code srv (n + 2) prof
          { inp := 0xFF :: (htons name.length ++ (name ++ (0xED :: rest))), out := out,
            wcap := wcap } calls =
        handle_client_loop P code srv n prof
          { inp := rest2,
            out := out ++ [0xEE, 0x02, 0xED] ++ ([0x55] ++
              (hton64 (ht_retrieve_hash srv.hash_table (ht_index P srv.hash_table N)) ++
                [0xED])),
            wcap := wcap - 3 - 10 } calls) := by
  have hidx : ht_index P srv.hash_table name = 0 := by
    unfold ht_index
    rw [ht_index_with_hash_eq]
    exact lookup_of_not_mem _ _ hmiss
  have hrun := svr_find_run P prof srv.hash_table name rest out wcap hi hnul hlen
    (by rw [if_pos hidx]; exact hcap)
  rw [if_pos hidx] at hrun
  have hstep : ∀ m, handle_client_loop P code srv (m + 1) prof
        { inp := 0xFF :: (htons name.length ++ (name ++ (0xED :: rest))), out := out,
          wcap := wcap } calls =
      handle_client_loop P code srv m prof
        { inp := rest, out := out ++ [0xEE, 0x02, 0xED], wcap := wcap - 3 } calls := by
    intro m
    have hl := loop_find P code srv m prof (htons name.length ++ (name ++ (0xED :: rest)))
      out wcap calls
    have hrun2 : svr_handle_msg_find P
        { inp := htons name.length ++ (name ++ (0xED :: rest)), out := out, wcap := wcap }
        prof srv.hash_table = _ := hrun
    rw [hrun2] at hl
    exact hl
  refine ⟨hrun, hstep n, ?_⟩
  intro N rest2 hN0 hNlen hNidx hcap13 hrest
  rw [hstep (n + 1)]
  subst hrest
  have hrunN := svr_find_run P prof srv.hash_table N rest2 (out ++ [0xEE, 0x02, 0xED])
    (wcap - 3) hi hN0 hNlen (by rw [if_neg hNidx]; omega)
  rw [if_neg hNidx] at hrunN
  have hl := loop_find P code srv n prof (htons N.length ++ (N ++ (0xED :: rest2)))
    (out ++ [0xEE, 0x02, 0xED]) (wcap - 3) calls
  have hrunN2 : svr_handle_msg_find P
      { inp := htons N.length ++ (N ++ (0xED :: rest2)), out := out ++ [0xEE, 0x02, 0xED],
        wcap := wcap - 3 } prof srv.hash_table = _ := hrunN
  rw [hrunN2] at hl
  exact hl

theorem c14_unknown_function_witness :
    handle_client_loop linux64 example_code ⟨example_table, 3⟩ (1 + 2) example_profile
        { inp := 0xFF :: (htons nope_name.length ++ (nope_name ++
            (0xED :: 0xFF :: (htons echo_name.length ++ (echo_name ++ (0xED :: [])))))),
          out := [], wcap := 13 } [] =
      handle_client_loop linux64 example_code ⟨example_table, 3⟩ 1 example_profile
        { inp := [],
          out := [] ++ [0xEE, 0x02, 0xED] ++ ([0x55] ++
            (hton64 (ht_retrieve_hash example_table (ht_index linux64 example_table echo_name)) ++
              [0xED])),
          wcap := 13 - 3 - 10 } [] :=
  (c14_unknown_function linux64 example_code ⟨example_table, 3⟩ 1 example_profile nope_name
    (0xFF :: (htons echo_name.length ++ (echo_name ++ (0xED :: [])))) [] 13 []
    rfl (by decide) (by decide) (by decide) (by decide)).2.2
    echo_name [] (by decide) (by decide) (by decide) (by decide) rfl

/-- Claim C15. Unknown handle: on an initialised connection, a FUNC_CALL
request `payload | digest | END` with a well-formed payload and a digest held
by no occupied slot of the registry is answered with exactly RTN_ERROR
(0xEE), HNDL_INVALID (0x20), END (0xED), written to a peer that accepts them;
no handler is invoked, the handler returns true and the loop of
`handle_client` goes on behind the request with the same profile. -/
theorem c15_unknown_handle (P : Platform) (code : HandlerCode) (srv : rpc_server) (n : Nat)
    (prof : hw_profile) (p : rpc_data) (d : Nat) (rest out : List Nat) (wcap : Nat)
    (calls : List (Nat × rpc_data))
    (hi : prof.initialised = true) (hpwf : p.wf)
    (hps : ¬ ((p.data2_len = 0 ∧ p.data2 ≠ none) ∨ (p.data2_len > 0 ∧ p.data2 = none)))
    (hd : d < 2 ^ 64)
    (hmiss : ∀ e ∈ entries srv.hash_table, e.hash_value ≠ d)
    (hcap : 3 ≤ wcap) :
    svr_handle_msg_call P code
        { inp := data_wire p ++ (hton64 d ++ (0xED :: rest)), out := out, wcap := wcap }
        prof srv.hash_table =
      (true, none, { inp := rest, out := out ++ [0xEE, 0x20, 0xED], wcap := wcap - 3 }) ∧
    handle_client_loop P code srv (n + 1) prof
        { inp := 0xFC :: (data_wire p ++ (hton64 d ++ (0xED :: rest))), out := out,
          wcap := wcap } calls =
      handle_client_loop P code srv n prof
        { inp := rest, out := out ++ [0xEE, 0x20, 0xED], wcap := wcap - 3 } calls := by
  have hidx : ht_index_with_hash srv.hash_table d = 0 := by
    rw [ht_index_with_hash_eq]
    exact lookup_of_not_mem _ _ hmiss
  have hrun := svr_call_run P code prof srv.hash_table p d rest out wcap hi hpwf hps hd hcap
    (fun h => absurd hidx h)
  rw [if_pos hidx] at hrun
  refine ⟨hrun, ?_⟩
  have hl := loop_call P code srv n prof (data_wire p ++ (hton64 d ++ (0xED :: rest)))
    out wcap calls
  have hrun2 : svr_handle_msg_call P code
      { inp := data_wire p ++ (hton64 d ++ (0xED :: rest)), out := out, wcap := wcap }
      prof srv.hash_table = _ := hrun
  rw [hrun2] at hl
  simpa using hl

theorem c15_unknown_handle_witness :
    svr_handle_msg_call linux64 example_code
        { inp := data_wire ⟨42, 0, none⟩ ++ (hton64 12345 ++ (0xED :: [0xDC])), out := [],
          wcap := 3 }
        example_profile example_table =
      (true, none, { inp := [0xDC], out := [] ++ [0xEE, 0x20, 0xED], wcap := 3 - 3 }) :=
  (c15_unknown_handle linux64 example_code ⟨example_table, 3⟩ 0 example_profile ⟨42, 0, none⟩
    12345 [0xDC] [] 3 [] rfl (by decide) (by decide) (by decide) (by decide) (by decide)).1

/-- Claim C16. Handler results are validated against the caller's profile: on
an initialised connection, for a FUNC_CALL request `payload | digest | END`
with a well-formed payload `p` and a digest bound to a handler `H`, the
handler is invoked once on `p`; if `check_data(client_profile, H(p)) = 0` the
server writes RTN_SUCCESS (0x55), the encoding of `H(p)` and END (0xED), and
otherwise exactly RTN_ERROR (0xEE), the mask `check_data(client_profile,
H(p))` and END; in both cases to a peer that accepts the bytes the handler
returns true and the loop of `handle_client` goes on behind the request. The
mask is DATA_INVALID (0x10) when `H` returns no payload and has DATA_INT_OVF
(0x04) set when the result integer is above the client's `int_max`. -/
theorem c16_result_validated (P : Platform) (code : HandlerCode) (srv : rpc_server) (n : Nat)
    (prof : hw_profile) (p : rpc_data) (d : Nat) (rest out : List Nat) (wcap : Nat)
    (calls : List (Nat × rpc_data))
    (hi : prof.initialised = true) (hpwf : p.wf)
    (hps : ¬ ((p.data2_len = 0 ∧ p.data2 ≠ none) ∨ (p.data2_len > 0 ∧ p.data2 = none)))
    (hd : d < 2 ^ 64) (hbound : ht_index_with_hash srv.hash_table d ≠ 0)
    (hcap3 : 3 ≤ wcap)
    (hcap : 2 + (opt_wire (code (ht_index_with_hash srv.hash_table d) p)).length ≤ wcap) :
    svr_handle_msg_call P code
        { inp := data_wire p ++ (hton64 d ++ (0xED :: rest)), out := out, wcap := wcap }
        prof srv.hash_table =
      (if check_data prof (code (ht_index_with_hash srv.hash_table d) p) = 0 then
        (true, some (ht_index_with_hash srv.hash_table d, p),
          { inp := rest,
            out := out ++ ([0x55] ++
              (opt_wire (code (ht_index_with_hash srv.hash_table d) p) ++ [0xED])),
            wcap := wcap -
              (2 + (opt_wire (code (ht_index_with_hash srv.hash_table d) p)).length) })
      else
        (true, some (ht_index_with_hash srv.hash_table d, p),
          { inp := rest,
            out := out ++
              [0xEE, check_data prof (code (ht_index_with_hash srv.hash_table d) p), 0xED],
            wcap := wcap - 3 })) ∧
    handle_client_loop P code srv (n + 1) prof
        { inp := 0xFC :: (data_wire p ++ (hton64 d ++ (0xED :: rest))), out := out,
          wcap := wcap } calls =
      handle_client_loop P code srv n prof
        (svr_handle_msg_call P code
          { inp := data_wire p ++ (hton64 d ++ (0xED :: rest)), out := out, wcap := wcap }
          prof srv.hash_table).2.2
        (calls ++ [(ht_index_with_hash srv.hash_table d, p)]) ∧
    (check_data prof (code (ht_index_with_hash srv.hash_table d) p) = 0 →
      ∃ q, code (ht_index_with_hash srv.hash_table d) p = some q ∧
        opt_wire (code (ht_index_with_hash srv.hash_table d) p) = data_wire q) ∧
    (code (ht_index_with_hash srv.hash_table d) p = none →
      check_data prof (code (ht_index_with_hash srv.hash_table d) p) = 0x10) ∧
    (∀ q, code (ht_index_with_hash srv.hash_table d) p = some q → q.data1 > prof.int_max →
      check_data prof (code (ht_index_with_hash srv.hash_table d) p) &&& 0x04 = 0x04) := by
  have hrun := svr_call_run P code prof srv.hash_table p d rest out wcap hi hpwf hps hd hcap3
    (fun _ _ => hcap)
  rw [if_neg hbound] at hrun
  have hrun2 : svr_handle_msg_call P code
      { inp := data_wire p ++ (hton64 d ++ (RPC_MSG_END :: rest)), out := out, wcap := wcap }
      prof srv.hash_table =
      (if check_data prof (code (ht_index_with_hash srv.hash_table d) p) = 0 then
        (true, some (ht_index_with_hash srv.hash_table d, p),
          { inp := rest,
            out := out ++ ([RPC_RTN_SUCCESS] ++
              (opt_wire (code (ht_index_with_hash srv.hash_table d) p) ++ [RPC_MSG_END])),
            wcap := wcap -
              (2 + (opt_wire (code (ht_index_with_hash srv.hash_table d) p)).length) })
      else
        (true, some (ht_index_with_hash srv.hash_table d, p),
          { inp := rest,
            out := out ++
              [RPC_RTN_ERROR, check_data prof (code (ht_index_with_hash srv.hash_table d) p),
                RPC_MSG_END],
            wcap := wcap - 3 })) := by
    rw [hrun]
    by_cases he : check_data prof (code (ht_index_with_hash srv.hash_table d) p) = 0
    · rw [if_neg (by simpa using he), if_pos he]
    · rw [if_pos (by simpa using he), if_neg he]
  have h1 : (svr_handle_msg_call P code
      { inp := data_wire p ++ (hton64 d ++ (RPC_MSG_END :: rest)), out := out, wcap := wcap }
      prof srv.hash_table).1 = true := by
    rw [hrun2]; split <;> rfl
  have h2 : (svr_handle_msg_call P code
      { inp := data_wire p ++ (hton64 d ++ (RPC_MSG_END :: rest)), out := out, wcap := wcap }
      prof srv.hash_table).2.1 = some (ht_index_with_hash srv.hash_table d, p) := by
    rw [hrun2]; split <;> rfl
  have hloop : handle_client_loop P code srv (n + 1) prof
      { inp := RPC_MSG_FUNC_CALL :: (data_wire p ++ (hton64 d ++ (RPC_MSG_END :: rest))),
        out := out, wcap := wcap } calls =
      handle_client_loop P code srv n prof
        (svr_handle_msg_call P code
          { inp := data_wire p ++ (hton64 d ++ (RPC_MSG_END :: rest)), out := out,
            wcap := wcap } prof srv.hash_table).2.2
        (calls ++ [(ht_index_with_hash srv.hash_table d, p)]) := by
    rw [loop_call, if_pos h1, h2]
    rfl
  refine ⟨hrun2, hloop, ?_, ?_, ?_⟩
  · intro he
    cases hq : code (ht_index_with_hash srv.hash_table d) p with
    | none =>
      rw [hq] at he
      simp [check_data, hi, RPC_ERROR_DATA_INVALID] at he
    | some q => exact ⟨q, rfl, rfl⟩
  · intro hq
    rw [hq]
    simp [check_data, hi, RPC_ERROR_DATA_INVALID]
  · intro q hq hov
    rw [hq, check_data_eq_spec]
    unfold spec_check_data
    have hc : q.data1 < prof.int_min ∨ q.data1 > prof.int_max := Or.inr hov
    simp only [hi, Bool.true_eq_false, if_false, hc, if_true]
    split <;> split <;> decide

theorem c16_result_validated_witness :
    svr_handle_msg_call linux64 example_code_bad
        { inp := data_wire ⟨1, 0, none⟩ ++
            (hton64 (generate_hash linux64 copy_name) ++ (0xED :: [])), out := [], wcap := 11 }
        example_profile16 example_table_bad =
      (true, some (10, ⟨1, 0, none⟩), { inp := [], out := [0xEE, 0x04, 0xED], wcap := 8 }) ∧
    svr_handle_msg_call linux64 example_code_bad
        { inp := data_wire ⟨1, 0, none⟩ ++
            (hton64 (generate_hash linux64 echo_name) ++ (0xED :: [])), out := [], wcap := 3 }
        example_profile16 example_table_bad =
      (true, some (9, ⟨1, 0, none⟩), { inp := [], out := [0xEE, 0x10, 0xED], wcap := 0 }) :=
  ⟨(c16_result_validated linux64 example_code_bad ⟨example_table_bad, 3⟩ 0 example_profile16
      ⟨1, 0, none⟩ (generate_hash linux64 copy_name) [] [] 11 []
      rfl (by decide) (by decide) (by decide) (by decide) (by decide) (by decide)).1,
   (c16_result_validated linux64 example_code_bad ⟨example_table_bad, 3⟩ 0 example_profile16
      ⟨1, 0, none⟩ (generate_hash linux64 echo_name) [] [] 3 []
      rfl (by decide) (by decide) (by decide) (by decide) (by decide) (by decide)).1⟩

theorem ht_retrieve_hash_first (t : hash_table) (hwf : ht_wf t) (h i : Nat)
    (hi : i < t.count) (hh : (t.table.getD i hash_item.zero).handler = h) :
    ∃ j, j ≤ i ∧ (t.table.getD j hash_item.zero).handler = h ∧
      (∀ k, k < j → (t.table.getD k hash_item.zero).handler ≠ h) ∧
      ht_retrieve_hash t h = (t.table.getD j hash_item.zero).hash_value := by
  have hlen := entries_length t hwf
  unfold ht_retrieve_hash
  have he : List.take t.count t.table = entries t := rfl
  rw [he]
  cases hl : ht_loop (fun item => item.handler == h) (entries t) 0 with
  | none =>
    exfalso
    rw [ht_loop_none_iff] at hl
    have hm : (entries t).getD i hash_item.zero ∈ entries t := by
      rw [List.getD_eq_getElem _ _ (by omega)]
      exact List.getElem_mem _
    have := hl _ hm
    rw [entries_getD t i hi] at this
    simp only [beq_eq_false_iff_ne, ne_eq] at this
    exact this hh
  | some j =>
    rw [ht_loop_some_iff] at hl
    obtain ⟨hj, hp, hfirst⟩ := hl
    have hj2 : j < t.count := by omega
    rw [entries_getD t j hj2] at hp
    refine ⟨j, ?_, by simpa using hp, ?_, rfl⟩
    · by_contra hlt
      have := hfirst i (by omega)
      rw [entries_getD t i hi] at this
      simp only [beq_eq_false_iff_ne, ne_eq] at this
      exact this hh
    · intro k hk
      have := hfirst k hk
      rw [entries_getD t k (by omega)] at this
      simpa using this

/-- Claim C13 as amended. For every registry `t` built by `rpc_register` calls,
every initialised connection and every valid name `N` that resolves in the
registry, the server's reply to the request body `len(N) | N | END` of a
FUNC_FIND, written to a peer that accepts it, is exactly RTN_SUCCESS (0x55),
then `ht_retrieve_hash(t, ht_index(t, N))` as 8 bytes big-endian, then END
(0xED). That value is the digest stored in the first occupied slot `j` whose
handler is the handler `N` resolves to, a slot at or before the slot `i` of
`N`; it is `digest(N)` when no two occupied slots hold the same handler. -/
theorem c13_find_hit_reply (P : Platform) (masterfd : Int)
    (regs : List (Option (List Nat) × Nat)) (t : hash_table) (prof : hw_profile)
    (N rest out : List Nat) (wcap : Nat)
    (ht : rpc_registers P (some ⟨ht_create, masterfd⟩) regs = some ⟨t, masterfd⟩)
    (hi : prof.initialised = true) (hN : is_valid_name P N = true)
    (hreg : ht_index P t N ≠ 0) (hcap : 10 ≤ wcap) :
    svr_handle_msg_find P
        { inp := htons N.length ++ (N ++ (0xED :: rest)), out := out, wcap := wcap }
        prof t =
      (true, { inp := rest,
               out := out ++ ([0x55] ++
                 (hton64 (ht_retrieve_hash t (ht_index P t N)) ++ [0xED])),
               wcap := wcap - 10 }) ∧
    (∃ i j, j ≤ i ∧ i < t.count ∧
      t.table.getD i hash_item.zero = ⟨generate_hash P N, ht_index P t N⟩ ∧
      (t.table.getD j hash_item.zero).handler = ht_index P t N ∧
      (∀ k, k < j → (t.table.getD k hash_item.zero).handler ≠ ht_index P t N) ∧
      ht_retrieve_hash t (ht_index P t N) = (t.table.getD j hash_item.zero).hash_value) ∧
    ((∀ i, i < t.count → ∀ j, j < t.count →
        (t.table.getD i hash_item.zero).handler =
          (t.table.getD j hash_item.zero).handler → i = j) →
      ht_retrieve_hash t (ht_index P t N) = generate_hash P N) := by
  obtain ⟨t2, ht2, hinv⟩ := rpc_registers_inv P masterfd regs
  rw [ht] at ht2
  simp only [Option.some.injEq, rpc_server.mk.injEq, and_true] at ht2
  subst ht2
  obtain ⟨hnul, hlen⟩ := is_valid_name_no_nul P N hN
  have hrun := svr_find_run P prof t N rest out wcap hi hnul hlen
    (by rw [if_neg hreg]; exact hcap)
  rw [if_neg hreg] at hrun
  have hslot : ∃ i, i < t.count ∧
      t.table.getD i hash_item.zero = ⟨generate_hash P N, ht_index P t N⟩ := by
    cases hf : ht_find_hash t (generate_hash P N) with
    | none =>
      exfalso
      apply hreg
      simp only [ht_index, ht_index_with_hash, hf]
    | some i =>
      obtain ⟨hi2, hd⟩ := ht_find_hash_some t hinv.1 _ _ hf
      refine ⟨i, hi2, ?_⟩
      have hh : (t.table.getD i hash_item.zero).handler = ht_index P t N := by
        simp only [ht_index, ht_index_with_hash, hf]
      cases hx : t.table.getD i hash_item.zero with
      | mk hv hdl =>
        rw [hx] at hd hh
        simp only at hd hh
        rw [hd, hh]
  obtain ⟨i, hi2, hslot⟩ := hslot
  have hhi : (t.table.getD i hash_item.zero).handler = ht_index P t N := by rw [hslot]
  obtain ⟨j, hji, hjh, hjfirst, hjr⟩ := ht_retrieve_hash_first t hinv.1 _ i hi2 hhi
  refine ⟨hrun, ⟨i, j, hji, hi2, hslot, hjh, hjfirst, hjr⟩, ?_⟩
  intro hdistinct
  have hij : i = j := hdistinct i hi2 j (by omega) (by rw [hhi, hjh])
  rw [hjr, ← hij, hslot]

theorem c13_find_hit_reply_witness :
    rpc_registers linux64 (some ⟨ht_create, 3⟩) [(some echo_name, 7), (some copy_name, 8)] =
      some ⟨example_table, 3⟩ ∧
    ht_index linux64 example_table copy_name ≠ 0 ∧
    svr_handle_msg_find linux64
        { inp := htons copy_name.length ++ (copy_name ++ (0xED :: [0xDC])), out := [],
          wcap := 10 }
        example_profile example_table =
      (true, { inp := [0xDC],
               out := [] ++ ([0x55] ++
                 (hton64 (ht_retrieve_hash example_table
                   (ht_index linux64 example_table copy_name)) ++ [0xED])),
               wcap := 10 - 10 }) ∧
    ht_retrieve_hash example_table (ht_index linux64 example_table copy_name) =
      generate_hash linux64 copy_name :=
  ⟨by decide, by decide,
    (c13_find_hit_reply linux64 3 [(some echo_name, 7), (some copy_name, 8)] example_table
      example_profile copy_name [0xDC] [] 10 (by decide) rfl (by decide) (by decide)
      (by decide)).1,
    (c13_find_hit_reply linux64 3 [(some echo_name, 7), (some copy_name, 8)] example_table
      example_profile copy_name [0xDC] [] 10 (by decide) rfl (by decide) (by decide)
      (by decide)).2.2 (by decide)⟩

/-- Claim C13, refuted as stated: with "echo" and "copy" registered with the
same handler, the reply to FUNC_FIND "copy" carries the digest of "echo". -/
theorem c13_find_hit_reply_counterexample :
    rpc_registers linux64 (some ⟨ht_create, 3⟩) [(some echo_name, 7), (some copy_name, 7)] =
      some ⟨two_names_table, 3⟩ ∧
    ht_index linux64 two_names_table copy_name = 7 ∧
    svr_handle_msg_find linux64
        { inp := htons copy_name.length ++ (copy_name ++ [0xED]), out := [], wcap := 10 }
        example_profile two_names_table =
      (true, { inp := [], out := [0x55] ++ hton64 (generate_hash linux64 echo_name) ++ [0xED],
               wcap := 0 }) ∧
    [0x55] ++ hton64 (generate_hash linux64 echo_name) ++ [0xED] ≠
      [0x55] ++ hton64 (generate_hash linux64 copy_name) ++ [0xED] := by
  decide

/-- Claim C19, evaluated at a failing input. On a fresh connection the single
well-formed request `FUNC_FIND | 0x0001 | "A" | END` makes `handle_client`
emit five reply packets: CXN_INVALID for the message byte, written before
the rest of the request is read, and then MSG_INVALID for each of the four
remaining request bytes, which are taken for message bytes. -/
theorem c19_fresh_find_gets_five_replies :
    handle_client linux64 example_code
        { inp := [0xFF, 0x00, 0x01, 0x41, 0xED], out := [], wcap := 100 } ⟨example_table, 3⟩ =
      ({ int_max := 0, int_min := 0, size_max := 0, initialised := false },
        { inp := [],
          out := [0xEE, 0x01, 0xED, 0xEE, 0x40, 0xED, 0xEE, 0x40, 0xED, 0xEE, 0x40, 0xED,
                  0xEE, 0x40, 0xED],
          wcap := 85 },
        []) := by
  decide

/-! ### The loop of handle_client ends by itself -/

theorem socket_recv_inp_le (fd fd2 : Sock) (n : Nat) (b : Bool) (x : List Nat)
    (h : socket_recv fd n = (b, x, fd2)) : fd2.inp.length ≤ fd.inp.length := by
  unfold socket_recv at h
  split at h
  · simp only [Prod.mk.injEq] at h
    rw [← h.2.2]
    simp
  · simp only [Prod.mk.injEq] at h
    rw [← h.2.2]
    simp

theorem socket_recv_one_lt (fd fd2 : Sock) (x : List Nat)
    (h : socket_recv fd 1 = (true, x, fd2)) : fd2.inp.length < fd.inp.length := by
  unfold socket_recv at h
  split at h
  · rename_i hle
    simp only [Prod.mk.injEq, true_and] at h
    rw [← h.2]
    simp only [List.length_drop]
    omega
  · simp at h

theorem socket_send_inp (fd fd2 : Sock) (buff : List Nat) (b : Bool)
    (h : socket_send fd buff = (b, fd2)) : fd2.inp = fd.inp := by
  unfold socket_send at h
  split at h <;> (simp only [Prod.mk.injEq] at h; rw [← h.2])

theorem svr_handle_rtn_error_inp (fd : Sock) (e : Nat) :
    (svr_handle_rtn_error fd e).2.inp = fd.inp := by
  unfold svr_handle_rtn_error
  split
  · rename_i h1
    exact socket_send_inp _ _ _ _ h1
  · rename_i h1
    split
    · rename_i h2
      rw [socket_send_inp _ _ _ _ h2, socket_send_inp _ _ _ _ h1]
    · rename_i h2
      split
      · rename_i h3
        rw [socket_send_inp _ _ _ _ h3, socket_send_inp _ _ _ _ h2, socket_send_inp _ _ _ _ h1]
      · rename_i h3
        rw [socket_send_inp _ _ _ _ h3, socket_send_inp _ _ _ _ h2, socket_send_inp _ _ _ _ h1]

theorem socket_send_data_inp (fd : Sock) (o : Option rpc_data) :
    (socket_send_data fd o).2.inp = fd.inp := by
  unfold socket_send_data
  cases o with
  | none => rfl
  | some input =>
    dsimp only
    rcases h1 : socket_send fd [gen_data_flags (some input)] with ⟨b1, f1⟩
    have l1 := socket_send_inp _ _ _ _ h1
    cases b1
    · exact l1
    · dsimp only
      have key : ∀ (r : Bool × Sock), r.2.inp = f1.inp →
          (match r with
            | (false, fd) => (false, fd)
            | (true, fd) =>
              if gen_data_flags (some input) &&& RPC_DATA_BUFF ≠ 0 then
                match socket_send fd (hton64 input.data2_len) with
                | (false, fd) => (false, fd)
                | (true, fd) =>
                  match socket_send fd ((input.data2.getD []).take input.data2_len) with
                  | (false, fd) => (false, fd)
                  | (true, fd) => (true, fd)
              else (true, fd)).2.inp = fd.inp := by
        rintro ⟨b2, f2⟩ l2
        simp only at l2
        cases b2
        · dsimp only
          rw [l2, l1]
        · dsimp only
          split
          · rcases h3 : socket_send f2 (hton64 input.data2_len) with ⟨b3, f3⟩
            have l3 := socket_send_inp _ _ _ _ h3
            cases b3
            · dsimp only
              rw [l3, l2, l1]
            · dsimp only
              rcases h4 : socket_send f3 ((input.data2.getD []).take input.data2_len)
                with ⟨b4, f4⟩
              have l4 := socket_send_inp _ _ _ _ h4
              cases b4 <;> (dsimp only; rw [l4, l3, l2, l1])
          · dsimp only
            rw [l2, l1]
      apply key
      split
      · rcases h2 : socket_send f1 (hton64 (to_u64 input.data1)) with ⟨b2, f2⟩
        exact socket_send_inp _ _ _ _ h2
      · rfl

theorem socket_recv_data_inp_le (P : Platform) (fd : Sock) :
    (socket_recv_data P fd).2.2.inp.length ≤ fd.inp.length := by
  have tail : ∀ (flags_in : Nat) (rd : rpc_data) (f : Sock),
      (if flags_in &&& RPC_DATA_BUFF ≠ 0 then
        match socket_recv f 8 with
        | (false, _, fd) => (false, DataPtr.null, fd)
        | (true, be_data2_len, fd) =>
          match socket_recv fd (ntoh64 be_data2_len) with
          | (false, _, fd) => (true, DataPtr.freed, fd)
          | (true, net_data2, fd) =>
            (true, DataPtr.live { rd with
              data2_len := ntoh64 be_data2_len,
              data2 := if ntoh64 be_data2_len = 0 ∧ P.malloc0_null then none
                else some net_data2 }, fd)
      else (true, DataPtr.live rd, f)).2.2.inp.length ≤ f.inp.length := by
    intro flags_in rd f
    split
    · rcases h3 : socket_recv f 8 with ⟨b3, x3, f3⟩
      have l3 := socket_recv_inp_le _ _ _ _ _ h3
      cases b3
      · exact l3
      · dsimp only
        rcases h4 : socket_recv f3 (ntoh64 x3) with ⟨b4, x4, f4⟩
        have l4 := socket_recv_inp_le _ _ _ _ _ h4
        cases b4 <;> (dsimp only; omega)
    · exact Nat.le_refl _
  unfold socket_recv_data
  rcases h1 : socket_recv fd 1 with ⟨b1, x1, f1⟩
  have l1 := socket_recv_inp_le _ _ _ _ _ h1
  cases b1
  · exact l1
  · dsimp only
    by_cases hint : x1.headD 0 &&& RPC_DATA_INT ≠ 0
    · rw [if_pos hint]
      rcases h2 : socket_recv f1 8 with ⟨b2, x2, f2⟩
      have l2 := socket_recv_inp_le _ _ _ _ _ h2
      cases b2
      · dsimp only
        omega
      · dsimp only
        exact Nat.le_trans (tail _ _ _) (by omega)
    · rw [if_neg hint]
      dsimp only
      exact Nat.le_trans (tail _ _ _) l1

theorem svr_handle_msg_connect_inp_le (P : Platform) (fd : Sock) (prof : hw_profile) :
    (svr_handle_msg_connect P fd prof).2.2.inp.length ≤ fd.inp.length := by
  unfold svr_handle_msg_connect
  rcases h1 : socket_recv fd 1 with ⟨b1, x1, f1⟩
  have l1 := socket_recv_inp_le _ _ _ _ _ h1
  cases b1
  · exact l1
  · dsimp only
    rcases h2 : socket_recv f1 1 with ⟨b2, x2, f2⟩
    have l2 := socket_recv_inp_le _ _ _ _ _ h2
    cases b2
    · dsimp only; omega
    · dsimp only
      rcases h3 : socket_recv f2 1 with ⟨b3, x3, f3⟩
      have l3 := socket_recv_inp_le _ _ _ _ _ h3
      cases b3
      · dsimp only; omega
      · dsimp only
        split
        · dsimp only
          rw [svr_handle_rtn_error_inp]
          omega
        · rcases h4 : socket_send f3 [RPC_RTN_SUCCESS] with ⟨b4, f4⟩
          have l4 := socket_send_inp _ _ _ _ h4
          cases b4
          · dsimp only; rw [l4]; omega
          · dsimp only
            rcases h5 : socket_send f4 [P.sizeof_int % 256] with ⟨b5, f5⟩
            have l5 := socket_send_inp _ _ _ _ h5
            cases b5
            · dsimp only; rw [l5, l4]; omega
            · dsimp only
              rcases h6 : socket_send f5 [P.sizeof_size_t % 256] with ⟨b6, f6⟩
              have l6 := socket_send_inp _ _ _ _ h6
              cases b6
              · dsimp only; rw [l6, l5, l4]; omega
              · dsimp only
                rcases h7 : socket_send f6 [RPC_MSG_END] with ⟨b7, f7⟩
                have l7 := socket_send_inp _ _ _ _ h7
                cases b7 <;> (dsimp only; rw [l7, l6, l5, l4]; omega)

theorem svr_handle_msg_find_inp_le (P : Platform) (fd : Sock) (prof : hw_profile)
    (t : hash_table) : (svr_handle_msg_find P fd prof t).2.inp.length ≤ fd.inp.length := by
  unfold svr_handle_msg_find
  split
  · rw [svr_handle_rtn_error_inp]
  · rcases h1 : socket_recv fd 2 with ⟨b1, x1, f1⟩
    have l1 := socket_recv_inp_le _ _ _ _ _ h1
    cases b1
    · exact l1
    · dsimp only
      rcases h2 : socket_recv f1 (ntohs x1) with ⟨b2, x2, f2⟩
      have l2 := socket_recv_inp_le _ _ _ _ _ h2
      cases b2
      · dsimp only; omega
      · dsimp only
        rcases h3 : socket_recv f2 1 with ⟨b3, x3, f3⟩
        have l3 := socket_recv_inp_le _ _ _ _ _ h3
        cases b3
        · dsimp only; omega
        · dsimp only
          split
          · rw [svr_handle_rtn_error_inp]; omega
          · split
            · rw [svr_handle_rtn_error_inp]; omega
            · rcases h4 : socket_send f3 [RPC_RTN_SUCCESS] with ⟨b4, f4⟩
              have l4 := socket_send_inp _ _ _ _ h4
              cases b4
              · dsimp only; rw [l4]; omega
              · dsimp only
                rcases h5 : socket_send f4 (hton64 (ht_retrieve_hash t
                  (ht_index P t (List.takeWhile (fun c => decide (c ≠ 0)) x2)))) with ⟨b5, f5⟩
                have l5 := socket_send_inp _ _ _ _ h5
                cases b5
                · dsimp only; rw [l5, l4]; omega
                · dsimp only
                  rcases h6 : socket_send f5 [RPC_MSG_END] with ⟨b6, f6⟩
                  have l6 := socket_send_inp _ _ _ _ h6
                  cases b6 <;> (dsimp only; rw [l6, l5, l4]; omega)

theorem svr_handle_msg_call_inp_le (P : Platform) (code : HandlerCode) (fd : Sock)
    (prof : hw_profile) (t : hash_table) :
    (svr_handle_msg_call P code fd prof t).2.2.inp.length ≤ fd.inp.length := by
  unfold svr_handle_msg_call
  split
  · dsimp only
    rw [svr_handle_rtn_error_inp]
  · have l0 := socket_recv_data_inp_le P fd
    rcases h0 : socket_recv_data P fd with ⟨b0, input, f0⟩
    rw [h0] at l0
    simp only at l0
    cases b0
    · exact l0
    · dsimp only
      rcases h1 : socket_recv f0 8 with ⟨b1, x1, f1⟩
      have l1 := socket_recv_inp_le _ _ _ _ _ h1
      cases b1
      · dsimp only; omega
      · dsimp only
        rcases h2 : socket_recv f1 1 with ⟨b2, x2, f2⟩
        have l2 := socket_recv_inp_le _ _ _ _ _ h2
        cases b2
        · dsimp only; omega
        · dsimp only
          split
          · dsimp only
            rw [svr_handle_rtn_error_inp]; omega
          · split
            · dsimp only
              rw [svr_handle_rtn_error_inp]; omega
            · cases input with
              | null => dsimp only; omega
              | freed => dsimp only; omega
              | live input =>
                dsimp only
                split
                · dsimp only
                  rw [svr_handle_rtn_error_inp]; omega
                · rcases h4 : socket_send f2 [RPC_RTN_SUCCESS] with ⟨b4, f4⟩
                  have l4 := socket_send_inp _ _ _ _ h4
                  cases b4
                  · dsimp only; rw [l4]; omega
                  · dsimp only
                    have l5 := socket_send_data_inp f4
                      (code (ht_index_with_hash t (ntoh64 x1)) input)
                    rcases h5 : socket_send_data f4
                      (code (ht_index_with_hash t (ntoh64 x1)) input) with ⟨b5, f5⟩
                    rw [h5] at l5
                    simp only at l5
                    cases b5
                    · dsimp only; rw [l5, l4]; omega
                    · dsimp only
                      rcases h6 : socket_send f5 [RPC_MSG_END] with ⟨b6, f6⟩
                      have l6 := socket_send_inp _ _ _ _ h6
                      cases b6 <;> (dsimp only; rw [l6, l5, l4]; omega)

theorem handle_client_loop_fuel (P : Platform) (code : HandlerCode) (srv : rpc_server) :
    ∀ (fuel : Nat) (prof : hw_profile) (fd : Sock) (calls : List (Nat × rpc_data)),
      fd.inp.length < fuel →
      handle_client_loop P code srv (fuel + 1) prof fd calls =
        handle_client_loop P code srv fuel prof fd calls := by
  intro fuel
  induction fuel with
  | zero => intro prof fd calls h; omega
  | succ m ih =>
    intro prof fd calls hlt
    rw [handle_client_loop.eq_2 P code srv prof fd calls (m + 1),
      handle_client_loop.eq_2 P code srv prof fd calls m]
    rcases h1 : socket_recv fd 1 with ⟨b1, x1, f1⟩
    cases b1
    · rfl
    · have l1 := socket_recv_one_lt _ _ _ h1
      dsimp only
      split
      · have l2 := svr_handle_msg_connect_inp_le P f1 prof
        rcases h2 : svr_handle_msg_connect P f1 prof with ⟨c, prof2, f2⟩
        rw [h2] at l2
        simp only at l2
        dsimp only
        cases c
        · rfl
        · simp only [if_true]
          exact ih prof2 f2 calls (by omega)
      · split
        · have l2 := svr_handle_msg_find_inp_le P f1 prof srv.hash_table
          rcases h2 : svr_handle_msg_find P f1 prof srv.hash_table with ⟨c, f2⟩
          rw [h2] at l2
          simp only at l2
          dsimp only
          cases c
          · rfl
          · simp only [if_true]
            exact ih prof f2 calls (by omega)
        · split
          · have l2 := svr_handle_msg_call_inp_le P code f1 prof srv.hash_table
            rcases h2 : svr_handle_msg_call P code f1 prof srv.hash_table with ⟨c, inv, f2⟩
            rw [h2] at l2
            simp only at l2
            dsimp only
            cases c
            · rfl
            · simp only [if_true]
              exact ih prof f2 _ (by omega)
          · split
            · rfl
            · have l2 := svr_handle_rtn_error_inp f1 RPC_ERROR_MSG_INVALID
              rcases h2 : svr_handle_rtn_error f1 RPC_ERROR_MSG_INVALID with ⟨c, f2⟩
              rw [h2] at l2
              simp only at l2
              dsimp only
              cases c
              · rfl
              · simp only [if_true]
                exact ih prof f2 calls (by rw [l2]; omega)

/-- The loop of `handle_client` ends by itself: any fuel above the number of
input bytes gives the result of `handle_client`. -/
theorem handle_client_fuel_enough (P : Platform) (code : HandlerCode) (srv : rpc_server)
    (fd : Sock) (k : Nat) :
    handle_client_loop P code srv (fd.inp.length + 1 + k)
        { int_max := 0, int_min := 0, size_max := 0, initialised := false } fd [] =
      handle_client P code fd srv := by
  unfold handle_client
  induction k with
  | zero => rfl
  | succ k ih =>
    rw [← ih]
    exact handle_client_loop_fuel P code srv (fd.inp.length + 1 + k) _ fd [] (by omega)

/-! ### Protocol violation on CONNECT and monotonicity of the initialised flag -/

theorem svr_connect_bad_end (P : Platform) (prof : hw_profile) (w s t : Nat)
    (rest out : List Nat) (wcap : Nat) (ht : t ≠ RPC_MSG_END) (hcap : 3 ≤ wcap) :
    svr_handle_msg_connect P { inp := w :: s :: t :: rest, out := out, wcap := wcap } prof =
      (true,
        { int_max := to_int64 (MAX_SINT P w),
          int_min := to_int64 (to_u64 (-(to_int64 (MAX_SINT P w)) - 1)),
          size_max := MAX_UINT P s, initialised := prof.initialised },
        { inp := rest, out := out ++ [RPC_RTN_ERROR, RPC_ERROR_PQT_INVALID, RPC_MSG_END],
          wcap := wcap - 3 }) := by
  unfold svr_handle_msg_connect
  rw [socket_recv_one]
  dsimp only
  rw [socket_recv_one]
  dsimp only
  rw [socket_recv_one]
  dsimp only
  simp only [List.headD_cons]
  rw [if_pos ht, svr_handle_rtn_error_ok _ _ (by simpa using hcap)]

theorem loop_eof (P : Platform) (code : HandlerCode) (srv : rpc_server) (n : Nat)
    (prof : hw_profile) (out : List Nat) (wcap : Nat) (calls : List (Nat × rpc_data)) :
    handle_client_loop P code srv n prof { inp := [], out := out, wcap := wcap } calls =
      (prof, { inp := [], out := out, wcap := wcap }, calls) := by
  cases n with
  | zero => rfl
  | succ n =>
    rw [handle_client_loop.eq_2, socket_recv_nil _ _ _ (by omega)]

/-- Claim C21. Protocol violation on CONNECT: for all width bytes `w`, `s` and
every terminator byte `t` other than END (0xED), the request body `w | s | t`
on a fresh connection makes `svr_handle_msg_connect` write exactly RTN_ERROR
(0xEE), PQT_INVALID (0x80), END (0xED) to a peer that accepts them and return
true (the connection stays open) with `initialised` still false; when a
well-formed CONNECT `0xCC | w2 | s2 | 0xED` follows, the loop of
`handle_client` answers it with RTN_SUCCESS, the two widths of the server and
END, and continues with an initialised profile; when the stream ends there,
`handle_client` ends with that initialised profile and exactly these seven
reply bytes written. -/
theorem c21_connect_bad_terminator (P : Platform) (code : HandlerCode) (srv : rpc_server)
    (n : Nat) (w s t w2 s2 : Nat) (rest out : List Nat) (wcap : Nat)
    (calls : List (Nat × rpc_data)) (ht : t ≠ 0xED) (hcap : 7 ≤ wcap) :
    svr_handle_msg_connect P { inp := w :: s :: t :: rest, out := out, wcap := wcap }
        { int_max := 0, int_min := 0, size_max := 0, initialised := false } =
      (true,
        { int_max := to_int64 (MAX_SINT P w),
          int_min := to_int64 (to_u64 (-(to_int64 (MAX_SINT P w)) - 1)),
          size_max := MAX_UINT P s, initialised := false },
        { inp := rest, out := out ++ [0xEE, 0x80, 0xED], wcap := wcap - 3 }) ∧
    handle_client_loop P code srv (n + 2)
        { int_max := 0, int_min := 0, size_max := 0, initialised := false }
        { inp := 0xCC :: w :: s :: t :: 0xCC :: w2 :: s2 :: 0xED :: rest, out := out,
          wcap := wcap } calls =
      handle_client_loop P code srv n
        { int_max := to_int64 (MAX_SINT P w2),
          int_min := to_int64 (to_u64 (-(to_int64 (MAX_SINT P w2)) - 1)),
          size_max := MAX_UINT P s2, initialised := true }
        { inp := rest,
          out := out ++ [0xEE, 0x80, 0xED] ++
            [0x55, P.sizeof_int % 256, P.sizeof_size_t % 256, 0xED],
          wcap := wcap - 7 } calls ∧
    handle_client P code
        { inp := [0xCC, w, s, t, 0xCC, w2, s2, 0xED], out := [], wcap := wcap } srv =
      ({ int_max := to_int64 (MAX_SINT P w2),
         int_min := to_int64 (to_u64 (-(to_int64 (MAX_SINT P w2)) - 1)),
         size_max := MAX_UINT P s2, initialised := true },
       { inp := [],
         out := [0xEE, 0x80, 0xED, 0x55, P.sizeof_int % 256, P.sizeof_size_t % 256, 0xED],
         wcap := wcap - 7 }, []) := by
  have hbad : ∀ (rest out : List Nat),
      svr_handle_msg_connect P { inp := w :: s :: t :: rest, out := out, wcap := wcap }
        { int_max := 0, int_min := 0, size_max := 0, initialised := false } =
      (true,
        { int_max := to_int64 (MAX_SINT P w),
          int_min := to_int64 (to_u64 (-(to_int64 (MAX_SINT P w)) - 1)),
          size_max := MAX_UINT P s, initialised := false },
        { inp := rest, out := out ++ [0xEE, 0x80, 0xED], wcap := wcap - 3 }) :=
    fun rest out => svr_connect_bad_end P _ w s t rest out wcap ht (by omega)
  have hstep : ∀ (m : Nat) (rest out : List Nat) (calls : List (Nat × rpc_data)),
      handle_client_loop P code srv (m + 2)
        { int_max := 0, int_min := 0, size_max := 0, initialised := false }
        { inp := 0xCC :: w :: s :: t :: 0xCC :: w2 :: s2 :: 0xED :: rest, out := out,
          wcap := wcap } calls =
      handle_client_loop P code srv m
        { int_max := to_int64 (MAX_SINT P w2),
          int_min := to_int64 (to_u64 (-(to_int64 (MAX_SINT P w2)) - 1)),
          size_max := MAX_UINT P s2, initialised := true }
        { inp := rest,
          out := out ++ [0xEE, 0x80, 0xED] ++
            [0x55, P.sizeof_int % 256, P.sizeof_size_t % 256, 0xED],
          wcap := wcap - 7 } calls := by
    intro m rest out calls
    have h1 := loop_connect P code srv (m + 1)
      { int_max := 0, int_min := 0, size_max := 0, initialised := false }
      (w :: s :: t :: 0xCC :: w2 :: s2 :: 0xED :: rest) out wcap calls
    rw [hbad] at h1
    have h2 := loop_connect P code srv m
      { int_max := to_int64 (MAX_SINT P w),
        int_min := to_int64 (to_u64 (-(to_int64 (MAX_SINT P w)) - 1)),
        size_max := MAX_UINT P s, initialised := false }
      (w2 :: s2 :: 0xED :: rest) (out ++ [0xEE, 0x80, 0xED]) (wcap - 3) calls
    have h3 : svr_handle_msg_connect P
        { inp := w2 :: s2 :: 0xED :: rest, out := out ++ [0xEE, 0x80, 0xED],
          wcap := wcap - 3 }
        { int_max := to_int64 (MAX_SINT P w),
          int_min := to_int64 (to_u64 (-(to_int64 (MAX_SINT P w)) - 1)),
          size_max := MAX_UINT P s, initialised := false } = _ :=
      svr_connect_run P _ w2 s2 rest (out ++ [0xEE, 0x80, 0xED]) (wcap - 3) (by omega)
    rw [h3] at h2
    have h4 : wcap - 3 - 4 = wcap - 7 := by omega
    simp only [if_true, h4] at h1 h2
    exact h1.trans h2
  refine ⟨hbad rest out, hstep n rest out calls, ?_⟩
  unfold handle_client
  have h5 := hstep 7 [] [] []
  have h6 : ({ inp := [0xCC, w, s, t, 0xCC, w2, s2, 0xED], out := [], wcap := wcap } : Sock).inp.length
      + 1 = 7 + 2 := rfl
  rw [h6, h5, loop_eof]
  rfl

theorem c21_connect_bad_terminator_witness :
    (0x00 : Nat) ≠ 0xED ∧ 7 ≤ 7 ∧
    handle_client linux64 example_code
        { inp := [0xCC, 4, 8, 0x00, 0xCC, 4, 8, 0xED], out := [], wcap := 7 }
        ⟨example_table, 3⟩ =
      ({ int_max := to_int64 (MAX_SINT linux64 4),
         int_min := to_int64 (to_u64 (-(to_int64 (MAX_SINT linux64 4)) - 1)),
         size_max := MAX_UINT linux64 8, initialised := true },
       { inp := [],
         out := [0xEE, 0x80, 0xED, 0x55, linux64.sizeof_int % 256,
           linux64.sizeof_size_t % 256, 0xED],
         wcap := 7 - 7 }, []) :=
  ⟨by decide, by decide,
    (c21_connect_bad_terminator linux64 example_code ⟨example_table, 3⟩ 0 4 8 0x00 4 8 [] [] 7 []
      (by decide) (by decide)).2.2⟩

theorem handle_client_loop_iter (P : Platform) (code : HandlerCode) (srv : rpc_server)
    (fuel : Nat) (prof : hw_profile) (fd : Sock) (calls : List (Nat × rpc_data)) :
    handle_client_loop P code srv (fuel + 1) prof fd calls =
      if (handle_client_iter P code srv prof fd).1 = true then
        handle_client_loop P code srv fuel (handle_client_iter P code srv prof fd).2.1
          (handle_client_iter P code srv prof fd).2.2.1
          (calls ++ (handle_client_iter P code srv prof fd).2.2.2.toList)
      else
        ((handle_client_iter P code srv prof fd).2.1,
          (handle_client_iter P code srv prof fd).2.2.1,
          calls ++ (handle_client_iter P code srv prof fd).2.2.2.toList) := by
  rw [handle_client_loop.eq_2 P code srv prof fd calls fuel]
  unfold handle_client_iter
  rcases h1 : socket_recv fd 1 with ⟨b1, x1, f1⟩
  cases b1
  · simp
  · dsimp only
    split
    · rcases h2 : svr_handle_msg_connect P f1 prof with ⟨c, prof2, f2⟩
      cases c <;> simp
    · split
      · rcases h2 : svr_handle_msg_find P f1 prof srv.hash_table with ⟨c, f2⟩
        cases c <;> simp
      · split
        · rcases h2 : svr_handle_msg_call P code f1 prof srv.hash_table with ⟨c, inv, f2⟩
          cases c <;> simp
        · split
          · simp
          · rcases h2 : svr_handle_rtn_error f1 RPC_ERROR_MSG_INVALID with ⟨c, f2⟩
            cases c <;> simp

theorem socket_recv_one_true (fd f : Sock) (x : List Nat)
    (h : socket_recv fd 1 = (true, x, f)) : fd.inp = x.headD 0 :: f.inp := by
  unfold socket_recv at h
  split at h
  · rename_i hl
    simp only [Prod.mk.injEq, true_and] at h
    obtain ⟨hx, hf⟩ := h
    rw [← hx, ← hf]
    cases hi : fd.inp with
    | nil => rw [hi] at hl; simp at hl
    | cons a l => simp
  · simp at h

theorem svr_connect_shape (P : Platform) (fd : Sock) (prof : hw_profile) :
    ∃ r a b c i f, svr_handle_msg_connect P fd prof =
        (r, { int_max := a, int_min := b, size_max := c, initialised := i }, f) ∧
      (prof.initialised = true → i = true) ∧
      (i = true →
        prof.initialised = true ∨ ∃ w s rest, fd.inp = w :: s :: RPC_MSG_END :: rest) := by
  unfold svr_handle_msg_connect
  rcases h1 : socket_recv fd 1 with ⟨b1, x1, f1⟩
  cases b1
  · exact ⟨_, _, _, _, _, _, rfl, fun h => h, fun h => Or.inl h⟩
  · dsimp only
    rcases h2 : socket_recv f1 1 with ⟨b2, x2, f2⟩
    cases b2
    · exact ⟨_, _, _, _, _, _, rfl, fun h => h, fun h => Or.inl h⟩
    · dsimp only
      rcases h3 : socket_recv f2 1 with ⟨b3, x3, f3⟩
      cases b3
      · exact ⟨_, _, _, _, _, _, rfl, fun h => h, fun h => Or.inl h⟩
      · dsimp only
        split
        · exact ⟨_, _, _, _, _, _, rfl, fun h => h, fun h => Or.inl h⟩
        · rename_i hend
          have hend2 : x3.headD 0 = RPC_MSG_END := not_not.mp hend
          have e1 := socket_recv_one_true _ _ _ h1
          have e2 := socket_recv_one_true _ _ _ h2
          have e3 := socket_recv_one_true _ _ _ h3
          have hin : ∃ w s rest, fd.inp = w :: s :: RPC_MSG_END :: rest :=
            ⟨x1.headD 0, x2.headD 0, f3.inp, by rw [e1, e2, e3, hend2]⟩
          rcases socket_send f3 [RPC_RTN_SUCCESS] with ⟨b4, f4⟩
          cases b4
          · exact ⟨_, _, _, _, _, _, rfl, fun _ => rfl, fun _ => Or.inr hin⟩
          · dsimp only
            rcases socket_send f4 [P.sizeof_int % 256] with ⟨b5, f5⟩
            cases b5
            · exact ⟨_, _, _, _, _, _, rfl, fun _ => rfl, fun _ => Or.inr hin⟩
            · dsimp only
              rcases socket_send f5 [P.sizeof_size_t % 256] with ⟨b6, f6⟩
              cases b6
              · exact ⟨_, _, _, _, _, _, rfl, fun _ => rfl, fun _ => Or.inr hin⟩
              · dsimp only
                rcases socket_send f6 [RPC_MSG_END] with ⟨b7, f7⟩
                cases b7 <;>
                  exact ⟨_, _, _, _, _, _, rfl, fun _ => rfl, fun _ => Or.inr hin⟩

theorem handle_client_iter_shape (P : Platform) (code : HandlerCode) (srv : rpc_server)
    (prof : hw_profile) (fd : Sock) :
    ∃ r a b c i f inv, handle_client_iter P code srv prof fd =
        (r, { int_max := a, int_min := b, size_max := c, initialised := i }, f, inv) ∧
      (prof.initialised = true → i = true) ∧
      (i = true → prof.initialised = true ∨ starts_with_connect fd.inp = true) := by
  unfold handle_client_iter
  rcases h1 : socket_recv fd 1 with ⟨b1, x1, f1⟩
  cases b1
  · exact ⟨_, _, _, _, _, _, _, rfl, fun h => h, fun h => Or.inl h⟩
  · dsimp only
    have e1 := socket_recv_one_true _ _ _ h1
    split
    · rename_i hm
      obtain ⟨r, a, b, c, i, f, heq, hi1, hi2⟩ := svr_connect_shape P f1 prof
      rw [heq]
      refine ⟨_, _, _, _, _, _, _, rfl, hi1, fun hi => ?_⟩
      rcases hi2 hi with h | ⟨w, s, rest, h⟩
      · exact Or.inl h
      · exact Or.inr (by rw [e1, hm, h]; simp [starts_with_connect])
    · split
      · exact ⟨_, _, _, _, _, _, _, rfl, fun h => h, fun h => Or.inl h⟩
      · split
        · exact ⟨_, _, _, _, _, _, _, rfl, fun h => h, fun h => Or.inl h⟩
        · split
          · exact ⟨_, _, _, _, _, _, _, rfl, fun h => h, fun h => Or.inl h⟩
          · exact ⟨_, _, _, _, _, _, _, rfl, fun h => h, fun h => Or.inl h⟩

theorem handle_client_iter_initialised (P : Platform) (code : HandlerCode) (srv : rpc_server)
    (prof : hw_profile) (fd : Sock) :
    (prof.initialised = true →
      (handle_client_iter P code srv prof fd).2.1.initialised = true) ∧
    ((handle_client_iter P code srv prof fd).2.1.initialised = true →
      prof.initialised = true ∨ starts_with_connect fd.inp = true) := by
  obtain ⟨r, a, b, c, i, f, inv, heq, hi1, hi2⟩ := handle_client_iter_shape P code srv prof fd
  rw [heq]
  exact ⟨hi1, hi2⟩

theorem starts_with_connect_iff (inp : List Nat) :
    starts_with_connect inp = true ↔
      ∃ w s rest, inp = RPC_MSG_CONNECT :: w :: s :: RPC_MSG_END :: rest := by
  constructor
  · intro h
    match inp, h with
    | m :: w :: s :: e :: rest, h =>
      simp only [starts_with_connect, Bool.and_eq_true, beq_iff_eq] at h
      exact ⟨w, s, rest, by rw [h.1, h.2]⟩
  · rintro ⟨w, s, rest, rfl⟩
    simp [starts_with_connect]

theorem handle_client_trace_head (P : Platform) (code : HandlerCode) (srv : rpc_server)
    (fuel : Nat) (prof : hw_profile) (fd : Sock) :
    ∃ tl, handle_client_trace P code srv fuel prof fd = (prof, fd) :: tl := by
  cases fuel with
  | zero => exact ⟨[], rfl⟩
  | succ n => exact ⟨_, handle_client_trace.eq_2 P code srv prof fd n⟩

theorem handle_client_trace_succ (P : Platform) (code : HandlerCode) (srv : rpc_server)
    (fuel : Nat) (prof : hw_profile) (fd : Sock) :
    handle_client_trace P code srv (fuel + 1) prof fd =
      (prof, fd) ::
        if (handle_client_iter P code srv prof fd).1 = true then
          handle_client_trace P code srv fuel (handle_client_iter P code srv prof fd).2.1
            (handle_client_iter P code srv prof fd).2.2.1
        else [((handle_client_iter P code srv prof fd).2.1,
               (handle_client_iter P code srv prof fd).2.2.1)] := by
  rw [handle_client_trace.eq_2]

theorem handle_client_trace_last (P : Platform) (code : HandlerCode) (srv : rpc_server)
    (fuel : Nat) (prof : hw_profile) (fd : Sock) (calls : List (Nat × rpc_data)) :
    (handle_client_trace P code srv fuel prof fd).getLast? =
      some ((handle_client_loop P code srv fuel prof fd calls).1,
            (handle_client_loop P code srv fuel prof fd calls).2.1) := by
  induction fuel generalizing prof fd calls with
  | zero => rfl
  | succ n ih =>
    rw [handle_client_trace_succ, handle_client_loop_iter]
    by_cases hc : (handle_client_iter P code srv prof fd).1 = true
    · rw [if_pos hc, if_pos hc]
      obtain ⟨tl, htl⟩ := handle_client_trace_head P code srv n
        (handle_client_iter P code srv prof fd).2.1 (handle_client_iter P code srv prof fd).2.2.1
      rw [← ih _ _ (calls ++ (handle_client_iter P code srv prof fd).2.2.2.toList), htl]
      simp [List.getLast?_cons_cons]
    · rw [if_neg hc, if_neg hc]
      simp

theorem handle_client_trace_chain (P : Platform) (code : HandlerCode) (srv : rpc_server)
    (fuel : Nat) (prof : hw_profile) (fd : Sock) :
    List.Chain' (fun a b : hw_profile × Sock =>
        b = ((handle_client_iter P code srv a.1 a.2).2.1,
             (handle_client_iter P code srv a.1 a.2).2.2.1))
      (handle_client_trace P code srv fuel prof fd) := by
  induction fuel generalizing prof fd with
  | zero => simp [handle_client_trace]
  | succ n ih =>
    rw [handle_client_trace_succ]
    by_cases hc : (handle_client_iter P code srv prof fd).1 = true
    · rw [if_pos hc, List.chain'_cons']
      refine ⟨?_, ih _ _⟩
      obtain ⟨tl, htl⟩ := handle_client_trace_head P code srv n
        (handle_client_iter P code srv prof fd).2.1 (handle_client_iter P code srv prof fd).2.2.1
      rw [htl]
      simp
    · rw [if_neg hc]
      simp

theorem handle_client_trace_all_initialised (P : Platform) (code : HandlerCode)
    (srv : rpc_server) (fuel : Nat) (prof : hw_profile) (fd : Sock)
    (h : prof.initialised = true) :
    ∀ u ∈ handle_client_trace P code srv fuel prof fd, u.1.initialised = true := by
  induction fuel generalizing prof fd with
  | zero =>
    intro u hu
    rw [handle_client_trace, List.mem_singleton] at hu
    rw [hu]; exact h
  | succ n ih =>
    rw [handle_client_trace_succ]
    have h2 := (handle_client_iter_initialised P code srv prof fd).1 h
    intro u hu
    rw [List.mem_cons] at hu
    rcases hu with hu | hu
    · rw [hu]; exact h
    · split at hu
      · exact ih _ _ h2 u hu
      · rw [List.mem_singleton] at hu
        rw [hu]; exact h2

theorem handle_client_trace_mono (P : Platform) (code : HandlerCode)
    (srv : rpc_server) (fuel : Nat) (prof : hw_profile) (fd : Sock)
    (pre post : List (hw_profile × Sock)) (st : hw_profile × Sock)
    (htr : handle_client_trace P code srv fuel prof fd = pre ++ st :: post)
    (hst : st.1.initialised = true) : ∀ u ∈ post, u.1.initialised = true := by
  induction fuel generalizing prof fd pre with
  | zero =>
    rw [handle_client_trace] at htr
    cases pre with
    | nil =>
      rw [List.nil_append, List.cons.injEq] at htr
      rw [← htr.2]; simp
    | cons x pre =>
      rw [List.cons_append, List.cons.injEq] at htr
      have := htr.2
      simp at this
  | succ n ih =>
    rw [handle_client_trace_succ] at htr
    cases pre with
    | nil =>
      rw [List.nil_append, List.cons.injEq] at htr
      obtain ⟨h1, h2⟩ := htr
      rw [← h1] at hst
      have h3 := (handle_client_iter_initialised P code srv prof fd).1 hst
      rw [← h2]
      split
      · exact handle_client_trace_all_initialised P code srv n _ _ h3
      · intro u hu
        rw [List.mem_singleton] at hu
        rw [hu]; exact h3
    | cons x pre =>
      rw [List.cons_append, List.cons.injEq] at htr
      obtain ⟨_, h2⟩ := htr
      split at h2
      · exact ih _ _ pre h2
      · cases pre with
        | nil =>
          rw [List.nil_append, List.cons.injEq] at h2
          rw [← h2.2]; simp
        | cons y pre =>
          rw [List.cons_append, List.cons.injEq] at h2
          have := h2.2
          simp at this

theorem handle_client_trace_before (P : Platform) (code : HandlerCode)
    (srv : rpc_server) (fuel : Nat) (prof : hw_profile) (fd : Sock)
    (hp : prof.initialised = false)
    (pre post : List (hw_profile × Sock)) (st : hw_profile × Sock)
    (htr : handle_client_trace P code srv fuel prof fd = pre ++ st :: post)
    (hpre : ∀ u ∈ pre, starts_with_connect u.2.inp = false) : st.1.initialised = false := by
  induction fuel generalizing prof fd pre with
  | zero =>
    rw [handle_client_trace] at htr
    cases pre with
    | nil =>
      rw [List.nil_append, List.cons.injEq] at htr
      rw [← htr.1]; exact hp
    | cons x pre =>
      rw [List.cons_append, List.cons.injEq] at htr
      have := htr.2
      simp at this
  | succ n ih =>
    rw [handle_client_trace_succ] at htr
    cases pre with
    | nil =>
      rw [List.nil_append, List.cons.injEq] at htr
      rw [← htr.1]; exact hp
    | cons x pre =>
      rw [List.cons_append, List.cons.injEq] at htr
      obtain ⟨h1, h2⟩ := htr
      have hx : starts_with_connect fd.inp = false := by
        have := hpre x (List.mem_cons_self _ _)
        rw [← h1] at this
        exact this
      have h3 : (handle_client_iter P code srv prof fd).2.1.initialised = false := by
        cases hi : (handle_client_iter P code srv prof fd).2.1.initialised with
        | false => rfl
        | true =>
          rcases (handle_client_iter_initialised P code srv prof fd).2 hi with h | h
          · rw [hp] at h; cases h
          · rw [hx] at h; cases h
      have hpre2 : ∀ u ∈ pre, starts_with_connect u.2.inp = false :=
        fun u hu => hpre u (List.mem_cons_of_mem _ hu)
      split at h2
      · exact ih _ _ h3 pre h2 hpre2
      · cases pre with
        | nil =>
          rw [List.nil_append, List.cons.injEq] at h2
          rw [← h2.1]; exact h3
        | cons y pre =>
          rw [List.cons_append, List.cons.injEq] at h2
          have := h2.2
          simp at this

/-- Claim C22. The flag `initialised` is monotone along every run of
`handle_client`: the states the loop passes through start with the fresh
profile (flag false) and the whole input, each state is obtained from the one
before by one iteration of the loop, and the last one is the state
`handle_client` ends with; the flag is false in every state reached while no
iteration so far has started at a CONNECT packet ending with END (message
byte 0xCC, two width bytes, 0xED); and once the flag is true in a state it is
true in every later state, whatever bytes follow. -/
theorem c22_initialised_monotone (P : Platform) (code : HandlerCode) (srv : rpc_server)
    (clientfd : Sock) :
    (∃ tl, handle_client_states P code clientfd srv =
      ({ int_max := 0, int_min := 0, size_max := 0, initialised := false }, clientfd) :: tl) ∧
    List.Chain' (fun a b : hw_profile × Sock =>
        b = ((handle_client_iter P code srv a.1 a.2).2.1,
             (handle_client_iter P code srv a.1 a.2).2.2.1))
      (handle_client_states P code clientfd srv) ∧
    (handle_client_states P code clientfd srv).getLast? =
      some ((handle_client P code clientfd srv).1, (handle_client P code clientfd srv).2.1) ∧
    (∀ inp, starts_with_connect inp = true ↔
      ∃ w s rest, inp = 0xCC :: w :: s :: 0xED :: rest) ∧
    (∀ pre st post, handle_client_states P code clientfd srv = pre ++ st :: post →
      (∀ u ∈ pre, starts_with_connect u.2.inp = false) → st.1.initialised = false) ∧
    (∀ pre st post, handle_client_states P code clientfd srv = pre ++ st :: post →
      st.1.initialised = true → ∀ u ∈ post, u.1.initialised = true) :=
  ⟨handle_client_trace_head P code srv _ _ _,
   handle_client_trace_chain P code srv _ _ _,
   handle_client_trace_last P code srv _ _ _ [],
   starts_with_connect_iff,
   fun pre st post htr hpre =>
     handle_client_trace_before P code srv _ _ _ rfl pre post st htr hpre,
   fun pre st post htr hst =>
     handle_client_trace_mono P code srv _ _ _ pre post st htr hst⟩

set_option maxRecDepth 100000 in
theorem c22_initialised_monotone_witness :
    handle_client_states linux64 example_code
        { inp := [0xAB, 0xFF, 0xCC, 4, 8, 0xED, 0xAB], out := [], wcap := 20 }
        ⟨example_table, 3⟩ =
      [(⟨0, 0, 0, false⟩, ⟨[0xAB, 0xFF, 0xCC, 4, 8, 0xED, 0xAB], [], 20⟩),
       (⟨0, 0, 0, false⟩, ⟨[0xFF, 0xCC, 4, 8, 0xED, 0xAB], [0xEE, 0x40, 0xED], 17⟩)] ++
      (⟨0, 0, 0, false⟩, ⟨[0xCC, 4, 8, 0xED, 0xAB], [0xEE, 0x40, 0xED, 0xEE, 0x01, 0xED], 14⟩) ::
      [(⟨2147483647, -2147483648, 18446744073709551615, true⟩,
         ⟨[0xAB], [0xEE, 0x40, 0xED, 0xEE, 0x01, 0xED, 0x55, 4, 8, 0xED], 10⟩),
       (⟨2147483647, -2147483648, 18446744073709551615, true⟩,
         ⟨[], [0xEE, 0x40, 0xED, 0xEE, 0x01, 0xED, 0x55, 4, 8, 0xED, 0xEE, 0x40, 0xED], 7⟩),
       (⟨2147483647, -2147483648, 18446744073709551615, true⟩,
         ⟨[], [0xEE, 0x40, 0xED, 0xEE, 0x01, 0xED, 0x55, 4, 8, 0xED, 0xEE, 0x40, 0xED], 7⟩)] ∧
    (⟨0, 0, 0, false⟩ : hw_profile).initialised = false :=
  have h : handle_client_states linux64 example_code
        { inp := [0xAB, 0xFF, 0xCC, 4, 8, 0xED, 0xAB], out := [], wcap := 20 }
        ⟨example_table, 3⟩ = _ := by decide
  ⟨h, (c22_initialised_monotone linux64 example_code ⟨example_table, 3⟩
      { inp := [0xAB, 0xFF, 0xCC, 4, 8, 0xED, 0xAB], out := [], wcap := 20 }).2.2.2.2.1
      _ _ _ h (by decide)⟩

/-! ### Client API: validation before sending and the CONNECT exchange -/

theorem rpc_call_rejected (P : Platform) (cl : rpc_client) (h : rpc_handle) (p : rpc_data)
    (hact : cl.is_active = true) (herr : check_data cl.srv_profile (some p) ≠ 0) :
    rpc_call P (some cl) (some h) (some p) = (DataPtr.null, some cl) := by
  unfold rpc_call
  dsimp only
  rw [hact]
  simp only [Bool.not_true, Bool.false_eq_true, if_false]
  rw [if_pos herr]

theorem check_data_int_range (prof : hw_profile) (p : rpc_data)
    (h : p.data1 < prof.int_min ∨ p.data1 > prof.int_max) :
    check_data prof (some p) ≠ 0 := by
  intro h0
  obtain ⟨_, d, hd, h1, h2, _, _⟩ := (check_data_zero_iff prof (some p)).1 h0
  simp only [Option.some.injEq] at hd
  subst hd
  omega

theorem rpc_init_client_run (P : Platform) (addr : List Nat) (port : Int) (w s : Nat)
    (rest out : List Nat) (wcap : Nat) (hport : valid_port port = true) (hcap : 4 ≤ wcap) :
    rpc_init_client P (some addr) port
        (some { inp := RPC_RTN_SUCCESS :: w :: s :: RPC_MSG_END :: rest, out := out,
                wcap := wcap }) =
      some { serverfd :=
               { inp := rest,
                 out := out ++
                   [RPC_MSG_CONNECT, P.sizeof_int % 256, P.sizeof_size_t % 256, RPC_MSG_END],
                 wcap := wcap - 4 },
             srv_profile :=
               { int_max := to_int64 (MAX_SINT P w),
                 int_min := to_int64 (to_u64 (-(to_int64 (MAX_SINT P w)) - 1)),
                 size_max := MAX_UINT P s, initialised := true },
             is_active := true } := by
  unfold rpc_init_client
  rw [if_neg (by simp [hport])]
  dsimp only
  rw [cl_connect_run P _ w s rest out wcap hcap]

/-- Claim C23. Client-side validation before sending: for every active
client and every payload `p` with `check_data(server profile, p) != 0`,
`rpc_call` returns NULL and leaves the client with its socket as it was, so
no byte is sent. In particular, a client that `rpc_init_client` returns after
the server answered CONNECT with `RTN_SUCCESS | w | s | END` for an int width
`1 <= w <= 8` holds the limits `2^(8w-1) - 1` and `-2^(8w-1)`, and every
payload whose integer lies outside them is rejected in this way. -/
theorem c23_client_prevalidation (P : Platform) (cl : rpc_client) (h : rpc_handle)
    (p : rpc_data) (hact : cl.is_active = true) :
    (check_data cl.srv_profile (some p) ≠ 0 →
      rpc_call P (some cl) (some h) (some p) = (DataPtr.null, some cl)) ∧
    (∀ (addr : List Nat) (port : Int) (w s : Nat) (rest out : List Nat) (wcap : Nat),
      valid_port port = true → 4 ≤ wcap → 1 ≤ w → w ≤ 8 →
      rpc_init_client P (some addr) port
          (some { inp := 0x55 :: w :: s :: 0xED :: rest, out := out, wcap := wcap }) =
        some cl →
      cl.srv_profile.int_max = 2 ^ (8 * w - 1) - 1 ∧
      cl.srv_profile.int_min = -(2 ^ (8 * w - 1)) ∧
      cl.serverfd.out = out ++ [0xCC, P.sizeof_int % 256, P.sizeof_size_t % 256, 0xED] ∧
      (p.data1 < -(2 ^ (8 * w - 1)) ∨ p.data1 > 2 ^ (8 * w - 1) - 1 →
        rpc_call P (some cl) (some h) (some p) = (DataPtr.null, some cl))) := by
  refine ⟨rpc_call_rejected P cl h p hact, ?_⟩
  intro addr port w s rest out wcap hport hcap hw1 hw8 hcl
  have hrun := rpc_init_client_run P addr port w s rest out wcap hport hcap
  have hrun2 : rpc_init_client P (some addr) port
      (some { inp := 0x55 :: w :: s :: 0xED :: rest, out := out, wcap := wcap }) = _ := hrun
  rw [hrun2, Option.some.injEq] at hcl
  have hmax := MAX_SINT_val P w hw1 hw8
  have hmin := int_min_val w hw1 hw8
  rw [← hmax] at hmin
  subst hcl
  dsimp only
  refine ⟨hmax, hmin, rfl, fun hr => ?_⟩
  apply rpc_call_rejected P _ h p hact
  apply check_data_int_range
  dsimp only
  rw [hmin, hmax]
  exact hr

set_option maxRecDepth 100000 in
theorem c23_client_prevalidation_witness :
    rpc_init_client linux64 (some [58, 58, 49]) 3000
        (some { inp := 0x55 :: 2 :: 8 :: 0xED :: [], out := [], wcap := 4 }) =
      some ⟨⟨[], [0xCC, 4, 8, 0xED], 0⟩, ⟨32767, -32768, 18446744073709551615, true⟩, true⟩ ∧
    rpc_call linux64
        (some ⟨⟨[], [0xCC, 4, 8, 0xED], 0⟩, ⟨32767, -32768, 18446744073709551615, true⟩, true⟩)
        (some ⟨123⟩) (some ⟨40000, 0, none⟩) =
      (DataPtr.null,
        some ⟨⟨[], [0xCC, 4, 8, 0xED], 0⟩, ⟨32767, -32768, 18446744073709551615, true⟩, true⟩) :=
  have hi : rpc_init_client linux64 (some [58, 58, 49]) 3000
        (some { inp := 0x55 :: 2 :: 8 :: 0xED :: [], out := [], wcap := 4 }) =
      some ⟨⟨[], [0xCC, 4, 8, 0xED], 0⟩, ⟨32767, -32768, 18446744073709551615, true⟩, true⟩ := by
    decide
  ⟨hi, ((c23_client_prevalidation linux64
      ⟨⟨[], [0xCC, 4, 8, 0xED], 0⟩, ⟨32767, -32768, 18446744073709551615, true⟩, true⟩
      ⟨123⟩ ⟨40000, 0, none⟩ rfl).2 [58, 58, 49] 3000 2 8 [] [] 4 (by decide) (by decide)
      (by decide) (by decide) hi).2.2.2 (Or.inr (by decide))⟩

theorem cl_rtn_error_shape (inp out : List Nat) (wcap : Nat) :
    ∃ r f, cl_handle_rtn_error { inp := inp, out := out, wcap := wcap } = (r, f) ∧
      (r = true ↔ connect_reply_ok (RPC_RTN_ERROR :: inp) = true) ∧ f.out = out := by
  unfold cl_handle_rtn_error
  cases inp with
  | nil =>
    rw [socket_recv_nil _ _ _ Nat.one_pos]
    exact ⟨_, _, rfl, by simp [connect_reply_ok], rfl⟩
  | cons m inp =>
    rw [socket_recv_one]
    dsimp only
    cases inp with
    | nil =>
      rw [socket_recv_nil _ _ _ Nat.one_pos]
      exact ⟨_, _, rfl, by simp [connect_reply_ok], rfl⟩
    | cons e inp =>
      rw [socket_recv_one]
      dsimp only
      rw [List.headD_cons]
      by_cases he : e = RPC_MSG_END
      · rw [if_neg (not_not.mpr he)]
        exact ⟨_, _, rfl, by simp [connect_reply_ok, he], rfl⟩
      · rw [if_pos he]
        exact ⟨_, _, rfl, by simp [connect_reply_ok, he], rfl⟩

theorem cl_connect_shape (P : Platform) (inp out : List Nat) (wcap : Nat) (prof : hw_profile)
    (hcap : 4 ≤ wcap) :
    ∃ r p f, cl_handle_proc_connect P { inp := inp, out := out, wcap := wcap } prof =
        (r, p, f) ∧
      (r = true ↔ connect_reply_ok inp = true) ∧
      (r = true → inp.headD 0 ≠ RPC_RTN_ERROR → p.initialised = true) ∧
      (inp.headD 0 = RPC_RTN_ERROR → p = prof) ∧
      f.out = out ++
        [RPC_MSG_CONNECT, P.sizeof_int % 256, P.sizeof_size_t % 256, RPC_MSG_END] := by
  unfold cl_handle_proc_connect
  rw [socket_send_ok _ _ (by simp; omega)]
  dsimp only
  rw [socket_send_ok _ _ (by simp; omega)]
  dsimp only
  rw [socket_send_ok _ _ (by simp; omega)]
  dsimp only
  rw [socket_send_ok _ _ (by simp; omega)]
  dsimp only
  simp only [List.append_assoc, List.singleton_append, List.length_singleton]
  cases inp with
  | nil =>
    rw [socket_recv_nil _ _ _ Nat.one_pos]
    exact ⟨_, _, _, rfl, by simp [connect_reply_ok], by simp, by simp [RPC_RTN_ERROR], rfl⟩
  | cons r inp =>
    rw [socket_recv_one]
    dsimp only
    rw [List.headD_cons]
    by_cases hr : r = RPC_RTN_ERROR
    · rw [if_pos hr]
      obtain ⟨r2, f2, heq, hiff, hout⟩ := cl_rtn_error_shape inp
        (out ++ [RPC_MSG_CONNECT, P.sizeof_int % 256, P.sizeof_size_t % 256, RPC_MSG_END])
        (wcap - 1 - 1 - 1 - 1)
      simp only [List.append_assoc, List.singleton_append, List.cons_append,
        List.nil_append] at heq hout ⊢
      rw [heq]
      refine ⟨_, _, _, rfl, ?_, fun _ h => absurd hr h, fun _ => rfl, hout⟩
      rw [hr]
      exact hiff
    · rw [if_neg hr]
      cases inp with
      | nil =>
        rw [socket_recv_nil _ _ _ Nat.one_pos]
        exact ⟨_, _, _, rfl, by simp [connect_reply_ok, hr], by simp,
          fun h => absurd h hr, rfl⟩
      | cons w inp =>
        rw [socket_recv_one]
        dsimp only
        cases inp with
        | nil =>
          rw [socket_recv_nil _ _ _ Nat.one_pos]
          exact ⟨_, _, _, rfl, by simp [connect_reply_ok, hr], by simp,
            fun h => absurd h hr, rfl⟩
        | cons s inp =>
          rw [socket_recv_one]
          dsimp only
          cases inp with
          | nil =>
            rw [socket_recv_nil _ _ _ Nat.one_pos]
            exact ⟨_, _, _, rfl, by simp [connect_reply_ok, hr], by simp,
              fun h => absurd h hr, rfl⟩
          | cons e inp =>
            rw [socket_recv_one]
            dsimp only
            rw [List.headD_cons]
            by_cases he : e = RPC_MSG_END
            · rw [if_neg (not_not.mpr he)]
              exact ⟨_, _, _, rfl, by simp [connect_reply_ok, hr, he], fun _ _ => rfl,
                fun h => absurd h hr, rfl⟩
            · rw [if_pos he]
              exact ⟨_, _, _, rfl, by simp [connect_reply_ok, hr, he], by simp,
                fun h => absurd h hr, rfl⟩

theorem socket_send_fail (fd : Sock) (buff : List Nat) (h : fd.wcap < buff.length) :
    socket_send fd buff =
      (false, { inp := fd.inp, out := fd.out ++ buff.take fd.wcap, wcap := 0 }) := by
  unfold socket_send
  rw [if_neg (by omega)]

theorem cl_connect_send_fail (P : Platform) (fd : Sock) (prof : hw_profile)
    (hcap : fd.wcap < 4) :
    ∃ f, cl_handle_proc_connect P fd prof = (false, prof, f) ∧ f.inp = fd.inp := by
  obtain ⟨inp, out, wcap⟩ := fd
  simp only at hcap
  unfold cl_handle_proc_connect
  by_cases h1 : wcap < 1
  · rw [socket_send_fail _ _ (by simpa using h1)]
    exact ⟨_, rfl, rfl⟩
  · rw [socket_send_ok _ _ (by simp; omega)]
    dsimp only
    by_cases h2 : wcap < 2
    · rw [socket_send_fail _ _ (by simp; omega)]
      exact ⟨_, rfl, rfl⟩
    · rw [socket_send_ok _ _ (by simp; omega)]
      dsimp only
      by_cases h3 : wcap < 3
      · rw [socket_send_fail _ _ (by simp; omega)]
        exact ⟨_, rfl, rfl⟩
      · rw [socket_send_ok _ _ (by simp; omega)]
        dsimp only
        rw [socket_send_fail _ _ (by simp; omega)]
        exact ⟨_, rfl, rfl⟩

theorem rpc_init_client_of_connect (P : Platform) (addr : List Nat) (port : Int) (fd : Sock)
    (r : Bool) (p : hw_profile) (f : Sock) (hport : valid_port port = true)
    (h : cl_handle_proc_connect P fd
      { int_max := 0, int_min := 0, size_max := 0, initialised := false } = (r, p, f)) :
    rpc_init_client P (some addr) port (some fd) =
      if r = true then some { serverfd := f, srv_profile := p, is_active := true }
      else none := by
  unfold rpc_init_client
  rw [if_neg (by simp [hport])]
  dsimp only
  rw [h]
  cases r <;> rfl

theorem rpc_init_client_bad_args (P : Platform) (addr : Option (List Nat)) (port : Int)
    (conn : Option Sock) (h : addr = none ∨ port ≤ 0 ∨ 65535 < port ∨ conn = none) :
    rpc_init_client P addr port conn = none := by
  unfold rpc_init_client
  by_cases h1 : addr = none ∨ valid_port port = false
  · rw [if_pos h1]
  · rw [if_neg h1]
    rcases h with h | h | h | h
    · exact absurd (Or.inl h) h1
    · exfalso; apply h1; right
      simp [valid_port]; intro; omega
    · exfalso; apply h1; right
      simp [valid_port, UINT16_MAX]; intro; omega
    · rw [h]

/-- Claim C24 (as amended). The CONNECT exchange of the client,
`cl_handle_proc_connect`, returns true exactly when it was not cut short: all
four request bytes were accepted by the peer and the reply is either
`RTN_ERROR | mask | END` or a first byte other than RTN_ERROR followed by two
width bytes and END; it returns false when a request byte is refused, the
reply ends early or its terminator is not END. `rpc_init_client` returns NULL
whenever the exchange returns false, and also for a NULL address, a port
outside 1..65535 or a failed connection. When the exchange returns true on
a reply whose first byte is not RTN_ERROR, the client `rpc_init_client`
returns has an initialised server profile. -/
theorem c24_connect_exchange (P : Platform) (addr : List Nat) (port : Int) (fd : Sock)
    (hport : valid_port port = true) :
    (∃ r p f, cl_handle_proc_connect P fd
        { int_max := 0, int_min := 0, size_max := 0, initialised := false } = (r, p, f) ∧
      (r = true ↔ 4 ≤ fd.wcap ∧ connect_reply_ok fd.inp = true) ∧
      (r = false → rpc_init_client P (some addr) port (some fd) = none) ∧
      (r = true → fd.inp.headD 0 ≠ 0xEE →
        p.initialised = true ∧
        rpc_init_client P (some addr) port (some fd) =
          some { serverfd := f, srv_profile := p, is_active := true })) ∧
    (∀ inp, connect_reply_ok inp = true ↔
      (∃ mask rest, inp = 0xEE :: mask :: 0xED :: rest) ∨
      (∃ r w s rest, r ≠ 0xEE ∧ inp = r :: w :: s :: 0xED :: rest)) ∧
    (∀ (a : Option (List Nat)) (q : Int) (conn : Option Sock),
      a = none ∨ q ≤ 0 ∨ 65535 < q ∨ conn = none → rpc_init_client P a q conn = none) := by
  refine ⟨?_, ?_, fun a q conn h => rpc_init_client_bad_args P a q conn h⟩
  · by_cases hcap : 4 ≤ fd.wcap
    · obtain ⟨inp, out, wcap⟩ := fd
      obtain ⟨r, p, f, heq, hiff, hinit, _, _⟩ := cl_connect_shape P inp out wcap
        { int_max := 0, int_min := 0, size_max := 0, initialised := false } hcap
      have hi := rpc_init_client_of_connect P addr port _ r p f hport heq
      refine ⟨r, p, f, heq, ?_, ?_, ?_⟩
      · rw [hiff]
        exact ⟨fun h => ⟨hcap, h⟩, fun h => h.2⟩
      · intro hr
        rw [hi, hr]
        rfl
      · intro hr hne
        refine ⟨hinit hr hne, ?_⟩
        rw [hi, if_pos hr]
    · obtain ⟨f, heq, _⟩ := cl_connect_send_fail P fd
        { int_max := 0, int_min := 0, size_max := 0, initialised := false } (by omega)
      have hi := rpc_init_client_of_connect P addr port _ _ _ f hport heq
      refine ⟨false, _, f, heq, ?_, ?_, ?_⟩
      · constructor
        · intro h; cases h
        · intro h; exact absurd h.1 hcap
      · intro _
        rw [hi]
        rfl
      · intro h; cases h
  · intro inp
    unfold connect_reply_ok
    constructor
    · intro h
      split at h
      · rename_i r rest
        split at h
        · rename_i hr
          split at h
          · rename_i m e rest2
            exact Or.inl ⟨m, rest2, by rw [hr, beq_iff_eq.mp h]; rfl⟩
          · cases h
        · rename_i hr
          split at h
          · rename_i w s e rest2
            exact Or.inr ⟨r, w, s, rest2, hr, by rw [beq_iff_eq.mp h]; rfl⟩
          · cases h
      · cases h
    · rintro (⟨m, rest, rfl⟩ | ⟨r, w, s, rest, hr, rfl⟩)
      · simp [RPC_RTN_ERROR, RPC_MSG_END]
      · have hr2 : r ≠ RPC_RTN_ERROR := hr
        simp [hr2, RPC_MSG_END]

set_option maxRecDepth 100000 in
theorem c24_connect_exchange_witness :
    valid_port 3000 = true ∧
    cl_handle_proc_connect linux64 { inp := [0x55, 4, 8], out := [], wcap := 4 }
        { int_max := 0, int_min := 0, size_max := 0, initialised := false } =
      (false, ⟨2147483647, -2147483648, 18446744073709551615, true⟩,
        ⟨[], [0xCC, 4, 8, 0xED], 0⟩) ∧
    rpc_init_client linux64 (some [58, 58, 49]) 3000
      (some { inp := [0x55, 4, 8], out := [], wcap := 4 }) = none :=
  have hc : cl_handle_proc_connect linux64 { inp := [0x55, 4, 8], out := [], wcap := 4 }
        { int_max := 0, int_min := 0, size_max := 0, initialised := false } =
      (false, ⟨2147483647, -2147483648, 18446744073709551615, true⟩,
        ⟨[], [0xCC, 4, 8, 0xED], 0⟩) := by decide
  ⟨by decide, hc,
    (c24_connect_exchange linux64 [58, 58, 49] 3000
        { inp := [0x55, 4, 8], out := [], wcap := 4 } (by decide)).1.elim
      fun r h => h.elim fun p h => h.elim fun f h =>
        h.2.2.1 (by
          have h1 := h.1
          rw [hc] at h1
          exact (congrArg Prod.fst h1).symm)⟩

set_option maxRecDepth 100000 in
/-- The error reply `RTN_ERROR | CXN_INVALID | END` to the CONNECT request:
`cl_handle_proc_connect` returns true with the profile untouched, and
`rpc_init_client` returns a client whose server profile is not initialised. -/
theorem c24_error_reply_counterexample :
    cl_handle_proc_connect linux64 { inp := [0xEE, 0x01, 0xED], out := [], wcap := 4 }
        { int_max := 0, int_min := 0, size_max := 0, initialised := false } =
      (true, { int_max := 0, int_min := 0, size_max := 0, initialised := false },
        { inp := [], out := [0xCC, 4, 8, 0xED], wcap := 0 }) ∧
    rpc_init_client linux64 (some [58, 58, 49]) 3000
        (some { inp := [0xEE, 0x01, 0xED], out := [], wcap := 4 }) =
      some { serverfd := { inp := [], out := [0xCC, 4, 8, 0xED], wcap := 0 },
             srv_profile := { int_max := 0, int_min := 0, size_max := 0, initialised := false },
             is_active := true } := by
  decide

/-! ### Payload decoder: short reads, mismatches and encoding after decoding -/

theorem socket_recv_lt (inp o : List Nat) (c n : Nat) (h : inp.length < n) :
    socket_recv { inp := inp, out := o, wcap := c } n =
      (false, inp, { inp := [], out := o, wcap := c }) := by
  unfold socket_recv
  rw [if_neg (by simpa using h)]

theorem socket_recv_data_int_short (P : Platform) (flags : Nat) (rest o : List Nat) (c : Nat)
    (hi : flags &&& RPC_DATA_INT ≠ 0) (hlen : rest.length < 8) :
    socket_recv_data P { inp := flags :: rest, out := o, wcap := c } =
      (false, DataPtr.null, { inp := [], out := o, wcap := c }) := by
  unfold socket_recv_data
  rw [socket_recv_one]
  dsimp only
  rw [List.headD_cons, if_pos hi, socket_recv_lt _ _ _ _ hlen]

theorem socket_recv_data_after_int (P : Platform) (flags : Nat) (ib tail o : List Nat)
    (c : Nat) (hib : ib.length = if flags &&& RPC_DATA_INT ≠ 0 then 8 else 0) :
    socket_recv_data P { inp := flags :: (ib ++ tail), out := o, wcap := c } =
      if flags &&& RPC_DATA_BUFF ≠ 0 then
        match socket_recv { inp := tail, out := o, wcap := c } 8 with
        | (false, _, fd) => (false, DataPtr.null, fd)
        | (true, be_data2_len, fd) =>
          match socket_recv fd (ntoh64 be_data2_len) with
          | (false, _, fd) => (true, DataPtr.freed, fd)
          | (true, net_data2, fd) =>
            (true,
              DataPtr.live
                { data1 := if flags &&& RPC_DATA_INT ≠ 0 then to_int64 (ntoh64 ib) else 0,
                  data2_len := ntoh64 be_data2_len,
                  data2 := if ntoh64 be_data2_len = 0 ∧ P.malloc0_null then none
                           else some net_data2 }, fd)
      else
        (true,
          DataPtr.live
            { data1 := if flags &&& RPC_DATA_INT ≠ 0 then to_int64 (ntoh64 ib) else 0,
              data2_len := 0, data2 := none },
          { inp := tail, out := o, wcap := c }) := by
  unfold socket_recv_data
  rw [socket_recv_one]
  dsimp only
  rw [List.headD_cons]
  by_cases hi : flags &&& RPC_DATA_INT ≠ 0
  · rw [if_pos hi] at hib
    simp only [if_pos hi]
    rw [socket_recv_append _ _ _ _ _ hib.symm]
    try rfl
  · rw [if_neg hi] at hib
    have : ib = [] := List.length_eq_zero.mp hib
    subst this
    simp only [if_neg hi]
    try rfl

theorem socket_recv_data_len_short (P : Platform) (flags : Nat) (ib tail o : List Nat)
    (c : Nat) (hib : ib.length = if flags &&& RPC_DATA_INT ≠ 0 then 8 else 0)
    (hb : flags &&& RPC_DATA_BUFF ≠ 0) (hlen : tail.length < 8) :
    socket_recv_data P { inp := flags :: (ib ++ tail), out := o, wcap := c } =
      (false, DataPtr.null, { inp := [], out := o, wcap := c }) := by
  rw [socket_recv_data_after_int P flags ib tail o c hib, if_pos hb,
    socket_recv_lt _ _ _ _ hlen]

theorem socket_recv_data_buff_short (P : Platform) (flags : Nat) (ib lb tail o : List Nat)
    (c : Nat) (hib : ib.length = if flags &&& RPC_DATA_INT ≠ 0 then 8 else 0)
    (hb : flags &&& RPC_DATA_BUFF ≠ 0) (hlb : lb.length = 8) (hlen : tail.length < ntoh64 lb) :
    socket_recv_data P { inp := flags :: (ib ++ (lb ++ tail)), out := o, wcap := c } =
      (true, DataPtr.freed, { inp := [], out := o, wcap := c }) := by
  rw [socket_recv_data_after_int P flags ib (lb ++ tail) o c hib, if_pos hb,
    socket_recv_append _ _ _ _ _ hlb.symm]
  dsimp only
  rw [socket_recv_lt _ _ _ _ hlen]

theorem socket_recv_data_buff_ok (P : Platform) (flags : Nat) (ib lb buf tail o : List Nat)
    (c : Nat) (hib : ib.length = if flags &&& RPC_DATA_INT ≠ 0 then 8 else 0)
    (hb : flags &&& RPC_DATA_BUFF ≠ 0) (hlb : lb.length = 8) (hlen : buf.length = ntoh64 lb) :
    socket_recv_data P { inp := flags :: (ib ++ (lb ++ (buf ++ tail))), out := o, wcap := c } =
      (true,
        DataPtr.live
          { data1 := if flags &&& RPC_DATA_INT ≠ 0 then to_int64 (ntoh64 ib) else 0,
            data2_len := ntoh64 lb,
            data2 := if ntoh64 lb = 0 ∧ P.malloc0_null then none else some buf },
        { inp := tail, out := o, wcap := c }) := by
  rw [socket_recv_data_after_int P flags ib (lb ++ (buf ++ tail)) o c hib, if_pos hb,
    socket_recv_append _ _ _ _ _ hlb.symm]
  dsimp only
  rw [socket_recv_append _ _ _ _ _ hlen.symm]

theorem socket_recv_data_no_buff (P : Platform) (flags : Nat) (ib tail o : List Nat)
    (c : Nat) (hib : ib.length = if flags &&& RPC_DATA_INT ≠ 0 then 8 else 0)
    (hb : ¬ flags &&& RPC_DATA_BUFF ≠ 0) :
    socket_recv_data P { inp := flags :: (ib ++ tail), out := o, wcap := c } =
      (true,
        DataPtr.live
          { data1 := if flags &&& RPC_DATA_INT ≠ 0 then to_int64 (ntoh64 ib) else 0,
            data2_len := 0, data2 := none },
        { inp := tail, out := o, wcap := c }) := by
  rw [socket_recv_data_after_int P flags ib tail o c hib, if_neg hb]

theorem hton64_ntoh64 (bs : List Nat) (hlen : bs.length = 8) (hb : ∀ b ∈ bs, b < 256) :
    hton64 (ntoh64 bs) = bs := by
  match bs, hlen, hb with
  | [a, b, c, d, e, f, g, h], _, hb =>
    have ha := hb a (by simp)
    have hb2 := hb b (by simp)
    have hc := hb c (by simp)
    have hd := hb d (by simp)
    have he := hb e (by simp)
    have hf := hb f (by simp)
    have hg := hb g (by simp)
    have hh := hb h (by simp)
    simp only [ntoh64, hton64, List.foldl, List.cons.injEq, and_true]
    refine ⟨?_, ?_, ?_, ?_, ?_, ?_, ?_, ?_⟩ <;> omega

theorem to_u64_to_int64 (x : Nat) (h : x < 2 ^ 64) : to_u64 (to_int64 x) = x := by
  simp only [to_u64, to_int64]
  split <;> omega

theorem ntoh64_lt (bs : List Nat) : ntoh64 bs < 2 ^ 64 := by
  simp only [ntoh64]
  omega

theorem socket_recv_data_decode_int (P : Platform) (r o : List Nat) (c : Nat) (p : rpc_data)
    (hdec : socket_recv_data P { inp := 0x01 :: r, out := o, wcap := c } =
      (true, DataPtr.live p, { inp := [], out := o, wcap := c })) :
    r.length = 8 ∧ p = { data1 := to_int64 (ntoh64 r), data2_len := 0, data2 := none } := by
  by_cases hr : 8 ≤ r.length
  · have hsplit : r = r.take 8 ++ r.drop 8 := (List.take_append_drop 8 r).symm
    have hib : (r.take 8).length = if 0x01 &&& RPC_DATA_INT ≠ 0 then 8 else 0 := by
      rw [if_pos (by decide), List.length_take]
      omega
    have h := socket_recv_data_no_buff P 0x01 (r.take 8) (r.drop 8) o c hib (by decide)
    rw [← hsplit, hdec, if_pos (by decide)] at h
    simp only [Prod.mk.injEq, true_and, DataPtr.live.injEq, Sock.mk.injEq, and_true] at h
    obtain ⟨hp, hd⟩ := h
    have hd2 : r.drop 8 = [] := hd.symm
    have hlen : r.length = 8 := by
      have := congrArg List.length hd2
      rw [List.length_drop, List.length_nil] at this
      omega
    refine ⟨hlen, ?_⟩
    rw [hp, List.take_of_length_le (by omega)]
  · have h := socket_recv_data_int_short P 0x01 r o c (by decide) (by omega)
    rw [hdec] at h
    simp at h

theorem socket_recv_data_decode_buff (P : Platform) (r o : List Nat) (c : Nat) (p : rpc_data)
    (hdec : socket_recv_data P { inp := 0x81 :: r, out := o, wcap := c } =
      (true, DataPtr.live p, { inp := [], out := o, wcap := c })) :
    ∃ ib lb buf, r = ib ++ (lb ++ buf) ∧ ib.length = 8 ∧ lb.length = 8 ∧
      buf.length = ntoh64 lb ∧
      p = { data1 := to_int64 (ntoh64 ib), data2_len := ntoh64 lb,
            data2 := if ntoh64 lb = 0 ∧ P.malloc0_null then none else some buf } := by
  have hI : (0x81 : Nat) &&& RPC_DATA_INT ≠ 0 := by decide
  have hB : (0x81 : Nat) &&& RPC_DATA_BUFF ≠ 0 := by decide
  by_cases hr : 8 ≤ r.length
  · have hsplit : r = r.take 8 ++ r.drop 8 := (List.take_append_drop 8 r).symm
    have hib : (r.take 8).length = if 0x81 &&& RPC_DATA_INT ≠ 0 then 8 else 0 := by
      rw [if_pos hI, List.length_take]
      omega
    by_cases hr1 : 8 ≤ (r.drop 8).length
    · have hsplit1 : r.drop 8 = (r.drop 8).take 8 ++ (r.drop 8).drop 8 :=
        (List.take_append_drop 8 _).symm
      have hlb : ((r.drop 8).take 8).length = 8 := by
        rw [List.length_take]; omega
      by_cases hr2 : ntoh64 ((r.drop 8).take 8) ≤ ((r.drop 8).drop 8).length
      · have hsplit2 : (r.drop 8).drop 8 =
            ((r.drop 8).drop 8).take (ntoh64 ((r.drop 8).take 8)) ++
              ((r.drop 8).drop 8).drop (ntoh64 ((r.drop 8).take 8)) :=
          (List.take_append_drop _ _).symm
        have hbuf : (((r.drop 8).drop 8).take (ntoh64 ((r.drop 8).take 8))).length =
            ntoh64 ((r.drop 8).take 8) := by
          rw [List.length_take]; omega
        have h := socket_recv_data_buff_ok P 0x81 (r.take 8) ((r.drop 8).take 8)
          (((r.drop 8).drop 8).take (ntoh64 ((r.drop 8).take 8)))
          (((r.drop 8).drop 8).drop (ntoh64 ((r.drop 8).take 8))) o c hib hB hlb hbuf
        rw [← hsplit2, ← hsplit1, ← hsplit, hdec, if_pos hI] at h
        simp only [Prod.mk.injEq, true_and, DataPtr.live.injEq, Sock.mk.injEq, and_true] at h
        obtain ⟨hp, hd⟩ := h
        refine ⟨r.take 8, (r.drop 8).take 8,
          ((r.drop 8).drop 8).take (ntoh64 ((r.drop 8).take 8)), ?_, ?_, hlb, hbuf, hp⟩
        · have hd2 : ((r.drop 8).drop 8).drop (ntoh64 ((r.drop 8).take 8)) = [] := hd.symm
          rw [hd2, List.append_nil] at hsplit2
          rw [← hsplit2, ← hsplit1, ← hsplit]
        · rw [List.length_take]; omega
      · have h := socket_recv_data_buff_short P 0x81 (r.take 8) ((r.drop 8).take 8)
          ((r.drop 8).drop 8) o c hib hB hlb (by omega)
        rw [← hsplit1, ← hsplit, hdec] at h
        simp at h
    · have h := socket_recv_data_len_short P 0x81 (r.take 8) (r.drop 8) o c hib hB (by omega)
      rw [← hsplit, hdec] at h
      simp at h
  · have h := socket_recv_data_int_short P 0x81 r o c hI (by omega)
    rw [hdec] at h
    simp at h

/-- Claim C26 (as amended). Encode after decode: let `w` be a string of bytes
whose flags byte is 0x01, or is 0x81 with a transmitted length other than 0.
If `socket_recv_data` decodes `w` successfully to a payload `p` while
consuming all of `w`, then `socket_send_data(p)` writes exactly `w` to a peer
that accepts that many bytes. -/
theorem c26_encode_after_decode (P : Platform) (w o : List Nat) (c : Nat) (p : rpc_data)
    (fd : Sock) (hbytes : ∀ b ∈ w, b < 256)
    (hdec : socket_recv_data P { inp := w, out := o, wcap := c } =
      (true, DataPtr.live p, { inp := [], out := o, wcap := c }))
    (hflags : w.headD 0 = 0x01 ∨ (w.headD 0 = 0x81 ∧ p.data2_len ≠ 0))
    (hcap : w.length ≤ fd.wcap) :
    socket_send_data fd (some p) =
      (true, { inp := fd.inp, out := fd.out ++ w, wcap := fd.wcap - w.length }) := by
  cases w with
  | nil =>
    unfold socket_recv_data at hdec
    rw [socket_recv_nil _ _ _ Nat.one_pos] at hdec
    simp at hdec
  | cons flags r =>
    rw [List.headD_cons] at hflags
    have hwire : data_wire p = flags :: r := by
      rcases hflags with hf | ⟨hf, hn⟩
      · subst hf
        obtain ⟨hlen, hp⟩ := socket_recv_data_decode_int P r o c p hdec
        have hr : ∀ b ∈ r, b < 256 := fun b hb => hbytes b (List.mem_cons_of_mem _ hb)
        subst hp
        simp only [data_wire, has_buff, Bool.and_false, Option.isSome_none,
          Bool.false_eq_true, if_false, List.append_nil, List.singleton_append,
          List.cons.injEq, true_and]
        rw [to_u64_to_int64 _ (ntoh64_lt r), hton64_ntoh64 r hlen hr]
      · subst hf
        obtain ⟨ib, lb, buf, hr, hibl, hlbl, hbufl, hp⟩ :=
          socket_recv_data_decode_buff P r o c p hdec
        subst hr
        have hib : ∀ b ∈ ib, b < 256 := fun b hb =>
          hbytes b (List.mem_cons_of_mem _ (List.mem_append_left _ hb))
        have hlb : ∀ b ∈ lb, b < 256 := fun b hb =>
          hbytes b (List.mem_cons_of_mem _
            (List.mem_append_right _ (List.mem_append_left _ hb)))
        subst hp
        have hn2 : ntoh64 lb ≠ 0 := hn
        simp only [data_wire, has_buff, hn2, false_and, if_false, ne_eq, not_false_eq_true,
          decide_True, Option.isSome_some, Bool.and_self, if_true, Option.getD_some,
          List.singleton_append, List.cons.injEq, true_and]
        rw [to_u64_to_int64 _ (ntoh64_lt ib), hton64_ntoh64 ib hibl hib,
          hton64_ntoh64 lb hlbl hlb, List.take_of_length_le (by omega)]
        rfl
    have hs := socket_send_data_ok fd p (by rw [hwire]; exact hcap)
    rw [hwire] at hs
    exact hs

/-- Claim C25 (as amended). The decoder `socket_recv_data` reports no
protocol error for a mismatch of flags and contents; it follows the two flag
bits independently. With the INT bit (0x01) clear it reads no integer and
leaves `data1` at 0: with the BUFF bit (0x80) clear as well it returns true
with the payload `(0, 0, NULL)` after the flags byte alone, with the BUFF bit
set it returns true with the length `n` and the `n` bytes that follow. With
the BUFF bit set and a transmitted length of 0 it returns true with a payload
of length 0 whose buffer pointer is the result of `malloc(0)`, having read
nothing behind the length. -/
theorem c25_decode_accepts_mismatches (P : Platform) (flags : Nat)
    (ib lb buf rest o : List Nat) (c : Nat) :
    (flags &&& 0x01 = 0 → flags &&& 0x80 = 0 →
      socket_recv_data P { inp := flags :: rest, out := o, wcap := c } =
        (true, DataPtr.live { data1 := 0, data2_len := 0, data2 := none },
          { inp := rest, out := o, wcap := c })) ∧
    (flags &&& 0x01 = 0 → flags &&& 0x80 ≠ 0 → lb.length = 8 → buf.length = ntoh64 lb →
      socket_recv_data P { inp := flags :: (lb ++ (buf ++ rest)), out := o, wcap := c } =
        (true,
          DataPtr.live
            { data1 := 0, data2_len := ntoh64 lb,
              data2 := if ntoh64 lb = 0 ∧ P.malloc0_null then none else some buf },
          { inp := rest, out := o, wcap := c })) ∧
    (flags &&& 0x01 = 0 → flags &&& 0x80 ≠ 0 → lb.length = 8 → ntoh64 lb = 0 →
      socket_recv_data P { inp := flags :: (lb ++ rest), out := o, wcap := c } =
        (true,
          DataPtr.live
            { data1 := 0, data2_len := 0,
              data2 := if P.malloc0_null then none else some [] },
          { inp := rest, out := o, wcap := c })) ∧
    (flags &&& 0x01 ≠ 0 → flags &&& 0x80 ≠ 0 → ib.length = 8 → lb.length = 8 →
      ntoh64 lb = 0 →
      socket_recv_data P { inp := flags :: (ib ++ (lb ++ rest)), out := o, wcap := c } =
        (true,
          DataPtr.live
            { data1 := to_int64 (ntoh64 ib), data2_len := 0,
              data2 := if P.malloc0_null then none else some [] },
          { inp := rest, out := o, wcap := c })) := by
  refine ⟨?_, ?_, ?_, ?_⟩
  · intro hi hb
    have hi2 : ¬ flags &&& RPC_DATA_INT ≠ 0 := not_not.mpr hi
    have hb2 : ¬ flags &&& RPC_DATA_BUFF ≠ 0 := not_not.mpr hb
    have h := socket_recv_data_no_buff P flags [] rest o c (by rw [if_neg hi2]; rfl) hb2
    rw [if_neg hi2] at h
    exact h
  · intro hi hb hlb hbuf
    have hi2 : ¬ flags &&& RPC_DATA_INT ≠ 0 := not_not.mpr hi
    have h := socket_recv_data_buff_ok P flags [] lb buf rest o c
      (by rw [if_neg hi2]; rfl) hb hlb hbuf
    rw [if_neg hi2] at h
    exact h
  · intro hi hb hlb hn
    have hi2 : ¬ flags &&& RPC_DATA_INT ≠ 0 := not_not.mpr hi
    have h := socket_recv_data_buff_ok P flags [] lb [] rest o c
      (by rw [if_neg hi2]; rfl) hb hlb (by rw [hn]; rfl)
    rw [if_neg hi2, hn] at h
    simp only [true_and, List.nil_append] at h
    exact h
  · intro hi hb hib hlb hn
    have hi2 : flags &&& RPC_DATA_INT ≠ 0 := hi
    have h := socket_recv_data_buff_ok P flags ib lb [] rest o c
      (by rw [if_pos hi2]; exact hib) hb hlb (by rw [hn]; rfl)
    rw [if_pos hi2, hn] at h
    simp only [true_and, List.nil_append] at h
    exact h

set_option maxRecDepth 100000 in
theorem c25_decode_accepts_mismatches_witness :
    socket_recv_data linux64
        { inp := 0x00 :: [0xED], out := [], wcap := 0 } =
      (true, DataPtr.live { data1 := 0, data2_len := 0, data2 := none },
        { inp := [0xED], out := [], wcap := 0 }) :=
  (c25_decode_accepts_mismatches linux64 0x00 [] [] [] [0xED] [] 0).1 (by decide) (by decide)

set_option maxRecDepth 100000 in
/-- Two streams the decoder accepts although flags and contents do not match:
flags 0x80 (INT clear) with a one-byte buffer, and flags 0x81 with a
transmitted length of 0. -/
theorem c25_mismatch_accepted_counterexample :
    socket_recv_data linux64
        { inp := [0x80, 0, 0, 0, 0, 0, 0, 0, 1, 0x41], out := [], wcap := 0 } =
      (true, DataPtr.live { data1 := 0, data2_len := 1, data2 := some [0x41] },
        { inp := [], out := [], wcap := 0 }) ∧
    socket_recv_data linux64
        { inp := [0x81, 0, 0, 0, 0, 0, 0, 0, 5, 0, 0, 0, 0, 0, 0, 0, 0], out := [],
          wcap := 0 } =
      (true, DataPtr.live { data1 := 5, data2_len := 0, data2 := some [] },
        { inp := [], out := [], wcap := 0 }) := by
  decide

set_option maxRecDepth 100000 in
theorem c26_encode_after_decode_witness :
    socket_recv_data linux64
        { inp := [0x81, 0, 0, 0, 0, 0, 0, 0, 7, 0, 0, 0, 0, 0, 0, 0, 2, 10, 20], out := [],
          wcap := 0 } =
      (true, DataPtr.live { data1 := 7, data2_len := 2, data2 := some [10, 20] },
        { inp := [], out := [], wcap := 0 }) ∧
    socket_send_data { inp := [], out := [], wcap := 19 }
        (some { data1 := 7, data2_len := 2, data2 := some [10, 20] }) =
      (true,
        { inp := [],
          out := [] ++ [0x81, 0, 0, 0, 0, 0, 0, 0, 7, 0, 0, 0, 0, 0, 0, 0, 2, 10, 20],
          wcap := 19 - [0x81, 0, 0, 0, 0, 0, 0, 0, 7, 0, 0, 0, 0, 0, 0, 0, 2, 10, 20].length }) :=
  have hd : socket_recv_data linux64
        { inp := [0x81, 0, 0, 0, 0, 0, 0, 0, 7, 0, 0, 0, 0, 0, 0, 0, 2, 10, 20], out := [],
          wcap := 0 } =
      (true, DataPtr.live { data1 := 7, data2_len := 2, data2 := some [10, 20] },
        { inp := [], out := [], wcap := 0 }) := by decide
  ⟨hd, c26_encode_after_decode linux64 _ [] 0 _ { inp := [], out := [], wcap := 19 }
    (by decide) hd (Or.inr ⟨rfl, by decide⟩) (by decide)⟩

set_option maxRecDepth 100000 in
/-- Two byte strings that decode successfully and completely but are not what
the encoder writes for the decoded payload: the single flags byte 0x00, and a
flags byte 0x03 followed by an integer. -/
theorem c26_not_reencoded_counterexample :
    socket_recv_data linux64 { inp := [0x00], out := [], wcap := 0 } =
      (true, DataPtr.live { data1 := 0, data2_len := 0, data2 := none },
        { inp := [], out := [], wcap := 0 }) ∧
    socket_send_data { inp := [], out := [], wcap := 9 }
        (some { data1 := 0, data2_len := 0, data2 := none }) =
      (true, { inp := [], out := [0x01, 0, 0, 0, 0, 0, 0, 0, 0], wcap := 0 }) ∧
    socket_recv_data linux64 { inp := [0x03, 0, 0, 0, 0, 0, 0, 0, 9], out := [], wcap := 0 } =
      (true, DataPtr.live { data1 := 9, data2_len := 0, data2 := none },
        { inp := [], out := [], wcap := 0 }) ∧
    socket_send_data { inp := [], out := [], wcap := 9 }
        (some { data1 := 9, data2_len := 0, data2 := none }) =
      (true, { inp := [], out := [0x01, 0, 0, 0, 0, 0, 0, 0, 9], wcap := 0 }) := by
  decide

/-! ### Registry removal -/

theorem memcpy_ascending_shift (pre post : List hash_item) (e : hash_item) :
    memcpy_ascending (pre ++ e :: post) pre.length (pre.length + 1) post.length =
      pre ++ post ++ [(e :: post).getLastD hash_item.zero] := by
  induction post generalizing pre e with
  | nil => simp [memcpy_ascending]
  | cons x post ih =>
    rw [List.length_cons, memcpy_ascending]
    have hg : (pre ++ e :: x :: post).getD (pre.length + 1) hash_item.zero = x := by
      rw [List.getD_eq_getElem?_getD, List.getElem?_append_right (by omega)]
      simp
    have hset : (pre ++ e :: x :: post).set pre.length x = (pre ++ [x]) ++ x :: post := by
      simp [List.set_append]
    rw [hg, hset]
    have := ih (pre ++ [x]) x
    rw [List.length_append, List.length_singleton] at this
    rw [this]
    simp

theorem memcpy_descending_one (t : List hash_item) (d s n : Nat) (hn : n ≤ 1) :
    memcpy_descending t d s n = memcpy_ascending t d s n := by
  interval_cases n
  · rfl
  · simp [memcpy_descending, memcpy_ascending]

theorem set_last_append (l : List hash_item) (x z : hash_item) :
    (l ++ [x]).set ((l ++ [x]).length - 1) z = l ++ [z] := by
  simp [List.set_append]

theorem ht_delete_absent (P : Platform) (t : hash_table) (s : List Nat)
    (h : ht_find_hash t (generate_hash P s) = none) : ht_delete P t s = t := by
  unfold ht_delete
  dsimp only
  rw [h]

theorem ht_delete_present (P : Platform) (t : hash_table) (s : List Nat)
    (hwf : ht_wf t) (pre post : List hash_item) (e : hash_item)
    (htab : t.table = pre ++ e :: post)
    (hf : ht_find_hash t (generate_hash P s) = some pre.length)
    (hov : P.memcpy_backward = false ∨ post.length ≤ 1) :
    ht_delete P t s =
      { capacity := t.capacity, count := t.count - 1, table := pre ++ post ++ [hash_item.zero] } := by
  obtain ⟨hlen, hcnt, hpos⟩ := hwf
  have hcap : t.capacity = pre.length + post.length + 1 := by
    rw [← hlen, htab]; simp; omega
  unfold ht_delete
  dsimp only
  rw [hf]
  dsimp only
  by_cases hlast : pre.length = t.capacity - 1
  · rw [if_pos hlast]
    have hp : post = [] := by
      apply List.length_eq_zero.mp; omega
    subst hp
    rw [htab]
    have := set_last_append pre e hash_item.zero
    rw [List.length_append, List.length_singleton, Nat.add_sub_cancel] at this
    rw [← hlast, this]
    simp
  · rw [if_neg hlast]
    have hn : t.capacity - pre.length - 1 = post.length := by omega
    have hm : memcpy_items P.memcpy_backward t.table pre.length (pre.length + 1)
        (t.capacity - pre.length - 1) =
        pre ++ post ++ [(e :: post).getLastD hash_item.zero] := by
      rw [hn, htab]
      unfold memcpy_items
      rcases hov with h | h
      · rw [h]
        exact memcpy_ascending_shift pre post e
      · cases P.memcpy_backward
        · exact memcpy_ascending_shift pre post e
        · rw [if_pos rfl, memcpy_descending_one _ _ _ _ h]
          exact memcpy_ascending_shift pre post e
    rw [hm]
    have := set_last_append (pre ++ post) ((e :: post).getLastD hash_item.zero) hash_item.zero
    have hl : (pre ++ post ++ [(e :: post).getLastD hash_item.zero]).length - 1 =
        t.capacity - 1 := by
      simp; omega
    rw [hl] at this
    rw [this]

theorem lookup_append_skip (pre post : List hash_item) (e : hash_item) (d : Nat)
    (h : d ≠ e.hash_value) : lookup (pre ++ e :: post) d = lookup (pre ++ post) d := by
  induction pre with
  | nil =>
    simp only [List.nil_append, lookup]
    rw [if_neg (fun h2 => h h2.symm)]
  | cons x pre ih =>
    show lookup (x :: (pre ++ e :: post)) d = lookup (x :: (pre ++ post)) d
    simp only [lookup, ih]

theorem ht_find_hash_split (t : hash_table) (hinv : reg_inv t) (d off : Nat)
    (hf : ht_find_hash t d = some off) :
    ∃ pre e post rest, t.table = pre ++ e :: (post ++ rest) ∧ pre.length = off ∧
      entries t = pre ++ e :: post ∧ e.hash_value = d ∧
      (∀ x ∈ pre ++ post, x.hash_value ≠ d) := by
  obtain ⟨hwf, hnd, _⟩ := hinv
  obtain ⟨hoff, hd⟩ := ht_find_hash_some t hwf d off hf
  obtain ⟨hlen, hcnt, _⟩ := hwf
  have hoff2 : off < t.table.length := by omega
  have hel : (entries t).length = t.count := entries_length t ⟨hlen, hcnt, by omega⟩
  have hoff3 : off < (entries t).length := by omega
  have hex : ∃ pre e post, entries t = pre ++ e :: post ∧ pre.length = off ∧
      e = t.table.getD off hash_item.zero := by
    refine ⟨(entries t).take off, (entries t)[off], (entries t).drop (off + 1), ?_, ?_, ?_⟩
    · conv_lhs => rw [← List.take_append_drop off (entries t)]
      rw [List.drop_eq_getElem_cons hoff3]
    · rw [List.length_take]; omega
    · rw [← entries_getD t off hoff, List.getD_eq_getElem _ _ hoff3]
  obtain ⟨pre, e, post, hsplit, hpl, he⟩ := hex
  obtain ⟨rest, hte⟩ : ∃ rest, t.table = entries t ++ rest :=
    ⟨_, (List.take_append_drop t.count t.table).symm⟩
  refine ⟨pre, e, post, rest, ?_, hpl, hsplit, ?_, ?_⟩
  · rw [hsplit] at hte
    rw [hte]
    simp
  · rw [he]; exact hd
  · intro x hx
    rw [hsplit, List.map_append, List.map_cons] at hnd
    have hnd2 := List.nodup_middle.mp hnd
    rw [List.nodup_cons] at hnd2
    have hx2 : x.hash_value ∈ List.map (·.hash_value) pre ++ List.map (·.hash_value) post := by
      rw [← List.map_append]
      exact List.mem_map_of_mem _ hx
    intro hxd
    apply hnd2.1
    rw [he, hd, ← hxd]
    exact hx2

theorem ht_find_hash_none_iff (t : hash_table) (d : Nat) :
    ht_find_hash t d = none ↔ ∀ e ∈ entries t, e.hash_value ≠ d := by
  unfold ht_find_hash entries
  rw [ht_loop_none_iff]
  simp

theorem ht_delete_entries (P : Platform) (t : hash_table) (s : List Nat)
    (hinv : reg_inv t) (e0 : hash_item) (hmem : e0 ∈ entries t)
    (he0 : e0.hash_value = generate_hash P s) :
    ∃ pre e post, entries t = pre ++ e :: post ∧ e.hash_value = generate_hash P s ∧
      (∀ x ∈ pre ++ post, x.hash_value ≠ generate_hash P s) ∧ 0 < t.count ∧
      (P.memcpy_backward = false ∨ t.capacity ≤ pre.length + 2 →
        entries (ht_delete P t s) = pre ++ post ∧
        (ht_delete P t s).count = t.count - 1 ∧
        (ht_delete P t s).capacity = t.capacity ∧
        reg_inv (ht_delete P t s)) := by
  cases hf : ht_find_hash t (generate_hash P s) with
  | none =>
    exact absurd he0 ((ht_find_hash_none_iff t _).1 hf e0 hmem)
  | some off =>
    obtain ⟨pre, e, post, rest, htab, hpl, hent, hed, hne⟩ :=
      ht_find_hash_split t hinv _ off hf
    have hwf := hinv.1
    obtain ⟨hlen, hcnt, hpos⟩ := hwf
    have hel : (entries t).length = t.count := entries_length t hinv.1
    have hcount : t.count = pre.length + post.length + 1 := by
      rw [← hel, hent]; simp; omega
    have hcap : t.capacity = pre.length + post.length + rest.length + 1 := by
      rw [← hlen, htab]; simp; omega
    refine ⟨pre, e, post, hent, hed, hne, by omega, fun hov => ?_⟩
    have hdel := ht_delete_present P t s hinv.1 pre (post ++ rest) e htab
      (by rw [hpl]; exact hf)
      (by
        rcases hov with h | h
        · exact Or.inl h
        · right; rw [List.length_append]; omega)
    have hent2 : entries (ht_delete P t s) = pre ++ post := by
      rw [hdel]
      unfold entries
      dsimp only
      rw [hcount, Nat.add_sub_cancel, List.append_assoc, List.append_assoc,
        ← List.append_assoc pre post, List.take_left' (by simp)]
    refine ⟨hent2, by rw [hdel], by rw [hdel], ?_, ?_, ?_⟩
    · rw [hdel]
      refine ⟨?_, ?_, hpos⟩
      · simp; omega
      · dsimp only; omega
    · rw [hent2]
      have hnd := hinv.2.1
      rw [hent, List.map_append, List.map_cons] at hnd
      have hnd2 := List.nodup_middle.mp hnd
      rw [List.nodup_cons] at hnd2
      rw [List.map_append]
      exact hnd2.2
    · intro x hx
      rw [hent2] at hx
      apply hinv.2.2 x
      rw [hent]
      rcases List.mem_append.mp hx with h | h
      · exact List.mem_append_left _ h
      · exact List.mem_append_right _ (List.mem_cons_of_mem _ h)

theorem ht_delete_spec (P : Platform) (t : hash_table) (s : List Nat) (hinv : reg_inv t) :
    ((∀ e ∈ entries t, e.hash_value ≠ generate_hash P s) → ht_delete P t s = t) ∧
    ((∃ e ∈ entries t, e.hash_value = generate_hash P s) →
      ∃ pre e post, entries t = pre ++ e :: post ∧ e.hash_value = generate_hash P s ∧
        (∀ x ∈ pre ++ post, x.hash_value ≠ generate_hash P s) ∧ 0 < t.count ∧
        (P.memcpy_backward = false ∨ t.capacity ≤ pre.length + 2 →
          entries (ht_delete P t s) = pre ++ post ∧
          (ht_delete P t s).count = t.count - 1 ∧
          ht_index P (ht_delete P t s) s = 0 ∧
          (∀ d, d ≠ generate_hash P s →
            ht_index_with_hash (ht_delete P t s) d = ht_index_with_hash t d) ∧
          reg_inv (ht_delete P t s))) := by
  refine ⟨fun h => ht_delete_absent P t s ((ht_find_hash_none_iff t _).2 h), ?_⟩
  rintro ⟨e0, hmem, he0⟩
  obtain ⟨pre, e, post, hent, hed, hne, hcnt, hrest⟩ := ht_delete_entries P t s hinv e0 hmem he0
  refine ⟨pre, e, post, hent, hed, hne, hcnt, fun hov => ?_⟩
  obtain ⟨hent2, hc, _, hinv2⟩ := hrest hov
  refine ⟨hent2, hc, ?_, ?_, hinv2⟩
  · simp only [ht_index]
    rw [ht_index_with_hash_eq, hent2]
    exact lookup_of_not_mem _ _ hne
  · intro d hd
    rw [ht_index_with_hash_eq, ht_index_with_hash_eq, hent2, hent]
    exact (lookup_append_skip pre post e d (by rw [hed]; exact hd)).symm

set_option maxRecDepth 100000 in
/-- The reason for the condition on `memcpy` in the removal: with a `memcpy`
that copies in descending order the overlapping call of `ht_delete` would
overwrite the entries behind the removed one with the last slot. -/
theorem ht_delete_descending_example :
    entries (ht_inserts linux64_backward abc_ops) = [⟨66, 7⟩, ⟨67, 8⟩, ⟨68, 9⟩] ∧
    entries (ht_delete linux64_backward (ht_inserts linux64_backward abc_ops) [97]) =
      [⟨0, 0⟩, ⟨0, 0⟩] := by
  decide

/-- Claim C28. Registry removal, `ht_delete(t, s)`, on a table that satisfies
the registry invariant, as every table built by `ht_insert` does. When no
entry has digest(s) the table is unchanged. Otherwise the entries are
`pre ++ e :: post` with `e` the single entry of digest(s), and the entries
afterwards are `pre ++ post`, the count is one less, `ht_index(t, s)` is NULL
and every other digest resolves as before, also for the last entry and for a
full table. This is so wherever the call
`memcpy(&table[offset], &table[offset + 1], ...)` made by the function copies
in ascending order, as it does on the target platform, and everywhere when at
most one slot is moved. -/
theorem c28_registry_removal (P : Platform) (s : List Nat) :
    (∀ ops, reg_inv (ht_inserts P ops)) ∧
    (∀ t, reg_inv t →
      ((∀ e ∈ entries t, e.hash_value ≠ generate_hash P s) → ht_delete P t s = t) ∧
      ((∃ e ∈ entries t, e.hash_value = generate_hash P s) →
        ∃ pre e post, entries t = pre ++ e :: post ∧ e.hash_value = generate_hash P s ∧
          (∀ x ∈ pre ++ post, x.hash_value ≠ generate_hash P s) ∧ 0 < t.count ∧
          (P.memcpy_backward = false ∨ t.capacity ≤ pre.length + 2 →
            entries (ht_delete P t s) = pre ++ post ∧
            (ht_delete P t s).count = t.count - 1 ∧
            ht_index P (ht_delete P t s) s = 0 ∧
            (∀ d, d ≠ generate_hash P s →
              ht_index_with_hash (ht_delete P t s) d = ht_index_with_hash t d) ∧
            reg_inv (ht_delete P t s)))) ∧
    linux64.memcpy_backward = false :=
  ⟨ht_inserts_inv P, fun t hinv => ht_delete_spec P t s hinv, rfl⟩

set_option maxRecDepth 100000 in
theorem c28_registry_removal_witness :
    entries (ht_inserts linux64 abc_ops) = [⟨66, 7⟩, ⟨67, 8⟩, ⟨68, 9⟩] ∧
    entries (ht_delete linux64 (ht_inserts linux64 abc_ops) [97]) = [⟨67, 8⟩, ⟨68, 9⟩] ∧
    entries (ht_delete linux64 (ht_inserts linux64 abc_ops) [99]) = [⟨66, 7⟩, ⟨67, 8⟩] ∧
    ht_delete linux64 (ht_inserts linux64 abc_ops) [100] = ht_inserts linux64 abc_ops ∧
    (∃ e ∈ entries (ht_inserts linux64 abc_ops), e.hash_value = generate_hash linux64 [97]) ∧
    ∃ pre e post, entries (ht_inserts linux64 abc_ops) = pre ++ e :: post ∧
      e.hash_value = generate_hash linux64 [97] ∧
      (∀ x ∈ pre ++ post, x.hash_value ≠ generate_hash linux64 [97]) ∧
      0 < (ht_inserts linux64 abc_ops).count ∧
      (linux64.memcpy_backward = false ∨
          (ht_inserts linux64 abc_ops).capacity ≤ pre.length + 2 →
        entries (ht_delete linux64 (ht_inserts linux64 abc_ops) [97]) = pre ++ post ∧
        (ht_delete linux64 (ht_inserts linux64 abc_ops) [97]).count =
          (ht_inserts linux64 abc_ops).count - 1 ∧
        ht_index linux64 (ht_delete linux64 (ht_inserts linux64 abc_ops) [97]) [97] = 0 ∧
        (∀ d, d ≠ generate_hash linux64 [97] →
          ht_index_with_hash (ht_delete linux64 (ht_inserts linux64 abc_ops) [97]) d =
            ht_index_with_hash (ht_inserts linux64 abc_ops) d) ∧
        reg_inv (ht_delete linux64 (ht_inserts linux64 abc_ops) [97])) :=
  ⟨by decide, by decide, by decide, by decide, ⟨⟨66, 7⟩, by decide, by decide⟩,
    (((c28_registry_removal linux64 [97]).2.1 (ht_inserts linux64 abc_ops)
      (ht_inserts_inv linux64 abc_ops)).2 ⟨⟨66, 7⟩, by decide, by decide⟩)⟩

/-! ### The queue of pending connections -/

theorem heap_set_same (h : node_heap) (a : Nat) (n : Option node) : heap_set h a n a = n := by
  simp [heap_set]

theorem heap_set_other (h : node_heap) (a x : Nat) (n : Option node) (hx : x ≠ a) :
    heap_set h a n x = h x := by
  simp [heap_set, hx]

theorem chain_congr (h h2 : node_heap) (vals : List (Nat × Nat)) (p s e : Option Nat)
    (hc : chain h p vals s e) (heq : ∀ x ∈ vals.map (·.1), h2 x = h x) :
    chain h2 p vals s e := by
  induction vals generalizing p s with
  | nil => exact hc
  | cons av rest ih =>
    obtain ⟨a, v⟩ := av
    obtain ⟨hs, nx, ha, hrest⟩ := hc
    refine ⟨hs, nx, ?_, ih _ _ hrest (fun x hx => heq x (List.mem_cons_of_mem _ hx))⟩
    rw [heq a (by simp)]
    exact ha

theorem chain_last (h : node_heap) (vals : List (Nat × Nat)) (p s e : Option Nat)
    (hc : chain h p vals s e) (hne : vals ≠ []) : ∃ x ∈ vals.map (·.1), e = some x := by
  induction vals generalizing p s with
  | nil => exact absurd rfl hne
  | cons av rest ih =>
    obtain ⟨a, v⟩ := av
    obtain ⟨hs, nx, ha, hrest⟩ := hc
    cases rest with
    | nil =>
      exact ⟨a, by simp, hrest.2⟩
    | cons bw rest2 =>
      obtain ⟨x, hx, he⟩ := ih _ _ hrest (by simp)
      exact ⟨x, List.mem_cons_of_mem _ hx, he⟩

theorem chain_live (h : node_heap) (vals : List (Nat × Nat)) (p s e : Option Nat)
    (hc : chain h p vals s e) : ∀ x ∈ vals.map (·.1), h x ≠ none := by
  induction vals generalizing p s with
  | nil => intro x hx; simp at hx
  | cons av rest ih =>
    obtain ⟨a, v⟩ := av
    obtain ⟨hs, nx, ha, hrest⟩ := hc
    intro x hx
    simp only [List.map_cons, List.mem_cons] at hx
    rcases hx with hx | hx
    · rw [hx, ha]; simp
    · exact ih _ _ hrest x hx

theorem chain_snoc (h h2 : node_heap) (vals : List (Nat × Nat)) (p s e : Option Nat)
    (a v tl : Nat) (t : node)
    (hc : chain h p vals s e) (hne : vals ≠ []) (hnd : (vals.map (·.1)).Nodup)
    (ha : a ∉ vals.map (·.1)) (he : e = some tl) (ht : h tl = some t)
    (h2tl : h2 tl = some { t with next := some a })
    (h2a : h2 a = some { data := v, prev := some tl, next := none })
    (h2o : ∀ x, x ≠ tl → x ≠ a → h2 x = h x) :
    chain h2 p (vals ++ [(a, v)]) s (some a) := by
  induction vals generalizing p s with
  | nil => exact absurd rfl hne
  | cons bw rest ih =>
    obtain ⟨b, w⟩ := bw
    obtain ⟨hs, nx, hb, hrest⟩ := hc
    have hab : a ≠ b := fun hab => ha (by simp [hab])
    cases rest with
    | nil =>
      obtain ⟨hnx, hlast⟩ := hrest
      have htb : tl = b := by
        rw [he] at hlast
        exact Option.some.inj hlast
      subst htb
      rw [hb] at ht
      have ht2 := Option.some.inj ht
      refine ⟨hs, some a, ?_, rfl, none, h2a, rfl, rfl⟩
      rw [h2tl, ← ht2]
    | cons cx rest2 =>
      have hnd2 : (List.map (·.1) (cx :: rest2)).Nodup := (List.nodup_cons.mp hnd).2
      have hbn : b ∉ List.map (·.1) (cx :: rest2) := (List.nodup_cons.mp hnd).1
      obtain ⟨x, hx, hex⟩ := chain_last h _ _ _ _ hrest (by simp)
      have htl : tl ≠ b := by
        rw [he] at hex
        have := Option.some.inj hex
        intro hh
        apply hbn
        rw [← hh, this]
        exact hx
      refine ⟨hs, nx, ?_, ih _ _ hrest (by simp) hnd2
        (fun hm => ha (List.mem_cons_of_mem _ hm))⟩
      rw [h2o b (Ne.symm htl) (Ne.symm hab)]
      exact hb

theorem list_insert_tail_repr (h : node_heap) (l : list) (vals : List (Nat × Nat))
    (a v : Nat) (hr : list_repr h l vals) (hfresh : h a = none) :
    ∃ h2 l2, list_insert_tail h l a v = some (h2, l2) ∧ list_repr h2 l2 (vals ++ [(a, v)]) ∧
      ∀ x, x ∉ vals.map (·.1) → x ≠ a → h2 x = h x := by
  obtain ⟨hc, hnd⟩ := hr
  have ha : a ∉ vals.map (·.1) := fun hm => chain_live h vals _ _ _ hc a hm hfresh
  have hnd2 : ((vals ++ [(a, v)]).map (·.1)).Nodup := by
    rw [List.map_append, List.nodup_append]
    refine ⟨hnd, by simp, ?_⟩
    intro x hx hx2
    simp only [List.map_cons, List.map_nil, List.mem_singleton] at hx2
    exact ha (hx2 ▸ hx)
  cases vals with
  | nil =>
    obtain ⟨hhead, htail⟩ := hc
    have hstep : list_insert_tail h l a v =
        some (heap_set h a (some ⟨v, none, none⟩),
          { l with head := some a, tail := some a }) := by
      unfold list_insert_tail
      rw [hhead, htail]
    refine ⟨_, _, hstep, ⟨?_, hnd2⟩, ?_⟩
    · exact ⟨rfl, none, heap_set_same _ _ _, rfl, rfl⟩
    · intro x _ hx
      exact heap_set_other _ _ _ _ hx
  | cons bw rest =>
    obtain ⟨b, w⟩ := bw
    have hhead : l.head = some b := hc.1
    obtain ⟨tl, htlm, htl⟩ := chain_last h _ _ _ _ hc (by simp)
    have htla : tl ≠ a := fun hh => ha (hh ▸ htlm)
    have hlive := chain_live h _ _ _ _ hc tl htlm
    obtain ⟨t, ht⟩ := Option.ne_none_iff_exists'.mp hlive
    have hstep : list_insert_tail h l a v =
        some (heap_set (heap_set (heap_set h a (some ⟨v, none, none⟩)) a
            (some ⟨v, some tl, none⟩)) tl (some { t with next := some a }),
          { l with tail := some a }) := by
      unfold list_insert_tail
      rw [hhead, htl]
      dsimp only
      rw [heap_set_other _ _ _ _ htla, heap_set_other _ _ _ _ htla, ht]
    refine ⟨_, _, hstep, ⟨?_, hnd2⟩, ?_⟩
    · refine chain_snoc h _ _ none l.head l.tail a v tl t hc (by simp) hnd ha htl ht ?_ ?_ ?_
      · exact heap_set_same _ _ _
      · rw [heap_set_other _ _ _ _ (Ne.symm htla), heap_set_same]
      · intro x hx1 hx2
        rw [heap_set_other _ _ _ _ hx1, heap_set_other _ _ _ _ hx2,
          heap_set_other _ _ _ _ hx2]
    · intro x hx1 hx2
      have hxt : x ≠ tl := fun hh => hx1 (hh ▸ htlm)
      rw [heap_set_other _ _ _ _ hxt, heap_set_other _ _ _ _ hx2,
        heap_set_other _ _ _ _ hx2]

theorem list_pop_head_empty (h : node_heap) (l : list) (he : l.head = none ∨ l.tail = none) :
    list_pop_head h l = some (h, l) := by
  unfold list_pop_head
  rcases he with he | he
  · rw [he]
  · rw [he]
    cases l.head <;> rfl

theorem list_pop_head_repr (h : node_heap) (l : list) (a v : Nat) (rest : List (Nat × Nat))
    (hr : list_repr h l ((a, v) :: rest)) :
    list_head_data h l = some v ∧
    ∃ h2 l2, list_pop_head h l = some (h2, l2) ∧ list_repr h2 l2 rest ∧
      (∀ x, h x = none → h2 x = none) := by
  obtain ⟨hc, hnd⟩ := hr
  obtain ⟨hhead, nx, ha, hrest⟩ := hc
  have hanr : a ∉ rest.map (·.1) := (List.nodup_cons.mp hnd).1
  have hndr : (rest.map (·.1)).Nodup := (List.nodup_cons.mp hnd).2
  constructor
  · unfold list_head_data
    rw [hhead]
    dsimp only
    rw [ha]
    rfl
  · cases rest with
    | nil =>
      obtain ⟨hnx, htail⟩ := hrest
      have hstep : list_pop_head h l =
          some (heap_set h a none, { l with tail := none, head := none }) := by
        unfold list_pop_head
        rw [hhead, htail]
        dsimp only
        rw [if_pos rfl]
        dsimp only
        rw [ha]
      refine ⟨_, _, hstep, ⟨⟨rfl, rfl⟩, by simp⟩, ?_⟩
      intro x hx
      by_cases hxa : x = a
      · rw [hxa, heap_set_same]
      · rw [heap_set_other _ _ _ _ hxa]; exact hx
    | cons bw rest2 =>
      obtain ⟨b, w⟩ := bw
      obtain ⟨hnxb, nx2, hb, hrest2⟩ := hrest
      obtain ⟨tl, htlm, htl⟩ := chain_last h ((b, w) :: rest2) (some a) nx l.tail
        ⟨hnxb, nx2, hb, hrest2⟩ (by simp)
      have hatl : a ≠ tl := fun hh => hanr (hh ▸ htlm)
      have hab : a ≠ b := fun hh => hanr (by simp [hh])
      have hstep : list_pop_head h l =
          some (heap_set (heap_set h b (some ⟨w, none, nx2⟩)) a none,
            { l with head := some b }) := by
        unfold list_pop_head
        rw [hhead, htl]
        dsimp only
        rw [if_neg hatl, ha]
        dsimp only
        rw [hnxb]
        dsimp only
        rw [hb]
        dsimp only
        rw [heap_set_other _ _ _ _ hab, ha]
      refine ⟨_, _, hstep, ⟨⟨rfl, nx2, ?_, ?_⟩, hndr⟩, ?_⟩
      · rw [heap_set_other _ _ _ _ (Ne.symm hab), heap_set_same]
      · apply chain_congr h _ rest2 (some b) nx2 l.tail hrest2
        intro x hx
        have hxa : x ≠ a := fun hh => hanr (by rw [← hh]; exact List.mem_cons_of_mem _ hx)
        have hxb : x ≠ b := fun hh => (List.nodup_cons.mp hndr).1 (hh ▸ hx)
        rw [heap_set_other _ _ _ _ hxa, heap_set_other _ _ _ _ hxb]
      · intro x hx
        by_cases hxa : x = a
        · rw [hxa, heap_set_same]
        · rw [heap_set_other _ _ _ _ hxa]
          by_cases hxb : x = b
          · rw [hxb, hb] at hx; cases hx
          · rw [heap_set_other _ _ _ _ hxb]; exact hx

theorem list_repr_head_tail (h : node_heap) (l : list) (vals : List (Nat × Nat))
    (hr : list_repr h l vals) :
    (l.head = none ↔ vals = []) ∧ (l.tail = none ↔ vals = []) := by
  obtain ⟨hc, _⟩ := hr
  cases vals with
  | nil =>
    obtain ⟨h1, h2⟩ := hc
    simp [h1, h2]
  | cons av rest =>
    obtain ⟨a, v⟩ := av
    obtain ⟨x, _, hx⟩ := chain_last h _ _ _ _ hc (by simp)
    have h1 := hc.1
    simp [h1, hx]

theorem queue_run_repr (ops : List queue_op) (h : node_heap) (l : list)
    (vals : List (Nat × Nat)) (hr : list_repr h l vals)
    (hfresh : mallocs_fresh (h, l) ops = true) :
    ∃ h2 l2 vals2, queue_run (h, l) ops = some ((h2, l2), (fifo_run (vals.map (·.2)) ops).2) ∧
      list_repr h2 l2 vals2 ∧ vals2.map (·.2) = (fifo_run (vals.map (·.2)) ops).1 := by
  induction ops generalizing h l vals with
  | nil => exact ⟨h, l, vals, by simp [queue_run, fifo_run], hr, by simp [fifo_run]⟩
  | cons op ops ih =>
    cases op with
    | insert a v =>
      simp only [mallocs_fresh, Bool.and_eq_true, Option.isNone_iff_eq_none] at hfresh
      obtain ⟨hfa, hfr⟩ := hfresh
      obtain ⟨h2, l2, hstep, hr2, _⟩ := list_insert_tail_repr h l vals a v hr hfa
      rw [hstep] at hfr
      obtain ⟨h3, l3, vals3, hrun, hr3, hv3⟩ := ih h2 l2 _ hr2 hfr
      refine ⟨h3, l3, vals3, ?_, hr3, ?_⟩
      · simp only [queue_run, hstep, fifo_run]
        rw [hrun]
        simp
      · rw [hv3]
        simp [fifo_run]
    | pop =>
      simp only [mallocs_fresh] at hfresh
      cases vals with
      | nil =>
        have hem := (list_repr_head_tail h l [] hr).1.2 rfl
        have hstep := list_pop_head_empty h l (Or.inl hem)
        rw [hstep] at hfresh
        obtain ⟨h3, l3, vals3, hrun, hr3, hv3⟩ := ih h l [] hr hfresh
        refine ⟨h3, l3, vals3, ?_, hr3, ?_⟩
        · simp only [queue_run, hstep, fifo_run, List.map_nil]
          rw [hrun]
          simp [list_head_data, hem]
        · rw [hv3]
          simp [fifo_run]
      | cons av rest =>
        obtain ⟨a, v⟩ := av
        obtain ⟨hdata, h2, l2, hstep, hr2, _⟩ := list_pop_head_repr h l a v rest hr
        rw [hstep] at hfresh
        obtain ⟨h3, l3, vals3, hrun, hr3, hv3⟩ := ih h2 l2 rest hr2 hfresh
        refine ⟨h3, l3, vals3, ?_, hr3, ?_⟩
        · simp only [queue_run, hstep, fifo_run, List.map_cons]
          rw [hrun, hdata]
          simp
        · rw [hv3]
          simp [fifo_run]

theorem fifo_run_inserted (q : List Nat) (ops : List queue_op) :
    (fifo_run q ops).2 ++ (fifo_run q ops).1 = q ++ inserted ops := by
  induction ops generalizing q with
  | nil => simp [fifo_run, inserted]
  | cons op ops ih =>
    cases op with
    | insert a v =>
      simp only [fifo_run, inserted]
      rw [ih]
      simp
    | pop =>
      cases q with
      | nil =>
        simp only [fifo_run, inserted]
        exact ih []
      | cons x q =>
        simp only [fifo_run, inserted, List.cons_append]
        rw [ih]

theorem mallocs_fresh_prefix (pre post : List queue_op) (st : node_heap × list)
    (h : mallocs_fresh st (pre ++ post) = true) : mallocs_fresh st pre = true := by
  induction pre generalizing st with
  | nil => rfl
  | cons op pre ih =>
    cases op with
    | insert a v =>
      simp only [List.cons_append, mallocs_fresh, Bool.and_eq_true] at h ⊢
      refine ⟨h.1, ?_⟩
      have h2 := h.2
      cases hs : list_insert_tail st.1 st.2 a v with
      | none => rfl
      | some st2 =>
        rw [hs] at h2
        exact ih st2 h2
    | pop =>
      simp only [List.cons_append, mallocs_fresh] at h ⊢
      cases hs : list_pop_head st.1 st.2 with
      | none => rfl
      | some st2 =>
        rw [hs] at h
        exact ih st2 h

theorem list_repr_empty (should_free_data : Bool) :
    list_repr empty_heap (list_create should_free_data) [] :=
  ⟨⟨rfl, rfl⟩, List.nodup_nil⟩

/-- Claim C29. The queue of pending connections is FIFO. Starting from the
list made by `list_create`, let any sequence of `list_insert_tail` calls and
of (read of the head data, `list_pop_head`) pairs be run, every `malloc`
returning an address that is not live. After every operation of the sequence
no invalid pointer has been dereferenced, the values read so far followed by
the values still in the list are exactly the values inserted so far, in
insertion order (so the k-th value read is the k-th value inserted), and
`head` is NULL if and only if `tail` is NULL, which is the case exactly when
the list holds no value. On a list whose `head` or `tail` is NULL
`list_pop_head` changes nothing. -/
theorem c29_queue_fifo (ops : List queue_op) (should_free_data : Bool)
    (hfresh : mallocs_fresh (empty_heap, list_create should_free_data) ops = true) :
    (∀ pre, pre <+: ops →
      ∃ heap l outs contents,
        queue_run (empty_heap, list_create should_free_data) pre = some ((heap, l), outs) ∧
        outs ++ contents = inserted pre ∧
        outs = (inserted pre).take outs.length ∧
        (l.head = none ↔ l.tail = none) ∧ (l.head = none ↔ contents = [])) ∧
    (∀ heap l, l.head = none ∨ l.tail = none → list_pop_head heap l = some (heap, l)) := by
  refine ⟨?_, list_pop_head_empty⟩
  rintro pre ⟨post, hpost⟩
  have hf : mallocs_fresh (empty_heap, list_create should_free_data) pre = true :=
    mallocs_fresh_prefix pre post _ (by rw [hpost]; exact hfresh)
  obtain ⟨h2, l2, vals2, hrun, hr2, hv2⟩ :=
    queue_run_repr pre empty_heap (list_create should_free_data) [] (list_repr_empty _) hf
  have hins := fifo_run_inserted [] pre
  rw [List.nil_append] at hins
  have hht := list_repr_head_tail h2 l2 vals2 hr2
  refine ⟨h2, l2, _, vals2.map (·.2), hrun, ?_, ?_, ?_, ?_⟩
  · rw [hv2]; exact hins
  · rw [← hins]
    simp
  · rw [hht.1, hht.2]
  · rw [hht.1]
    simp

set_option maxRecDepth 100000 in
theorem c29_queue_fifo_witness :
    mallocs_fresh (empty_heap, list_create true) example_queue_ops = true ∧
    inserted example_queue_ops = [5, 6, 7] ∧
    (queue_run (empty_heap, list_create true) example_queue_ops).map (·.2) = some [5, 6, 7] ∧
    ∃ heap l outs contents,
      queue_run (empty_heap, list_create true) example_queue_ops = some ((heap, l), outs) ∧
      outs ++ contents = inserted example_queue_ops ∧
      outs = (inserted example_queue_ops).take outs.length ∧
      (l.head = none ↔ l.tail = none) ∧ (l.head = none ↔ contents = []) :=
  ⟨by decide, by decide, by decide,
    (c29_queue_fifo example_queue_ops true (by decide)).1 example_queue_ops
      (List.prefix_refl _)⟩

/-! ### The dispatcher -/

theorem mutex_inv_init : mutex_inv dispatcher.init := by
  constructor
  · intro j pc h
    simp only [dispatcher.init, List.get?_eq_getElem?, List.getElem?_replicate] at h
    split at h
    · simp only [Option.some.injEq] at h
      subst h
      simp [worker_pc.holds, dispatcher.init]
    · cases h
  · simp [dispatcher.init, main_pc.holds]

theorem mutex_inv_update (s : dispatcher) (i : Nat) (pc pc2 : worker_pc) (m2 : Option Nat)
    (q : List Int) (hinv : mutex_inv s) (_hget : s.workers.get? i = some pc)
    (hi : pc2.holds = true ↔ m2 = some (i + 1))
    (hchange : s.mutex = m2 ∨ (s.mutex = none ∧ m2 = some (i + 1)) ∨
      (s.mutex = some (i + 1) ∧ m2 = none)) :
    mutex_inv { list_fd := q, mutex := m2, main := s.main, workers := s.workers.set i pc2 } := by
  obtain ⟨hw, hm⟩ := hinv
  constructor
  · intro j pcj hj
    simp only [List.get?_eq_getElem?, List.getElem?_set] at hj
    by_cases hij : i = j
    · subst hij
      rw [if_pos rfl] at hj
      split at hj
      · simp only [Option.some.injEq] at hj
        subst hj
        exact hi
      · cases hj
    · rw [if_neg hij] at hj
      have h1 := hw j pcj (by rw [List.get?_eq_getElem?]; exact hj)
      rw [h1]
      dsimp only
      rcases hchange with h | ⟨h, h2⟩ | ⟨h, h2⟩
      · rw [h]
      · rw [h, h2]
        simp [hij]
      · rw [h, h2]
        simp [hij]
  · dsimp only
    rw [hm]
    rcases hchange with h | ⟨h, h2⟩ | ⟨h, h2⟩
    · rw [h]
    · rw [h, h2]; simp
    · rw [h, h2]; simp

theorem mutex_inv_worker (s s2 : dispatcher) (i : Nat) (hinv : mutex_inv s)
    (hstep : thread_work_step s i = some s2) : mutex_inv s2 := by
  unfold thread_work_step at hstep
  cases hget : s.workers.get? i with
  | none => rw [hget] at hstep; cases hstep
  | some pc =>
    rw [hget] at hstep
    have hpc := hinv.1 i pc hget
    cases pc with
    | lock =>
      dsimp only at hstep
      split at hstep
      · rename_i hm
        simp only [Option.some.injEq] at hstep
        subst hstep
        exact mutex_inv_update s i _ worker_pc.test _ _ hinv hget (by simp [worker_pc.holds])
          (Or.inr (Or.inl ⟨hm, rfl⟩))
      · cases hstep
    | test =>
      have hm : s.mutex = some (i + 1) := hpc.1 rfl
      dsimp only at hstep
      split at hstep
      · simp only [Option.some.injEq] at hstep
        subst hstep
        exact mutex_inv_update s i _ worker_pc.wait _ _ hinv hget (by simp [worker_pc.holds])
          (Or.inr (Or.inr ⟨hm, rfl⟩))
      · simp only [Option.some.injEq] at hstep
        subst hstep
        exact mutex_inv_update s i _ worker_pc.dequeue _ _ hinv hget
          (by simp [worker_pc.holds, hm]) (Or.inl rfl)
    | wait => cases hstep
    | relock =>
      dsimp only at hstep
      split at hstep
      · rename_i hm
        simp only [Option.some.injEq] at hstep
        subst hstep
        exact mutex_inv_update s i _ worker_pc.dequeue _ _ hinv hget
          (by simp [worker_pc.holds]) (Or.inr (Or.inl ⟨hm, rfl⟩))
      · cases hstep
    | dequeue =>
      have hm : s.mutex = some (i + 1) := hpc.1 rfl
      dsimp only at hstep
      split at hstep
      · simp only [Option.some.injEq] at hstep
        subst hstep
        exact mutex_inv_update s i _ worker_pc.null_deref _ _ hinv hget
          (by simp [worker_pc.holds, hm]) (Or.inl rfl)
      · simp only [Option.some.injEq] at hstep
        subst hstep
        exact mutex_inv_update s i _ (worker_pc.unlock _) _ _ hinv hget
          (by simp [worker_pc.holds, hm]) (Or.inl rfl)
    | unlock fd =>
      have hm : s.mutex = some (i + 1) := hpc.1 rfl
      simp only [Option.some.injEq] at hstep
      subst hstep
      exact mutex_inv_update s i _ (worker_pc.handle fd) _ _ hinv hget
        (by simp [worker_pc.holds]) (Or.inr (Or.inr ⟨hm, rfl⟩))
    | handle fd =>
      have hm : ¬ s.mutex = some (i + 1) := fun h => by
        have := hpc.2 h
        simp [worker_pc.holds] at this
      simp only [Option.some.injEq] at hstep
      subst hstep
      exact mutex_inv_update s i _ (worker_pc.close fd) _ _ hinv hget
        (by simp [worker_pc.holds, hm]) (Or.inl rfl)
    | close fd =>
      have hm : ¬ s.mutex = some (i + 1) := fun h => by
        have := hpc.2 h
        simp [worker_pc.holds] at this
      simp only [Option.some.injEq] at hstep
      subst hstep
      exact mutex_inv_update s i _ worker_pc.lock _ _ hinv hget
        (by simp [worker_pc.holds, hm]) (Or.inl rfl)
    | null_deref => cases hstep

theorem mutex_inv_relock (s : dispatcher) (i : Nat) (pm : main_pc) (hinv : mutex_inv s)
    (hget : s.workers.get? i = some worker_pc.wait)
    (hpm : pm.holds = s.main.holds) :
    mutex_inv { s with workers := s.workers.set i worker_pc.relock, main := pm } := by
  have hm : ¬ s.mutex = some (i + 1) := fun h => by
    have := (hinv.1 i _ hget).2 h
    simp [worker_pc.holds] at this
  have h := mutex_inv_update s i _ worker_pc.relock s.mutex s.list_fd hinv hget
    (by simp [worker_pc.holds, hm]) (Or.inl rfl)
  exact ⟨h.1, by dsimp only; rw [hpm]; exact hinv.2⟩

theorem mutex_inv_main (s s2 : dispatcher) (fd : Int) (woken : Nat) (hinv : mutex_inv s)
    (hstep : rpc_serve_all_step s fd woken = some s2) : mutex_inv s2 := by
  unfold rpc_serve_all_step at hstep
  obtain ⟨hw, hm⟩ := hinv
  cases hpc : s.main with
  | accept =>
    rw [hpc] at hstep hm
    dsimp only at hstep
    split at hstep <;>
      (simp only [Option.some.injEq] at hstep
       subst hstep
       exact ⟨hw, by simpa [main_pc.holds] using hm⟩)
  | lock fd2 =>
    rw [hpc] at hstep hm
    dsimp only at hstep
    split at hstep
    · rename_i hnone
      simp only [Option.some.injEq] at hstep
      subst hstep
      refine ⟨fun j pc hj => ?_, by simp [main_pc.holds]⟩
      rw [hw j pc hj, hnone]
      simp
    · cases hstep
  | insert fd2 =>
    rw [hpc] at hstep hm
    simp only [Option.some.injEq] at hstep
    subst hstep
    exact ⟨hw, by simpa [main_pc.holds] using hm⟩
  | signal =>
    rw [hpc] at hstep hm
    dsimp only at hstep
    split at hstep
    · rename_i hwait
      simp only [Option.some.injEq] at hstep
      subst hstep
      exact mutex_inv_relock s woken main_pc.unlock ⟨hw, by rw [hpc]; exact hm⟩ hwait
        (by rw [hpc]; rfl)
    · split at hstep
      · cases hstep
      · simp only [Option.some.injEq] at hstep
        subst hstep
        exact ⟨hw, by simpa [main_pc.holds] using hm⟩
  | unlock =>
    rw [hpc] at hstep hm
    simp only [Option.some.injEq] at hstep
    subst hstep
    have hm0 : s.mutex = some 0 := hm.1 rfl
    refine ⟨fun j pc hj => ?_, by simp [main_pc.holds]⟩
    rw [hw j pc hj, hm0]
    simp
  | stopped =>
    rw [hpc] at hstep
    cases hstep

theorem mutex_inv_step (s s2 : dispatcher) (e : dispatcher_event) (hinv : mutex_inv s)
    (hstep : dispatcher_step s e = some s2) : mutex_inv s2 := by
  cases e with
  | worker i => exact mutex_inv_worker s s2 i hinv hstep
  | main fd woken => exact mutex_inv_main s s2 fd woken hinv hstep
  | spurious i =>
    simp only [dispatcher_step] at hstep
    split at hstep
    · rename_i hwait
      simp only [Option.some.injEq] at hstep
      subst hstep
      exact mutex_inv_relock s i s.main hinv hwait rfl
    · cases hstep

theorem mutex_inv_run (es : List dispatcher_event) (s s2 : dispatcher) (hinv : mutex_inv s)
    (hrun : dispatcher_run s es = some s2) : mutex_inv s2 := by
  induction es generalizing s with
  | nil =>
    simp only [dispatcher_run, Option.some.injEq] at hrun
    subst hrun
    exact hinv
  | cons e es ih =>
    simp only [dispatcher_run] at hrun
    cases hs : dispatcher_step s e with
    | none => rw [hs] at hrun; cases hrun
    | some s1 =>
      rw [hs] at hrun
      exact ih s1 (mutex_inv_step s s1 e hinv hs) hrun

set_option maxRecDepth 100000 in
/-- Claim C30. Dispatcher ownership. In every execution of the dispatcher the
mutex is owned by exactly the thread that stands between its lock and its
unlock, so no worker holds it while it runs `handle_client` and no two
threads own it at once. But a worker does not wait until the list is
non-empty: `thread_work` tests `head == NULL` once, with `if`, and after
`pthread_cond_wait` returns it reads `head->data` without testing again. In
the execution `stolen_wakeup`, which has no spurious wake-up, worker 0 is
signalled for descriptor 5, worker 1 takes that descriptor first, and
worker 0 dereferences the NULL head of the empty list. -/
theorem c30_dequeue_on_empty_list :
    (∀ es s, dispatcher_run dispatcher.init es = some s →
      (∀ i fd, s.workers.get? i = some (worker_pc.handle fd) → s.mutex ≠ some (i + 1)) ∧
      (∀ i pc, s.workers.get? i = some pc → (pc.holds = true ↔ s.mutex = some (i + 1))) ∧
      (s.main.holds = true ↔ s.mutex = some 0)) ∧
    (∀ e ∈ stolen_wakeup, e.is_spurious = false) ∧
    dispatcher_run dispatcher.init (stolen_wakeup.take 11) =
      some { list_fd := [], mutex := none, main := main_pc.accept,
             workers := [worker_pc.relock, worker_pc.handle 5] ++
               List.replicate 8 worker_pc.lock } ∧
    dispatcher_run dispatcher.init stolen_wakeup =
      some { list_fd := [], mutex := some 1, main := main_pc.accept,
             workers := [worker_pc.null_deref, worker_pc.handle 5] ++
               List.replicate 8 worker_pc.lock } := by
  refine ⟨fun es s hrun => ?_, by decide, by decide, by decide⟩
  have hinv := mutex_inv_run es _ s mutex_inv_init hrun
  refine ⟨fun i fd hi h => ?_, hinv.1, hinv.2⟩
  have := (hinv.1 i _ hi).2 h
  simp [worker_pc.holds] at this

/-! ### Digests of short names, handles and rejected CONNECT packets -/

theorem digest_base97_concat (s : List Nat) (c : Nat) :
    digest_base97 (s ++ [c]) = digest_base97 s * 97 + (c - 0x20 + 1) := by
  simp [digest_base97, List.foldl_append]

theorem generate_hash_concat (P : Platform) (s : List Nat) (c : Nat) :
    generate_hash P (s ++ [c]) =
      to_u64 ((generate_hash P s : Int) * 97 + (char_val P c - 32 + 1)) % hash_modulo := by
  simp [generate_hash, hash, List.foldl_append, CHOSEN_PRIME]

theorem digest_base97_lt (s : List Nat) (hb : ∀ c ∈ s, 0x20 ≤ c ∧ c ≤ 0x7F) :
    digest_base97 s < 97 ^ s.length := by
  induction s using List.reverseRecOn with
  | nil => simp [digest_base97]
  | append_singleton s c ih =>
    have hs := ih (fun x hx => hb x (List.mem_append_left _ hx))
    have hc := hb c (by simp)
    rw [digest_base97_concat, List.length_append, List.length_singleton, pow_succ]
    omega

theorem generate_hash_short (P : Platform) (s : List Nat) (hlen : s.length ≤ 9)
    (hb : ∀ c ∈ s, 0x20 ≤ c ∧ c ≤ 0x7F) : generate_hash P s = digest_base97 s := by
  induction s using List.reverseRecOn with
  | nil => rfl
  | append_singleton s c ih =>
    rw [List.length_append, List.length_singleton] at hlen
    have hbs : ∀ x ∈ s, 0x20 ≤ x ∧ x ≤ 0x7F := fun x hx => hb x (List.mem_append_left _ hx)
    have hs := ih (by omega) hbs
    have hc := hb c (by simp)
    have hlt := digest_base97_lt s hbs
    have hpow : 97 ^ s.length ≤ 97 ^ 8 := Nat.pow_le_pow_right (by decide) (by omega)
    have h8 : (97 : Nat) ^ 8 = 7837433594376961 := by norm_num
    rw [generate_hash_concat, digest_base97_concat, hs, char_val_ascii P c (by omega)]
    have hcast : (digest_base97 s : Int) * 97 + ((c : Int) - 32 + 1) =
        ((digest_base97 s * 97 + (c - 0x20 + 1) : Nat) : Int) := by
      push_cast
      omega
    have hv : digest_base97 s * 97 + (c - 0x20 + 1) < 97 ^ 9 := by
      have h9 : (97 : Nat) ^ 9 = 760231058654565217 := by norm_num
      omega
    have h9 : (97 : Nat) ^ 9 = 760231058654565217 := by norm_num
    rw [hcast]
    simp only [to_u64, hash_modulo, UINT64_MAX]
    have hm : ((digest_base97 s * 97 + (c - 0x20 + 1) : Nat) : Int) % 2 ^ 64 =
        ((digest_base97 s * 97 + (c - 0x20 + 1) : Nat) : Int) := by
      apply Int.emod_eq_of_lt
      · omega
      · omega
    rw [hm, Int.toNat_ofNat]
    apply Nat.mod_eq_of_lt
    omega

theorem digest_base97_inj (x y : List Nat) (hx : ∀ c ∈ x, 0x20 ≤ c ∧ c ≤ 0x7F)
    (hy : ∀ c ∈ y, 0x20 ≤ c ∧ c ≤ 0x7F) (h : digest_base97 x = digest_base97 y) : x = y := by
  induction x using List.reverseRecOn generalizing y with
  | nil =>
    rcases List.eq_nil_or_concat y with rfl | ⟨y2, b, rfl⟩
    · rfl
    · rw [List.concat_eq_append] at h hy
      rw [digest_base97_concat] at h
      simp only [digest_base97, List.foldl] at h
      omega
  | append_singleton x a ih =>
    rcases List.eq_nil_or_concat y with rfl | ⟨y2, b, rfl⟩
    · rw [digest_base97_concat] at h
      simp only [digest_base97, List.foldl] at h
      omega
    · rw [List.concat_eq_append] at h hy ⊢
      rw [digest_base97_concat, digest_base97_concat] at h
      have ha := hx a (by simp)
      have hb := hy b (by simp)
      have h1 : digest_base97 x = digest_base97 y2 := by omega
      have h2 : a = b := by omega
      rw [ih y2 (fun c hc => hx c (List.mem_append_left _ hc))
        (fun c hc => hy c (List.mem_append_left _ hc)) h1, h2]

/-- Claim C33. Digests are collision-free on short printable names: for all
names `x` and `y` of at most 9 bytes, all in `[0x20, 0x7F]`,
`generate_hash(x) = generate_hash(y)` holds only if `x = y`. For such a name
the digest is the name read as a number in base 97 with the non-zero digit
`b - 0x20 + 1` for the byte `b`: it stays below `97^9`, so no step wraps
modulo `2^64` and none is reduced modulo `2^64 - 59`. -/
theorem c33_short_names_collision_free (P : Platform) (x y : List Nat)
    (hxl : x.length ≤ 9) (hyl : y.length ≤ 9)
    (hx : ∀ c ∈ x, 0x20 ≤ c ∧ c ≤ 0x7F) (hy : ∀ c ∈ y, 0x20 ≤ c ∧ c ≤ 0x7F) :
    (generate_hash P x = generate_hash P y ↔ x = y) ∧
    generate_hash P x = digest_base97 x ∧ digest_base97 x < 97 ^ 9 ∧
    (97 : Nat) ^ 9 < hash_modulo ∧ hash_modulo < 2 ^ 64 := by
  refine ⟨⟨fun h => ?_, fun h => by rw [h]⟩, generate_hash_short P x hxl hx, ?_, ?_, ?_⟩
  · rw [generate_hash_short P x hxl hx, generate_hash_short P y hyl hy] at h
    exact digest_base97_inj x y hx hy h
  · exact lt_of_lt_of_le (digest_base97_lt x hx) (Nat.pow_le_pow_right (by decide) hxl)
  · simp only [hash_modulo, UINT64_MAX]; norm_num
  · simp only [hash_modulo, UINT64_MAX]; norm_num

set_option maxRecDepth 100000 in
theorem c33_short_names_collision_free_witness :
    nine_z.length ≤ 9 ∧ eight_z_y.length ≤ 9 ∧
    (∀ c ∈ nine_z, 0x20 ≤ c ∧ c ≤ 0x7F) ∧ (∀ c ∈ eight_z_y, 0x20 ≤ c ∧ c ≤ 0x7F) ∧
    nine_z ≠ eight_z_y ∧
    generate_hash linux64 nine_z ≠ generate_hash linux64 eight_z_y ∧
    generate_hash linux64 nine_z = digest_base97 nine_z :=
  ⟨by decide, by decide, by decide, by decide, by decide,
    fun h => absurd ((c33_short_names_collision_free linux64 nine_z eight_z_y (by decide)
      (by decide) (by decide) (by decide)).1.1 h) (by decide),
    (c33_short_names_collision_free linux64 nine_z eight_z_y (by decide)
      (by decide) (by decide) (by decide)).2.1⟩

theorem ht_index_with_hash_slot (t : hash_table) (hinv : reg_inv t) (j : Nat)
    (hj : j < t.count) :
    ht_index_with_hash t (t.table.getD j hash_item.zero).hash_value =
      (t.table.getD j hash_item.zero).handler := by
  unfold ht_index_with_hash
  cases hf : ht_find_hash t (t.table.getD j hash_item.zero).hash_value with
  | none =>
    exfalso
    have hlen := entries_length t hinv.1
    have hm : (entries t).getD j hash_item.zero ∈ entries t := by
      rw [List.getD_eq_getElem _ _ (by omega)]
      exact List.getElem_mem _
    rw [entries_getD t j hj] at hm
    exact (ht_find_hash_none_iff t _).1 hf _ hm rfl
  | some k =>
    obtain ⟨hk, hd⟩ := ht_find_hash_some t hinv.1 _ k hf
    have := reg_inv_unique t hinv k j hk hj hd
    rw [this]

theorem ht_index_with_hash_retrieve (t : hash_table) (hinv : reg_inv t) (d : Nat)
    (hne : ht_index_with_hash t d ≠ 0) :
    ht_index_with_hash t (ht_retrieve_hash t (ht_index_with_hash t d)) =
      ht_index_with_hash t d := by
  have hdef : ht_index_with_hash t d =
      match ht_find_hash t d with
      | some i => (t.table.getD i hash_item.zero).handler
      | none => 0 := rfl
  cases hf : ht_find_hash t d with
  | none =>
    rw [hdef, hf] at hne
    exact absurd rfl hne
  | some i =>
    have hh : ht_index_with_hash t d = (t.table.getD i hash_item.zero).handler := by
      rw [hdef, hf]
    obtain ⟨hi, _⟩ := ht_find_hash_some t hinv.1 d i hf
    obtain ⟨j, hji, hjh, _, hret⟩ :=
      ht_retrieve_hash_first t hinv.1 (ht_index_with_hash t d) i hi hh.symm
    rw [hret, ht_index_with_hash_slot t hinv j (by omega), hjh]

/-- Claim C34. The handle issued by FUNC_FIND resolves to the handler the name
resolves to: for every table `t` built by `ht_insert` calls and every name `s`
with `ht_index(t, s) = h` not NULL,
`ht_index_with_hash(t, ht_retrieve_hash(t, h)) = h`, also when `h` is bound
under several names and `ht_retrieve_hash(t, h)` is the digest of another of
them. The same holds for every table that satisfies the registry invariant. -/
theorem c34_handle_resolves_to_handler (P : Platform) (ops : List (List Nat × Nat))
    (s : List Nat) (hne : ht_index P (ht_inserts P ops) s ≠ 0) :
    ht_index_with_hash (ht_inserts P ops)
        (ht_retrieve_hash (ht_inserts P ops) (ht_index P (ht_inserts P ops) s)) =
      ht_index P (ht_inserts P ops) s ∧
    (∀ t d, reg_inv t → ht_index_with_hash t d ≠ 0 →
      ht_index_with_hash t (ht_retrieve_hash t (ht_index_with_hash t d)) =
        ht_index_with_hash t d) :=
  ⟨ht_index_with_hash_retrieve (ht_inserts P ops) (ht_inserts_inv P ops) (generate_hash P s) hne,
    fun t d hinv h => ht_index_with_hash_retrieve t hinv d h⟩

set_option maxRecDepth 100000 in
theorem c34_handle_resolves_to_handler_witness :
    ht_index linux64 (ht_inserts linux64 [(echo_name, 7), (copy_name, 7)]) copy_name = 7 ∧
    ht_retrieve_hash (ht_inserts linux64 [(echo_name, 7), (copy_name, 7)]) 7 =
      generate_hash linux64 echo_name ∧
    generate_hash linux64 echo_name ≠ generate_hash linux64 copy_name ∧
    ht_index_with_hash (ht_inserts linux64 [(echo_name, 7), (copy_name, 7)])
        (ht_retrieve_hash (ht_inserts linux64 [(echo_name, 7), (copy_name, 7)])
          (ht_index linux64 (ht_inserts linux64 [(echo_name, 7), (copy_name, 7)]) copy_name)) =
      ht_index linux64 (ht_inserts linux64 [(echo_name, 7), (copy_name, 7)]) copy_name :=
  ⟨by decide, by decide, by decide,
    (c34_handle_resolves_to_handler linux64 [(echo_name, 7), (copy_name, 7)] copy_name
      (by decide)).1⟩

/-- Claim C35. A rejected CONNECT is not atomic on the peer profile: when
`svr_handle_msg_connect` reads the widths `(w, s)` and then a terminator
other than END (0xED), it replies RTN_ERROR, PQT_INVALID (0x80), END and
returns true with `initialised` at its previous value, while `int_max`,
`int_min` and `size_max` are those `MAX_SINT` and `MAX_UINT` derive from
`(w, s)` (for widths between 1 and 8: `2^(8w-1) - 1`, `-2^(8w-1)` and
`2^(8s) - 1`), whatever they were before; the loop of `handle_client` goes on
with that profile, and on an initialised connection a FUNC_CALL request
handled afterwards has the result of its handler validated by `check_data`
against these limits. -/
theorem c35_rejected_connect_overwrites_limits (P : Platform) (code : HandlerCode)
    (srv : rpc_server) (n : Nat) (prof : hw_profile) (w s t : Nat) (rest out : List Nat)
    (wcap : Nat) (calls : List (Nat × rpc_data)) (ht : t ≠ 0xED) (hcap : 3 ≤ wcap) :
    svr_handle_msg_connect P { inp := w :: s :: t :: rest, out := out, wcap := wcap } prof =
      (true,
        { int_max := to_int64 (MAX_SINT P w),
          int_min := to_int64 (to_u64 (-(to_int64 (MAX_SINT P w)) - 1)),
          size_max := MAX_UINT P s, initialised := prof.initialised },
        { inp := rest, out := out ++ [0xEE, 0x80, 0xED], wcap := wcap - 3 }) ∧
    handle_client_loop P code srv (n + 1) prof
        { inp := 0xCC :: w :: s :: t :: rest, out := out, wcap := wcap } calls =
      handle_client_loop P code srv n
        { int_max := to_int64 (MAX_SINT P w),
          int_min := to_int64 (to_u64 (-(to_int64 (MAX_SINT P w)) - 1)),
          size_max := MAX_UINT P s, initialised := prof.initialised }
        { inp := rest, out := out ++ [0xEE, 0x80, 0xED], wcap := wcap - 3 } calls ∧
    (1 ≤ w → w ≤ 8 → 1 ≤ s → s ≤ 8 →
      to_int64 (MAX_SINT P w) = 2 ^ (8 * w - 1) - 1 ∧
      to_int64 (to_u64 (-(to_int64 (MAX_SINT P w)) - 1)) = -(2 ^ (8 * w - 1)) ∧
      MAX_UINT P s = 2 ^ (8 * s) - 1) ∧
    (∀ (p : rpc_data) (d : Nat) (rest2 out2 : List Nat) (wcap2 : Nat),
      prof.initialised = true → p.wf →
      ¬ ((p.data2_len = 0 ∧ p.data2 ≠ none) ∨ (p.data2_len > 0 ∧ p.data2 = none)) →
      d < 2 ^ 64 → ht_index_with_hash srv.hash_table d ≠ 0 → 3 ≤ wcap2 →
      2 + (opt_wire (code (ht_index_with_hash srv.hash_table d) p)).length ≤ wcap2 →
      svr_handle_msg_call P code
          { inp := data_wire p ++ (hton64 d ++ (0xED :: rest2)), out := out2, wcap := wcap2 }
          { int_max := to_int64 (MAX_SINT P w),
            int_min := to_int64 (to_u64 (-(to_int64 (MAX_SINT P w)) - 1)),
            size_max := MAX_UINT P s, initialised := prof.initialised }
          srv.hash_table =
        if check_data
            { int_max := to_int64 (MAX_SINT P w),
              int_min := to_int64 (to_u64 (-(to_int64 (MAX_SINT P w)) - 1)),
              size_max := MAX_UINT P s, initialised := prof.initialised }
            (code (ht_index_with_hash srv.hash_table d) p) ≠ 0 then
          (true, some (ht_index_with_hash srv.hash_table d, p),
            { inp := rest2,
              out := out2 ++
                [0xEE,
                 check_data
                   { int_max := to_int64 (MAX_SINT P w),
                     int_min := to_int64 (to_u64 (-(to_int64 (MAX_SINT P w)) - 1)),
                     size_max := MAX_UINT P s, initialised := prof.initialised }
                   (code (ht_index_with_hash srv.hash_table d) p),
                 0xED],
              wcap := wcap2 - 3 })
        else
          (true, some (ht_index_with_hash srv.hash_table d, p),
            { inp := rest2,
              out := out2 ++ ([0x55] ++
                (opt_wire (code (ht_index_with_hash srv.hash_table d) p) ++ [0xED])),
              wcap := wcap2 -
                (2 + (opt_wire (code (ht_index_with_hash srv.hash_table d) p)).length) })) := by
  have hbad := svr_connect_bad_end P prof w s t rest out wcap ht hcap
  have hbad2 : svr_handle_msg_connect P
      { inp := w :: s :: t :: rest, out := out, wcap := wcap } prof =
      (true,
        { int_max := to_int64 (MAX_SINT P w),
          int_min := to_int64 (to_u64 (-(to_int64 (MAX_SINT P w)) - 1)),
          size_max := MAX_UINT P s, initialised := prof.initialised },
        { inp := rest, out := out ++ [0xEE, 0x80, 0xED], wcap := wcap - 3 }) := hbad
  refine ⟨hbad2, ?_, ?_, ?_⟩
  · have hl := loop_connect P code srv n prof (w :: s :: t :: rest) out wcap calls
    rw [hbad2] at hl
    exact hl
  · intro hw1 hw8 hs1 hs8
    have hmax := MAX_SINT_val P w hw1 hw8
    refine ⟨hmax, ?_, MAX_UINT_val P s hs1 hs8⟩
    rw [hmax]
    exact int_min_val w hw1 hw8
  · intro p d rest2 out2 wcap2 hi hpwf hps hd hbound hcap3 hcap2
    have hrun := svr_call_run P code
      { int_max := to_int64 (MAX_SINT P w),
        int_min := to_int64 (to_u64 (-(to_int64 (MAX_SINT P w)) - 1)),
        size_max := MAX_UINT P s, initialised := prof.initialised }
      srv.hash_table p d rest2 out2 wcap2 hi hpwf hps hd hcap3 (fun _ _ => hcap2)
    rw [if_neg hbound] at hrun
    exact hrun

set_option maxRecDepth 100000 in
theorem c35_rejected_connect_overwrites_limits_witness :
    (0x00 : Nat) ≠ 0xED ∧
    handle_client linux64 example_code
        { inp := [0xCC, 4, 8, 0xED] ++
            (0xFC :: (data_wire ⟨200, 0, none⟩ ++
              (hton64 (generate_hash linux64 copy_name) ++ [0xED]))) ++
            [0xCC, 1, 1, 0x00] ++
            (0xFC :: (data_wire ⟨200, 0, none⟩ ++
              (hton64 (generate_hash linux64 copy_name) ++ [0xED]))),
          out := [], wcap := 100 }
        ⟨example_table, 3⟩ =
      ({ int_max := 127, int_min := -128, size_max := 255, initialised := true },
       { inp := [],
         out := [0x55, 4, 8, 0xED] ++ ([0x55] ++ data_wire ⟨200, 0, none⟩ ++ [0xED]) ++
           [0xEE, 0x80, 0xED] ++ [0xEE, 0x04, 0xED],
         wcap := 79 },
       [(8, ⟨200, 0, none⟩), (8, ⟨200, 0, none⟩)]) ∧
    svr_handle_msg_connect linux64 { inp := 1 :: 1 :: 0x00 :: [], out := [], wcap := 3 }
        example_profile =
      (true,
        { int_max := to_int64 (MAX_SINT linux64 1),
          int_min := to_int64 (to_u64 (-(to_int64 (MAX_SINT linux64 1)) - 1)),
          size_max := MAX_UINT linux64 1, initialised := example_profile.initialised },
        { inp := [], out := [] ++ [0xEE, 0x80, 0xED], wcap := 3 - 3 }) :=
  ⟨by decide, by decide,
    (c35_rejected_connect_overwrites_limits linux64 example_code ⟨example_table, 3⟩ 0
      example_profile 1 1 0x00 [] [] 3 [] (by decide) (by decide)).1⟩

/-! ### The loop of socket_recv over a transport that delivers pieces -/

theorem socket_recv_loop_zero (schedule : Nat → recv_event) (fuel i : Nat)
    (inp buff : List Nat) :
    socket_recv_loop schedule fuel i inp buff 0 = some (true, buff, inp) := by
  cases fuel <;> simp [socket_recv_loop]

theorem socket_recv_loop_stop (schedule : Nat → recv_event) (fuel i : Nat)
    (inp buff : List Nat) (bytes_to_read : Nat) (h0 : 0 < bytes_to_read)
    (hr : (recv inp (schedule i) bytes_to_read).1 ≤ 0) :
    socket_recv_loop schedule (fuel + 1) i inp buff bytes_to_read =
      some (false, buff, (recv inp (schedule i) bytes_to_read).2.2) := by
  rw [socket_recv_loop, if_pos h0]
  rcases hrecv : recv inp (schedule i) bytes_to_read with ⟨r, data, inp2⟩
  rw [hrecv] at hr
  dsimp only at hr ⊢
  rw [if_pos hr]

theorem socket_recv_loop_spec (schedule : Nat → recv_event)
    (hpos : ∀ i, ∃ c, schedule i = recv_event.chunk c ∧ 0 < c)
    (fuel i : Nat) (inp buff : List Nat) (bytes_to_read : Nat) (hf : bytes_to_read ≤ fuel) :
    socket_recv_loop schedule fuel i inp buff bytes_to_read =
      some (if bytes_to_read ≤ inp.length then
              (true, buff ++ inp.take bytes_to_read, inp.drop bytes_to_read)
            else (false, buff ++ inp, [])) := by
  induction fuel generalizing i inp buff bytes_to_read with
  | zero =>
    have h0 : bytes_to_read = 0 := by omega
    subst h0
    simp [socket_recv_loop]
  | succ fuel ih =>
    by_cases h0 : bytes_to_read = 0
    · subst h0
      simp [socket_recv_loop]
    · obtain ⟨c, hc, hcpos⟩ := hpos i
      rw [socket_recv_loop, if_pos (by omega), hc]
      simp only [recv]
      by_cases hemp : inp.length = 0
      · have hnil : inp = [] := List.length_eq_zero.mp hemp
        subst hnil
        have hbl : ¬ bytes_to_read ≤ ([] : List Nat).length := by simpa using h0
        rw [if_neg hbl]
        simp
      · have hk1 : 1 ≤ min (min c bytes_to_read) inp.length := by omega
        have hk2 : min (min c bytes_to_read) inp.length ≤ bytes_to_read := by omega
        have hk3 : min (min c bytes_to_read) inp.length ≤ inp.length := by omega
        generalize min (min c bytes_to_read) inp.length = k at hk1 hk2 hk3
        rw [if_neg (by omega), Int.toNat_ofNat, ih _ _ _ _ (by omega)]
        congr 1
        rw [List.length_drop]
        by_cases hle : bytes_to_read ≤ inp.length
        · rw [if_pos (by omega), if_pos hle, List.append_assoc, List.drop_drop]
          have hsum : bytes_to_read = k + (bytes_to_read - k) := by omega
          have htake : List.take bytes_to_read inp =
              List.take k inp ++ List.take (bytes_to_read - k) (List.drop k inp) := by
            conv_lhs => rw [hsum]
            exact List.take_add _ _ _
          rw [htake]
          congr 2
          congr 1
          omega
        · rw [if_neg (by omega), if_neg hle, List.append_assoc, List.take_append_drop]

/-- Claim C32. The loop of `socket_recv` does not depend on how the transport
cuts the stream into pieces: for every stream, every `nbytes` and every
schedule in which each call of `recv` is offered a positive number of bytes,
the loop ends within `nbytes` iterations and gives the result of the
function `socket_recv` used throughout: true exactly when the stream holds at
least `nbytes` bytes, the buffer then holding the first `nbytes` bytes in
order and exactly these being consumed. With `nbytes = 0` it returns true
without calling `recv`, whatever the schedule; and on every schedule a call
of `recv` that returns 0 or a negative value makes it return false. -/
theorem c32_recv_chunking (schedule : Nat → recv_event) (fd : Sock) (nbytes : Nat) :
    ((∀ i, ∃ c, schedule i = recv_event.chunk c ∧ 0 < c) →
      socket_recv_chunked schedule fd nbytes = some (socket_recv fd nbytes) ∧
      (∀ r, socket_recv_chunked schedule fd nbytes = some r →
        (r.1 = true ↔ nbytes ≤ fd.inp.length) ∧
        (r.1 = true → r.2.1 = fd.inp.take nbytes ∧ r.2.2.inp = fd.inp.drop nbytes))) ∧
    socket_recv_chunked schedule fd 0 = some (true, [], fd) ∧
    (∀ fuel i inp buff bytes_to_read, 0 < bytes_to_read →
      (recv inp (schedule i) bytes_to_read).1 ≤ 0 →
      socket_recv_loop schedule (fuel + 1) i inp buff bytes_to_read =
        some (false, buff, (recv inp (schedule i) bytes_to_read).2.2)) ∧
    (∀ inp bytes_to_read, (recv inp recv_event.error bytes_to_read).1 = -1) ∧
    (∀ c bytes_to_read, (recv [] (recv_event.chunk c) bytes_to_read).1 = 0) := by
  refine ⟨fun hpos => ?_, ?_, ?_, fun _ _ => rfl, fun c b => by simp [recv]⟩
  · have hspec := socket_recv_loop_spec schedule hpos nbytes 0 fd.inp [] nbytes (le_refl _)
    have heq : socket_recv_chunked schedule fd nbytes = some (socket_recv fd nbytes) := by
      unfold socket_recv_chunked socket_recv
      rw [hspec]
      by_cases hle : nbytes ≤ fd.inp.length
      · rw [if_pos hle, if_pos hle]
        rfl
      · rw [if_neg hle, if_neg hle]
        rfl
    refine ⟨heq, fun r hr => ?_⟩
    rw [heq, Option.some.injEq] at hr
    subst hr
    unfold socket_recv
    by_cases hle : nbytes ≤ fd.inp.length
    · rw [if_pos hle]
      exact ⟨⟨fun _ => hle, fun _ => rfl⟩, fun _ => ⟨rfl, rfl⟩⟩
    · rw [if_neg hle]
      exact ⟨⟨fun h => Bool.noConfusion h, fun h => absurd h hle⟩, fun h => Bool.noConfusion h⟩
  · unfold socket_recv_chunked
    rw [socket_recv_loop_zero]
    rfl
  · intro fuel i inp buff btr h0 hr
    exact socket_recv_loop_stop schedule fuel i inp buff btr h0 hr

set_option maxRecDepth 100000 in
theorem c32_recv_chunking_witness :
    (∀ i, ∃ c, example_schedule i = recv_event.chunk c ∧ 0 < c) ∧
    socket_recv_chunked example_schedule
        { inp := [10, 11, 12, 13, 14, 15, 16, 17, 18, 19], out := [], wcap := 0 } 7 =
      some (socket_recv { inp := [10, 11, 12, 13, 14, 15, 16, 17, 18, 19], out := [],
                          wcap := 0 } 7) ∧
    socket_recv_chunked example_schedule
        { inp := [10, 11, 12, 13, 14, 15, 16, 17, 18, 19], out := [], wcap := 0 } 7 =
      some (true, [10, 11, 12, 13, 14, 15, 16],
        { inp := [17, 18, 19], out := [], wcap := 0 }) ∧
    socket_recv_chunked example_schedule { inp := [10, 11, 12], out := [], wcap := 0 } 7 =
      some (false, [10, 11, 12], { inp := [], out := [], wcap := 0 }) :=
  have hpos : ∀ i, ∃ c, example_schedule i = recv_event.chunk c ∧ 0 < c :=
    fun i => ⟨i % 3 + 1, rfl, Nat.succ_pos _⟩
  ⟨hpos,
    ((c32_recv_chunking example_schedule
      { inp := [10, 11, 12, 13, 14, 15, 16, 17, 18, 19], out := [], wcap := 0 } 7).1 hpos).1,
    by decide, by decide⟩

/-! ### Allocation failure, short reads and requests cut short -/

theorem socket_recv_zero (fd : Sock) : socket_recv fd 0 = (true, [], fd) := by
  unfold socket_recv
  rw [if_pos (Nat.zero_le _)]
  rfl

theorem socket_recv_data_malloc_served (P : Platform) (fd : Sock) :
    socket_recv_data_malloc P (fun _ => false) fd = socket_recv_data P fd := by
  have key : ∀ (flags : Nat) (rd : rpc_data) (f2 : Sock),
      (if flags &&& RPC_DATA_BUFF ≠ 0 then
        match socket_recv f2 8 with
        | (false, _, fd) => (false, DataPtr.null, fd)
        | (true, be_data2_len, fd) =>
          match (if (if ntoh64 be_data2_len = 0 then P.malloc0_null else false) = true then
                   socket_recv_null fd (ntoh64 be_data2_len)
                 else socket_recv fd (ntoh64 be_data2_len)) with
          | (false, _, fd) => (true, DataPtr.freed, fd)
          | (true, net_data2, fd) =>
            (true,
              DataPtr.live
                { data1 := rd.data1, data2_len := ntoh64 be_data2_len,
                  data2 := if (if ntoh64 be_data2_len = 0 then P.malloc0_null else false) = true
                           then none else some net_data2 }, fd)
      else (true, DataPtr.live rd, f2)) =
      (if flags &&& RPC_DATA_BUFF ≠ 0 then
        match socket_recv f2 8 with
        | (false, _, fd) => (false, DataPtr.null, fd)
        | (true, be_data2_len, fd) =>
          match socket_recv fd (ntoh64 be_data2_len) with
          | (false, _, fd) => (true, DataPtr.freed, fd)
          | (true, net_data2, fd) =>
            (true,
              DataPtr.live
                { data1 := rd.data1, data2_len := ntoh64 be_data2_len,
                  data2 := if ntoh64 be_data2_len = 0 ∧ P.malloc0_null then none
                           else some net_data2 }, fd)
      else (true, DataPtr.live rd, f2)) := by
    intro flags rd f2
    by_cases hb : flags &&& RPC_DATA_BUFF ≠ 0
    · rw [if_pos hb, if_pos hb]
      rcases socket_recv f2 8 with ⟨r3, b3, f3⟩
      cases r3
      · rfl
      · dsimp only
        by_cases hn : ntoh64 b3 = 0
        · rw [hn]
          simp only [if_true, socket_recv_null, socket_recv_zero, true_and]
          cases P.malloc0_null <;> rfl
        · have hnn : ¬ (ntoh64 b3 = 0 ∧ P.malloc0_null = true) := fun h => hn h.1
          simp only [if_neg hn, if_neg hnn, Bool.false_eq_true, if_false]
    · rw [if_neg hb, if_neg hb]
  unfold socket_recv_data_malloc socket_recv_data
  rcases socket_recv fd 1 with ⟨r1, b1, f1⟩
  cases r1
  · rfl
  · dsimp only
    by_cases hi : b1.headD 0 &&& RPC_DATA_INT ≠ 0
    · simp only [if_pos hi]
      rcases socket_recv f1 8 with ⟨r2, b2, f2⟩
      cases r2
      · rfl
      · exact key _ _ _
    · simp only [if_neg hi]
      exact key _ _ _

theorem socket_recv_data_malloc_nil (P : Platform) (m : Nat → Bool) (o : List Nat) (c : Nat) :
    socket_recv_data_malloc P m { inp := [], out := o, wcap := c } =
      (false, DataPtr.null, { inp := [], out := o, wcap := c }) := by
  unfold socket_recv_data_malloc
  rw [socket_recv_nil _ _ _ Nat.one_pos]

theorem socket_recv_data_malloc_int_short (P : Platform) (m : Nat → Bool) (flags : Nat)
    (rest o : List Nat) (c : Nat) (hi : flags &&& RPC_DATA_INT ≠ 0) (hlen : rest.length < 8) :
    socket_recv_data_malloc P m { inp := flags :: rest, out := o, wcap := c } =
      (false, DataPtr.null, { inp := [], out := o, wcap := c }) := by
  unfold socket_recv_data_malloc
  rw [socket_recv_one]
  dsimp only
  rw [List.headD_cons, if_pos hi, socket_recv_lt _ _ _ _ hlen]

theorem socket_recv_data_malloc_after_int (P : Platform) (m : Nat → Bool) (flags : Nat)
    (ib tail o : List Nat) (c : Nat)
    (hib : ib.length = if flags &&& RPC_DATA_INT ≠ 0 then 8 else 0) :
    socket_recv_data_malloc P m { inp := flags :: (ib ++ tail), out := o, wcap := c } =
      if flags &&& RPC_DATA_BUFF ≠ 0 then
        match socket_recv { inp := tail, out := o, wcap := c } 8 with
        | (false, _, fd) => (false, DataPtr.null, fd)
        | (true, be_data2_len, fd) =>
          match (if (if ntoh64 be_data2_len = 0 then P.malloc0_null
                     else m (ntoh64 be_data2_len)) = true then
                   socket_recv_null fd (ntoh64 be_data2_len)
                 else socket_recv fd (ntoh64 be_data2_len)) with
          | (false, _, fd) => (true, DataPtr.freed, fd)
          | (true, net_data2, fd) =>
            (true,
              DataPtr.live
                { data1 := if flags &&& RPC_DATA_INT ≠ 0 then to_int64 (ntoh64 ib) else 0,
                  data2_len := ntoh64 be_data2_len,
                  data2 := if (if ntoh64 be_data2_len = 0 then P.malloc0_null
                               else m (ntoh64 be_data2_len)) = true then none
                           else some net_data2 }, fd)
      else
        (true,
          DataPtr.live
            { data1 := if flags &&& RPC_DATA_INT ≠ 0 then to_int64 (ntoh64 ib) else 0,
              data2_len := 0, data2 := none },
          { inp := tail, out := o, wcap := c }) := by
  unfold socket_recv_data_malloc
  rw [socket_recv_one]
  dsimp only
  rw [List.headD_cons]
  by_cases hi : flags &&& RPC_DATA_INT ≠ 0
  · rw [if_pos hi] at hib
    simp only [if_pos hi]
    rw [socket_recv_append _ _ _ _ _ hib.symm]
    try rfl
  · rw [if_neg hi] at hib
    have : ib = [] := List.length_eq_zero.mp hib
    subst this
    simp only [if_neg hi]
    try rfl

theorem socket_recv_data_malloc_len_short (P : Platform) (m : Nat → Bool) (flags : Nat)
    (ib tail o : List Nat) (c : Nat)
    (hib : ib.length = if flags &&& RPC_DATA_INT ≠ 0 then 8 else 0)
    (hb : flags &&& RPC_DATA_BUFF ≠ 0) (hlen : tail.length < 8) :
    socket_recv_data_malloc P m { inp := flags :: (ib ++ tail), out := o, wcap := c } =
      (false, DataPtr.null, { inp := [], out := o, wcap := c }) := by
  rw [socket_recv_data_malloc_after_int P m flags ib tail o c hib, if_pos hb,
    socket_recv_lt _ _ _ _ hlen]

theorem socket_recv_data_malloc_buff_short (P : Platform) (m : Nat → Bool) (flags : Nat)
    (ib lb tail o : List Nat) (c : Nat)
    (hib : ib.length = if flags &&& RPC_DATA_INT ≠ 0 then 8 else 0)
    (hb : flags &&& RPC_DATA_BUFF ≠ 0) (hlb : lb.length = 8) (hlen : tail.length < ntoh64 lb)
    (hm : m (ntoh64 lb) = false) :
    socket_recv_data_malloc P m
        { inp := flags :: (ib ++ (lb ++ tail)), out := o, wcap := c } =
      (true, DataPtr.freed, { inp := [], out := o, wcap := c }) := by
  rw [socket_recv_data_malloc_after_int P m flags ib (lb ++ tail) o c hib, if_pos hb,
    socket_recv_append _ _ _ _ _ hlb.symm]
  dsimp only
  have hn : ¬ ntoh64 lb = 0 := by omega
  simp only [if_neg hn, hm, Bool.false_eq_true, if_false]
  rw [socket_recv_lt _ _ _ _ hlen]

theorem socket_recv_data_malloc_buff_refused (P : Platform) (m : Nat → Bool) (flags : Nat)
    (ib lb tail o : List Nat) (c : Nat)
    (hib : ib.length = if flags &&& RPC_DATA_INT ≠ 0 then 8 else 0)
    (hb : flags &&& RPC_DATA_BUFF ≠ 0) (hlb : lb.length = 8) (hn : ntoh64 lb ≠ 0)
    (hm : m (ntoh64 lb) = true) :
    socket_recv_data_malloc P m
        { inp := flags :: (ib ++ (lb ++ tail)), out := o, wcap := c } =
      (true, DataPtr.freed, { inp := tail, out := o, wcap := c }) := by
  rw [socket_recv_data_malloc_after_int P m flags ib (lb ++ tail) o c hib, if_pos hb,
    socket_recv_append _ _ _ _ _ hlb.symm]
  dsimp only
  simp only [if_neg hn, hm, if_true, socket_recv_null]

theorem socket_recv_data_malloc_buff_ok (P : Platform) (m : Nat → Bool) (flags : Nat)
    (ib lb buf tail o : List Nat) (c : Nat)
    (hib : ib.length = if flags &&& RPC_DATA_INT ≠ 0 then 8 else 0)
    (hb : flags &&& RPC_DATA_BUFF ≠ 0) (hlb : lb.length = 8) (hlen : buf.length = ntoh64 lb)
    (hn : ntoh64 lb ≠ 0) (hm : m (ntoh64 lb) = false) :
    socket_recv_data_malloc P m
        { inp := flags :: (ib ++ (lb ++ (buf ++ tail))), out := o, wcap := c } =
      (true,
        DataPtr.live
          { data1 := if flags &&& RPC_DATA_INT ≠ 0 then to_int64 (ntoh64 ib) else 0,
            data2_len := ntoh64 lb, data2 := some buf },
        { inp := tail, out := o, wcap := c }) := by
  rw [socket_recv_data_malloc_after_int P m flags ib (lb ++ (buf ++ tail)) o c hib, if_pos hb,
    socket_recv_append _ _ _ _ _ hlb.symm]
  dsimp only
  simp only [if_neg hn, hm, Bool.false_eq_true, if_false]
  rw [socket_recv_append _ _ _ _ _ hlen.symm]

theorem socket_recv_data_malloc_no_buff (P : Platform) (m : Nat → Bool) (flags : Nat)
    (ib tail o : List Nat) (c : Nat)
    (hib : ib.length = if flags &&& RPC_DATA_INT ≠ 0 then 8 else 0)
    (hb : ¬ flags &&& RPC_DATA_BUFF ≠ 0) :
    socket_recv_data_malloc P m { inp := flags :: (ib ++ tail), out := o, wcap := c } =
      (true,
        DataPtr.live
          { data1 := if flags &&& RPC_DATA_INT ≠ 0 then to_int64 (ntoh64 ib) else 0,
            data2_len := 0, data2 := none },
        { inp := tail, out := o, wcap := c }) := by
  rw [socket_recv_data_malloc_after_int P m flags ib tail o c hib, if_neg hb]

/-- Claim C27. Short reads in `socket_recv_data`. When the stream ends before
the flags byte, within the 8 integer bytes or within the 8 length bytes, the
function returns false and `*output` is NULL. When the read of the `n` buffer
bytes fails, the function releases the payload but does not return: it stores
the released pointer in `*output` and returns true. That read fails when
`malloc(n)` was served and the stream ends within the `n` bytes, which are
then consumed; and it fails for every stream when `malloc(n)`, whose result
the code does not test, returned `NULL` for `n > 0`, with the bytes behind
the length left unread. With every `malloc` served the function is the
`socket_recv_data` used for the other properties. -/
theorem c27_short_reads (P : Platform) (m : Nat → Bool) (flags : Nat)
    (ib lb tail o : List Nat) (c : Nat) :
    socket_recv_data_malloc P m { inp := [], out := o, wcap := c } =
      (false, DataPtr.null, { inp := [], out := o, wcap := c }) ∧
    (flags &&& 0x01 ≠ 0 → tail.length < 8 →
      socket_recv_data_malloc P m { inp := flags :: tail, out := o, wcap := c } =
        (false, DataPtr.null, { inp := [], out := o, wcap := c })) ∧
    ((ib.length = if flags &&& 0x01 ≠ 0 then 8 else 0) → flags &&& 0x80 ≠ 0 →
      tail.length < 8 →
      socket_recv_data_malloc P m { inp := flags :: (ib ++ tail), out := o, wcap := c } =
        (false, DataPtr.null, { inp := [], out := o, wcap := c })) ∧
    ((ib.length = if flags &&& 0x01 ≠ 0 then 8 else 0) → flags &&& 0x80 ≠ 0 →
      lb.length = 8 → tail.length < ntoh64 lb → m (ntoh64 lb) = false →
      socket_recv_data_malloc P m
          { inp := flags :: (ib ++ (lb ++ tail)), out := o, wcap := c } =
        (true, DataPtr.freed, { inp := [], out := o, wcap := c })) ∧
    ((ib.length = if flags &&& 0x01 ≠ 0 then 8 else 0) → flags &&& 0x80 ≠ 0 →
      lb.length = 8 → ntoh64 lb ≠ 0 → m (ntoh64 lb) = true →
      socket_recv_data_malloc P m
          { inp := flags :: (ib ++ (lb ++ tail)), out := o, wcap := c } =
        (true, DataPtr.freed, { inp := tail, out := o, wcap := c })) ∧
    (∀ fd, socket_recv_data_malloc P (fun _ => false) fd = socket_recv_data P fd) :=
  ⟨socket_recv_data_malloc_nil P m o c, socket_recv_data_malloc_int_short P m flags tail o c,
    fun hib hb hlen => socket_recv_data_malloc_len_short P m flags ib tail o c hib hb hlen,
    fun hib hb hlb hlen hm =>
      socket_recv_data_malloc_buff_short P m flags ib lb tail o c hib hb hlb hlen hm,
    fun hib hb hlb hn hm =>
      socket_recv_data_malloc_buff_refused P m flags ib lb tail o c hib hb hlb hn hm,
    socket_recv_data_malloc_served P⟩

set_option maxRecDepth 100000 in
theorem c27_short_reads_witness :
    socket_recv_data_malloc linux64 malloc_null_ptrdiff
        { inp := 0x81 :: ([0, 0, 0, 0, 0, 0, 0, 1] ++ ([0, 0, 0, 0, 0, 0, 0, 5] ++ [1, 2])),
          out := [], wcap := 0 } =
      (true, DataPtr.freed, { inp := [], out := [], wcap := 0 }) ∧
    socket_recv_data_malloc linux64 malloc_null_ptrdiff
        { inp := [0x81, 0, 0, 0, 0, 0, 0, 0, 1, 255, 255, 255, 255, 255, 255, 255, 255, 1, 2],
          out := [], wcap := 0 } =
      (true, DataPtr.freed, { inp := [1, 2], out := [], wcap := 0 }) ∧
    socket_recv_data linux64
        { inp := [0x81, 0, 0, 0, 0, 0, 0, 0, 1, 0, 0, 0, 0, 0, 0, 0, 5, 1, 2],
          out := [], wcap := 0 } =
      (true, DataPtr.freed, { inp := [], out := [], wcap := 0 }) :=
  ⟨(c27_short_reads linux64 malloc_null_ptrdiff 0x81 [0, 0, 0, 0, 0, 0, 0, 1]
      [0, 0, 0, 0, 0, 0, 0, 5] [1, 2] [] 0).2.2.2.1
      (by decide) (by decide) (by decide) (by decide) (by decide),
    by decide, by decide⟩

theorem socket_recv_data_not_null (P : Platform) (fd fd2 : Sock) :
    socket_recv_data P fd ≠ (true, DataPtr.null, fd2) := by
  intro h
  unfold socket_recv_data at h
  rcases hs1 : socket_recv fd 1 with ⟨r1, b1, f1⟩
  rw [hs1] at h
  cases r1
  · simp at h
  · dsimp only at h
    have key : ∀ (rd : rpc_data) (f2 : Sock),
        (if b1.headD 0 &&& RPC_DATA_BUFF ≠ 0 then
          match socket_recv f2 8 with
          | (false, _, fd) => (false, DataPtr.null, fd)
          | (true, be_data2_len, fd) =>
            match socket_recv fd (ntoh64 be_data2_len) with
            | (false, _, fd) => (true, DataPtr.freed, fd)
            | (true, net_data2, fd) =>
              (true,
                DataPtr.live
                  { data1 := rd.data1, data2_len := ntoh64 be_data2_len,
                    data2 := if ntoh64 be_data2_len = 0 ∧ P.malloc0_null then none
                             else some net_data2 }, fd)
        else (true, DataPtr.live rd, f2)) ≠ (true, DataPtr.null, fd2) := by
      intro rd f2 h2
      by_cases hb : b1.headD 0 &&& RPC_DATA_BUFF ≠ 0
      · rw [if_pos hb] at h2
        rcases hs3 : socket_recv f2 8 with ⟨r3, b3, f3⟩
        rw [hs3] at h2
        cases r3
        · simp at h2
        · dsimp only at h2
          rcases hs4 : socket_recv f3 (ntoh64 b3) with ⟨r4, b4, f4⟩
          rw [hs4] at h2
          cases r4 <;> simp at h2
      · rw [if_neg hb] at h2
        simp at h2
    by_cases hi : b1.headD 0 &&& RPC_DATA_INT ≠ 0
    · simp only [if_pos hi] at h
      rcases hs2 : socket_recv f1 8 with ⟨r2, b2, f2⟩
      rw [hs2] at h
      cases r2
      · simp at h
      · exact key _ _ h
    · simp only [if_neg hi] at h
      exact key _ _ h

theorem svr_call_malloc_served (P : Platform) (code : HandlerCode) (fd : Sock)
    (prof : hw_profile) (t : hash_table)
    (h : ∀ fd2, socket_recv_data P fd ≠ (true, DataPtr.freed, fd2)) :
    svr_handle_msg_call_malloc P (fun _ => false) code fd prof t =
      call_result.returned (svr_handle_msg_call P code fd prof t).1
        (svr_handle_msg_call P code fd prof t).2.1 (svr_handle_msg_call P code fd prof t).2.2 := by
  have hnull := socket_recv_data_not_null P fd
  unfold svr_handle_msg_call_malloc svr_handle_msg_call
  rw [socket_recv_data_malloc_served]
  by_cases hi : prof.initialised = true
  · simp only [hi, Bool.not_true, Bool.false_eq_true, if_false]
    rcases hd : socket_recv_data P fd with ⟨r, input, f1⟩
    rw [hd] at h hnull
    cases r
    · rfl
    · cases input with
      | null => exact absurd rfl (hnull f1)
      | freed => exact absurd rfl (h f1)
      | live d =>
        dsimp only
        rcases socket_recv f1 8 with ⟨r2, b2, f2⟩
        cases r2
        · rfl
        · dsimp only
          rcases socket_recv f2 1 with ⟨r3, b3, f3⟩
          cases r3
          · rfl
          · dsimp only [rpc_data_free]
            split
            · rfl
            · split
              · rfl
              · split
                · rfl
                · rcases socket_send f3 [RPC_RTN_SUCCESS] with ⟨r4, f4⟩
                  cases r4
                  · rfl
                  · dsimp only
                    rcases socket_send_data f4 _ with ⟨r5, f5⟩
                    cases r5
                    · rfl
                    · dsimp only
                      rcases socket_send f5 [RPC_MSG_END] with ⟨r6, f6⟩
                      cases r6 <;> rfl
  · have hi2 : prof.initialised = false := by
      cases hp : prof.initialised
      · rfl
      · exact absurd hp hi
    simp only [hi2, Bool.not_false, if_true]

theorem svr_call_malloc_short (P : Platform) (m : Nat → Bool) (code : HandlerCode)
    (prof : hw_profile) (t : hash_table) (fd : Sock) (r : Bool) (input : DataPtr)
    (tail out : List Nat) (wcap : Nat) (hi : prof.initialised = true)
    (hd : socket_recv_data_malloc P m fd = (r, input, { inp := tail, out := out, wcap := wcap }))
    (hlen : tail.length < 9) (hr : r = false → tail = []) (hin : input ≠ DataPtr.freed) :
    svr_handle_msg_call_malloc P m code fd prof t =
      call_result.returned false none { inp := [], out := out, wcap := wcap } := by
  have hfree : rpc_data_free input = some () := by
    cases input with
    | null => rfl
    | live d => rfl
    | freed => exact absurd rfl hin
  unfold svr_handle_msg_call_malloc
  rw [hi, hd]
  simp only [Bool.not_true, Bool.false_eq_true, if_false]
  cases r
  · rw [hr rfl]
  · dsimp only
    by_cases h8 : tail.length < 8
    · rw [socket_recv_lt _ _ _ _ h8]
      dsimp only
      rw [hfree]
    · have hnm : socket_recv { inp := tail, out := out, wcap := wcap } 8 =
          (true, tail, { inp := [], out := out, wcap := wcap }) := by
        have := socket_recv_append tail [] out wcap 8 (by omega)
        rwa [List.append_nil] at this
      rw [hnm]
      dsimp only
      rw [socket_recv_nil _ _ _ Nat.one_pos]
      dsimp only
      rw [hfree]

theorem svr_call_malloc_released (P : Platform) (m : Nat → Bool) (code : HandlerCode)
    (prof : hw_profile) (t : hash_table) (fd : Sock) (tail out : List Nat) (wcap : Nat)
    (hi : prof.initialised = true)
    (hd : socket_recv_data_malloc P m fd =
      (true, DataPtr.freed, { inp := tail, out := out, wcap := wcap })) :
    svr_handle_msg_call_malloc P m code fd prof t =
      if 9 ≤ tail.length ∧ tail.getD 8 0 = RPC_MSG_END ∧
          ht_index_with_hash t (ntoh64 (tail.take 8)) ≠ 0 then
        call_result.undefined
          (call_fault.handler_input (ht_index_with_hash t (ntoh64 (tail.take 8))) DataPtr.freed
            { inp := tail.drop 9, out := out, wcap := wcap })
      else
        call_result.undefined
          (call_fault.free_released { inp := tail.drop 9, out := out, wcap := wcap }) := by
  unfold svr_handle_msg_call_malloc
  rw [hi, hd]
  simp only [Bool.not_true, Bool.false_eq_true, if_false]
  by_cases h8 : tail.length < 8
  · rw [socket_recv_lt _ _ _ _ h8, if_neg (by omega), List.drop_eq_nil_of_le (by omega)]
    rfl
  · obtain ⟨a, b, hab, ha⟩ : ∃ a b, tail = a ++ b ∧ a.length = 8 :=
      ⟨tail.take 8, tail.drop 8, (List.take_append_drop 8 tail).symm, by
        rw [List.length_take]; omega⟩
    subst hab
    rw [socket_recv_append _ _ _ _ _ ha.symm]
    dsimp only
    have htake : (a ++ b).take 8 = a := by rw [← ha, List.take_left']; rfl
    rw [htake]
    cases b with
    | nil =>
      rw [socket_recv_nil _ _ _ Nat.one_pos, if_neg (by simp [ha])]
      rw [List.drop_eq_nil_of_le (by simp [ha])]
      rfl
    | cons x rest =>
      rw [socket_recv_one]
      dsimp only
      have hget : (a ++ x :: rest).getD 8 0 = x := by
        match a, ha with
        | [_, _, _, _, _, _, _, _], _ => rfl
      have hdrop : (a ++ x :: rest).drop 9 = rest := by
        match a, ha with
        | [_, _, _, _, _, _, _, _], _ => rfl
      have hlen9 : 9 ≤ (a ++ x :: rest).length := by
        rw [List.length_append, ha, List.length_cons]
        omega
      rw [hget, hdrop, List.headD_cons]
      by_cases hx : x = RPC_MSG_END
      · by_cases hh : ht_index_with_hash t (ntoh64 a) = 0
        · rw [if_neg (not_not.mpr hx), if_pos hh, if_neg (by simp [hh])]
          rfl
        · rw [if_neg (not_not.mpr hx), if_neg hh, if_pos ⟨hlen9, hx, hh⟩]
      · rw [if_pos hx, if_neg (fun h => hx h.2.1)]
        rfl

theorem take_append_ge (a b : List Nat) (k : Nat) (h : a.length ≤ k) :
    (a ++ b).take k = a ++ b.take (k - a.length) := by
  rw [List.take_append_eq_append_take, List.take_of_length_le h]

theorem call_body_buff (p : rpc_data) (d : Nat) (hb : has_buff p = true) (hpwf : p.wf) :
    data_wire p ++ hton64 d ++ [RPC_MSG_END] =
      0x81 :: (hton64 (to_u64 p.data1) ++ (hton64 p.data2_len ++
        ((p.data2.getD []).take p.data2_len ++ (hton64 d ++ [RPC_MSG_END])))) ∧
    ((p.data2.getD []).take p.data2_len).length = p.data2_len ∧
    (data_wire p).length = 17 + p.data2_len ∧ p.data2_len ≠ 0 ∧ p.data2_len < 2 ^ 64 := by
  have hn : p.data2_len < 2 ^ 64 := by
    have := hpwf.2.2.1
    simp only [UINT64_MAX] at this
    omega
  have hbuf : ((p.data2.getD []).take p.data2_len).length = p.data2_len := by
    simp only [has_buff, Bool.and_eq_true, decide_eq_true_eq] at hb
    rcases hd2 : p.data2 with _ | b
    · rw [hd2] at hb
      simp at hb
    · have hwf := hpwf.2.2.2
      rw [hd2] at hwf
      simp only at hwf
      simp [hwf]
  have hn0 : p.data2_len ≠ 0 := by
    simp only [has_buff, Bool.and_eq_true, decide_eq_true_eq] at hb
    exact hb.1
  refine ⟨by simp [data_wire, hb], hbuf, ?_, hn0, hn⟩
  simp [data_wire, hb, hton64_length, hbuf]
  omega

theorem call_body_int (p : rpc_data) (d : Nat) (hb : ¬ has_buff p = true) :
    data_wire p ++ hton64 d ++ [RPC_MSG_END] =
      0x01 :: (hton64 (to_u64 p.data1) ++ (hton64 d ++ [RPC_MSG_END])) ∧
    (data_wire p).length = 9 :=
  ⟨by simp [data_wire, hb], by simp [data_wire, hb, hton64_length]⟩

theorem socket_recv_data_malloc_cut_served (P : Platform) (m : Nat → Bool) (p : rpc_data)
    (d k : Nat) (out : List Nat) (wcap : Nat) (hpwf : p.wf) (hb : has_buff p = true)
    (h17 : 17 ≤ k) (hk : k < 17 + p.data2_len) (hm : m p.data2_len = false) :
    socket_recv_data_malloc P m
        { inp := (data_wire p ++ hton64 d ++ [RPC_MSG_END]).take k, out := out, wcap := wcap } =
      (true, DataPtr.freed, { inp := [], out := out, wcap := wcap }) := by
  obtain ⟨hwire, hbuf, _, hn0, hn⟩ := call_body_buff p d hb hpwf
  obtain ⟨j, hj⟩ : ∃ j, k = j + 1 := ⟨k - 1, by omega⟩
  subst hj
  rw [hwire, List.take_succ_cons, take_append_ge _ _ _ (by rw [hton64_length]; omega),
    hton64_length, take_append_ge _ _ _ (by rw [hton64_length]; omega), hton64_length]
  exact socket_recv_data_malloc_buff_short P m _ _ _ _ _ _
    (by rw [if_pos (by decide)]; exact hton64_length _) (by decide) (hton64_length _)
    (by rw [List.length_take, ntoh64_hton64 _ hn]; omega) (by rw [ntoh64_hton64 _ hn]; exact hm)

theorem socket_recv_data_malloc_cut_refused (P : Platform) (m : Nat → Bool) (p : rpc_data)
    (d k : Nat) (out : List Nat) (wcap : Nat) (hpwf : p.wf) (hb : has_buff p = true)
    (h17 : 17 ≤ k) (hm : m p.data2_len = true) :
    socket_recv_data_malloc P m
        { inp := (data_wire p ++ hton64 d ++ [RPC_MSG_END]).take k, out := out, wcap := wcap } =
      (true, DataPtr.freed,
        { inp := ((p.data2.getD []).take p.data2_len ++ (hton64 d ++ [RPC_MSG_END])).take (k - 17),
          out := out, wcap := wcap }) := by
  obtain ⟨hwire, hbuf, _, hn0, hn⟩ := call_body_buff p d hb hpwf
  obtain ⟨j, hj⟩ : ∃ j, k = j + 1 := ⟨k - 1, by omega⟩
  subst hj
  rw [hwire, List.take_succ_cons, take_append_ge _ _ _ (by rw [hton64_length]; omega),
    hton64_length, take_append_ge _ _ _ (by rw [hton64_length]; omega), hton64_length,
    show j + 1 - 17 = j - 8 - 8 by omega]
  exact socket_recv_data_malloc_buff_refused P m _ _ _ _ _ _
    (by rw [if_pos (by decide)]; exact hton64_length _) (by decide) (hton64_length _)
    (by rw [ntoh64_hton64 _ hn]; exact hn0) (by rw [ntoh64_hton64 _ hn]; exact hm)

theorem socket_recv_data_malloc_cut_other (P : Platform) (m : Nat → Bool) (p : rpc_data)
    (d k : Nat) (out : List Nat) (wcap : Nat) (hpwf : p.wf)
    (hk : k < (data_wire p).length + 9)
    (hok : ¬ (has_buff p = true ∧ 17 ≤ k ∧ (k < 17 + p.data2_len ∨ m p.data2_len = true))) :
    ∃ r input tail,
      socket_recv_data_malloc P m
          { inp := (data_wire p ++ hton64 d ++ [RPC_MSG_END]).take k, out := out, wcap := wcap } =
        (r, input, { inp := tail, out := out, wcap := wcap }) ∧
      tail.length < 9 ∧ (r = false → tail = []) ∧ input ≠ DataPtr.freed := by
  by_cases hk0 : k = 0
  · subst hk0
    refine ⟨false, DataPtr.null, [], ?_, by decide, fun _ => rfl, by decide⟩
    rw [List.take_zero]
    exact socket_recv_data_malloc_nil P m out wcap
  obtain ⟨j, hj⟩ : ∃ j, k = j + 1 := ⟨k - 1, by omega⟩
  subst hj
  by_cases hb : has_buff p = true
  · obtain ⟨hwire, hbuf, hwl, hn0, hn⟩ := call_body_buff p d hb hpwf
    rw [hwl] at hk
    rw [hwire, List.take_succ_cons]
    have hib : (hton64 (to_u64 p.data1)).length =
        if 0x81 &&& RPC_DATA_INT ≠ 0 then 8 else 0 := by
      rw [if_pos (by decide)]
      exact hton64_length _
    have hfb : 0x81 &&& RPC_DATA_BUFF ≠ 0 := by decide
    by_cases h8 : j < 8
    · exact ⟨false, DataPtr.null, [],
        socket_recv_data_malloc_int_short P m _ _ _ _ (by decide)
          (by rw [List.length_take]; omega), by decide, fun _ => rfl, by decide⟩
    rw [take_append_ge _ _ _ (by rw [hton64_length]; omega), hton64_length]
    by_cases h16 : j - 8 < 8
    · exact ⟨false, DataPtr.null, [],
        socket_recv_data_malloc_len_short P m _ _ _ _ _ hib hfb
          (by rw [List.length_take]; omega), by decide, fun _ => rfl, by decide⟩
    have hge : 17 + p.data2_len ≤ j + 1 := by
      by_contra hlt
      exact hok ⟨hb, by omega, Or.inl (by omega)⟩
    have hm : m p.data2_len = false := by
      cases hmv : m p.data2_len
      · rfl
      · exact absurd ⟨hb, by omega, Or.inr hmv⟩ hok
    rw [take_append_ge _ _ _ (by rw [hton64_length]; omega), hton64_length,
      take_append_ge _ _ _ (by rw [hbuf]; omega), hbuf]
    refine ⟨true, _, (hton64 d ++ [RPC_MSG_END]).take (j - 8 - 8 - p.data2_len),
      socket_recv_data_malloc_buff_ok P m _ _ _ _ _ _ _ hib hfb (hton64_length _)
        (by rw [ntoh64_hton64 _ hn]; exact hbuf) (by rw [ntoh64_hton64 _ hn]; exact hn0)
        (by rw [ntoh64_hton64 _ hn]; exact hm), ?_, fun h => Bool.noConfusion h,
      fun h => DataPtr.noConfusion h⟩
    rw [List.length_take]
    omega
  · obtain ⟨hwire, hwl⟩ := call_body_int p d hb
    rw [hwl] at hk
    rw [hwire, List.take_succ_cons]
    have hib : (hton64 (to_u64 p.data1)).length =
        if 0x01 &&& RPC_DATA_INT ≠ 0 then 8 else 0 := by
      rw [if_pos (by decide)]
      exact hton64_length _
    have hfb : ¬ 0x01 &&& RPC_DATA_BUFF ≠ 0 := by decide
    by_cases h8 : j < 8
    · exact ⟨false, DataPtr.null, [],
        socket_recv_data_malloc_int_short P m _ _ _ _ (by decide)
          (by rw [List.length_take]; omega), by decide, fun _ => rfl, by decide⟩
    rw [take_append_ge _ _ _ (by rw [hton64_length]; omega), hton64_length]
    refine ⟨true, _, (hton64 d ++ [RPC_MSG_END]).take (j - 8),
      socket_recv_data_malloc_no_buff P m _ _ _ _ _ hib hfb, ?_, fun h => Bool.noConfusion h,
      fun h => DataPtr.noConfusion h⟩
    rw [List.length_take]
    omega

theorem svr_connect_short (P : Platform) (prof : hw_profile) (w s k : Nat) (out : List Nat)
    (wcap : Nat) (hk : k < 3) :
    ∃ a b c, svr_handle_msg_connect P
        { inp := [w, s, RPC_MSG_END].take k, out := out, wcap := wcap } prof =
      (false, { int_max := a, int_min := b, size_max := c, initialised := prof.initialised },
        { inp := [], out := out, wcap := wcap }) := by
  obtain ⟨a0, b0, c0, i0⟩ := prof
  unfold svr_handle_msg_connect
  interval_cases k
  · rw [List.take_zero, socket_recv_nil _ _ _ Nat.one_pos]
    exact ⟨_, _, _, rfl⟩
  · rw [show [w, s, RPC_MSG_END].take 1 = [w] from rfl, socket_recv_one]
    dsimp only
    rw [socket_recv_nil _ _ _ Nat.one_pos]
    exact ⟨_, _, _, rfl⟩
  · rw [show [w, s, RPC_MSG_END].take 2 = [w, s] from rfl, socket_recv_one]
    dsimp only
    rw [socket_recv_one]
    dsimp only
    rw [socket_recv_nil _ _ _ Nat.one_pos]
    exact ⟨_, _, _, rfl⟩

theorem svr_find_short (P : Platform) (prof : hw_profile) (t : hash_table) (name : List Nat)
    (k : Nat) (out : List Nat) (wcap : Nat) (hi : prof.initialised = true)
    (hn : name.length < 2 ^ 16) (hk : k < name.length + 3) :
    svr_handle_msg_find P
        { inp := (htons name.length ++ name ++ [RPC_MSG_END]).take k, out := out, wcap := wcap }
        prof t =
      (false, { inp := [], out := out, wcap := wcap }) := by
  unfold svr_handle_msg_find
  rw [hi]
  simp only [Bool.not_true, Bool.false_eq_true, if_false]
  by_cases h2 : k < 2
  · rw [socket_recv_lt _ _ _ _ (by rw [List.length_take]; omega)]
  · rw [List.append_assoc, take_append_ge _ _ _ (by rw [htons_length]; omega), htons_length,
      socket_recv_append _ _ _ _ _ (htons_length _).symm]
    dsimp only
    rw [ntohs_htons _ hn]
    by_cases h3 : k - 2 < name.length
    · rw [socket_recv_lt _ _ _ _ (by rw [List.length_take]; omega)]
    · have hk2 : k - 2 = name.length := by omega
      rw [hk2, List.take_left']
      · have hnm : socket_recv { inp := name, out := out, wcap := wcap } name.length =
            (true, name, { inp := [], out := out, wcap := wcap }) := by
          have := socket_recv_append name [] out wcap name.length rfl
          rwa [List.append_nil] at this
        rw [hnm]
        dsimp only
        rw [socket_recv_nil _ _ _ Nat.one_pos]
      · rfl

theorem svr_call_cut_other (P : Platform) (m : Nat → Bool) (code : HandlerCode)
    (prof : hw_profile) (t : hash_table) (p : rpc_data) (d k : Nat) (out : List Nat)
    (wcap : Nat) (hi : prof.initialised = true) (hpwf : p.wf)
    (hk : k < (data_wire p).length + 9)
    (hok : ¬ (has_buff p = true ∧ 17 ≤ k ∧ (k < 17 + p.data2_len ∨ m p.data2_len = true))) :
    svr_handle_msg_call_malloc P m code
        { inp := (data_wire p ++ hton64 d ++ [RPC_MSG_END]).take k, out := out, wcap := wcap }
        prof t =
      call_result.returned false none { inp := [], out := out, wcap := wcap } ∧
    svr_handle_msg_call P code
        { inp := (data_wire p ++ hton64 d ++ [RPC_MSG_END]).take k, out := out, wcap := wcap }
        prof t =
      (false, none, { inp := [], out := out, wcap := wcap }) := by
  obtain ⟨r, input, tail, hd, hlen, hr, hin⟩ :=
    socket_recv_data_malloc_cut_other P m p d k out wcap hpwf hk hok
  refine ⟨svr_call_malloc_short P m code prof t _ r input tail out wcap hi hd hlen hr hin, ?_⟩
  have hok0 : ¬ (has_buff p = true ∧ 17 ≤ k ∧
      (k < 17 + p.data2_len ∨ (fun _ : Nat => false) p.data2_len = true)) := by
    rintro ⟨hb, h17, hlt | hf⟩
    · exact hok ⟨hb, h17, Or.inl hlt⟩
    · exact Bool.noConfusion hf
  obtain ⟨r0, input0, tail0, hd0, hlen0, hr0, hin0⟩ :=
    socket_recv_data_malloc_cut_other P (fun _ => false) p d k out wcap hpwf hk hok0
  have hshort := svr_call_malloc_short P (fun _ => false) code prof t _ r0 input0 tail0 out wcap
    hi hd0 hlen0 hr0 hin0
  rw [socket_recv_data_malloc_served] at hd0
  have hnot : ∀ fd2, socket_recv_data P
      { inp := (data_wire p ++ hton64 d ++ [RPC_MSG_END]).take k, out := out, wcap := wcap } ≠
      (true, DataPtr.freed, fd2) := by
    intro fd2 h
    rw [hd0] at h
    simp only [Prod.mk.injEq] at h
    exact hin0 h.2.1
  have hserved := svr_call_malloc_served P code _ prof t hnot
  rw [hshort] at hserved
  rcases hold : svr_handle_msg_call P code
      { inp := (data_wire p ++ hton64 d ++ [RPC_MSG_END]).take k, out := out, wcap := wcap }
      prof t with ⟨a, b, c⟩
  rw [hold] at hserved
  simp only [call_result.returned.injEq] at hserved
  obtain ⟨h1, h2, h3⟩ := hserved
  rw [← h1, ← h2, ← h3]

/-- Claim C31. Requests cut short by the end of the stream: the first `k`
bytes of the body arrive, `k` less than the length of the body. The handler
of a well-formed CONNECT request (in any state) and, on an initialised
connection, the handler of a well-formed FUNC_FIND request return false, the
loop of `handle_client` ends, nothing is written and no handler is invoked.
For a well-formed FUNC_CALL request on an initialised connection the same
holds unless the payload has a buffer of `n` bytes, the 8 length bytes have
arrived (`17 ≤ k`) and the read of the buffer fails. When the stream ends
within the buffer (`k < 17 + n`, `malloc(n)` served), `svr_handle_msg_call`
fails to read the digest and calls `rpc_data_free(input)` on the pointer that
`socket_recv_data` has already released. When `malloc(n)` returns `NULL`, the
bytes behind the length are still unread and are taken for the digest and
END: if there are 9 of them, the ninth is END and the first eight resolve in
the registry, the handler is invoked on the released payload, and otherwise
`rpc_data_free(input)` is called on it. With every `malloc` served and no
released payload the function is the `svr_handle_msg_call` used for the other
properties. -/
theorem c31_truncated_requests (P : Platform) (m : Nat → Bool) (code : HandlerCode)
    (srv : rpc_server) (fuel : Nat) (prof : hw_profile) (w s : Nat) (name : List Nat)
    (p : rpc_data) (d k : Nat) (out : List Nat) (wcap : Nat) (calls : List (Nat × rpc_data)) :
    (k < 3 →
      ∃ a b c,
        svr_handle_msg_connect P
            { inp := [w, s, RPC_MSG_END].take k, out := out, wcap := wcap } prof =
          (false,
            { int_max := a, int_min := b, size_max := c, initialised := prof.initialised },
            { inp := [], out := out, wcap := wcap }) ∧
        handle_client_loop P code srv (fuel + 1) prof
            { inp := RPC_MSG_CONNECT :: [w, s, RPC_MSG_END].take k, out := out, wcap := wcap }
            calls =
          ({ int_max := a, int_min := b, size_max := c, initialised := prof.initialised },
            { inp := [], out := out, wcap := wcap }, calls)) ∧
    (prof.initialised = true → name.length < 2 ^ 16 → k < name.length + 3 →
      svr_handle_msg_find P
          { inp := (htons name.length ++ name ++ [RPC_MSG_END]).take k, out := out,
            wcap := wcap } prof srv.hash_table =
        (false, { inp := [], out := out, wcap := wcap }) ∧
      handle_client_loop P code srv (fuel + 1) prof
          { inp := RPC_MSG_FUNC_FIND :: (htons name.length ++ name ++ [RPC_MSG_END]).take k,
            out := out, wcap := wcap } calls =
        (prof, { inp := [], out := out, wcap := wcap }, calls)) ∧
    (prof.initialised = true → p.wf → k < (data_wire p).length + 9 →
      (¬ (has_buff p = true ∧ 17 ≤ k ∧ (k < 17 + p.data2_len ∨ m p.data2_len = true)) →
        svr_handle_msg_call_malloc P m code
            { inp := (data_wire p ++ hton64 d ++ [RPC_MSG_END]).take k, out := out,
              wcap := wcap } prof srv.hash_table =
          call_result.returned false none { inp := [], out := out, wcap := wcap } ∧
        handle_client_loop P code srv (fuel + 1) prof
            { inp := RPC_MSG_FUNC_CALL :: (data_wire p ++ hton64 d ++ [RPC_MSG_END]).take k,
              out := out, wcap := wcap } calls =
          (prof, { inp := [], out := out, wcap := wcap }, calls)) ∧
      (has_buff p = true → 17 ≤ k → k < 17 + p.data2_len → m p.data2_len = false →
        svr_handle_msg_call_malloc P m code
            { inp := (data_wire p ++ hton64 d ++ [RPC_MSG_END]).take k, out := out,
              wcap := wcap } prof srv.hash_table =
          call_result.undefined
            (call_fault.free_released { inp := [], out := out, wcap := wcap })) ∧
      (has_buff p = true → 17 ≤ k → m p.data2_len = true →
        svr_handle_msg_call_malloc P m code
            { inp := (data_wire p ++ hton64 d ++ [RPC_MSG_END]).take k, out := out,
              wcap := wcap } prof srv.hash_table =
          if 9 ≤ (((p.data2.getD []).take p.data2_len ++
                (hton64 d ++ [RPC_MSG_END])).take (k - 17)).length ∧
              (((p.data2.getD []).take p.data2_len ++
                (hton64 d ++ [RPC_MSG_END])).take (k - 17)).getD 8 0 = RPC_MSG_END ∧
              ht_index_with_hash srv.hash_table
                (ntoh64 ((((p.data2.getD []).take p.data2_len ++
                  (hton64 d ++ [RPC_MSG_END])).take (k - 17)).take 8)) ≠ 0 then
            call_result.undefined
              (call_fault.handler_input
                (ht_index_with_hash srv.hash_table
                  (ntoh64 ((((p.data2.getD []).take p.data2_len ++
                    (hton64 d ++ [RPC_MSG_END])).take (k - 17)).take 8)))
                DataPtr.freed
                { inp := (((p.data2.getD []).take p.data2_len ++
                    (hton64 d ++ [RPC_MSG_END])).take (k - 17)).drop 9,
                  out := out, wcap := wcap })
          else
            call_result.undefined
              (call_fault.free_released
                { inp := (((p.data2.getD []).take p.data2_len ++
                    (hton64 d ++ [RPC_MSG_END])).take (k - 17)).drop 9,
                  out := out, wcap := wcap }))) ∧
    rpc_data_free DataPtr.freed = none ∧
    (∀ fd, (∀ fd2, socket_recv_data P fd ≠ (true, DataPtr.freed, fd2)) →
      svr_handle_msg_call_malloc P (fun _ => false) code fd prof srv.hash_table =
        call_result.returned (svr_handle_msg_call P code fd prof srv.hash_table).1
          (svr_handle_msg_call P code fd prof srv.hash_table).2.1
          (svr_handle_msg_call P code fd prof srv.hash_table).2.2) := by
  refine ⟨fun hk => ?_, fun hi hn hk => ?_, fun hi hpwf hk => ⟨fun hok => ?_,
    fun hb h17 hlt hm => ?_, fun hb h17 hm => ?_⟩, rfl,
    fun fd h => svr_call_malloc_served P code fd prof srv.hash_table h⟩
  · obtain ⟨a, b, c, hrun⟩ := svr_connect_short P prof w s k out wcap hk
    refine ⟨a, b, c, hrun, ?_⟩
    rw [loop_connect, hrun]
    rfl
  · have hrun := svr_find_short P prof srv.hash_table name k out wcap hi hn hk
    refine ⟨hrun, ?_⟩
    rw [loop_find, hrun]
    rfl
  · obtain ⟨h1, h2⟩ := svr_call_cut_other P m code prof srv.hash_table p d k out wcap hi hpwf
      hk hok
    refine ⟨h1, ?_⟩
    rw [loop_call, h2]
    simp
  · have hrel := svr_call_malloc_released P m code prof srv.hash_table _ [] out wcap hi
      (socket_recv_data_malloc_cut_served P m p d k out wcap hpwf hb h17 hlt hm)
    rw [hrel, if_neg (by simp)]
    rfl
  · exact svr_call_malloc_released P m code prof srv.hash_table _ _ out wcap hi
      (socket_recv_data_malloc_cut_refused P m p d k out wcap hpwf hb h17 hm)

set_option maxRecDepth 100000 in
theorem c31_truncated_requests_witness :
    example_profile.initialised = true ∧ rpc_data.wf example_payload_digest ∧
    26 < (data_wire example_payload_digest).length + 9 ∧
    has_buff example_payload_digest = true ∧
    malloc_null_exhausted example_payload_digest.data2_len = true ∧
    (data_wire example_payload_digest ++ hton64 0 ++ [RPC_MSG_END]).take 26 =
      [0x81, 0, 0, 0, 0, 0, 0, 0, 1, 0, 0, 0, 0, 0, 0, 0, 20] ++
        hton64 (generate_hash linux64 copy_name) ++ [0xED] ∧
    svr_handle_msg_call_malloc linux64 malloc_null_exhausted example_code
        { inp := (data_wire example_payload_digest ++ hton64 0 ++ [RPC_MSG_END]).take 26,
          out := [], wcap := 100 } example_profile example_table =
      call_result.undefined
        (call_fault.handler_input 8 DataPtr.freed { inp := [], out := [], wcap := 100 }) ∧
    svr_handle_msg_call_malloc linux64 malloc_null_ptrdiff example_code
        { inp := [0x81, 0, 0, 0, 0, 0, 0, 0, 1, 255, 255, 255, 255, 255, 255, 255, 255] ++
            hton64 (generate_hash linux64 copy_name) ++ [0xED],
          out := [], wcap := 100 } example_profile example_table =
      call_result.undefined
        (call_fault.handler_input 8 DataPtr.freed { inp := [], out := [], wcap := 100 }) ∧
    svr_handle_msg_call_malloc linux64 malloc_null_ptrdiff example_code
        { inp := [0x81, 0, 0, 0, 0, 0, 0, 0, 1, 0, 0, 0, 0, 0, 0, 0, 5, 1, 2], out := [],
          wcap := 100 } example_profile example_table =
      call_result.undefined
        (call_fault.free_released { inp := [], out := [], wcap := 100 }) :=
  ⟨by decide, by decide, by decide, by decide, by decide, by decide,
    (((c31_truncated_requests linux64 malloc_null_exhausted example_code ⟨example_table, 3⟩ 0
      example_profile 4 8 [] example_payload_digest 0 26 [] 100 []).2.2.1
        (by decide) (by decide) (by decide)).2.2 (by decide) (by decide) (by decide)).trans
      (by decide),
    by decide, by decide⟩

end RPC
